import Mathlib

/-! neteruhsp: a shallow embedding of the interpreter and its verified properties

The definitions below follow `src/neteruhsp/neteruhsp.cc` function by function and
keep its names.  Conventions of the embedding:

* A NUL-terminated C string is the list of its `char`s before the terminator
  (`CStr`); reading at or past the end yields `NUL`.  Pointers into a string are
  offsets (`Nat`).
* `raise_error` ends the process: it is `Except.error (Err.raise n)` where `n` is the
  line of the `raise_error` call in `neteruhsp.cc`.  A failed `assert` is
  `Err.assertion n`, behaviour the C standard leaves undefined (null dereference,
  access outside an allocation, use after free) is `Err.undefined n`, and
  `Err.fuel` is the only outcome that does not exist in the program: it marks a
  bounded recursion of the embedding that was given too little fuel.
* `int` is a 32-bit two's complement integer: an `Int` kept in range by `wrap32`.
* `double` is an IEEE-754 binary64 value carried as its 64-bit pattern (`Dbl`).
* Heap objects that the program shares by pointer (variables, labels) live in
  tables and are referred to by their index.
-/

namespace neteruhsp

/-! ## Errors -/

/-- Ways in which a run of the program stops without a result. -/
inductive Err
  | raise (line : Nat)
  | assertion (line : Nat)
  | undefined (line : Nat)
  | fuel
deriving DecidableEq, Repr

deriving instance DecidableEq for Except

/-! ## C strings -/

/-- Contents of a NUL-terminated string, terminator excluded. -/
abbrev CStr := List Char

/-- Terminator of a C string. -/
def NUL : Char := Char.ofNat 0

/-- Value of `s[i]`: the terminator at the end of the string. -/
def chAt (s : CStr) (i : Nat) : Char := s.getD i NUL

/-- Substring `create_string( s + from, len )`. -/
def substr (s : CStr) (start len : Nat) : CStr := (s.drop start).take len

/-- Lambda `tol` of `string_equal_igcase` (neteruhsp.cc:152). -/
def tol (c : Char) : Nat :=
  if 'A' ≤ c ∧ c ≤ 'Z' then c.toNat - 'A'.toNat + 'a'.toNat else c.toNat

/-- Loop of `string_equal_igcase` (neteruhsp.cc:160-179); `iter` counts the matched
characters. -/
def string_equal_igcase_loop (len : Int) : CStr → CStr → Nat → Bool
  | a :: sl, b :: r, iter =>
      if tol a != tol b then false else string_equal_igcase_loop len sl r (iter + 1)
  | sl, r, iter =>
      if len < 0 then
        -- sl[0] != r[0], one of them being the terminator
        sl.isEmpty && r.isEmpty
      else
        !(!sl.isEmpty || (iter : Int) != len)

/-- Source function `string_equal_igcase` (neteruhsp.cc:150); `len = -1` is the default
argument. -/
def string_equal_igcase (sl r : CStr) (len : Int) : Bool :=
  string_equal_igcase_loop len sl r 0

/-! ## Machine numbers -/

/-- Value of a two's complement `int` (32 bits) whose mathematical value is `x`: signed
overflow wraps around. -/
def wrap32 (x : Int) : Int := (x + 2147483648) % 4294967296 - 2147483648

/-- Smallest `int`. -/
def INT_MIN : Int := -2147483648

/-- Largest `int`. -/
def INT_MAX : Int := 2147483647

/-- Number of binary digits of `n`, computed with at most `fuel` halvings. -/
def bitlen_loop : Nat → Nat → Nat
  | 0, _ => 0
  | fuel + 1, n => if n = 0 then 0 else bitlen_loop fuel (n / 2) + 1

/-- Number of binary digits of `n` (0 for 0). -/
def bitlen (n : Nat) : Nat := bitlen_loop n n

/-- An IEEE-754 binary64 value (`double`), given by its 64 bits. -/
structure Dbl where
  bits : Nat
deriving DecidableEq, Repr

namespace Dbl

/-- Sign bit. -/
def sign (d : Dbl) : Bool := d.bits / 2 ^ 63 % 2 == 1

/-- Biased exponent field (11 bits). -/
def expo (d : Dbl) : Nat := d.bits / 2 ^ 52 % 2048

/-- Fraction field (52 bits). -/
def frac (d : Dbl) : Nat := d.bits % 2 ^ 52

/-- Positive or negative zero. -/
def zero (neg : Bool) : Dbl := ⟨if neg then 2 ^ 63 else 0⟩

/-- Positive or negative infinity. -/
def inf (neg : Bool) : Dbl := ⟨(if neg then 2 ^ 63 else 0) + 2047 * 2 ^ 52⟩

/-- The quiet NaN that arithmetic produces. -/
def nan : Dbl := ⟨2 ^ 63 + 2047 * 2 ^ 52 + 2 ^ 51⟩

/-- Test for a NaN. -/
def isNaN (d : Dbl) : Bool := d.expo == 2047 && d.frac != 0

/-- Test for an infinity. -/
def isInf (d : Dbl) : Bool := d.expo == 2047 && d.frac == 0

/-- Test `d == 0.0`: true for both zeros. -/
def isZero (d : Dbl) : Bool := d.expo == 0 && d.frac == 0

/-- Significand of a finite value as an integer: the value is `mant * 2 ^ exp2`. -/
def mant (d : Dbl) : Nat := if d.expo == 0 then d.frac else 2 ^ 52 + d.frac

/-- Exponent of the unit in the last place of a finite value. -/
def exp2 (d : Dbl) : Int := (if d.expo == 0 then 1 else (d.expo : Int)) - 1075

/-- Quotient `num / den` rounded to the nearest integer, ties to even. -/
def div_round_even (num den : Nat) : Nat :=
  let q := num / den
  let r := num % den
  if 2 * r > den || (2 * r == den && q % 2 == 1) then q + 1 else q

/-- The double nearest to `n / d * 2 ^ e` (ties to even) with the given sign, `d > 0`:
zero, subnormal, normal or, beyond the largest finite value, infinite. -/
def round (neg : Bool) (n d : Nat) (e : Int) : Dbl :=
  if n == 0 then zero neg
  else
    -- E0 is the binary exponent of the value or one above it
    let E0 : Int := (bitlen n : Int) - (bitlen d : Int) + e
    -- value < 2 ^ E0 iff n * 2 ^ e < d * 2 ^ E0
    let below : Bool :=
      if e ≤ E0 then n < d * 2 ^ (E0 - e).toNat else n * 2 ^ (e - E0).toNat < d
    let E : Int := if below then E0 - 1 else E0
    let q : Int := max E (-1022) - 52
    let m : Nat :=
      if q ≤ e then div_round_even (n * 2 ^ (e - q).toNat) d
      else div_round_even n (d * 2 ^ (q - e).toNat)
    let (m, q) := if m == 2 ^ 53 then (2 ^ 52, q + 1) else (m, q)
    let s : Nat := if neg then 2 ^ 63 else 0
    if m < 2 ^ 52 then ⟨s + m⟩
    else if q + 1075 ≥ 2047 then inf neg
    else ⟨s + (q + 1075).toNat * 2 ^ 52 + (m - 2 ^ 52)⟩

/-- Conversion `static_cast<double>( i )` of an `int`. -/
def ofInt (i : Int) : Dbl := round (decide (i < 0)) i.natAbs 1 0

/-- Conversion `static_cast<int>( d )`: truncation toward zero.  A NaN or a value outside
the range of `int` has no defined result in C++; the x86-64 conversion instruction yields
`INT_MIN`, which is what is modelled. -/
def toInt (d : Dbl) : Int :=
  if d.expo == 2047 then INT_MIN
  else
    let a : Nat :=
      if 0 ≤ d.exp2 then d.mant * 2 ^ d.exp2.toNat else d.mant / 2 ^ (-d.exp2).toNat
    let v : Int := if d.sign then -(a : Int) else a
    if v < INT_MIN ∨ INT_MAX < v then INT_MIN else v

/-- Unary minus: the sign bit is flipped. -/
def neg (d : Dbl) : Dbl := ⟨if d.sign then d.bits - 2 ^ 63 else d.bits + 2 ^ 63⟩

/-- Sum of two finite values given as sign, significand and exponent. -/
def add_finite (sa : Bool) (ma : Nat) (ea : Int) (sb : Bool) (mb : Nat) (eb : Int) : Dbl :=
  let e := min ea eb
  let xa : Int := (if sa then -1 else 1) * ((ma * 2 ^ (ea - e).toNat : Nat) : Int)
  let xb : Int := (if sb then -1 else 1) * ((mb * 2 ^ (eb - e).toNat : Nat) : Int)
  let x := xa + xb
  if x == 0 then zero (sa && sb) else round (decide (x < 0)) x.natAbs 1 e

/-- Operator `+` on `double`. -/
def add (a b : Dbl) : Dbl :=
  if a.isNaN || b.isNaN then nan
  else if a.isInf then (if b.isInf && a.sign != b.sign then nan else a)
  else if b.isInf then b
  else add_finite a.sign a.mant a.exp2 b.sign b.mant b.exp2

/-- Operator `-` on `double`. -/
def sub (a b : Dbl) : Dbl := add a (neg b)

/-- Operator `*` on `double`. -/
def mul (a b : Dbl) : Dbl :=
  let s := a.sign != b.sign
  if a.isNaN || b.isNaN then nan
  else if a.isInf || b.isInf then (if a.isZero || b.isZero then nan else inf s)
  else round s (a.mant * b.mant) 1 (a.exp2 + b.exp2)

/-- Operator `/` on `double`. -/
def div (a b : Dbl) : Dbl :=
  let s := a.sign != b.sign
  if a.isNaN || b.isNaN then nan
  else if a.isInf then (if b.isInf then nan else inf s)
  else if b.isInf then zero s
  else if b.isZero then (if a.isZero then nan else inf s)
  else round s a.mant b.mant (a.exp2 - b.exp2)

/-- Library function `std::fmod`: the remainder has the sign of `a`. -/
def fmod (a b : Dbl) : Dbl :=
  if a.isNaN || b.isNaN || a.isInf || b.isZero then nan
  else if b.isInf then a
  else
    let e := min a.exp2 b.exp2
    let xa := a.mant * 2 ^ (a.exp2 - e).toNat
    let xb := b.mant * 2 ^ (b.exp2 - e).toNat
    round a.sign (xa % xb) 1 e

/-- Position of a non-NaN value in the order of the extended reals, both zeros at 0. -/
def key (d : Dbl) : Int := if d.sign then -((d.bits % 2 ^ 63 : Nat) : Int) else d.bits

/-- Operator `==` on `double`. -/
def eq (a b : Dbl) : Bool := !a.isNaN && !b.isNaN && a.key == b.key

/-- Operator `<` on `double`. -/
def lt (a b : Dbl) : Bool := !a.isNaN && !b.isNaN && decide (a.key < b.key)

/-- Operator `<=` on `double`. -/
def le (a b : Dbl) : Bool := !a.isNaN && !b.isNaN && decide (a.key ≤ b.key)

end Dbl

/-! ## C library: text and numbers

`atoi`, `atof` and the `printf` conversions `%d` and `%lf` belong to the C library, not to
the repository.  They are modelled after the C standard; where the standard leaves the
result open (`atoi` of a number that does not fit) the behaviour of glibc on x86-64 is
taken. -/

/-- Digit character of a value below 10. -/
def digit_char (d : Nat) : Char := Char.ofNat ('0'.toNat + d)

/-- Decimal digits of `n`, most significant first, produced with at most `fuel`
divisions. -/
def dec_digits : Nat → Nat → CStr
  | 0, _ => []
  | fuel + 1, n => if n < 10 then [digit_char n] else dec_digits fuel (n / 10) ++ [digit_char (n % 10)]

/-- Output of `printf` for `%u`-style decimal: the digits of `n`. -/
def fmt_nat (n : Nat) : CStr := dec_digits (n + 1) n

/-- Output of `printf( "%d", v )`. -/
def fmt_d (v : Int) : CStr := if v < 0 then '-' :: fmt_nat v.natAbs else fmt_nat v.natAbs

/-- Library predicate `isspace` in the C locale. -/
def isspace (c : Char) : Bool :=
  c == ' ' || c == '\t' || c == '\n' || c == '\x0b' || c == '\x0c' || c == '\r'

/-- Value of a digit character in a base up to 16, if it is one. -/
def digit_value (base : Nat) (c : Char) : Option Nat :=
  let v : Option Nat :=
    if '0' ≤ c ∧ c ≤ '9' then some (c.toNat - '0'.toNat)
    else if 'a' ≤ c ∧ c ≤ 'f' then some (c.toNat - 'a'.toNat + 10)
    else if 'A' ≤ c ∧ c ≤ 'F' then some (c.toNat - 'A'.toNat + 10)
    else none
  v.bind (fun d => if d < base then some d else none)

/-- Longest run of digits at the head of a string: their value continued from `acc`, their
number, and the rest of the string. -/
def scan_digits (base : Nat) : CStr → Nat → Nat × Nat × CStr
  | [], acc => (acc, 0, [])
  | c :: rest, acc =>
      match digit_value base c with
      | some d =>
          let r := scan_digits base rest (acc * base + d)
          (r.1, r.2.1 + 1, r.2.2)
      | none => (acc, 0, c :: rest)

/-- Optional sign at the head of a string: whether it is a minus, and the rest. -/
def scan_sign : CStr → Bool × CStr
  | c :: rest => if c == '-' then (true, rest) else if c == '+' then (false, rest) else (false, c :: rest)
  | [] => (false, [])

/-- Library function `atoi`: `(int) strtol( s, NULL, 10 )`, where `strtol` stops at the
bounds of a 64-bit `long` and the conversion to `int` keeps the low 32 bits. -/
def atoi (s : CStr) : Int :=
  let (neg, rest) := scan_sign (s.dropWhile isspace)
  let (n, _, _) := scan_digits 10 rest 0
  let v : Int := if neg then -(n : Int) else n
  let clamped : Int := max (-9223372036854775808) (min 9223372036854775807 v)
  wrap32 clamped

/-- Test that `pre` (lower case) starts `s` up to ASCII case. -/
def starts_with_igcase (pre : String) (s : CStr) : Bool :=
  decide (pre.length ≤ s.length) && string_equal_igcase pre.toList (s.take pre.length) (-1)

/-- Decimal exponent part `e[+-]ddd` at the head of a string, 0 when there is none. -/
def scan_exponent (marker : Char) (s : CStr) : Int :=
  match s with
  | c :: rest =>
      if tol c == marker.toNat then
        let (neg, rest) := scan_sign rest
        let (n, cnt, _) := scan_digits 10 rest 0
        if cnt == 0 then 0 else if neg then -(n : Int) else n
      else 0
  | [] => 0

/-- Library function `atof`, that is `strtod( s, NULL )`: decimal and hexadecimal
floating constants, `inf`, `infinity` and `nan`, correctly rounded; 0 when no number
starts the string. -/
def atof (s : CStr) : Dbl :=
  let (neg, rest) := scan_sign (s.dropWhile isspace)
  if starts_with_igcase "inf" rest then Dbl.inf neg
  else if starts_with_igcase "nan" rest then Dbl.nan
  else if starts_with_igcase "0x" rest
      && ((digit_value 16 (chAt rest 2)).isSome
          || (chAt rest 2 == '.' && (digit_value 16 (chAt rest 3)).isSome)) then
    let (ip, _, r1) := scan_digits 16 (rest.drop 2) 0
    let (m, fcnt, r2) :=
      match r1 with
      | c :: r => if c == '.' then scan_digits 16 r ip else (ip, 0, r1)
      | [] => (ip, 0, r1)
    let ex := scan_exponent 'p' r2
    Dbl.round neg m 1 (ex - 4 * (fcnt : Int))
  else
    let (ip, icnt, r1) := scan_digits 10 rest 0
    let (m, fcnt, r2) :=
      match r1 with
      | c :: r => if c == '.' then scan_digits 10 r ip else (ip, 0, r1)
      | [] => (ip, 0, r1)
    if icnt + fcnt == 0 then Dbl.zero false
    else
      let ex := scan_exponent 'e' r2 - (fcnt : Int)
      if 0 ≤ ex then Dbl.round neg (m * 10 ^ ex.toNat) 1 0
      else Dbl.round neg m (10 ^ (-ex).toNat) 0

/-- Output of `printf( "%lf", v )`: six decimals, nearest with ties to even. -/
def fmt_lf (v : Dbl) : CStr :=
  let sgn : CStr := if v.sign then ['-'] else []
  if v.isNaN then sgn ++ "nan".toList
  else if v.isInf then sgn ++ "inf".toList
  else
    let n : Nat :=
      if 0 ≤ v.exp2 then v.mant * 2 ^ v.exp2.toNat * 1000000
      else Dbl.div_round_even (v.mant * 1000000) (2 ^ (-v.exp2).toNat)
    let fr := fmt_nat (n % 1000000)
    sgn ++ fmt_nat (n / 1000000) ++ ['.'] ++ List.replicate (6 - fr.length) '0' ++ fr

/-- Source function `create_string_from( int )` (neteruhsp.cc:134). -/
def create_string_from_int (v : Int) : CStr := fmt_d v

/-- Source function `create_string_from( double )` (neteruhsp.cc:142). -/
def create_string_from_double (v : Dbl) : CStr := fmt_lf v

/-! ## Keywords -/

/-- Source enum `keyword_tag` (neteruhsp.hh:127). -/
inductive keyword_tag
  | KEYWORD_UNDEF | KEYWORD_GLOBAL | KEYWORD_CTYPE | KEYWORD_END | KEYWORD_RETURN
  | KEYWORD_GOTO | KEYWORD_GOSUB | KEYWORD_REPEAT | KEYWORD_LOOP | KEYWORD_CONTINUE
  | KEYWORD_BREAK | KEYWORD_IF | KEYWORD_ELSE
deriving DecidableEq, Repr

open keyword_tag in
/-- Table of `query_keyword` (neteruhsp.cc:1521). -/
def keyword_table : List (keyword_tag × String) :=
  [ (KEYWORD_GLOBAL, "global"), (KEYWORD_CTYPE, "ctype"), (KEYWORD_END, "end"),
    (KEYWORD_RETURN, "return"), (KEYWORD_GOTO, "goto"), (KEYWORD_GOSUB, "gosub"),
    (KEYWORD_REPEAT, "repeat"), (KEYWORD_LOOP, "loop"), (KEYWORD_CONTINUE, "continue"),
    (KEYWORD_BREAK, "break"), (KEYWORD_IF, "if"), (KEYWORD_ELSE, "else") ]

/-- Linear search shared by the `query_*` functions: the tag of the first table word
equal to `s` up to ASCII case. -/
def query_table {α : Type} (table : List (α × String)) (s : CStr) : Option α :=
  (table.find? (fun e => string_equal_igcase s e.2.toList (-1))).map (fun e => e.1)

/-- Source function `query_keyword` (neteruhsp.cc:1515). -/
def query_keyword (s : CStr) : keyword_tag :=
  (query_table keyword_table s).getD keyword_tag.KEYWORD_UNDEF

/-! ## Tokenizer -/

/-- Source enum `token_tag` (neteruhsp.hh:151). -/
inductive token_tag
  | TOKEN_UNKNOWN
  | TOKEN_EOF | TOKEN_EOL | TOKEN_EOS
  | TOKEN_PP_ARG_INDICATOR
  | TOKEN_LBRACE | TOKEN_RBRACE | TOKEN_LPARENTHESIS | TOKEN_RPARENTHESIS | TOKEN_COMMA
  | TOKEN_INTEGER | TOKEN_REAL | TOKEN_STRING
  | TOKEN_OP_BOR | TOKEN_OP_BAND | TOKEN_OP_BXOR
  | TOKEN_OP_EQ | TOKEN_OP_NEQ | TOKEN_OP_GT | TOKEN_OP_GTOE | TOKEN_OP_LT | TOKEN_OP_LTOE
  | TOKEN_OP_ADD | TOKEN_OP_SUB | TOKEN_OP_MUL | TOKEN_OP_DIV | TOKEN_OP_MOD
  | TOKEN_ASSIGN | TOKEN_ADD_ASSIGN | TOKEN_SUB_ASSIGN | TOKEN_MUL_ASSIGN
  | TOKEN_DIV_ASSIGN | TOKEN_MOD_ASSIGN | TOKEN_BOR_ASSIGN | TOKEN_BAND_ASSIGN
  | TOKEN_BXOR_ASSIGN
  | TOKEN_IDENTIFIER
deriving DecidableEq, Repr

/-- Source struct `token_t` (neteruhsp.hh:202). -/
structure token_t where
  tag_ : token_tag
  content_ : CStr
  cursor_begin_ : Nat
  cursor_end_ : Nat
  appear_line_ : Int
  left_space_ : Bool
  right_space_ : Bool
deriving DecidableEq, Repr

/-- Source struct `tokenize_context_t` (neteruhsp.hh:212).  The field `line_head_` is
written by the tokenizer and never read; it is left out. -/
structure tokenize_context_t where
  script_ : CStr
  cursor_ : Nat
  line_ : Int
deriving DecidableEq, Repr

open token_tag in
/-- Table of `query_token_shadow` (neteruhsp.cc:1558). -/
def shadow_table : List (token_tag × String) :=
  [ (TOKEN_OP_NEQ, "not"), (TOKEN_OP_BAND, "and"), (TOKEN_OP_BOR, "or"),
    (TOKEN_OP_BXOR, "xor") ]

/-- Source function `query_token_shadow` (neteruhsp.cc:1551): `ident` is the rest of the
script from the identifier on, `len` the identifier's length. -/
def query_token_shadow (ident : CStr) (len : Nat) : Option token_tag :=
  (shadow_table.find? (fun e => string_equal_igcase e.2.toList ident len)).map (fun e => e.1)

/-- Source function `initialize_tokenize_context` (neteruhsp.cc:1577). -/
def initialize_tokenize_context (script : CStr) : tokenize_context_t :=
  { script_ := script, cursor_ := 0, line_ := 0 }

/-- Lambda `is_space` of `get_token` (neteruhsp.cc:1603). -/
def is_space (c : Char) : Bool := c == ' ' || c == '\t'

/-- Lambda `is_number` of `get_token` (neteruhsp.cc:1604). -/
def is_number (c : Char) : Bool := decide ('0' ≤ c ∧ c ≤ '9')

/-- Lambda `is_alpha` of `get_token` (neteruhsp.cc:1605). -/
def is_alpha (c : Char) : Bool :=
  decide (('a' ≤ c ∧ c ≤ 'z') ∨ ('A' ≤ c ∧ c ≤ 'Z'))

/-- Lambda `is_rest_ident` of `get_token` (neteruhsp.cc:1606). -/
def is_rest_ident (c : Char) : Bool := is_number c || is_alpha c || c == '_'

/-- Loop `while( f(p[0]) ) ++p` for a predicate that is false at the terminator:
the position where it stops. -/
def skip_while (f : Char → Bool) (s : CStr) (p : Nat) : Nat :=
  p + ((s.drop p).takeWhile f).length

/-- Loop `while( p[0]!='\n' && p[0]!='\0' ) ++p` (neteruhsp.cc:1677, 1760). -/
def skip_to_eol (s : CStr) (p : Nat) : Nat := skip_while (fun c => c != '\n') s p

/-- Loop over the body of a multi-line comment (neteruhsp.cc:1684-1704), run on the text
that follows the opener: the number of characters up to and including the closer and the
number of newlines among them, or `none` when the end of the script comes first. -/
def scan_block_comment : CStr → Option (Nat × Nat)
  | [] => none
  | c :: rest =>
      if c == '\n' then
        (scan_block_comment rest).map (fun r => (r.1 + 1, r.2 + 1))
      else if c == '*' && rest.head? == some '/' then
        some (2, 0)
      else
        (scan_block_comment rest).map (fun r => (r.1 + 1, r.2))

/-- Loop over the body of a string literal (neteruhsp.cc:1738-1749), run on the text
that follows the opening quote: the offset of the closing quote, or `none` when the end
of the script comes first.  `escaped` tells that the character at hand is the quote of a
backslash-quote pair, which the loop steps over without looking at it. -/
def scan_string_loop : Bool → CStr → Option Nat
  | _, [] => none
  | escaped, c :: rest =>
      if escaped then (scan_string_loop false rest).map (· + 1)
      else if c == '"' then some 0
      else (scan_string_loop (c == '\\' && rest.head? == some '"') rest).map (· + 1)

/-- String literal scan started right after the opening quote. -/
def scan_string_body (s : CStr) : Option Nat := scan_string_loop false s

/-- Source function `create_token_string` (neteruhsp.cc:1860) on the `len` characters
`str`: escape sequences are decoded, a backslash in last position is kept. -/
def create_token_string : CStr → Except Err CStr
  | [] => .ok []
  | c :: rest =>
      if c == '\\' then
        match rest with
        | d :: rest2 =>
            if d == 't' then (create_token_string rest2).map ('\t' :: ·)
            else if d == 'n' then (create_token_string rest2).map ('\n' :: ·)
            else if d == '"' then (create_token_string rest2).map ('"' :: ·)
            else .error (.raise 1875)
        | [] => .ok [c]
      else (create_token_string rest).map (c :: ·)

/-- What one pass of `get_token` over the script finds, before the token is built. -/
structure raw_token_t where
  tag : token_tag
  content : Option CStr
  prev_cursor : Nat
  p : Nat
  line : Int
  appear_line : Int
  left_space : Bool
deriving DecidableEq, Repr

open token_tag in
/-- Body of `get_token` from the label `restart` to the end of the `switch`
(neteruhsp.cc:1611-1827).  `p` is the read position, `line` the context's line counter,
`lsp` the token's `left_space_` so far.  Every `goto restart` has moved `p` forward, so
`fuel` above the length of the script is never used up. -/
def get_token_scan (s : CStr) : Nat → Nat → Int → Bool → Except Err raw_token_t
  | 0, _, _, _ => .error .fuel
  | fuel + 1, p, line, lsp =>
    let fin (tag : token_tag) (q : Nat) : Except Err raw_token_t :=
      .ok { tag := tag, content := none, prev_cursor := p, p := q, line := line,
            appear_line := line, left_space := lsp }
    let opeq (withEq without : token_tag) : Except Err raw_token_t :=
      if chAt s (p + 1) == '=' then fin withEq (p + 2) else fin without (p + 1)
    let c := chAt s p
    if c == NUL then fin TOKEN_EOF p
    else if c == '\r' || c == '\x0c' then get_token_scan s fuel (p + 1) line lsp
    else if c == '\n' then
      .ok { tag := TOKEN_EOL, content := none, prev_cursor := p, p := p + 1,
            line := line + 1, appear_line := line, left_space := lsp }
    else if c == ':' then fin TOKEN_EOS (p + 1)
    else if c == '%' then fin TOKEN_PP_ARG_INDICATOR (p + 1)
    else if c == '{' then fin TOKEN_LBRACE (p + 1)
    else if c == '}' then fin TOKEN_RBRACE (p + 1)
    else if c == '(' then fin TOKEN_LPARENTHESIS (p + 1)
    else if c == ')' then fin TOKEN_RPARENTHESIS (p + 1)
    else if c == ',' then fin TOKEN_COMMA (p + 1)
    else if c == '|' then opeq TOKEN_BOR_ASSIGN TOKEN_OP_BOR
    else if c == '&' then opeq TOKEN_BAND_ASSIGN TOKEN_OP_BAND
    else if c == '^' then opeq TOKEN_BXOR_ASSIGN TOKEN_OP_BXOR
    else if c == '!' then opeq TOKEN_OP_NEQ TOKEN_OP_NEQ
    else if c == '>' then opeq TOKEN_OP_GTOE TOKEN_OP_GT
    else if c == '<' then opeq TOKEN_OP_LTOE TOKEN_OP_LT
    else if c == '+' then opeq TOKEN_ADD_ASSIGN TOKEN_OP_ADD
    else if c == '-' then opeq TOKEN_SUB_ASSIGN TOKEN_OP_SUB
    else if c == '*' then opeq TOKEN_MUL_ASSIGN TOKEN_OP_MUL
    else if c == '/' then
      if chAt s (p + 1) == '/' then
        get_token_scan s fuel (skip_to_eol s (p + 2)) line lsp
      else if chAt s (p + 1) == '*' then
        match scan_block_comment (s.drop (p + 2)) with
        | none => .error (.raise 1688)
        | some (n, nl) => get_token_scan s fuel (p + 2 + n) (line + nl) lsp
      else opeq TOKEN_DIV_ASSIGN TOKEN_OP_DIV
    else if c == '\\' then opeq TOKEN_MOD_ASSIGN TOKEN_OP_MOD
    else if c == '=' then opeq TOKEN_OP_EQ TOKEN_ASSIGN
    else if c == '"' then
      match scan_string_body (s.drop (p + 1)) with
      | none => .error (.raise 1742)
      | some n => do
          let content ← create_token_string (substr s (p + 1) n)
          pure { tag := TOKEN_STRING, content := some content, prev_cursor := p,
                 p := p + 1 + n + 1, line := line, appear_line := line, left_space := lsp }
    else if c == ';' then
      get_token_scan s fuel (skip_to_eol s (p + 1)) line lsp
    else if is_space c then
      get_token_scan s fuel (skip_while is_space s (p + 1)) line true
    else if is_number c then
      let q := if c == '0' then p + 1 else skip_while is_number s p
      if chAt s q == '.' then fin TOKEN_REAL (skip_while is_number s (q + 1))
      else fin TOKEN_INTEGER q
    else if is_alpha c then
      let q := skip_while is_rest_ident s (p + 1)
      match query_token_shadow (s.drop p) (q - p) with
      | some shadow => fin shadow q
      | none => fin TOKEN_IDENTIFIER q
    else .error (.raise 1824)

/-- Source function `get_token` (neteruhsp.cc:1593): the next token and the advanced
context. -/
def get_token (c : tokenize_context_t) : Except Err (token_t × tokenize_context_t) := do
  let r ← get_token_scan c.script_ (c.script_.length + 2) c.cursor_ c.line_ false
  let content := match r.content with
    | some s => s
    | none => substr c.script_ r.prev_cursor (r.p - r.prev_cursor)
  pure ({ tag_ := r.tag, content_ := content, cursor_begin_ := r.prev_cursor,
          cursor_end_ := r.p, appear_line_ := r.appear_line, left_space_ := r.left_space,
          right_space_ := is_space (chAt c.script_ r.p) },
        { c with cursor_ := r.p, line_ := r.line })

/-! ## Parser: token buffer -/

/-- Source struct `parse_context_t` (neteruhsp.hh:233).  `token_list_` is the doubly
linked list of the tokens pulled so far; `token_current_` is the index of the node the
cursor points to, `none` for `nullptr`. -/
structure parse_context_t where
  token_list_ : List token_t
  token_current_ : Option Nat
  tokenize_context_ : tokenize_context_t
deriving DecidableEq, Repr

/-- Source function `initialize_parse_context` (neteruhsp.cc:1902). -/
def initialize_parse_context (t : tokenize_context_t) : parse_context_t :=
  { token_list_ := [], token_current_ := none, tokenize_context_ := t }

/-- Field `next_` of the list node with index `i` in a list of `len` nodes. -/
def node_next (len i : Nat) : Option Nat := if i + 1 < len then some (i + 1) else none

/-- Field `prev_` of the list node with index `i`. -/
def node_prev (i : Nat) : Option Nat := if i = 0 then none else some (i - 1)

/-- Field `tail_` of a list of `len` nodes. -/
def list_tail (len : Nat) : Option Nat := if len = 0 then none else some (len - 1)

/-- Source function `read_token` (neteruhsp.cc:1929). -/
def read_token (c : parse_context_t) : Except Err (token_t × parse_context_t) :=
  match c.token_current_ with
  | none => do
      let (t, tc) ← get_token c.tokenize_context_
      pure (t, { token_list_ := c.token_list_ ++ [t], token_current_ := none,
                 tokenize_context_ := tc })
  | some i =>
      match c.token_list_[i]? with
      | none => .error (.undefined 1946)
      | some t => pure (t, { c with token_current_ := node_next c.token_list_.length i })

/-- Loop `while( num-- > 0 )` of `unread_token` and `prev_token`
(neteruhsp.cc:1963, 1977); `line` is the line of its `assert`. -/
def step_back (line : Nat) : Nat → Option Nat → Except Err (Option Nat)
  | 0, cur => .ok cur
  | _ + 1, none => .error (.assertion line)
  | n + 1, some i => step_back line n (node_prev i)

/-- Source function `unread_token` (neteruhsp.cc:1950). -/
def unread_token (c : parse_context_t) (num : Nat) : Except Err parse_context_t :=
  if num = 0 then .ok c
  else
    match c.token_current_ with
    | none => do
        let cur ← step_back 1965 (num - 1) (list_tail c.token_list_.length)
        pure { c with token_current_ := cur }
    | some i => do
        let cur ← step_back 1965 num (some i)
        pure { c with token_current_ := cur }

/-- Source function `prev_token` (neteruhsp.cc:1970). -/
def prev_token (c : parse_context_t) (num : Nat) : Except Err token_t := do
  let start := match c.token_current_ with
    | none => list_tail c.token_list_.length
    | some i => some i
  let cur ← step_back 1979 num start
  match cur with
  | none => .error (.undefined 1982)
  | some i =>
      match c.token_list_[i]? with
      | none => .error (.undefined 1982)
      | some t => pure t

/-! ## Abstract syntax tree -/

/-- Source enum `node_tag` (neteruhsp.hh:339). -/
inductive node_tag
  | NODE_EMPTY | NODE_LABEL | NODE_BLOCK_STATEMENTS | NODE_COMMAND | NODE_ARGUMENTS
  | NODE_ASSIGN | NODE_ADD_ASSIGN | NODE_SUB_ASSIGN | NODE_MUL_ASSIGN | NODE_DIV_ASSIGN
  | NODE_MOD_ASSIGN | NODE_BOR_ASSIGN | NODE_BAND_ASSIGN | NODE_BXOR_ASSIGN
  | NODE_VARIABLE
  | NODE_EXPRESSION | NODE_BOR | NODE_BAND | NODE_BXOR | NODE_EQ | NODE_NEQ | NODE_GT
  | NODE_GTOE | NODE_LT | NODE_LTOE | NODE_ADD | NODE_SUB | NODE_MUL | NODE_DIV | NODE_MOD
  | NODE_UNARY_MINUS | NODE_PRIMITIVE_VALUE | NODE_IDENTIFIER_EXPR
  | NODE_END | NODE_RETURN | NODE_GOTO | NODE_GOSUB
  | NODE_REPEAT | NODE_LOOP | NODE_CONTINUE | NODE_BREAK
  | NODE_IF | NODE_IF_DISPATCHER
deriving DecidableEq, Repr

/-- Source struct `ast_node_t` (neteruhsp.hh:401) together with the null pointer: `null` is
`nullptr`, `node` an allocated node.  The field `flag_` is always 0 and left out. -/
inductive ast_node_t
  | null
  | node (tag_ : node_tag) (token_ : Option token_t) (left_ right_ : ast_node_t)
deriving DecidableEq, Repr

/-- Source function `create_ast_node( tag, left, right )` (neteruhsp.cc:3006). -/
def create_ast_node (tag : node_tag) (left right : ast_node_t) : ast_node_t :=
  .node tag none left right

/-- Source function `create_ast_node( tag, token, left )` (neteruhsp.cc:3017). -/
def create_ast_node_token (tag : node_tag) (token : token_t) (left : ast_node_t) :
    ast_node_t :=
  .node tag (some token) left .null

/-- Test `node == nullptr`. -/
def ast_node_t.isNull : ast_node_t → Bool
  | .null => true
  | .node .. => false

open token_tag in
/-- Source function `is_eos_like_token` (neteruhsp.cc:3038). -/
def is_eos_like_token (tag : token_tag) : Bool :=
  tag == TOKEN_EOF || tag == TOKEN_EOL || tag == TOKEN_EOS || tag == TOKEN_RBRACE

/-- Lambda `is_else_token` of `parse_control_safe` (neteruhsp.cc:3225). -/
def is_else_token (n : token_t) : Bool :=
  n.tag_ == token_tag.TOKEN_IDENTIFIER && query_keyword n.content_ == keyword_tag.KEYWORD_ELSE

open token_tag node_tag in
/-- Source function `parse_label_safe` (neteruhsp.cc:3140). -/
def parse_label_safe (c : parse_context_t) : Except Err (ast_node_t × parse_context_t) := do
  let (token, c) ← read_token c
  if token.tag_ != TOKEN_OP_MUL then
    let c ← unread_token c 1
    pure (.null, c)
  else
    let (ident, c) ← read_token c
    if ident.tag_ != TOKEN_IDENTIFIER then
      let c ← unread_token c 2
      pure (.null, c)
    else
      pure (create_ast_node_token NODE_LABEL ident .null, c)

/-! ## Parser: recursive descent

Every function of the parser takes a bound `fuel` on the depth of the calls it may make;
`Err.fuel` is returned when the bound is reached and is not an outcome of the program. -/

open token_tag node_tag keyword_tag in
mutual

/-- Source function `parse_script` (neteruhsp.cc:3043): the statements, in order. -/
def parse_script : Nat → parse_context_t → Except Err (List ast_node_t × parse_context_t)
  | 0, _ => .error .fuel
  | fuel + 1, c => do
      let (res, c) ← parse_script_loop fuel c
      let (token, c) ← read_token c
      if token.tag_ != TOKEN_EOF then .error (.raise 3062)
      else pure (res, c)

/-- Loop `for( ; ; )` of `parse_script` (neteruhsp.cc:3047). -/
def parse_script_loop : Nat → parse_context_t →
    Except Err (List ast_node_t × parse_context_t)
  | 0, _ => .error .fuel
  | fuel + 1, c => do
      let (statement, c) ← parse_statement fuel c
      if statement.isNull then pure ([], c)
      else
        let (rest, c) ← parse_script_loop fuel c
        pure (statement :: rest, c)

/-- Source function `parse_statement` (neteruhsp.cc:3083). -/
def parse_statement : Nat → parse_context_t → Except Err (ast_node_t × parse_context_t)
  | 0, _ => .error .fuel
  | fuel + 1, c => do
      let (token, c) ← read_token c
      if token.tag_ == TOKEN_EOF then pure (.null, c)
      else if is_eos_like_token token.tag_ then
        pure (create_ast_node NODE_EMPTY .null .null, c)
      else
        let c ← unread_token c 1
        let (statement, c) ← parse_label_safe c
        let (statement, c) ←
          if statement.isNull then parse_control_safe fuel c else pure (statement, c)
        let (statement, c) ←
          if statement.isNull then parse_command_safe fuel c else pure (statement, c)
        let (statement, c) ←
          if statement.isNull then parse_assign_safe fuel c else pure (statement, c)
        if statement.isNull then
          let _ ← read_token c
          .error (.raise 3125)
        else
          let (token, c) ← read_token c
          if !is_eos_like_token token.tag_ then .error (.raise 3133)
          else pure (statement, c)

/-- Loop over the statements of a braced block of `if` or `else`
(neteruhsp.cc:3238-3252, 3298-3312); `line` is the line of its `raise_error`. -/
def parse_brace_block : Nat → Nat → ast_node_t → parse_context_t →
    Except Err (ast_node_t × parse_context_t)
  | 0, _, _, _ => .error .fuel
  | fuel + 1, line, statements, c => do
      let pp ← prev_token c 0
      if pp.tag_ == TOKEN_RBRACE then pure (statements, c)
      else
        let (statement, c) ← parse_statement fuel c
        if statement.isNull then .error (.raise line)
        else
          parse_brace_block fuel line
            (create_ast_node NODE_BLOCK_STATEMENTS statements statement) c

/-- Loop over the statements of a one-line block of `if` or `else`
(neteruhsp.cc:3265-3285, 3325-3345); `line` is the line of its `raise_error`.  The
Boolean tells whether the loop ended by setting `repair_token`. -/
def parse_line_block : Nat → Nat → ast_node_t → parse_context_t →
    Except Err (ast_node_t × Bool × parse_context_t)
  | 0, _, _, _ => .error .fuel
  | fuel + 1, line, statements, c => do
      let pp ← prev_token c 0
      if pp.tag_ == TOKEN_EOL || pp.tag_ == TOKEN_EOF then pure (statements, true, c)
      else
        let (nn, c) ← read_token c
        let c ← unread_token c 1
        if is_else_token nn then pure (statements, false, c)
        else
          let (statement, c) ← parse_statement fuel c
          if statement.isNull then .error (.raise line)
          else
            parse_line_block fuel line
              (create_ast_node NODE_BLOCK_STATEMENTS statements statement) c

/-- Source function `parse_control_safe` (neteruhsp.cc:3159). -/
def parse_control_safe : Nat → parse_context_t → Except Err (ast_node_t × parse_context_t)
  | 0, _ => .error .fuel
  | fuel + 1, c => do
      let (ident, c) ← read_token c
      if ident.tag_ != TOKEN_IDENTIFIER then
        let c ← unread_token c 1
        pure (.null, c)
      else
        match query_keyword ident.content_ with
        | KEYWORD_UNDEF =>
            let c ← unread_token c 1
            pure (.null, c)
        | KEYWORD_END => pure (create_ast_node NODE_END .null .null, c)
        | KEYWORD_RETURN =>
            let (next, c) ← read_token c
            let c ← unread_token c 1
            if !is_eos_like_token next.tag_ then
              let (expr, c) ← parse_expression fuel c
              pure (create_ast_node NODE_RETURN expr .null, c)
            else pure (create_ast_node NODE_RETURN .null .null, c)
        | KEYWORD_GOTO =>
            let (label, c) ← parse_label_safe c
            if label.isNull then .error (.raise 3197)
            else pure (create_ast_node NODE_GOTO label .null, c)
        | KEYWORD_GOSUB =>
            let (label, c) ← parse_label_safe c
            if label.isNull then .error (.raise 3197)
            else pure (create_ast_node NODE_GOSUB label .null, c)
        | KEYWORD_REPEAT =>
            let (next, c) ← read_token c
            let c ← unread_token c 1
            if !is_eos_like_token next.tag_ then
              let (expr, c) ← parse_expression fuel c
              pure (create_ast_node NODE_REPEAT expr .null, c)
            else pure (create_ast_node NODE_REPEAT .null .null, c)
        | KEYWORD_LOOP => pure (create_ast_node NODE_LOOP .null .null, c)
        | KEYWORD_CONTINUE => pure (create_ast_node NODE_CONTINUE .null .null, c)
        | KEYWORD_BREAK => pure (create_ast_node NODE_BREAK .null .null, c)
        | KEYWORD_IF =>
            let (expr, c) ← parse_expression fuel c
            let (next, c) ← read_token c
            let true_statements := create_ast_node NODE_BLOCK_STATEMENTS .null .null
            let (true_statements, repair_token, c) ←
              if next.tag_ == TOKEN_LBRACE then do
                let (ts, c) ← parse_brace_block fuel 3249 true_statements c
                pure (ts, false, c)
              else do
                let c ← unread_token c 1
                let (nn, c) ← read_token c
                if nn.tag_ != TOKEN_EOS then .error (.raise 3261)
                else parse_line_block fuel 3282 true_statements c
            -- elseはあるか？
            let (nn, c) ← read_token c
            let (false_statements, repair_token, c) ←
              if is_else_token nn then do
                let false_statements := create_ast_node NODE_BLOCK_STATEMENTS .null .null
                let (nextf, c) ← read_token c
                if nextf.tag_ == TOKEN_LBRACE then do
                  let (fs, c) ← parse_brace_block fuel 3309 false_statements c
                  pure (fs, false, c)
                else do
                  let c ← unread_token c 1
                  let (nnf, c) ← read_token c
                  if nnf.tag_ != TOKEN_EOS then .error (.raise 3321)
                  else parse_line_block fuel 3342 false_statements c
              else do
                let c ← unread_token c 1
                pure (.null, repair_token, c)
            let c ← if repair_token then unread_token c 1 else pure c
            let dispatcher :=
              create_ast_node NODE_IF_DISPATCHER true_statements false_statements
            pure (create_ast_node NODE_IF expr dispatcher, c)
        | KEYWORD_ELSE => .error (.raise 3363)
        | KEYWORD_GLOBAL | KEYWORD_CTYPE =>
            let c ← unread_token c 1
            pure (.null, c)

/-- Source function `parse_command_safe` (neteruhsp.cc:3371). -/
def parse_command_safe : Nat → parse_context_t → Except Err (ast_node_t × parse_context_t)
  | 0, _ => .error .fuel
  | fuel + 1, c => do
      let (ident, c) ← read_token c
      if ident.tag_ != TOKEN_IDENTIFIER then
        let c ← unread_token c 1
        pure (.null, c)
      else
        let (next, c) ← read_token c
        let is_not_command :=
          next.tag_ == TOKEN_ASSIGN || next.tag_ == TOKEN_ADD_ASSIGN
            || next.tag_ == TOKEN_SUB_ASSIGN || next.tag_ == TOKEN_MUL_ASSIGN
            || next.tag_ == TOKEN_DIV_ASSIGN || next.tag_ == TOKEN_MOD_ASSIGN
            || next.tag_ == TOKEN_BOR_ASSIGN || next.tag_ == TOKEN_BAND_ASSIGN
            || next.tag_ == TOKEN_BXOR_ASSIGN
            || (!ident.right_space_ && next.tag_ == TOKEN_LPARENTHESIS)
        if is_not_command then
          let c ← unread_token c 2
          pure (.null, c)
        else if !is_eos_like_token next.tag_ then
          let c ← unread_token c 1
          let (args, c) ← parse_arguments fuel c
          pure (create_ast_node_token NODE_COMMAND ident args, c)
        else
          let c ← unread_token c 1
          pure (create_ast_node_token NODE_COMMAND ident .null, c)

/-- Source function `parse_arguments` (neteruhsp.cc:3425): the chain of `NODE_ARGUMENTS`
nodes linked through `right_`. -/
def parse_arguments : Nat → parse_context_t → Except Err (ast_node_t × parse_context_t)
  | 0, _ => .error .fuel
  | fuel + 1, c => do
      let (arg, c) ← parse_expression fuel c
      let (rest, c) ← parse_arguments_loop fuel c
      pure (create_ast_node NODE_ARGUMENTS arg rest, c)

/-- Loop `for( ; ; )` of `parse_arguments` (neteruhsp.cc:3431): the value that ends up
in `args->right_`. -/
def parse_arguments_loop : Nat → parse_context_t →
    Except Err (ast_node_t × parse_context_t)
  | 0, _ => .error .fuel
  | fuel + 1, c => do
      let (token, c) ← read_token c
      if token.tag_ != TOKEN_COMMA then
        let c ← unread_token c 1
        pure (.null, c)
      else
        let (next, c) ← parse_expression fuel c
        let (rest, c) ← parse_arguments_loop fuel c
        pure (create_ast_node NODE_ARGUMENTS next rest, c)

/-- Source function `parse_assign_safe` (neteruhsp.cc:3447). -/
def parse_assign_safe : Nat → parse_context_t → Except Err (ast_node_t × parse_context_t)
  | 0, _ => .error .fuel
  | fuel + 1, c => do
      let (var, c) ← parse_variable_safe fuel c
      if var.isNull then pure (.null, c)
      else
        let (next, c) ← read_token c
        let node ← match next.tag_ with
          | TOKEN_ASSIGN => pure NODE_ASSIGN
          | TOKEN_ADD_ASSIGN => pure NODE_ADD_ASSIGN
          | TOKEN_SUB_ASSIGN => pure NODE_SUB_ASSIGN
          | TOKEN_MUL_ASSIGN => pure NODE_MUL_ASSIGN
          | TOKEN_DIV_ASSIGN => pure NODE_DIV_ASSIGN
          | TOKEN_MOD_ASSIGN => pure NODE_MOD_ASSIGN
          | TOKEN_BOR_ASSIGN => pure NODE_BOR_ASSIGN
          | TOKEN_BAND_ASSIGN => pure NODE_BAND_ASSIGN
          | TOKEN_BXOR_ASSIGN => pure NODE_BXOR_ASSIGN
          | _ => Except.error (Err.raise 3468)
        let (expr, c) ← parse_expression fuel c
        pure (create_ast_node node var expr, c)

/-- Source function `parse_variable_safe` (neteruhsp.cc:3480). -/
def parse_variable_safe : Nat → parse_context_t → Except Err (ast_node_t × parse_context_t)
  | 0, _ => .error .fuel
  | fuel + 1, c => do
      let (ident, c) ← read_token c
      if ident.tag_ != TOKEN_IDENTIFIER then
        let c ← unread_token c 1
        pure (.null, c)
      else
        let (next, c) ← read_token c
        if next.tag_ != TOKEN_LPARENTHESIS then
          let c ← unread_token c 1
          pure (create_ast_node_token NODE_VARIABLE ident .null, c)
        else
          let (idx, c) ← parse_expression fuel c
          let (nn, c) ← read_token c
          if nn.tag_ != TOKEN_RPARENTHESIS then
            if nn.tag_ == TOKEN_COMMA then .error (.raise 3502) else .error (.raise 3503)
          else pure (create_ast_node_token NODE_VARIABLE ident idx, c)

/-- Source function `parse_expression` (neteruhsp.cc:3509). -/
def parse_expression : Nat → parse_context_t → Except Err (ast_node_t × parse_context_t)
  | 0, _ => .error .fuel
  | fuel + 1, c => parse_borand fuel c

/-- Source function `parse_borand` (neteruhsp.cc:3515). -/
def parse_borand : Nat → parse_context_t → Except Err (ast_node_t × parse_context_t)
  | 0, _ => .error .fuel
  | fuel + 1, c => do
      let (node, c) ← parse_eqneq fuel c
      parse_borand_loop fuel node c

/-- Loop `for( ; ; )` of `parse_borand`: operators of this level, applied left to right. -/
def parse_borand_loop : Nat → ast_node_t → parse_context_t →
    Except Err (ast_node_t × parse_context_t)
  | 0, _, _ => .error .fuel
  | fuel + 1, node, c => do
      let (token, c) ← read_token c
      if token.tag_ == TOKEN_OP_BOR || token.tag_ == TOKEN_OP_BAND || token.tag_ == TOKEN_OP_BXOR then
        let (r, c) ← parse_eqneq fuel c
        if r.isNull then .error (.raise 3531)
        else parse_borand_loop fuel (create_ast_node (if token.tag_ == TOKEN_OP_BOR then NODE_BOR else if token.tag_ == TOKEN_OP_BAND then NODE_BAND else NODE_BXOR) node r) c
      else
        let c ← unread_token c 1
        pure (node, c)

/-- Source function `parse_eqneq` (neteruhsp.cc:3555). -/
def parse_eqneq : Nat → parse_context_t → Except Err (ast_node_t × parse_context_t)
  | 0, _ => .error .fuel
  | fuel + 1, c => do
      let (node, c) ← parse_gtlt fuel c
      parse_eqneq_loop fuel node c

/-- Loop `for( ; ; )` of `parse_eqneq`: operators of this level, applied left to right. -/
def parse_eqneq_loop : Nat → ast_node_t → parse_context_t →
    Except Err (ast_node_t × parse_context_t)
  | 0, _, _ => .error .fuel
  | fuel + 1, node, c => do
      let (token, c) ← read_token c
      if token.tag_ == TOKEN_OP_EQ || token.tag_ == TOKEN_ASSIGN || token.tag_ == TOKEN_OP_NEQ then
        let (r, c) ← parse_gtlt fuel c
        if r.isNull then .error (.raise 3571)
        else parse_eqneq_loop fuel (create_ast_node (if token.tag_ == TOKEN_OP_EQ then NODE_EQ else if token.tag_ == TOKEN_ASSIGN then NODE_EQ else NODE_NEQ) node r) c
      else
        let c ← unread_token c 1
        pure (node, c)

/-- Source function `parse_gtlt` (neteruhsp.cc:3597). -/
def parse_gtlt : Nat → parse_context_t → Except Err (ast_node_t × parse_context_t)
  | 0, _ => .error .fuel
  | fuel + 1, c => do
      let (node, c) ← parse_addsub fuel c
      parse_gtlt_loop fuel node c

/-- Loop `for( ; ; )` of `parse_gtlt`: operators of this level, applied left to right. -/
def parse_gtlt_loop : Nat → ast_node_t → parse_context_t →
    Except Err (ast_node_t × parse_context_t)
  | 0, _, _ => .error .fuel
  | fuel + 1, node, c => do
      let (token, c) ← read_token c
      if token.tag_ == TOKEN_OP_GT || token.tag_ == TOKEN_OP_GTOE || token.tag_ == TOKEN_OP_LT || token.tag_ == TOKEN_OP_LTOE then
        let (r, c) ← parse_addsub fuel c
        if r.isNull then .error (.raise 3614)
        else parse_gtlt_loop fuel (create_ast_node (if token.tag_ == TOKEN_OP_GT then NODE_GT else if token.tag_ == TOKEN_OP_GTOE then NODE_GTOE else if token.tag_ == TOKEN_OP_LT then NODE_LT else NODE_LTOE) node r) c
      else
        let c ← unread_token c 1
        pure (node, c)

/-- Source function `parse_addsub` (neteruhsp.cc:3639). -/
def parse_addsub : Nat → parse_context_t → Except Err (ast_node_t × parse_context_t)
  | 0, _ => .error .fuel
  | fuel + 1, c => do
      let (node, c) ← parse_muldivmod fuel c
      parse_addsub_loop fuel node c

/-- Loop `for( ; ; )` of `parse_addsub`: operators of this level, applied left to right. -/
def parse_addsub_loop : Nat → ast_node_t → parse_context_t →
    Except Err (ast_node_t × parse_context_t)
  | 0, _, _ => .error .fuel
  | fuel + 1, node, c => do
      let (token, c) ← read_token c
      if token.tag_ == TOKEN_OP_ADD || token.tag_ == TOKEN_OP_SUB then
        let (r, c) ← parse_muldivmod fuel c
        if r.isNull then .error (.raise 3654)
        else parse_addsub_loop fuel (create_ast_node (if token.tag_ == TOKEN_OP_ADD then NODE_ADD else NODE_SUB) node r) c
      else
        let c ← unread_token c 1
        pure (node, c)

/-- Source function `parse_muldivmod` (neteruhsp.cc:3677). -/
def parse_muldivmod : Nat → parse_context_t → Except Err (ast_node_t × parse_context_t)
  | 0, _ => .error .fuel
  | fuel + 1, c => do
      let (node, c) ← parse_term fuel c
      parse_muldivmod_loop fuel node c

/-- Loop `for( ; ; )` of `parse_muldivmod`: operators of this level, applied left to right. -/
def parse_muldivmod_loop : Nat → ast_node_t → parse_context_t →
    Except Err (ast_node_t × parse_context_t)
  | 0, _, _ => .error .fuel
  | fuel + 1, node, c => do
      let (token, c) ← read_token c
      if token.tag_ == TOKEN_OP_MUL || token.tag_ == TOKEN_OP_DIV || token.tag_ == TOKEN_OP_MOD then
        let (r, c) ← parse_term fuel c
        if r.isNull then .error (.raise 3693)
        else parse_muldivmod_loop fuel (create_ast_node (if token.tag_ == TOKEN_OP_MUL then NODE_MUL else if token.tag_ == TOKEN_OP_DIV then NODE_DIV else NODE_MOD) node r) c
      else
        let c ← unread_token c 1
        pure (node, c)

/-- Source function `parse_term` (neteruhsp.cc:3717). -/
def parse_term : Nat → parse_context_t → Except Err (ast_node_t × parse_context_t)
  | 0, _ => .error .fuel
  | fuel + 1, c => do
      let (token, c) ← read_token c
      if token.tag_ == TOKEN_OP_SUB then
        let (p, c) ← parse_primitive fuel c
        pure (create_ast_node NODE_UNARY_MINUS p .null, c)
      else
        let c ← unread_token c 1
        parse_primitive fuel c

/-- Source function `parse_primitive` (neteruhsp.cc:3730). -/
def parse_primitive : Nat → parse_context_t → Except Err (ast_node_t × parse_context_t)
  | 0, _ => .error .fuel
  | fuel + 1, c => do
      let (token, c) ← read_token c
      match token.tag_ with
      | TOKEN_LPARENTHESIS =>
          let (node, c) ← parse_expression fuel c
          let (next, c) ← read_token c
          if next.tag_ != TOKEN_RPARENTHESIS then .error (.raise 3741)
          else pure (create_ast_node NODE_EXPRESSION node .null, c)
      | TOKEN_INTEGER | TOKEN_REAL | TOKEN_STRING =>
          pure (create_ast_node_token NODE_PRIMITIVE_VALUE token .null, c)
      | TOKEN_OP_MUL =>
          let c ← unread_token c 1
          let (label, _) ← parse_label_safe c
          if label.isNull then .error (.raise 3757) else .error (.raise 3759)
      | TOKEN_IDENTIFIER =>
          let c ← unread_token c 1
          let (expr, c) ← parse_identifier_expression fuel c
          if expr.isNull then .error (.raise 3769) else pure (expr, c)
      | _ => .error (.raise 3776)

/-- Source function `parse_identifier_expression` (neteruhsp.cc:3780). -/
def parse_identifier_expression : Nat → parse_context_t →
    Except Err (ast_node_t × parse_context_t)
  | 0, _ => .error .fuel
  | fuel + 1, c => do
      let (ident, c) ← read_token c
      if ident.tag_ != TOKEN_IDENTIFIER then
        let c ← unread_token c 1
        pure (.null, c)
      else
        let (next, c) ← read_token c
        if next.tag_ != TOKEN_LPARENTHESIS then
          let c ← unread_token c 1
          pure (create_ast_node_token NODE_IDENTIFIER_EXPR ident .null, c)
        else
          let (nn, c) ← read_token c
          if nn.tag_ == TOKEN_RPARENTHESIS then
            pure (create_ast_node_token NODE_IDENTIFIER_EXPR ident
                    (create_ast_node NODE_ARGUMENTS .null .null), c)
          else
            let c ← unread_token c 1
            let (idx, c) ← parse_arguments fuel c
            let (nn, c) ← read_token c
            if nn.tag_ != TOKEN_RPARENTHESIS then .error (.raise 3811)
            else pure (create_ast_node_token NODE_IDENTIFIER_EXPR ident idx, c)

end

/-! ## Variables

The storage of a variable is the list of its bytes; `int` and `double` elements are laid
out little-endian (`sizeof(int) = 4`, `sizeof(double) = 8`). -/

/-- Source enum `value_tag` (neteruhsp.hh:442). -/
inductive value_tag
  | VALUE_NONE | VALUE_INT | VALUE_DOUBLE | VALUE_STRING | VALUE_VARIABLE
deriving DecidableEq, Repr

/-- Source struct `variable_t` (neteruhsp.hh:453).  `data_` holds the bytes of the
allocation `data_` points to, `[]` for `nullptr`. -/
structure variable_t where
  name_ : CStr
  type_ : value_tag
  granule_size_ : Int
  length_ : Int
  data_ : List Nat
  data_size_ : Int
deriving DecidableEq, Repr

/-- Source struct `value_t` (neteruhsp.hh:490): the tag and the member of the union that
goes with it.  `variable_` is the index of the variable in the variable table. -/
inductive value_t
  | none
  | int (ivalue_ : Int)
  | double (dvalue_ : Dbl)
  | string (svalue_ : CStr)
  | variable (variable_ : Nat) (index_ : Int)
deriving DecidableEq, Repr

open value_tag in
/-- Field `type_` of a value. -/
def value_t.type_ : value_t → value_tag
  | .none => VALUE_NONE
  | .int _ => VALUE_INT
  | .double _ => VALUE_DOUBLE
  | .string _ => VALUE_STRING
  | .variable _ _ => VALUE_VARIABLE

/-- The `count` little-endian bytes of `n`. -/
def le_bytes (count n : Nat) : List Nat := (List.range count).map (fun k => n / 256 ^ k % 256)

/-- Number whose little-endian bytes are `bs`. -/
def le_value (bs : List Nat) : Nat := bs.foldr (fun b acc => b + 256 * acc) 0

/-- Bit pattern of an `int` as a number below `2 ^ 32`. -/
def to_u32 (v : Int) : Nat := (v % 4294967296).toNat

/-- Bytes of an `int` in memory. -/
def int_bytes (v : Int) : List Nat := le_bytes 4 (to_u32 v)

/-- Bytes of a `double` in memory. -/
def double_bytes (v : Dbl) : List Nat := le_bytes 8 (v.bits % 2 ^ 64)

/-- Bytes of a C string in memory, terminator included. -/
def cstr_bytes (s : CStr) : List Nat := s.map Char.toNat ++ [0]

/-- Read of `n` bytes at offset `off` of an allocation; `none` outside of it. -/
def mem_read (data : List Nat) (off : Int) (n : Nat) : Option (List Nat) :=
  if 0 ≤ off ∧ off.toNat + n ≤ data.length then some ((data.drop off.toNat).take n) else none

/-- Write of the bytes `bs` at offset `off` of an allocation; `none` outside of it. -/
def mem_write (data : List Nat) (off : Int) (bs : List Nat) : Option (List Nat) :=
  if 0 ≤ off ∧ off.toNat + bs.length ≤ data.length then
    some (data.take off.toNat ++ bs ++ data.drop (off.toNat + bs.length))
  else none

/-- The bytes before the first zero byte of a list, `none` when there is no zero byte. -/
def bytes_to_nul : List Nat → Option (List Nat)
  | [] => none
  | b :: rest => if b == 0 then some [] else (bytes_to_nul rest).map (b :: ·)

/-- Read of the C string that starts at offset `off` of an allocation; `none` when the
offset or the terminator is outside of it. -/
def mem_cstr (data : List Nat) (off : Int) : Option CStr :=
  if 0 ≤ off ∧ off.toNat ≤ data.length then
    (bytes_to_nul (data.drop off.toNat)).map (fun bs => bs.map Char.ofNat)
  else none

/-- Result of a read or write that is undefined behaviour when it leaves the allocation. -/
def in_bounds {α : Type} (line : Nat) : Option α → Except Err α
  | some a => .ok a
  | none => .error (.undefined line)

open value_tag in
/-- Source function `prepare_variable` (neteruhsp.cc:3840).  The size is computed in
`size_t` (64 bits) and stored into the `int` field `data_size_`; `xmalloc` is taken to
succeed. -/
def prepare_variable (v : variable_t) (type : value_tag) (granule_size length : Int) :
    Except Err variable_t := do
  let areasize : Int ←
    match type with
    | VALUE_INT => pure ((4 * length) % 2 ^ 64)
    | VALUE_DOUBLE => pure ((8 * length) % 2 ^ 64)
    | VALUE_STRING => pure ((granule_size % 2 ^ 64 * (length % 2 ^ 64)) % 2 ^ 64)
    | _ => Except.error (Err.assertion 3865)
  if areasize ≤ 0 then .error (.assertion 3868)
  else
    pure { v with type_ := type, granule_size_ := granule_size, length_ := length,
                  data_ := List.replicate areasize.toNat 0, data_size_ := wrap32 areasize }

/-- Source function `create_variable` (neteruhsp.cc:3819). -/
def create_variable (name : CStr) : Except Err variable_t :=
  prepare_variable
    { name_ := name, type_ := value_tag.VALUE_NONE, granule_size_ := 0, length_ := 0,
      data_ := [], data_size_ := 0 }
    value_tag.VALUE_INT 64 16

/-- Source function `search_variable` (neteruhsp.cc:3893): the index of the first variable
of the table with that name up to ASCII case. -/
def search_variable (table : List variable_t) (name : CStr) : Option Nat :=
  let i := table.findIdx (fun var => string_equal_igcase var.name_ name (-1))
  if i < table.length then some i else none

open value_tag in
/-- Source function `variable_data_ptr` (neteruhsp.cc:4295): the offset of element `idx`
in the storage. -/
def variable_data_ptr (v : variable_t) (idx : Int) : Except Err Int :=
  if idx < 0 ∨ idx ≥ v.length_ then .error (.raise 4299)
  else
    match v.type_ with
    | VALUE_INT => pure (4 * idx)
    | VALUE_DOUBLE => pure (8 * idx)
    | VALUE_STRING => pure (v.granule_size_ * idx)
    | _ => .error (.assertion 4317)

/-- Read `*reinterpret_cast<const int*>( data_ptr )`. -/
def load_int (v : variable_t) (ptr : Int) (line : Nat) : Except Err Int := do
  let bs ← in_bounds line (mem_read v.data_ ptr 4)
  pure (wrap32 (le_value bs))

/-- Read `*reinterpret_cast<const double*>( data_ptr )`. -/
def load_double (v : variable_t) (ptr : Int) (line : Nat) : Except Err Dbl := do
  let bs ← in_bounds line (mem_read v.data_ ptr 8)
  pure ⟨le_value bs⟩

/-- Read of the C string at `data_ptr`. -/
def load_cstr (v : variable_t) (ptr : Int) (line : Nat) : Except Err CStr :=
  in_bounds line (mem_cstr v.data_ ptr)

/-- Write of bytes at `data_ptr`. -/
def store_bytes (v : variable_t) (ptr : Int) (bs : List Nat) (line : Nat) :
    Except Err variable_t := do
  let data ← in_bounds line (mem_write v.data_ ptr bs)
  pure { v with data_ := data }

open value_tag in
/-- Source function `variable_set( variable_t*, const value_t&, int )`
(neteruhsp.cc:3920). -/
def variable_set (var : variable_t) (v : value_t) (idx : Int) : Except Err variable_t := do
  let var ←
    if var.type_ != v.type_ then
      if idx > 0 then Except.error (Err.raise 3927)
      else prepare_variable var v.type_ 64 16
    else pure var
  let granule_size : Int :=
    match v with
    | .string s => wrap32 (s.length) + 1
    | _ => 0
  let init_required := decide (var.granule_size_ < granule_size)
  let len := var.length_
  if idx < 0 then .error (.raise 3947)
  else if len ≤ idx then .error (.raise 3951)
  else
    let var ← if init_required then prepare_variable var v.type_ granule_size len else pure var
    if var.type_ != v.type_ then .error (.assertion 3959)
    else
      let data_ptr ← variable_data_ptr var idx
      match v with
      | .int i => store_bytes var data_ptr (int_bytes i) 3965
      | .double d => store_bytes var data_ptr (double_bytes d) 3970
      | .string s => store_bytes var data_ptr (cstr_bytes s) 3975
      | _ => .error (.assertion 3979)

/-- Source function `variable_set( list_t*, const value_t&, const char*, int )`
(neteruhsp.cc:3906). -/
def variable_set_by_name (table : List variable_t) (v : value_t) (name : CStr) (idx : Int) :
    Except Err (List variable_t) :=
  match search_variable table name with
  | some i =>
      match table[i]? with
      | some var => do
          let var ← variable_set var v idx
          pure (table.set i var)
      | none => .error (.undefined 3917)
  | none => do
      let var ← create_variable name
      let var ← variable_set var v idx
      pure (table ++ [var])

/-- Bitwise operation on two `int`s through their 32-bit patterns. -/
def int_bitop (f : Nat → Nat → Nat) (a b : Int) : Int := wrap32 (f (to_u32 a) (to_u32 b))

/-- Operator `/` on `int`, `b != 0`: truncation toward zero; the quotient `INT_MIN / -1`
is not representable and undefined. -/
def int_div (a b : Int) (line : Nat) : Except Err Int :=
  if a = INT_MIN ∧ b = -1 then .error (.undefined line) else pure (Int.tdiv a b)

/-- Operator `%` on `int`, `b != 0`; undefined together with the quotient. -/
def int_mod (a b : Int) (line : Nat) : Except Err Int :=
  if a = INT_MIN ∧ b = -1 then .error (.undefined line) else pure (Int.tmod a b)

open value_tag in
/-- Source function `variable_add` (neteruhsp.cc:3984). -/
def variable_add (var : variable_t) (v : value_t) (idx : Int) : Except Err variable_t := do
  if var.type_ != v.type_ then .error (.raise 3989)
  else
    let data_ptr ← variable_data_ptr var idx
    match v with
    | .int i => do
        let x ← load_int var data_ptr 3999
        store_bytes var data_ptr (int_bytes (wrap32 (x + i))) 3999
    | .double d => do
        let x ← load_double var data_ptr 4004
        store_bytes var data_ptr (double_bytes (Dbl.add x d)) 4004
    | .string s => do
        let varstr ← load_cstr var data_ptr 4010
        let varstrlen : Int := wrap32 varstr.length
        let vstrlen : Int := wrap32 s.length
        if varstrlen + vstrlen > var.granule_size_ then
          if idx > 0 then .error (.raise 4017)
          else
            -- the storage is released by prepare_variable and then written through the
            -- pointer taken before
            let _ ← prepare_variable var VALUE_STRING (varstrlen + vstrlen + 4) 1
            .error (.undefined 4024)
        else store_bytes var (data_ptr + varstrlen) (cstr_bytes s) 4027
    | _ => .error (.assertion 4031)

/-- Shape shared by `variable_sub`, `variable_mul`, `variable_div`, `variable_mod`,
`variable_bor`, `variable_band` and `variable_bxor` (neteruhsp.cc:4036-4293): type
check, element pointer, then the operation on the element, with `fi` for an `int`
element, `fd` for a `double` element and a `raise_error` for a string. -/
def variable_arith (line_type line_op line_str line_assert : Nat)
    (fi : Int → Int → Except Err Int) (fd : Dbl → Dbl → Except Err Dbl)
    (var : variable_t) (v : value_t) (idx : Int) : Except Err variable_t := do
  if var.type_ != v.type_ then .error (.raise line_type)
  else
    let data_ptr ← variable_data_ptr var idx
    match v with
    | .int i => do
        let x ← load_int var data_ptr line_op
        let y ← fi x i
        store_bytes var data_ptr (int_bytes y) line_op
    | .double d => do
        let x ← load_double var data_ptr line_op
        let y ← fd x d
        store_bytes var data_ptr (double_bytes y) line_op
    | .string _ => .error (.raise line_str)
    | _ => .error (.assertion line_assert)

/-- Source function `variable_sub` (neteruhsp.cc:4036). -/
def variable_sub : variable_t → value_t → Int → Except Err variable_t :=
  variable_arith 4041 4051 4061 4065
    (fun x i => pure (wrap32 (x - i))) (fun x d => pure (Dbl.sub x d))

/-- Source function `variable_mul` (neteruhsp.cc:4070). -/
def variable_mul : variable_t → value_t → Int → Except Err variable_t :=
  variable_arith 4075 4085 4095 4099
    (fun x i => pure (wrap32 (x * i))) (fun x d => pure (Dbl.mul x d))

/-- Source function `variable_div` (neteruhsp.cc:4104). -/
def variable_div : variable_t → value_t → Int → Except Err variable_t :=
  variable_arith 4109 4124 4139 4143
    (fun x i => if i = 0 then .error (.raise 4121) else int_div x i 4124)
    (fun x d => if d.isZero then .error (.raise 4131) else pure (Dbl.div x d))

/-- Source function `variable_mod` (neteruhsp.cc:4148). -/
def variable_mod : variable_t → value_t → Int → Except Err variable_t :=
  variable_arith 4153 4168 4184 4188
    (fun x i => if i = 0 then .error (.raise 4165) else int_mod x i 4168)
    (fun x d => if d.isZero then .error (.raise 4175) else pure (Dbl.fmod x d))

/-- Source function `variable_bor` (neteruhsp.cc:4193). -/
def variable_bor : variable_t → value_t → Int → Except Err variable_t :=
  variable_arith 4198 4208 4218 4222
    (fun x i => pure (int_bitop Nat.lor x i)) (fun _ _ => .error (.raise 4213))

/-- Source function `variable_band` (neteruhsp.cc:4227). -/
def variable_band : variable_t → value_t → Int → Except Err variable_t :=
  variable_arith 4232 4242 4252 4256
    (fun x i => pure (int_bitop Nat.land x i)) (fun _ _ => .error (.raise 4247))

/-- Source function `variable_bxor` (neteruhsp.cc:4261). -/
def variable_bxor : variable_t → value_t → Int → Except Err variable_t :=
  variable_arith 4266 4276 4286 4290
    (fun x i => pure (int_bitop Nat.xor x i)) (fun _ _ => .error (.raise 4281))

open value_tag in
/-- Source function `variable_calc_int` (neteruhsp.cc:4323). -/
def variable_calc_int (r : variable_t) (idx : Int) : Except Err Int := do
  let data_ptr ← variable_data_ptr r idx
  match r.type_ with
  | VALUE_INT => load_int r data_ptr 4328
  | VALUE_DOUBLE => do
      let d ← load_double r data_ptr 4329
      pure d.toInt
  | VALUE_STRING => do
      let s ← load_cstr r data_ptr 4330
      pure (atoi s)
  | _ => .error (.assertion 4332)

open value_tag in
/-- Source function `variable_calc_double` (neteruhsp.cc:4338). -/
def variable_calc_double (r : variable_t) (idx : Int) : Except Err Dbl := do
  let data_ptr ← variable_data_ptr r idx
  match r.type_ with
  | VALUE_INT => do
      let i ← load_int r data_ptr 4343
      pure (Dbl.ofInt i)
  | VALUE_DOUBLE => load_double r data_ptr 4344
  | VALUE_STRING => do
      let s ← load_cstr r data_ptr 4345
      pure (atof s)
  | _ => .error (.assertion 4347)

open value_tag in
/-- Source function `variable_get_string` (neteruhsp.cc:4353): the offset of the string in
the storage, `none` for `nullptr`. -/
def variable_get_string (r : variable_t) (idx : Int) : Except Err (Option Int) :=
  if r.type_ != VALUE_STRING then pure none
  else do
    let data_ptr ← variable_data_ptr r idx
    pure (some data_ptr)

open value_tag in
/-- Source function `variable_calc_string` (neteruhsp.cc:4362). -/
def variable_calc_string (r : variable_t) (idx : Int) : Except Err CStr := do
  let data_ptr ← variable_data_ptr r idx
  match r.type_ with
  | VALUE_INT => do
      let i ← load_int r data_ptr 4367
      pure (create_string_from_int i)
  | VALUE_DOUBLE => do
      let d ← load_double r data_ptr 4368
      pure (create_string_from_double d)
  | VALUE_STRING => load_cstr r data_ptr 4369
  | _ => .error (.assertion 4371)

/-! ## Values -/

/-- Dereference of a pointer to a variable of the table. -/
def deref_variable (vars : List variable_t) (i : Nat) (line : Nat) : Except Err variable_t :=
  in_bounds line vars[i]?

/-- Source function `create_value( const value_t& )` (neteruhsp.cc:4412): the copy. -/
def create_value_copy (v : value_t) : Except Err value_t :=
  match v with
  | .none => .error (.raise 4422)
  | v => pure v

/-- Source function `value_get_primitive_tag` (neteruhsp.cc:4478). -/
def value_get_primitive_tag (vars : List variable_t) (r : value_t) : Except Err value_tag :=
  match r with
  | .variable var _ => do
      let x ← deref_variable vars var 4481
      pure x.type_
  | r => pure r.type_

/-- Source function `value_calc_int` (neteruhsp.cc:4497). -/
def value_calc_int (vars : List variable_t) (r : value_t) : Except Err Int :=
  match r with
  | .int i => pure i
  | .double d => pure d.toInt
  | .string s => pure (atoi s)
  | .variable var idx => do
      let x ← deref_variable vars var 4504
      variable_calc_int x idx
  | .none => .error (.assertion 4505)

/-- Source function `value_calc_double` (neteruhsp.cc:4510). -/
def value_calc_double (vars : List variable_t) (r : value_t) : Except Err Dbl :=
  match r with
  | .int i => pure (Dbl.ofInt i)
  | .double d => pure d
  | .string s => pure (atof s)
  | .variable var idx => do
      let x ← deref_variable vars var 4517
      variable_calc_double x idx
  | .none => .error (.assertion 4518)

open value_tag in
/-- Source function `value_calc_boolean` (neteruhsp.cc:4485). -/
def value_calc_boolean (vars : List variable_t) (r : value_t) : Except Err Bool := do
  match (← value_get_primitive_tag vars r) with
  | VALUE_INT => do
      let i ← value_calc_int vars r
      pure (i != 0)
  | VALUE_DOUBLE => do
      let d ← value_calc_double vars r
      pure (!d.isZero)
  | VALUE_STRING => do
      let i ← value_calc_int vars r
      pure (i != 0)
  | _ => .error (.assertion 4492)

/-- Source function `value_get_string` (neteruhsp.cc:4523): the string the returned
pointer points to, `none` for `nullptr`. -/
def value_get_string (vars : List variable_t) (r : value_t) : Except Err (Option CStr) :=
  match r with
  | .string s => pure (some s)
  | .variable var idx => do
      let x ← deref_variable vars var 4529
      match (← variable_get_string x idx) with
      | some ptr => do
          let str ← load_cstr x ptr 4529
          pure (some str)
      | none => pure none
  | _ => pure none

/-- Source function `value_calc_string` (neteruhsp.cc:4535). -/
def value_calc_string (vars : List variable_t) (r : value_t) : Except Err CStr :=
  match r with
  | .int i => pure (create_string_from_int i)
  | .double d => pure (create_string_from_double d)
  | .string s => pure s
  | .variable var idx => do
      let x ← deref_variable vars var 4543
      variable_calc_string x idx
  | .none => .error (.assertion 4544)

open value_tag in
/-- Source function `value_convert_type` (neteruhsp.cc:4549). -/
def value_convert_type (vars : List variable_t) (to_ : value_tag) (r : value_t) :
    Except Err value_t :=
  if to_ == r.type_ then create_value_copy r
  else
    match to_ with
    | VALUE_INT => (value_calc_int vars r).map .int
    | VALUE_DOUBLE => (value_calc_double vars r).map .double
    | VALUE_STRING => (value_calc_string vars r).map .string
    | _ => .error (.assertion 4564)

open value_tag in
/-- Source function `value_isolate` (neteruhsp.cc:4569): the value that replaces `v`. -/
def value_isolate (vars : List variable_t) (v : value_t) : Except Err value_t :=
  match v with
  | .variable var idx => do
      let x ← deref_variable vars var 4574
      match x.type_ with
      | VALUE_INT => (variable_calc_int x idx).map .int
      | VALUE_DOUBLE => (variable_calc_double x idx).map .double
      | VALUE_STRING => (variable_calc_string x idx).map .string
      | _ => .error (.assertion 4586)
  | v => pure v

/-- Source function `value_bor` (neteruhsp.cc:4591). -/
def value_bor (vars : List variable_t) (v r : value_t) : Except Err value_t := do
  let t ← value_convert_type vars v.type_ r
  match v, t with
  | .int a, .int b => pure (.int (int_bitop Nat.lor a b))
  | .double a, .double b => let _ := (a, b); .error (.raise 4599)
  | .string a, .string b => let _ := (a, b); .error (.raise 4604)
  | _, _ => .error (.assertion 4607)

/-- Source function `value_band` (neteruhsp.cc:4612). -/
def value_band (vars : List variable_t) (v r : value_t) : Except Err value_t := do
  let t ← value_convert_type vars v.type_ r
  match v, t with
  | .int a, .int b => pure (.int (int_bitop Nat.land a b))
  | .double a, .double b => let _ := (a, b); .error (.raise 4620)
  | .string a, .string b => let _ := (a, b); .error (.raise 4625)
  | _, _ => .error (.assertion 4628)

/-- Source function `value_bxor` (neteruhsp.cc:4633). -/
def value_bxor (vars : List variable_t) (v r : value_t) : Except Err value_t := do
  let t ← value_convert_type vars v.type_ r
  match v, t with
  | .int a, .int b => pure (.int (int_bitop Nat.xor a b))
  | .double a, .double b => let _ := (a, b); .error (.raise 4641)
  | .string a, .string b => let _ := (a, b); .error (.raise 4646)
  | _, _ => .error (.assertion 4649)

/-- Source function `value_eq` (neteruhsp.cc:4654). -/
def value_eq (vars : List variable_t) (v r : value_t) : Except Err value_t := do
  let t ← value_convert_type vars v.type_ r
  match v, t with
  | .int a, .int b => pure (.int (if a == b then 1 else 0))
  | .double a, .double b => pure (.int (if Dbl.eq a b then 1 else 0))
  | .string a, .string b => pure (.int (if a == b then 1 else 0))
  | _, _ => .error (.assertion 4662)

/-- Source function `value_neq` (neteruhsp.cc:4667). -/
def value_neq (vars : List variable_t) (v r : value_t) : Except Err value_t := do
  let t ← value_convert_type vars v.type_ r
  match v, t with
  | .int a, .int b => pure (.int (if a != b then 1 else 0))
  | .double a, .double b => pure (.int (if !Dbl.eq a b then 1 else 0))
  | .string a, .string b => pure (.int (if a != b then 1 else 0))
  | _, _ => .error (.assertion 4675)

/-- Source function `value_gt` (neteruhsp.cc:4680). -/
def value_gt (vars : List variable_t) (v r : value_t) : Except Err value_t := do
  let t ← value_convert_type vars v.type_ r
  match v, t with
  | .int a, .int b => pure (.int (if a > b then 1 else 0))
  | .double a, .double b => pure (.int (if Dbl.lt b a then 1 else 0))
  | .string a, .string b => let _ := (a, b); .error (.raise 4689)
  | _, _ => .error (.assertion 4692)

/-- Source function `value_gtoe` (neteruhsp.cc:4697). -/
def value_gtoe (vars : List variable_t) (v r : value_t) : Except Err value_t := do
  let t ← value_convert_type vars v.type_ r
  match v, t with
  | .int a, .int b => pure (.int (if a ≥ b then 1 else 0))
  | .double a, .double b => pure (.int (if Dbl.le b a then 1 else 0))
  | .string a, .string b => let _ := (a, b); .error (.raise 4706)
  | _, _ => .error (.assertion 4709)

/-- Source function `value_lt` (neteruhsp.cc:4714). -/
def value_lt (vars : List variable_t) (v r : value_t) : Except Err value_t := do
  let t ← value_convert_type vars v.type_ r
  match v, t with
  | .int a, .int b => pure (.int (if a < b then 1 else 0))
  | .double a, .double b => pure (.int (if Dbl.lt a b then 1 else 0))
  | .string a, .string b => let _ := (a, b); .error (.raise 4723)
  | _, _ => .error (.assertion 4726)

/-- Source function `value_ltoe` (neteruhsp.cc:4731). -/
def value_ltoe (vars : List variable_t) (v r : value_t) : Except Err value_t := do
  let t ← value_convert_type vars v.type_ r
  match v, t with
  | .int a, .int b => pure (.int (if a ≤ b then 1 else 0))
  | .double a, .double b => pure (.int (if Dbl.le a b then 1 else 0))
  | .string a, .string b => let _ := (a, b); .error (.raise 4740)
  | _, _ => .error (.assertion 4743)

/-- Source function `value_add` (neteruhsp.cc:4748). -/
def value_add (vars : List variable_t) (v r : value_t) : Except Err value_t := do
  let t ← value_convert_type vars v.type_ r
  match v, t with
  | .int a, .int b => pure (.int (wrap32 (a + b)))
  | .double a, .double b => pure (.double (Dbl.add a b))
  | .string a, .string b => pure (.string (a ++ b))
  | _, _ => .error (.assertion 4764)

/-- Source function `value_sub` (neteruhsp.cc:4769). -/
def value_sub (vars : List variable_t) (v r : value_t) : Except Err value_t := do
  let t ← value_convert_type vars v.type_ r
  match v, t with
  | .int a, .int b => pure (.int (wrap32 (a - b)))
  | .double a, .double b => pure (.double (Dbl.sub a b))
  | .string a, .string b => let _ := (a, b); .error (.raise 4778)
  | _, _ => .error (.assertion 4781)

/-- Source function `value_mul` (neteruhsp.cc:4786). -/
def value_mul (vars : List variable_t) (v r : value_t) : Except Err value_t := do
  let t ← value_convert_type vars v.type_ r
  match v, t with
  | .int a, .int b => pure (.int (wrap32 (a * b)))
  | .double a, .double b => pure (.double (Dbl.mul a b))
  | .string a, .string b => let _ := (a, b); .error (.raise 4795)
  | _, _ => .error (.assertion 4798)

/-- Source function `value_div` (neteruhsp.cc:4803). -/
def value_div (vars : List variable_t) (v r : value_t) : Except Err value_t := do
  let t ← value_convert_type vars v.type_ r
  match v, t with
  | .int a, .int b => if b = 0 then .error (.raise 4811) else (int_div a b 4814).map .int
  | .double a, .double b => if b.isZero then .error (.raise 4819) else pure (.double (Dbl.div a b))
  | .string a, .string b => let _ := (a, b); .error (.raise 4826)
  | _, _ => .error (.assertion 4829)

/-- Source function `value_mod` (neteruhsp.cc:4834). -/
def value_mod (vars : List variable_t) (v r : value_t) : Except Err value_t := do
  let t ← value_convert_type vars v.type_ r
  match v, t with
  | .int a, .int b => if b = 0 then .error (.raise 4842) else (int_mod a b 4845).map .int
  | .double a, .double b => if b.isZero then .error (.raise 4850) else pure (.double (Dbl.fmod a b))
  | .string a, .string b => let _ := (a, b); .error (.raise 4857)
  | _, _ => .error (.assertion 4860)

/-- Source function `value_unary_minus` (neteruhsp.cc:4865). -/
def value_unary_minus (v : value_t) : Except Err value_t :=
  match v with
  | .int a => pure (.int (wrap32 (-a)))
  | .double a => pure (.double (Dbl.neg a))
  | .string _ => .error (.raise 4871)
  | _ => .error (.assertion 4872)

/-! ## Value stack

The stack is the list of its values, bottom first; `top_` is its length. -/

/-- Source function `stack_peek` (neteruhsp.cc:4926). -/
def stack_peek (st : List value_t) (i : Int) : Except Err value_t :=
  let idx : Int := if i < 0 then st.length + i else i
  if 0 ≤ idx ∧ idx < st.length then
    match st[idx.toNat]? with
    | some v => pure v
    | none => .error (.assertion 4929)
  else .error (.assertion 4929)

/-- Replacement of the value `stack_peek( st, i )` points to. -/
def stack_update (st : List value_t) (i : Int) (v : value_t) : List value_t :=
  let idx : Int := if i < 0 then st.length + i else i
  st.set idx.toNat v

/-- Source function `stack_pop` (neteruhsp.cc:4933); `n` is converted to `size_t`, so a
negative count fails the assertion. -/
def stack_pop (st : List value_t) (n : Int) : Except Err (List value_t) :=
  if 0 ≤ n ∧ n ≤ st.length then pure (st.take (st.length - n.toNat))
  else .error (.assertion 4935)

/-- Source function `stack_push` (neteruhsp.cc:4908). -/
def stack_push (st : List value_t) (v : value_t) : List value_t := st ++ [v]

/-! ## Execution environment and status -/

/-- Source enum `sysvar_tag` (neteruhsp.hh:569), in the order of its values from 0. -/
inductive sysvar_tag
  | SYSVAR_CNT | SYSVAR_STAT | SYSVAR_REFDVAL | SYSVAR_REFSTR | SYSVAR_STRSIZE
  | SYSVAR_LOOPLEV
deriving DecidableEq, Repr

open sysvar_tag in
/-- Values of `sysvar_tag` in ascending order. -/
def sysvar_list : List sysvar_tag :=
  [SYSVAR_CNT, SYSVAR_STAT, SYSVAR_REFDVAL, SYSVAR_REFSTR, SYSVAR_STRSIZE, SYSVAR_LOOPLEV]

open sysvar_tag in
/-- Table of `query_sysvar` (neteruhsp.cc:4953). -/
def sysvar_table : List (sysvar_tag × String) :=
  [ (SYSVAR_CNT, "cnt"), (SYSVAR_STAT, "stat"), (SYSVAR_REFDVAL, "refdval"),
    (SYSVAR_REFSTR, "refstr"), (SYSVAR_STRSIZE, "strsize"), (SYSVAR_LOOPLEV, "looplev") ]

/-- Source function `query_sysvar` (neteruhsp.cc:4947), `none` for -1. -/
def query_sysvar (s : CStr) : Option sysvar_tag := query_table sysvar_table s

/-- Source enum `code_oprator_tag` (neteruhsp.hh:593), in the order of its values
from 0. -/
inductive code_oprator_tag
  | OPERATOR_NOP
  | OPERATOR_PUSH_INT | OPERATOR_PUSH_DOUBLE | OPERATOR_PUSH_STRING
  | OPERATOR_PUSH_VARIABLE | OPERATOR_PUSH_SYSVAR
  | OPERATOR_ASSIGN | OPERATOR_ADD_ASSIGN | OPERATOR_SUB_ASSIGN | OPERATOR_MUL_ASSIGN
  | OPERATOR_DIV_ASSIGN | OPERATOR_MOD_ASSIGN | OPERATOR_BOR_ASSIGN
  | OPERATOR_BAND_ASSIGN | OPERATOR_BXOR_ASSIGN
  | OPERATOR_BOR | OPERATOR_BAND | OPERATOR_BXOR
  | OPERATOR_EQ | OPERATOR_NEQ | OPERATOR_GT | OPERATOR_GTOE | OPERATOR_LT | OPERATOR_LTOE
  | OPERATOR_ADD | OPERATOR_SUB | OPERATOR_MUL | OPERATOR_DIV | OPERATOR_MOD
  | OPERATOR_UNARY_MINUS
  | OPERATOR_IF
  | OPERATOR_REPEAT | OPERATOR_REPEAT_CHECK | OPERATOR_LOOP | OPERATOR_CONTINUE
  | OPERATOR_BREAK
  | OPERATOR_LABEL
  | OPERATOR_GOSUB | OPERATOR_GOTO
  | OPERATOR_COMMAND | OPERATOR_FUNCTION
  | OPERATOR_JUMP | OPERATOR_JUMP_RELATIVE | OPERATOR_RETURN | OPERATOR_END
deriving DecidableEq, Repr

open code_oprator_tag in
/-- Values of `code_oprator_tag` in ascending order. -/
def operator_list : List code_oprator_tag :=
  [ OPERATOR_NOP, OPERATOR_PUSH_INT, OPERATOR_PUSH_DOUBLE, OPERATOR_PUSH_STRING,
    OPERATOR_PUSH_VARIABLE, OPERATOR_PUSH_SYSVAR, OPERATOR_ASSIGN, OPERATOR_ADD_ASSIGN,
    OPERATOR_SUB_ASSIGN, OPERATOR_MUL_ASSIGN, OPERATOR_DIV_ASSIGN, OPERATOR_MOD_ASSIGN,
    OPERATOR_BOR_ASSIGN, OPERATOR_BAND_ASSIGN, OPERATOR_BXOR_ASSIGN, OPERATOR_BOR,
    OPERATOR_BAND, OPERATOR_BXOR, OPERATOR_EQ, OPERATOR_NEQ, OPERATOR_GT, OPERATOR_GTOE,
    OPERATOR_LT, OPERATOR_LTOE, OPERATOR_ADD, OPERATOR_SUB, OPERATOR_MUL, OPERATOR_DIV,
    OPERATOR_MOD, OPERATOR_UNARY_MINUS, OPERATOR_IF, OPERATOR_REPEAT,
    OPERATOR_REPEAT_CHECK, OPERATOR_LOOP, OPERATOR_CONTINUE, OPERATOR_BREAK,
    OPERATOR_LABEL, OPERATOR_GOSUB, OPERATOR_GOTO, OPERATOR_COMMAND, OPERATOR_FUNCTION,
    OPERATOR_JUMP, OPERATOR_JUMP_RELATIVE, OPERATOR_RETURN, OPERATOR_END ]

/-- Position of a tag in the list of the values of its enum: its value as `int`. -/
def enum_code {α : Type} [DecidableEq α] (values : List α) (x : α) : Int :=
  (values.indexOf x : Nat)

/-- The tag with a given `int` value. -/
def enum_decode {α : Type} (values : List α) (w : Int) : Option α :=
  if 0 ≤ w then values[w.toNat]? else none

/-- Code word of an operator. -/
def code_oprator_tag.code (op : code_oprator_tag) : Int := enum_code operator_list op

/-- Source enum `builtin_command_tag` (neteruhsp.hh:738), in the order of its values
from 0, which is also the order of the array of `get_command_delegate`. -/
inductive builtin_command_tag
  | COMMAND_DEVTERM | COMMAND_DIM | COMMAND_DDIM | COMMAND_SDIM | COMMAND_POKE
  | COMMAND_WPOKE | COMMAND_LPOKE | COMMAND_MES | COMMAND_INPUT | COMMAND_RANDOMIZE
  | COMMAND_BENCH
deriving DecidableEq, Repr

open builtin_command_tag in
/-- Values of `builtin_command_tag` in ascending order. -/
def command_list : List builtin_command_tag :=
  [ COMMAND_DEVTERM, COMMAND_DIM, COMMAND_DDIM, COMMAND_SDIM, COMMAND_POKE, COMMAND_WPOKE,
    COMMAND_LPOKE, COMMAND_MES, COMMAND_INPUT, COMMAND_RANDOMIZE, COMMAND_BENCH ]

open builtin_command_tag in
/-- Table of `query_command` (neteruhsp.cc:6104); `bench` is compiled out
(`NHSP_CONFIG_PERFORMANCE_TIMER` is 0). -/
def command_table : List (builtin_command_tag × String) :=
  [ (COMMAND_DEVTERM, "devterm"), (COMMAND_DIM, "dim"), (COMMAND_DDIM, "ddim"),
    (COMMAND_SDIM, "sdim"), (COMMAND_POKE, "poke"), (COMMAND_WPOKE, "wpoke"),
    (COMMAND_LPOKE, "lpoke"), (COMMAND_MES, "mes"), (COMMAND_INPUT, "input"),
    (COMMAND_RANDOMIZE, "randomize") ]

/-- Source function `query_command` (neteruhsp.cc:6098), `none` for -1. -/
def query_command (s : CStr) : Option builtin_command_tag := query_table command_table s

/-- Source enum `builtin_function_tag` (neteruhsp.hh:760), in the order of its values
from 0, which is also the order of the array of `get_function_delegate`. -/
inductive builtin_function_tag
  | FUNCTION_INT | FUNCTION_DOUBLE | FUNCTION_STR | FUNCTION_PEEK | FUNCTION_WPEEK
  | FUNCTION_LPEEK | FUNCTION_RND | FUNCTION_ABS | FUNCTION_ABSF | FUNCTION_DEG2RAD
  | FUNCTION_RAD2DEG | FUNCTION_SIN | FUNCTION_COS | FUNCTION_TAN | FUNCTION_ATAN
  | FUNCTION_EXPF | FUNCTION_LOGF | FUNCTION_POWF | FUNCTION_SQRT | FUNCTION_LIMIT
  | FUNCTION_LIMITF | FUNCTION_STRLEN
deriving DecidableEq, Repr

open builtin_function_tag in
/-- Values of `builtin_function_tag` in ascending order. -/
def function_list : List builtin_function_tag :=
  [ FUNCTION_INT, FUNCTION_DOUBLE, FUNCTION_STR, FUNCTION_PEEK, FUNCTION_WPEEK,
    FUNCTION_LPEEK, FUNCTION_RND, FUNCTION_ABS, FUNCTION_ABSF, FUNCTION_DEG2RAD,
    FUNCTION_RAD2DEG, FUNCTION_SIN, FUNCTION_COS, FUNCTION_TAN, FUNCTION_ATAN,
    FUNCTION_EXPF, FUNCTION_LOGF, FUNCTION_POWF, FUNCTION_SQRT, FUNCTION_LIMIT,
    FUNCTION_LIMITF, FUNCTION_STRLEN ]

open builtin_function_tag in
/-- Table of `query_function` (neteruhsp.cc:6157). -/
def function_table : List (builtin_function_tag × String) :=
  [ (FUNCTION_INT, "int"), (FUNCTION_DOUBLE, "double"), (FUNCTION_STR, "str"),
    (FUNCTION_PEEK, "peek"), (FUNCTION_WPEEK, "wpeek"), (FUNCTION_LPEEK, "lpeek"),
    (FUNCTION_RND, "rnd"), (FUNCTION_ABS, "abs"), (FUNCTION_ABSF, "absf"),
    (FUNCTION_DEG2RAD, "deg2rad"), (FUNCTION_RAD2DEG, "rad2deg"), (FUNCTION_SIN, "sin"),
    (FUNCTION_COS, "cos"), (FUNCTION_TAN, "tan"), (FUNCTION_ATAN, "atan"),
    (FUNCTION_EXPF, "expf"), (FUNCTION_LOGF, "logf"), (FUNCTION_POWF, "powf"),
    (FUNCTION_SQRT, "sqrt"), (FUNCTION_LIMIT, "limit"), (FUNCTION_LIMITF, "limitf"),
    (FUNCTION_STRLEN, "strlen") ]

/-- Source function `query_function` (neteruhsp.cc:6151), `none` for -1. -/
def query_function (s : CStr) : Option builtin_function_tag := query_table function_table s

/-- Source struct `label_node_t` (neteruhsp.hh:585).  The pre-pass of `load_script` leaves
`position_` uninitialised (the node comes from `xmalloc`); it is `none` until the code
generator reaches a label statement of that name, and reading it before is undefined. -/
structure label_node_t where
  name_ : CStr
  position_ : Option Int
deriving DecidableEq, Repr

/-- Source struct `execute_environment_t` (neteruhsp.hh:684).  `execute_code_` is the
sequence of the `code_size_` words written so far.  Operands that are pointers take two
words (`sizeof(void*) = 8`): the first holds the index of the label in `label_table_`, of
the variable in `variable_table_`, or of the string in `string_table_`, the second is 0.
`string_table_` stands for the token contents, owned by the syntax trees, that
`OPERATOR_PUSH_STRING` operands point to; the lists of parsers and syntax trees, kept
by the program for ownership only, are left out. -/
structure execute_environment_t where
  label_table_ : List label_node_t
  variable_table_ : List variable_t
  execute_code_ : List Int
  string_table_ : List CStr
deriving DecidableEq, Repr

/-- Source function `create_execute_environment` (neteruhsp.cc:4993). -/
def create_execute_environment : execute_environment_t :=
  { label_table_ := [], variable_table_ := [], execute_code_ := [], string_table_ := [] }

/-- Source function `search_label` (neteruhsp.cc:276): the index of the first label of the
table with that name up to ASCII case. -/
def search_label (e : execute_environment_t) (name : CStr) : Option Nat :=
  let i := e.label_table_.findIdx (fun label => string_equal_igcase label.name_ name (-1))
  if i < e.label_table_.length then some i else none

/-- Source constant `MAX_CALL_FRAME` (neteruhsp.hh:672). -/
def MAX_CALL_FRAME : Int := 16

/-- Source constant `MAX_LOOP_FRAME` (neteruhsp.hh:682). -/
def MAX_LOOP_FRAME : Int := 16

/-- Source struct `loop_frame_t` (neteruhsp.hh:674). -/
structure loop_frame_t where
  start_position_ : Int
  end_position_ : Int
  counter_ : Int
  max_ : Int
  cnt_ : Int
deriving DecidableEq, Repr

/-- Source struct `execute_status_t` (neteruhsp.hh:695).  `call_frame_` holds the
`caller_poisition_` of each of the 16 call frames.  Added to the fields of the source
are the process state the built-ins act on: the lines written to standard output, the
unread rest of standard input, and the seed and number of draws of the generator behind
`rand`. -/
structure execute_status_t where
  stack_ : List value_t
  pc_ : Int
  call_frame_ : List Int
  current_call_frame_ : Int
  loop_frame_ : List loop_frame_t
  current_loop_frame_ : Int
  is_end_ : Bool
  stat_ : Int
  refdval_ : Dbl
  refstr_ : CStr
  strsize_ : Int
  stdout_ : List CStr
  stdin_ : CStr
  rand_seed_ : Nat
  rand_calls_ : Nat
deriving DecidableEq, Repr

/-- Source function `initialize_execute_status` (neteruhsp.cc:5049); frames the source
leaves uninitialised are zero. -/
def initialize_execute_status (stdin : CStr) : execute_status_t :=
  { stack_ := [], pc_ := 0,
    call_frame_ := List.replicate 16 0, current_call_frame_ := 0,
    loop_frame_ := List.replicate 16 ⟨0, 0, 0, 0, 0⟩, current_loop_frame_ := 0,
    is_end_ := false, stat_ := 0, refdval_ := Dbl.zero false, refstr_ := [], strsize_ := 0,
    stdout_ := [], stdin_ := stdin, rand_seed_ := 1, rand_calls_ := 0 }

/-- Functions of `<cmath>` the built-ins call. -/
inductive math_fn
  | sin | cos | tan | atan2 | exp | log | pow | sqrt
deriving DecidableEq, Repr

/-- What the program takes from its platform and is not fixed by the source: whether plain
`char` is signed, the generator behind `rand` (draw number `k` after `srand( seed )`),
the clock read by `time`, and the functions of `<cmath>` (the second argument is unused
by the unary ones). -/
structure host_t where
  char_signed : Bool
  rand : Nat → Nat → Int
  time : Int
  math : math_fn → Dbl → Dbl → Dbl

/-- Element `a[i]` of a fixed array; outside of it the access is undefined. -/
def array_get {α : Type} (a : List α) (i : Int) (line : Nat) : Except Err α :=
  if 0 ≤ i then in_bounds line a[i.toNat]? else .error (.undefined line)

/-- Assignment `a[i] = x` to a fixed array; outside of it the access is undefined. -/
def array_set {α : Type} (a : List α) (i : Int) (x : α) (line : Nat) : Except Err (List α) :=
  if 0 ≤ i ∧ i < a.length then pure (a.set i.toNat x) else .error (.undefined line)

/-- Value of `codes[ pc ]`; outside of the words written so far the read is undefined. -/
def code_at (e : execute_environment_t) (pc : Int) (line : Nat) : Except Err Int :=
  array_get e.execute_code_ pc line

/-- Source function `code_get_block` (neteruhsp.cc:266) for a pointer: the index held by
the two words at `pc`. -/
def code_get_pointer (e : execute_environment_t) (pc : Int) (line : Nat) : Except Err Nat := do
  let lo ← code_at e pc line
  let _ ← code_at e (pc + 1) line
  if 0 ≤ lo then pure lo.toNat else .error (.undefined line)

/-- Source function `code_get_block` (neteruhsp.cc:266) for a `double`: the value whose
low and high halves are the two words at `pc`. -/
def code_get_double (e : execute_environment_t) (pc : Int) (line : Nat) : Except Err Dbl := do
  let lo ← code_at e pc line
  let hi ← code_at e (pc + 1) line
  pure ⟨to_u32 lo + 4294967296 * to_u32 hi⟩

/-! ## Built-in commands and functions -/

/-- State of a run: the environment (its variable table changes) and the status. -/
abbrev machine_t := execute_environment_t × execute_status_t

/-- Source constant `NHSP_MPI` (neteruhsp.cc:24). -/
def NHSP_MPI : Dbl := atof "3.141592653589793238".toList

/-- Source function `command_devterm` (neteruhsp.cc:292). -/
def command_devterm (e : execute_environment_t) (s : execute_status_t) (arg_num : Int) :
    Except Err machine_t := do
  let st ← stack_pop s.stack_ arg_num
  pure (e, { s with stack_ := st })

/-- Source function `command_dim` (neteruhsp.cc:297). -/
def command_dim (e : execute_environment_t) (s : execute_status_t) (arg_num : Int) :
    Except Err machine_t := do
  if arg_num < 2 then throw (.raise 301)
  if arg_num > 2 then throw (.raise 305)
  let arg_start := -arg_num
  let v ← stack_peek s.stack_ arg_start
  match v with
  | .variable var index =>
      if index > 0 then throw (.raise 316)
      let n ← stack_peek s.stack_ (arg_start + 1)
      let num ← value_calc_int e.variable_table_ n
      if num ≤ 0 then throw (.raise 323)
      let x ← deref_variable e.variable_table_ var 326
      let x ← prepare_variable x value_tag.VALUE_INT 64 num
      let st ← stack_pop s.stack_ arg_num
      pure ({ e with variable_table_ := e.variable_table_.set var x }, { s with stack_ := st })
  | _ => throw (.raise 312)

/-- Source function `command_ddim` (neteruhsp.cc:331). -/
def command_ddim (e : execute_environment_t) (s : execute_status_t) (arg_num : Int) :
    Except Err machine_t := do
  if arg_num < 2 then throw (.raise 335)
  if arg_num > 2 then throw (.raise 339)
  let arg_start := -arg_num
  let v ← stack_peek s.stack_ arg_start
  match v with
  | .variable var index =>
      if index > 0 then throw (.raise 350)
      let n ← stack_peek s.stack_ (arg_start + 1)
      let num ← value_calc_int e.variable_table_ n
      if num ≤ 0 then throw (.raise 357)
      let x ← deref_variable e.variable_table_ var 360
      let x ← prepare_variable x value_tag.VALUE_DOUBLE 64 num
      let st ← stack_pop s.stack_ arg_num
      pure ({ e with variable_table_ := e.variable_table_.set var x }, { s with stack_ := st })
  | _ => throw (.raise 346)

/-- Source function `command_sdim` (neteruhsp.cc:365). -/
def command_sdim (e : execute_environment_t) (s : execute_status_t) (arg_num : Int) :
    Except Err machine_t := do
  if arg_num < 2 then throw (.raise 369)
  if arg_num > 3 then throw (.raise 373)
  let arg_start := -arg_num
  let v ← stack_peek s.stack_ arg_start
  match v with
  | .variable var index =>
      if index > 0 then throw (.raise 384)
      let g ← stack_peek s.stack_ (arg_start + 1)
      let granule ← value_calc_int e.variable_table_ g
      let num ←
        if arg_num > 2 then do
          let n ← stack_peek s.stack_ (arg_start + 2)
          value_calc_int e.variable_table_ n
        else pure 1
      if granule ≤ 0 then throw (.raise 393)
      if num ≤ 0 then throw (.raise 397)
      let x ← deref_variable e.variable_table_ var 400
      let x ← prepare_variable x value_tag.VALUE_STRING granule num
      let st ← stack_pop s.stack_ arg_num
      pure ({ e with variable_table_ := e.variable_table_.set var x }, { s with stack_ := st })
  | _ => throw (.raise 380)

/-- Source function `command_poke` (neteruhsp.cc:405). -/
def command_poke (e : execute_environment_t) (s : execute_status_t) (arg_num : Int) :
    Except Err machine_t := do
  if arg_num < 3 then throw (.raise 409)
  if arg_num > 3 then throw (.raise 413)
  let arg_start := -arg_num
  let v ← stack_peek s.stack_ arg_start
  match v with
  | .variable var_ index =>
      if index > 0 then throw (.raise 425)
      let var ← deref_variable e.variable_table_ var_ 439
      let i ← stack_peek s.stack_ (arg_start + 1)
      let byte_idx ← value_calc_int e.variable_table_ i
      let wp ← stack_peek s.stack_ (arg_start + 2)
      let w ← value_calc_int e.variable_table_ wp
      if byte_idx < 0 ∨ var.data_size_ < byte_idx + 1 then throw (.raise 439)
      let x ← store_bytes var byte_idx (le_bytes 1 (to_u32 w)) 444
      let st ← stack_pop s.stack_ arg_num
      pure ({ e with variable_table_ := e.variable_table_.set var_ x }, { s with stack_ := st })
  | _ => throw (.raise 420)

/-- Source function `command_wpoke` (neteruhsp.cc:449). -/
def command_wpoke (e : execute_environment_t) (s : execute_status_t) (arg_num : Int) :
    Except Err machine_t := do
  if arg_num < 3 then throw (.raise 453)
  if arg_num > 3 then throw (.raise 457)
  let arg_start := -arg_num
  let v ← stack_peek s.stack_ arg_start
  match v with
  | .variable var_ index =>
      if index > 0 then throw (.raise 469)
      let var ← deref_variable e.variable_table_ var_ 483
      let i ← stack_peek s.stack_ (arg_start + 1)
      let byte_idx ← value_calc_int e.variable_table_ i
      let wp ← stack_peek s.stack_ (arg_start + 2)
      let w ← value_calc_int e.variable_table_ wp
      if byte_idx < 0 ∨ var.data_size_ < byte_idx + 2 then throw (.raise 483)
      let x ← store_bytes var byte_idx (le_bytes 2 (to_u32 w)) 488
      let st ← stack_pop s.stack_ arg_num
      pure ({ e with variable_table_ := e.variable_table_.set var_ x }, { s with stack_ := st })
  | _ => throw (.raise 464)

/-- Source function `command_lpoke` (neteruhsp.cc:493). -/
def command_lpoke (e : execute_environment_t) (s : execute_status_t) (arg_num : Int) :
    Except Err machine_t := do
  if arg_num < 3 then throw (.raise 497)
  if arg_num > 3 then throw (.raise 501)
  let arg_start := -arg_num
  let v ← stack_peek s.stack_ arg_start
  match v with
  | .variable var_ index =>
      if index > 0 then throw (.raise 513)
      let var ← deref_variable e.variable_table_ var_ 527
      let i ← stack_peek s.stack_ (arg_start + 1)
      let byte_idx ← value_calc_int e.variable_table_ i
      let wp ← stack_peek s.stack_ (arg_start + 2)
      let w ← value_calc_int e.variable_table_ wp
      if byte_idx < 0 ∨ var.data_size_ < byte_idx + 4 then throw (.raise 527)
      let x ← store_bytes var byte_idx (le_bytes 4 (to_u32 w)) 532
      let st ← stack_pop s.stack_ arg_num
      pure ({ e with variable_table_ := e.variable_table_.set var_ x }, { s with stack_ := st })
  | _ => throw (.raise 508)

/-- Source function `command_mes` (neteruhsp.cc:537): the line goes to standard output. -/
def command_mes (e : execute_environment_t) (s : execute_status_t) (arg_num : Int) :
    Except Err machine_t := do
  if arg_num ≤ 0 then throw (.raise 541)
  if arg_num > 1 then throw (.raise 545)
  let m ← stack_peek s.stack_ (-1)
  let m ← value_isolate e.variable_table_ m
  match m with
  | .string str =>
      let st ← stack_pop (stack_update s.stack_ (-1) m) arg_num
      pure (e, { s with stack_ := st, stdout_ := s.stdout_ ++ [str] })
  | _ => throw (.raise 552)

/-- Loop `for( ; ; )` of `command_input` (neteruhsp.cc:589-618) with `n` characters of
room left in the buffer: the characters stored and the rest of standard input. -/
def input_loop (mode : Int) : Nat → CStr → CStr × CStr
  | 0, inp => ([], inp)
  | _ + 1, [] => ([], [])
  | n + 1, ch :: rest =>
      if mode == 1 && ch == '\n' then ([], rest)
      else if mode == 2 && ch == '\n' then ([], rest)
      else if mode == 2 && ch == '\r' && rest.head? == some '\n' then ([], rest.tail)
      else
        let r := input_loop mode n rest
        (ch :: r.1, r.2)

/-- Source function `command_input` (neteruhsp.cc:560).  A negative buffer length makes
`xmalloc` fail and the terminator is written through a null pointer. -/
def command_input (e : execute_environment_t) (s : execute_status_t) (arg_num : Int) :
    Except Err machine_t := do
  if arg_num < 2 then throw (.raise 564)
  if arg_num > 3 then throw (.raise 568)
  let arg_start := -arg_num
  let v ← stack_peek s.stack_ arg_start
  match v with
  | .variable var index =>
      if index > 0 then throw (.raise 579)
      let n ← stack_peek s.stack_ (arg_start + 1)
      let len := wrap32 ((← value_calc_int e.variable_table_ n) + 1)
      let mode ←
        if arg_num > 2 then do
          let m ← stack_peek s.stack_ (arg_start + 2)
          value_calc_int e.variable_table_ m
        else pure 0
      if len < 0 then throw (.undefined 619)
      let (buf, rest) := input_loop mode len.toNat s.stdin_
      let t : value_t := .string (buf.takeWhile (· != NUL))
      let x ← deref_variable e.variable_table_ var 622
      let table ← variable_set_by_name e.variable_table_ t x.name_ 0
      let st ← stack_pop s.stack_ arg_num
      pure ({ e with variable_table_ := table },
            { s with stack_ := st, stdin_ := rest, strsize_ := buf.length })
  | _ => throw (.raise 575)

/-- Source function `command_randomize` (neteruhsp.cc:630). -/
def command_randomize (h : host_t) (e : execute_environment_t) (s : execute_status_t)
    (arg_num : Int) : Except Err machine_t := do
  if arg_num > 1 then throw (.raise 634)
  let seed ←
    if arg_num == 0 then pure (to_u32 h.time)
    else do
      let m ← stack_peek s.stack_ (-1)
      let i ← value_calc_int e.variable_table_ m
      pure (to_u32 i)
  let st ← stack_pop s.stack_ arg_num
  pure (e, { s with stack_ := st, rand_seed_ := seed, rand_calls_ := 0 })

/-- Source function `command_bench` (neteruhsp.cc:652) with
`NHSP_CONFIG_PERFORMANCE_TIMER` 0. -/
def command_bench (_e : execute_environment_t) (_s : execute_status_t) (_arg_num : Int) :
    Except Err machine_t :=
  .error (.assertion 682)

open builtin_command_tag in
/-- Source function `get_command_delegate` (neteruhsp.cc:6131). -/
def get_command_delegate (h : host_t) (command : builtin_command_tag) :
    execute_environment_t → execute_status_t → Int → Except Err machine_t :=
  match command with
  | COMMAND_DEVTERM => command_devterm
  | COMMAND_DIM => command_dim
  | COMMAND_DDIM => command_ddim
  | COMMAND_SDIM => command_sdim
  | COMMAND_POKE => command_poke
  | COMMAND_WPOKE => command_wpoke
  | COMMAND_LPOKE => command_lpoke
  | COMMAND_MES => command_mes
  | COMMAND_INPUT => command_input
  | COMMAND_RANDOMIZE => command_randomize h
  | COMMAND_BENCH => command_bench

/-- Source function `function_int` (neteruhsp.cc:689). -/
def function_int (e : execute_environment_t) (s : execute_status_t) (arg_num : Int) :
    Except Err machine_t := do
  if arg_num ≤ 0 then throw (.raise 693)
  if arg_num > 1 then throw (.raise 697)
  let m ← stack_peek s.stack_ (-1)
  let r ← value_calc_int e.variable_table_ m
  let st ← stack_pop s.stack_ arg_num
  pure (e, { s with stack_ := stack_push st (.int r) })

/-- Source function `function_double` (neteruhsp.cc:707). -/
def function_double (e : execute_environment_t) (s : execute_status_t) (arg_num : Int) :
    Except Err machine_t := do
  if arg_num ≤ 0 then throw (.raise 711)
  if arg_num > 1 then throw (.raise 715)
  let m ← stack_peek s.stack_ (-1)
  let r ← value_calc_double e.variable_table_ m
  let st ← stack_pop s.stack_ arg_num
  pure (e, { s with stack_ := stack_push st (.double r) })

/-- Source function `function_str` (neteruhsp.cc:725). -/
def function_str (e : execute_environment_t) (s : execute_status_t) (arg_num : Int) :
    Except Err machine_t := do
  if arg_num ≤ 0 then throw (.raise 729)
  if arg_num > 1 then throw (.raise 733)
  let m ← stack_peek s.stack_ (-1)
  let r ← value_calc_string e.variable_table_ m
  let st ← stack_pop s.stack_ arg_num
  pure (e, { s with stack_ := stack_push st (.string r) })

/-- Conversion of a byte read through `const char*` to `int`: sign-extended where plain
`char` is signed, zero-extended where it is unsigned. -/
def char_to_int (h : host_t) (b : Nat) : Int :=
  if h.char_signed && decide (128 ≤ b) then (b : Int) - 256 else b

/-- Conversion of a 16-bit pattern to `int` through `std::int16_t`. -/
def int16_to_int (n : Nat) : Int := if 32768 ≤ n then (n : Int) - 65536 else n

/-- Source function `function_peek` (neteruhsp.cc:743). -/
def function_peek (h : host_t) (e : execute_environment_t) (s : execute_status_t) (arg_num : Int) :
    Except Err machine_t := do
  if arg_num ≤ 1 then throw (.raise 747)
  if arg_num > 2 then throw (.raise 751)
  let arg_start := -arg_num
  let v ← stack_peek s.stack_ arg_start
  match v with
  | .variable var_ index =>
      if index > 0 then throw (.raise 762)
      let var ← deref_variable e.variable_table_ var_ 773
      let n ← stack_peek s.stack_ (arg_start + 1)
      let byte_idx ← value_calc_int e.variable_table_ n
      if byte_idx < 0 ∨ var.data_size_ < byte_idx + 1 then throw (.raise 773)
      let bs ← in_bounds 778 (mem_read var.data_ byte_idx 1)
      let res : Int := char_to_int h (le_value bs)
      let st ← stack_pop s.stack_ arg_num
      pure (e, { s with stack_ := stack_push st (.int res) })
  | _ => throw (.raise 758)

/-- Source function `function_wpeek` (neteruhsp.cc:784). -/
def function_wpeek (h : host_t) (e : execute_environment_t) (s : execute_status_t) (arg_num : Int) :
    Except Err machine_t := do
  if arg_num ≤ 1 then throw (.raise 788)
  if arg_num > 2 then throw (.raise 792)
  let arg_start := -arg_num
  let v ← stack_peek s.stack_ arg_start
  match v with
  | .variable var_ index =>
      if index > 0 then throw (.raise 803)
      let var ← deref_variable e.variable_table_ var_ 814
      let n ← stack_peek s.stack_ (arg_start + 1)
      let byte_idx ← value_calc_int e.variable_table_ n
      if byte_idx < 0 ∨ var.data_size_ < byte_idx + 2 then throw (.raise 814)
      let bs ← in_bounds 820 (mem_read var.data_ byte_idx 2)
      let _ := h
      let res : Int := int16_to_int (le_value bs)
      let st ← stack_pop s.stack_ arg_num
      pure (e, { s with stack_ := stack_push st (.int res) })
  | _ => throw (.raise 799)

/-- Source function `function_lpeek` (neteruhsp.cc:826). -/
def function_lpeek (h : host_t) (e : execute_environment_t) (s : execute_status_t) (arg_num : Int) :
    Except Err machine_t := do
  if arg_num ≤ 1 then throw (.raise 830)
  if arg_num > 2 then throw (.raise 834)
  let arg_start := -arg_num
  let v ← stack_peek s.stack_ arg_start
  match v with
  | .variable var_ index =>
      if index > 0 then throw (.raise 845)
      let var ← deref_variable e.variable_table_ var_ 856
      let n ← stack_peek s.stack_ (arg_start + 1)
      let byte_idx ← value_calc_int e.variable_table_ n
      if byte_idx < 0 ∨ var.data_size_ < byte_idx + 4 then throw (.raise 856)
      let bs ← in_bounds 862 (mem_read var.data_ byte_idx 4)
      let _ := h
      let res : Int := wrap32 (le_value bs)
      let st ← stack_pop s.stack_ arg_num
      pure (e, { s with stack_ := stack_push st (.int res) })
  | _ => throw (.raise 841)

/-- Source function `function_rnd` (neteruhsp.cc:868). -/
def function_rnd (h : host_t) (e : execute_environment_t) (s : execute_status_t)
    (arg_num : Int) : Except Err machine_t := do
  if arg_num ≤ 0 then throw (.raise 872)
  if arg_num > 1 then throw (.raise 876)
  let m ← stack_peek s.stack_ (-1)
  let r ← value_calc_int e.variable_table_ m
  if r < 1 then throw (.raise 883)
  let st ← stack_pop s.stack_ arg_num
  let res := Int.tmod (h.rand s.rand_seed_ s.rand_calls_) r
  pure (e, { s with stack_ := stack_push st (.int res), rand_calls_ := s.rand_calls_ + 1 })

/-- Source function `function_abs` (neteruhsp.cc:891). -/
def function_abs (e : execute_environment_t) (s : execute_status_t) (arg_num : Int) :
    Except Err machine_t := do
  if arg_num ≤ 0 then throw (.raise 895)
  if arg_num > 1 then throw (.raise 899)
  let m ← stack_peek s.stack_ (-1)
  let r ← value_calc_int e.variable_table_ m
  let st ← stack_pop s.stack_ arg_num
  let res := if r < 0 then wrap32 (-r) else r
  pure (e, { s with stack_ := stack_push st (.int res) })

/-- Source function `function_absf` (neteruhsp.cc:910). -/
def function_absf (h : host_t) (e : execute_environment_t) (s : execute_status_t) (arg_num : Int) :
    Except Err machine_t := do
  if arg_num ≤ 0 then throw (.raise 914)
  if arg_num > 1 then throw (.raise 918)
  let m ← stack_peek s.stack_ (-1)
  let r ← value_calc_double e.variable_table_ m
  let st ← stack_pop s.stack_ arg_num
  let _ := h
  pure (e, { s with stack_ := stack_push st (.double (if Dbl.lt r (Dbl.zero false) then Dbl.neg r else r)) })

/-- Source function `function_deg2rad` (neteruhsp.cc:929). -/
def function_deg2rad (h : host_t) (e : execute_environment_t) (s : execute_status_t) (arg_num : Int) :
    Except Err machine_t := do
  if arg_num ≤ 0 then throw (.raise 933)
  if arg_num > 1 then throw (.raise 937)
  let m ← stack_peek s.stack_ (-1)
  let r ← value_calc_double e.variable_table_ m
  let st ← stack_pop s.stack_ arg_num
  let _ := h
  pure (e, { s with stack_ := stack_push st (.double (Dbl.div (Dbl.mul r NHSP_MPI) (Dbl.ofInt 180))) })

/-- Source function `function_rad2deg` (neteruhsp.cc:948). -/
def function_rad2deg (h : host_t) (e : execute_environment_t) (s : execute_status_t) (arg_num : Int) :
    Except Err machine_t := do
  if arg_num ≤ 0 then throw (.raise 952)
  if arg_num > 1 then throw (.raise 956)
  let m ← stack_peek s.stack_ (-1)
  let r ← value_calc_double e.variable_table_ m
  let st ← stack_pop s.stack_ arg_num
  let _ := h
  pure (e, { s with stack_ := stack_push st (.double (Dbl.div (Dbl.mul r (Dbl.ofInt 180)) NHSP_MPI)) })

/-- Source function `function_sin` (neteruhsp.cc:967). -/
def function_sin (h : host_t) (e : execute_environment_t) (s : execute_status_t) (arg_num : Int) :
    Except Err machine_t := do
  if arg_num ≤ 0 then throw (.raise 971)
  if arg_num > 1 then throw (.raise 975)
  let m ← stack_peek s.stack_ (-1)
  let r ← value_calc_double e.variable_table_ m
  let st ← stack_pop s.stack_ arg_num
  let _ := h
  pure (e, { s with stack_ := stack_push st (.double (h.math .sin r r)) })

/-- Source function `function_cos` (neteruhsp.cc:986). -/
def function_cos (h : host_t) (e : execute_environment_t) (s : execute_status_t) (arg_num : Int) :
    Except Err machine_t := do
  if arg_num ≤ 0 then throw (.raise 990)
  if arg_num > 1 then throw (.raise 995)
  let m ← stack_peek s.stack_ (-1)
  let r ← value_calc_double e.variable_table_ m
  let st ← stack_pop s.stack_ arg_num
  let _ := h
  pure (e, { s with stack_ := stack_push st (.double (h.math .cos r r)) })

/-- Source function `function_tan` (neteruhsp.cc:1007). -/
def function_tan (h : host_t) (e : execute_environment_t) (s : execute_status_t) (arg_num : Int) :
    Except Err machine_t := do
  if arg_num ≤ 0 then throw (.raise 1011)
  if arg_num > 1 then throw (.raise 1015)
  let m ← stack_peek s.stack_ (-1)
  let r ← value_calc_double e.variable_table_ m
  let st ← stack_pop s.stack_ arg_num
  let _ := h
  pure (e, { s with stack_ := stack_push st (.double (h.math .tan r r)) })

/-- Source function `function_expf` (neteruhsp.cc:1048). -/
def function_expf (h : host_t) (e : execute_environment_t) (s : execute_status_t) (arg_num : Int) :
    Except Err machine_t := do
  if arg_num ≤ 0 then throw (.raise 1052)
  if arg_num > 1 then throw (.raise 1056)
  let m ← stack_peek s.stack_ (-1)
  let r ← value_calc_double e.variable_table_ m
  let st ← stack_pop s.stack_ arg_num
  let _ := h
  pure (e, { s with stack_ := stack_push st (.double (h.math .exp r r)) })

/-- Source function `function_logf` (neteruhsp.cc:1067). -/
def function_logf (h : host_t) (e : execute_environment_t) (s : execute_status_t) (arg_num : Int) :
    Except Err machine_t := do
  if arg_num ≤ 0 then throw (.raise 1071)
  if arg_num > 1 then throw (.raise 1075)
  let m ← stack_peek s.stack_ (-1)
  let r ← value_calc_double e.variable_table_ m
  let st ← stack_pop s.stack_ arg_num
  let _ := h
  pure (e, { s with stack_ := stack_push st (.double (h.math .log r r)) })

/-- Source function `function_sqrt` (neteruhsp.cc:1108). -/
def function_sqrt (h : host_t) (e : execute_environment_t) (s : execute_status_t) (arg_num : Int) :
    Except Err machine_t := do
  if arg_num ≤ 0 then throw (.raise 1112)
  if arg_num > 1 then throw (.raise 1116)
  let m ← stack_peek s.stack_ (-1)
  let r ← value_calc_double e.variable_table_ m
  let st ← stack_pop s.stack_ arg_num
  let _ := h
  pure (e, { s with stack_ := stack_push st (.double (h.math .sqrt r r)) })

/-- Source function `function_atan` (neteruhsp.cc:1026). -/
def function_atan (h : host_t) (e : execute_environment_t) (s : execute_status_t)
    (arg_num : Int) : Except Err machine_t := do
  if arg_num < 2 then throw (.raise 1030)
  if arg_num > 2 then throw (.raise 1034)
  let arg_start := -arg_num
  let vy ← stack_peek s.stack_ (arg_start + 0)
  let vx ← stack_peek s.stack_ (arg_start + 1)
  let y ← value_calc_double e.variable_table_ vy
  let x ← value_calc_double e.variable_table_ vx
  let st ← stack_pop s.stack_ arg_num
  pure (e, { s with stack_ := stack_push st (.double (h.math .atan2 y x)) })

/-- Source function `function_powf` (neteruhsp.cc:1086). -/
def function_powf (h : host_t) (e : execute_environment_t) (s : execute_status_t)
    (arg_num : Int) : Except Err machine_t := do
  if arg_num ≤ 0 then throw (.raise 1090)
  if arg_num > 2 then throw (.raise 1094)
  let arg_start := -arg_num
  let vx ← stack_peek s.stack_ (arg_start + 0)
  let vy ← stack_peek s.stack_ (arg_start + 1)
  let x ← value_calc_double e.variable_table_ vx
  let y ← value_calc_double e.variable_table_ vy
  let st ← stack_pop s.stack_ arg_num
  pure (e, { s with stack_ := stack_push st (.double (h.math .pow x y)) })

/-- Source function `function_limit` (neteruhsp.cc:1127). -/
def function_limit (e : execute_environment_t) (s : execute_status_t) (arg_num : Int) :
    Except Err machine_t := do
  if arg_num < 3 then throw (.raise 1131)
  if arg_num > 3 then throw (.raise 1135)
  let arg_start := -arg_num
  let vmi ← stack_peek s.stack_ (arg_start + 0)
  let vm ← stack_peek s.stack_ (arg_start + 1)
  let vma ← stack_peek s.stack_ (arg_start + 2)
  let mi ← value_calc_int e.variable_table_ vmi
  let v ← value_calc_int e.variable_table_ vm
  let ma ← value_calc_int e.variable_table_ vma
  let st ← stack_pop s.stack_ arg_num
  let res := if v < mi then mi else v
  let res := if res > ma then ma else res
  pure (e, { s with stack_ := stack_push st (.int res) })

/-- Source function `function_limitf` (neteruhsp.cc:1155). -/
def function_limitf (e : execute_environment_t) (s : execute_status_t) (arg_num : Int) :
    Except Err machine_t := do
  if arg_num < 3 then throw (.raise 1159)
  if arg_num > 3 then throw (.raise 1163)
  let arg_start := -arg_num
  let vmi ← stack_peek s.stack_ (arg_start + 0)
  let vm ← stack_peek s.stack_ (arg_start + 1)
  let vma ← stack_peek s.stack_ (arg_start + 2)
  let mi ← value_calc_double e.variable_table_ vmi
  let v ← value_calc_double e.variable_table_ vm
  let ma ← value_calc_double e.variable_table_ vma
  let st ← stack_pop s.stack_ arg_num
  let res := if Dbl.lt v mi then mi else v
  let res := if Dbl.lt ma res then ma else res
  pure (e, { s with stack_ := stack_push st (.double res) })

/-- Source function `function_strlen` (neteruhsp.cc:1183). -/
def function_strlen (e : execute_environment_t) (s : execute_status_t) (arg_num : Int) :
    Except Err machine_t := do
  if arg_num ≤ 0 then throw (.raise 1187)
  if arg_num > 1 then throw (.raise 1191)
  let m ← stack_peek s.stack_ (-1)
  if (← value_get_primitive_tag e.variable_table_ m) != value_tag.VALUE_STRING then
    throw (.raise 1197)
  match (← value_get_string e.variable_table_ m) with
  | none => throw (.assertion 1200)
  | some str =>
      let st ← stack_pop s.stack_ arg_num
      pure (e, { s with stack_ := stack_push st (.int (wrap32 str.length)) })

open builtin_function_tag in
/-- Source function `get_function_delegate` (neteruhsp.cc:6193). -/
def get_function_delegate (h : host_t) (function : builtin_function_tag) :
    execute_environment_t → execute_status_t → Int → Except Err machine_t :=
  match function with
  | FUNCTION_INT => function_int
  | FUNCTION_DOUBLE => function_double
  | FUNCTION_STR => function_str
  | FUNCTION_PEEK => function_peek h
  | FUNCTION_WPEEK => function_wpeek h
  | FUNCTION_LPEEK => function_lpeek h
  | FUNCTION_RND => function_rnd h
  | FUNCTION_ABS => function_abs
  | FUNCTION_ABSF => function_absf h
  | FUNCTION_DEG2RAD => function_deg2rad h
  | FUNCTION_RAD2DEG => function_rad2deg h
  | FUNCTION_SIN => function_sin h
  | FUNCTION_COS => function_cos h
  | FUNCTION_TAN => function_tan h
  | FUNCTION_ATAN => function_atan h
  | FUNCTION_EXPF => function_expf h
  | FUNCTION_LOGF => function_logf h
  | FUNCTION_POWF => function_powf h
  | FUNCTION_SQRT => function_sqrt h
  | FUNCTION_LIMIT => function_limit
  | FUNCTION_LIMITF => function_limitf
  | FUNCTION_STRLEN => function_strlen

/-! ## Virtual machine -/

open code_oprator_tag in
/-- The function `execute_inner` calls for a binary operator (neteruhsp.cc:5323-5340). -/
def binary_operator (op : code_oprator_tag) :
    Option (List variable_t → value_t → value_t → Except Err value_t) :=
  match op with
  | OPERATOR_BOR => some value_bor
  | OPERATOR_BAND => some value_band
  | OPERATOR_BXOR => some value_bxor
  | OPERATOR_EQ => some value_eq
  | OPERATOR_NEQ => some value_neq
  | OPERATOR_GT => some value_gt
  | OPERATOR_GTOE => some value_gtoe
  | OPERATOR_LT => some value_lt
  | OPERATOR_LTOE => some value_ltoe
  | OPERATOR_ADD => some value_add
  | OPERATOR_SUB => some value_sub
  | OPERATOR_MUL => some value_mul
  | OPERATOR_DIV => some value_div
  | OPERATOR_MOD => some value_mod
  | _ => none

open code_oprator_tag in
/-- The function `execute_inner` calls for a compound assignment
(neteruhsp.cc:5284-5291). -/
def assign_operator (op : code_oprator_tag) :
    Option (variable_t → value_t → Int → Except Err variable_t) :=
  match op with
  | OPERATOR_ADD_ASSIGN => some variable_add
  | OPERATOR_SUB_ASSIGN => some variable_sub
  | OPERATOR_MUL_ASSIGN => some variable_mul
  | OPERATOR_DIV_ASSIGN => some variable_div
  | OPERATOR_MOD_ASSIGN => some variable_mod
  | OPERATOR_BOR_ASSIGN => some variable_bor
  | OPERATOR_BAND_ASSIGN => some variable_band
  | OPERATOR_BXOR_ASSIGN => some variable_bxor
  | _ => none

open code_oprator_tag sysvar_tag value_tag in
/-- The `switch( op )` of `execute_inner` (neteruhsp.cc:5181-5543) for the operator at
`pc`: the state before the `++pc` that ends the loop body. -/
def execute_operator (h : host_t) (e : execute_environment_t) (s : execute_status_t)
    (op : code_oprator_tag) : Except Err machine_t := do
  let pc := s.pc_
  match op with
  | OPERATOR_NOP => pure (e, s)
  | OPERATOR_PUSH_INT =>
      let v ← code_at e (pc + 1) 5187
      pure (e, { s with stack_ := stack_push s.stack_ (.int v), pc_ := pc + 1 })
  | OPERATOR_PUSH_DOUBLE =>
      let v ← code_get_double e (pc + 1) 5194
      pure (e, { s with stack_ := stack_push s.stack_ (.double v), pc_ := pc + 2 })
  | OPERATOR_PUSH_STRING =>
      let v ← code_get_pointer e (pc + 1) 5203
      let str ← in_bounds 5204 e.string_table_[v]?
      pure (e, { s with stack_ := stack_push s.stack_ (.string str), pc_ := pc + 2 })
  | OPERATOR_PUSH_VARIABLE =>
      let var ← code_get_pointer e (pc + 1) 5212
      if s.stack_.length < 1 then throw (.assertion 5214)
      let i ← stack_peek s.stack_ (-1)
      let idx ← value_calc_int e.variable_table_ i
      let st ← stack_pop s.stack_ 1
      pure (e, { s with stack_ := stack_push st (.variable var idx), pc_ := pc + 2 })
  | OPERATOR_PUSH_SYSVAR =>
      let sysvar ← code_at e (pc + 1) 5226
      let v : value_t ←
        match enum_decode sysvar_list sysvar with
        | some SYSVAR_CNT => do
            if s.current_loop_frame_ ≤ 0 then throw (.raise 5232)
            let frame ← array_get s.loop_frame_ (s.current_loop_frame_ - 1) 5234
            pure (.int frame.cnt_)
        | some SYSVAR_STAT => pure (.int s.stat_)
        | some SYSVAR_REFDVAL => pure (.double s.refdval_)
        | some SYSVAR_REFSTR => pure (.string s.refstr_)
        | some SYSVAR_STRSIZE => pure (.int s.strsize_)
        | some SYSVAR_LOOPLEV => pure (.int s.current_loop_frame_)
        | none => throw (.assertion 5252)
      pure (e, { s with stack_ := stack_push s.stack_ v, pc_ := pc + 1 })
  | OPERATOR_ASSIGN | OPERATOR_ADD_ASSIGN | OPERATOR_SUB_ASSIGN | OPERATOR_MUL_ASSIGN
  | OPERATOR_DIV_ASSIGN | OPERATOR_MOD_ASSIGN | OPERATOR_BOR_ASSIGN
  | OPERATOR_BAND_ASSIGN | OPERATOR_BXOR_ASSIGN =>
      if s.stack_.length < 2 then throw (.assertion 5270)
      let var ← stack_peek s.stack_ (-2)
      match var with
      | .variable variable_ index_ =>
          let v ← stack_peek s.stack_ (-1)
          let v ← value_isolate e.variable_table_ v
          let x ← deref_variable e.variable_table_ variable_ 5283
          let x ←
            match assign_operator op with
            | none => variable_set x v index_
            | some f => do
                let t ← value_convert_type e.variable_table_ x.type_ v
                f x t index_
          let st ← stack_pop (stack_update s.stack_ (-1) v) 2
          pure ({ e with variable_table_ := e.variable_table_.set variable_ x },
                { s with stack_ := st })
      | _ => throw (.raise 5275)
  | OPERATOR_BOR | OPERATOR_BAND | OPERATOR_BXOR | OPERATOR_EQ | OPERATOR_NEQ
  | OPERATOR_GT | OPERATOR_GTOE | OPERATOR_LT | OPERATOR_LTOE | OPERATOR_ADD
  | OPERATOR_SUB | OPERATOR_MUL | OPERATOR_DIV | OPERATOR_MOD =>
      if s.stack_.length < 2 then throw (.assertion 5318)
      let l ← stack_peek s.stack_ (-2)
      let r ← stack_peek s.stack_ (-1)
      let l ← value_isolate e.variable_table_ l
      match binary_operator op with
      | none => throw (.assertion 5339)
      | some f =>
          let l ← f e.variable_table_ l r
          let st ← stack_pop (stack_update s.stack_ (-2) l) 1
          pure (e, { s with stack_ := st })
  | OPERATOR_UNARY_MINUS =>
      if s.stack_.length < 1 then throw (.assertion 5347)
      let v ← stack_peek s.stack_ (-1)
      let v ← value_isolate e.variable_table_ v
      let v ← value_unary_minus v
      pure (e, { s with stack_ := stack_update s.stack_ (-1) v })
  | OPERATOR_IF =>
      let cond ← stack_peek s.stack_ (-1)
      let is_cond ← value_calc_boolean e.variable_table_ cond
      let st ← stack_pop s.stack_ 1
      if is_cond then pure (e, { s with stack_ := st, pc_ := pc + 1 })
      else
        let false_head ← code_at e (pc + 1) 5365
        pure (e, { s with stack_ := st, pc_ := pc + (false_head - 1) })
  | OPERATOR_REPEAT =>
      if s.current_loop_frame_ + 1 ≥ MAX_LOOP_FRAME ∨ s.current_loop_frame_ + 1 < 0 then
        throw (.raise 5375)
      let end_position ← code_at e (pc + 1) 5378
      let _ ← array_get s.loop_frame_ s.current_loop_frame_ 5380
      let v ← stack_peek s.stack_ (-1)
      let loop_num ← value_calc_int e.variable_table_ v
      let st ← stack_pop s.stack_ 1
      let frame : loop_frame_t :=
        { start_position_ := pc + 2, end_position_ := end_position, counter_ := 0,
          max_ := loop_num, cnt_ := 0 }
      let frames ← array_set s.loop_frame_ s.current_loop_frame_ frame 5380
      pure (e, { s with stack_ := st, loop_frame_ := frames,
                        current_loop_frame_ := s.current_loop_frame_ + 1, pc_ := pc + 1 })
  | OPERATOR_REPEAT_CHECK =>
      if ¬ (s.current_loop_frame_ > 0) then throw (.assertion 5399)
      let frame ← array_get s.loop_frame_ (s.current_loop_frame_ - 1) 5400
      if frame.max_ ≥ 0 ∧ frame.counter_ ≥ frame.max_ then
        pure (e, { s with pc_ := frame.end_position_,
                          current_loop_frame_ := s.current_loop_frame_ - 1 })
      else pure (e, s)
  | OPERATOR_LOOP | OPERATOR_CONTINUE =>
      if s.current_loop_frame_ ≤ 0 then throw (.raise 5414)
      let frame ← array_get s.loop_frame_ (s.current_loop_frame_ - 1) 5417
      let frame := { frame with counter_ := wrap32 (frame.counter_ + 1),
                                cnt_ := wrap32 (frame.cnt_ + 1) }
      let frames ← array_set s.loop_frame_ (s.current_loop_frame_ - 1) frame 5417
      pure (e, { s with loop_frame_ := frames, pc_ := frame.start_position_ - 1 })
  | OPERATOR_BREAK =>
      if s.current_loop_frame_ ≤ 0 then throw (.raise 5427)
      let frame ← array_get s.loop_frame_ (s.current_loop_frame_ - 1) 5430
      pure (e, { s with pc_ := frame.end_position_,
                        current_loop_frame_ := s.current_loop_frame_ - 1 })
  | OPERATOR_LABEL => pure (e, s)
  | OPERATOR_GOSUB =>
      if s.current_call_frame_ + 1 ≥ MAX_CALL_FRAME ∨ s.current_call_frame_ + 1 < 0 then
        throw (.raise 5444)
      let label ← code_get_pointer e (pc + 1) 5448
      let frames ← array_set s.call_frame_ s.current_call_frame_ (pc + 2) 5451
      let l ← in_bounds 5455 e.label_table_[label]?
      let position ← in_bounds 5455 l.position_
      pure (e, { s with call_frame_ := frames,
                        current_call_frame_ := s.current_call_frame_ + 1,
                        pc_ := position - 1 })
  | OPERATOR_GOTO =>
      let label ← code_get_pointer e (pc + 1) 5461
      let l ← in_bounds 5463 e.label_table_[label]?
      let position ← in_bounds 5463 l.position_
      pure (e, { s with pc_ := position - 1 })
  | OPERATOR_COMMAND =>
      let command ← code_at e (pc + 1) 5469
      if ¬ (command ≥ 0) then throw (.assertion 5470)
      let arg_num ← code_at e (pc + 2) 5471
      let tag ← in_bounds 5474 (enum_decode command_list command)
      let top : Int := s.stack_.length
      let (e, s) ← get_command_delegate h tag e s arg_num
      if ¬ ((s.stack_.length : Int) = top - arg_num) then throw (.assertion 5478)
      pure (e, { s with pc_ := pc + 2 })
  | OPERATOR_FUNCTION =>
      let function ← code_at e (pc + 1) 5485
      if ¬ (function ≥ 0) then throw (.assertion 5486)
      let arg_num ← code_at e (pc + 2) 5487
      let tag ← in_bounds 5490 (enum_decode function_list function)
      let top : Int := s.stack_.length
      let (e, s) ← get_function_delegate h tag e s arg_num
      if ¬ ((s.stack_.length : Int) = top - arg_num + 1) then throw (.assertion 5494)
      pure (e, { s with pc_ := pc + 2 })
  | OPERATOR_JUMP =>
      let target ← code_at e (pc + 1) 5502
      pure (e, { s with pc_ := target - 1 })
  | OPERATOR_JUMP_RELATIVE =>
      let offset ← code_at e (pc + 1) 5507
      pure (e, { s with pc_ := pc + (offset - 1) })
  | OPERATOR_RETURN =>
      if s.current_call_frame_ ≤ 0 then throw (.raise 5514)
      let arg_num ← code_at e (pc + 1) 5517
      let s ←
        if arg_num > 0 then do
          if arg_num ≠ 1 then throw (.assertion 5520)
          let res ← stack_peek s.stack_ (-1)
          let s ←
            match (← value_get_primitive_tag e.variable_table_ res) with
            | VALUE_INT => do
                let i ← value_calc_int e.variable_table_ res
                pure { s with stat_ := i }
            | VALUE_DOUBLE => do
                let d ← value_calc_double e.variable_table_ res
                pure { s with refdval_ := d }
            | VALUE_STRING => do
                let str ← value_calc_string e.variable_table_ res
                pure { s with refstr_ := str }
            | _ => throw (.assertion 5527)
          let st ← stack_pop s.stack_ 1
          pure { s with stack_ := st }
        else pure s
      let frame ← array_get s.call_frame_ (s.current_call_frame_ - 1) 5533
      pure (e, { s with current_call_frame_ := s.current_call_frame_ - 1, pc_ := frame })
  | OPERATOR_END => pure (e, { s with is_end_ := true })

/-- One pass through the body of the loop of `execute_inner` (neteruhsp.cc:5180-5545),
entered with `is_end_` false and `pc` below the code size. -/
def execute_step (h : host_t) (e : execute_environment_t) (s : execute_status_t) :
    Except Err machine_t := do
  let w ← code_at e s.pc_ 5180
  match enum_decode operator_list w with
  | none => throw (.assertion 5542)
  | some op =>
      let (e, s) ← execute_operator h e s op
      pure (e, { s with pc_ := s.pc_ + 1 })

/-- Test of the two `break`s at the head of the loop of `execute_inner`
(neteruhsp.cc:5173-5178). -/
def execute_finished (e : execute_environment_t) (s : execute_status_t) : Bool :=
  s.is_end_ || decide ((e.execute_code_.length : Int) ≤ s.pc_)

/-- Source function `execute_inner` (neteruhsp.cc:5162), bounded to `fuel` passes through
the loop. -/
def execute_inner (h : host_t) : Nat → execute_environment_t → execute_status_t →
    Except Err machine_t
  | 0, _, _ => .error .fuel
  | fuel + 1, e, s =>
      if execute_finished e s then pure (e, s)
      else do
        let (e, s) ← execute_step h e s
        execute_inner h fuel e s

/-- Source function `execute` (neteruhsp.cc:5549), which returns nothing: the final state
of the run is what is returned here.  `stdin` is the content of standard input. -/
def execute (h : host_t) (fuel : Nat) (e : execute_environment_t) (initial_pc : Int)
    (stdin : CStr) : Except Err machine_t :=
  let s := { initialize_execute_status stdin with pc_ := initial_pc }
  if e.execute_code_.isEmpty then .error (.raise 5557)
  else execute_inner h fuel e s

/-! ## Code generator -/

/-- Source struct `generate_context_t` of `generate_and_append_code`
(neteruhsp.cc:5567). -/
structure generate_context_t where
  stack_ : Int
  repeat_head_ : List Int
  repeat_depth_ : Int
deriving DecidableEq, Repr

/-- State of the code generator: the environment and the generator's context. -/
abbrev generate_state_t := execute_environment_t × generate_context_t

/-- Source function `code_write( e, code_t )` (neteruhsp.cc:254). -/
def code_write (e : execute_environment_t) (code : Int) : execute_environment_t :=
  { e with execute_code_ := e.execute_code_ ++ [code] }

/-- Source function `code_write( e, void* )` (neteruhsp.cc:260) for the pointer to the
table entry with index `ptr`. -/
def code_write_pointer (e : execute_environment_t) (ptr : Nat) : execute_environment_t :=
  { e with execute_code_ := e.execute_code_ ++ [(ptr : Int), 0] }

/-- Source function `code_write_block` (neteruhsp.cc:245) for a `double`. -/
def code_write_double (e : execute_environment_t) (v : Dbl) : execute_environment_t :=
  { e with execute_code_ :=
      e.execute_code_ ++ [wrap32 (v.bits % 4294967296), wrap32 (v.bits / 4294967296)] }

/-- Source function `code_write( e, void* )` (neteruhsp.cc:260) for the pointer to the
content of a token: the string joins `string_table_`. -/
def code_write_string (e : execute_environment_t) (str : CStr) : execute_environment_t :=
  code_write_pointer { e with string_table_ := e.string_table_ ++ [str] }
    e.string_table_.length

/-- Operator written for a binary expression node (neteruhsp.cc:5721-5738). -/
def binary_node_operator (tag : node_tag) : Option code_oprator_tag :=
  match tag with
  | .NODE_BOR => some .OPERATOR_BOR
  | .NODE_BAND => some .OPERATOR_BAND
  | .NODE_BXOR => some .OPERATOR_BXOR
  | .NODE_EQ => some .OPERATOR_EQ
  | .NODE_NEQ => some .OPERATOR_NEQ
  | .NODE_GT => some .OPERATOR_GT
  | .NODE_GTOE => some .OPERATOR_GTOE
  | .NODE_LT => some .OPERATOR_LT
  | .NODE_LTOE => some .OPERATOR_LTOE
  | .NODE_ADD => some .OPERATOR_ADD
  | .NODE_SUB => some .OPERATOR_SUB
  | .NODE_MUL => some .OPERATOR_MUL
  | .NODE_DIV => some .OPERATOR_DIV
  | .NODE_MOD => some .OPERATOR_MOD
  | _ => none

/-- Operator written for an assignment node (neteruhsp.cc:5657-5669). -/
def assign_node_operator (tag : node_tag) : Option code_oprator_tag :=
  match tag with
  | .NODE_ASSIGN => some .OPERATOR_ASSIGN
  | .NODE_ADD_ASSIGN => some .OPERATOR_ADD_ASSIGN
  | .NODE_SUB_ASSIGN => some .OPERATOR_SUB_ASSIGN
  | .NODE_MUL_ASSIGN => some .OPERATOR_MUL_ASSIGN
  | .NODE_DIV_ASSIGN => some .OPERATOR_DIV_ASSIGN
  | .NODE_MOD_ASSIGN => some .OPERATOR_MOD_ASSIGN
  | .NODE_BOR_ASSIGN => some .OPERATOR_BOR_ASSIGN
  | .NODE_BAND_ASSIGN => some .OPERATOR_BAND_ASSIGN
  | .NODE_BXOR_ASSIGN => some .OPERATOR_BXOR_ASSIGN
  | _ => none

/-- Content of `n->token_`, whose dereference is undefined when the node has no token. -/
def token_content (token : Option token_t) (line : Nat) : Except Err CStr :=
  match token with
  | some t => pure t.content_
  | none => .error (.undefined line)

open node_tag code_oprator_tag token_tag in
/-- Function `walk` of `generate_and_append_code` (neteruhsp.cc:5586).  A call on a null
pointer reads `n->tag_` through it, which is undefined. -/
def generate_walk : ast_node_t → generate_state_t → Except Err generate_state_t
  | .null, _ => .error (.undefined 5588)
  | .node tag token left right, (e, c) =>
    let walk_opt (n : ast_node_t) (st : generate_state_t) (walk : Except Err generate_state_t) :
        Except Err generate_state_t := if n.isNull then pure st else walk
    match tag with
    | NODE_EMPTY => pure (e, c)
    | NODE_LABEL => do
        let label_name ← token_content token 5595
        match search_label e label_name with
        | none => throw (.assertion 5597)
        | some label =>
            let position : Int := e.execute_code_.length
            let e := { e with label_table_ :=
                         e.label_table_.modify (fun l => { l with position_ := some position }) label }
            pure (code_write e OPERATOR_LABEL.code, c)
    | NODE_BLOCK_STATEMENTS | NODE_ARGUMENTS => do
        let st ← walk_opt left (e, c) (generate_walk left (e, c))
        walk_opt right st (generate_walk right st)
    | NODE_COMMAND => do
        match token with
        | none => throw (.undefined 5613)
        | some t =>
            if t.tag_ != TOKEN_IDENTIFIER then throw (.assertion 5613)
            match query_command t.content_ with
            | none => throw (.raise 5619)
            | some command =>
                let top := c.stack_
                let (e, c) ← walk_opt left (e, c) (generate_walk left (e, c))
                let arg_num := c.stack_ - top
                let e := code_write e OPERATOR_COMMAND.code
                let e := code_write e (enum_code command_list command)
                let e := code_write e arg_num
                pure (e, { c with stack_ := top })
    | NODE_ASSIGN | NODE_ADD_ASSIGN | NODE_SUB_ASSIGN | NODE_MUL_ASSIGN | NODE_DIV_ASSIGN
    | NODE_MOD_ASSIGN | NODE_BOR_ASSIGN | NODE_BAND_ASSIGN | NODE_BXOR_ASSIGN => do
        let st ← generate_walk left (e, c)
        let (e, c) ← generate_walk right st
        match assign_node_operator tag with
        | none => throw (.assertion 5668)
        | some op => pure (code_write e op.code, { c with stack_ := c.stack_ - 2 })
    | NODE_VARIABLE => do
        let (e, c) ←
          if left.isNull then
            pure (code_write (code_write e OPERATOR_PUSH_INT.code) 0, c)
          else generate_walk left (e, c)
        let var_name ← token_content token 5686
        match search_variable e.variable_table_ var_name with
        | none => throw (.assertion 5688)
        | some var =>
            let e := code_write_pointer (code_write e OPERATOR_PUSH_VARIABLE.code) var
            pure (e, { c with stack_ := c.stack_ + 1 })
    | NODE_EXPRESSION =>
        if left.isNull then .error (.assertion 5697) else generate_walk left (e, c)
    | NODE_BOR | NODE_BAND | NODE_BXOR | NODE_EQ | NODE_NEQ | NODE_GT | NODE_GTOE | NODE_LT
    | NODE_LTOE | NODE_ADD | NODE_SUB | NODE_MUL | NODE_DIV | NODE_MOD => do
        if left.isNull then throw (.assertion 5716)
        let st ← generate_walk left (e, c)
        if right.isNull then throw (.assertion 5718)
        let (e, c) ← generate_walk right st
        match binary_node_operator tag with
        | none => throw (.assertion 5737)
        | some op => pure (code_write e op.code, { c with stack_ := c.stack_ - 1 })
    | NODE_UNARY_MINUS => do
        if left.isNull then throw (.assertion 5746)
        let (e, c) ← generate_walk left (e, c)
        pure (code_write e OPERATOR_UNARY_MINUS.code, c)
    | NODE_PRIMITIVE_VALUE => do
        match token with
        | none => throw (.undefined 5754)
        | some t =>
            let e ←
              match t.tag_ with
              | TOKEN_INTEGER =>
                  pure (code_write (code_write e OPERATOR_PUSH_INT.code) (atoi t.content_))
              | TOKEN_REAL =>
                  pure (code_write_double (code_write e OPERATOR_PUSH_DOUBLE.code)
                          (atof t.content_))
              | TOKEN_STRING =>
                  pure (code_write_string (code_write e OPERATOR_PUSH_STRING.code) t.content_)
              | _ => throw (Err.assertion 5759)
            pure (e, { c with stack_ := c.stack_ + 1 })
    | NODE_IDENTIFIER_EXPR => do
        match token with
        | none => throw (.undefined 5766)
        | some t =>
            if t.tag_ != TOKEN_IDENTIFIER then throw (.assertion 5766)
            let ident := t.content_
            let top := c.stack_
            let (e, c) ← walk_opt left (e, c) (generate_walk left (e, c))
            let arg_num := c.stack_ - top
            let e ←
              match query_function ident with
              | some function =>
                  pure (code_write (code_write (code_write e OPERATOR_FUNCTION.code)
                          (enum_code function_list function)) arg_num)
              | none =>
                  match query_sysvar ident with
                  | some sysvar =>
                      if arg_num > 0 then throw (Err.raise 5791)
                      else
                        pure (code_write (code_write e OPERATOR_PUSH_SYSVAR.code)
                                (enum_code sysvar_list sysvar))
                  | none =>
                      if arg_num > 1 then throw (Err.raise 5802)
                      else
                        match search_variable e.variable_table_ ident with
                        | none => throw (Err.assertion 5806)
                        | some var =>
                            let e :=
                              if arg_num == 0 then
                                code_write (code_write e OPERATOR_PUSH_INT.code) 0
                              else e
                            pure (code_write_pointer
                                    (code_write e OPERATOR_PUSH_VARIABLE.code) var)
            pure (e, { c with stack_ := top + 1 })
    | NODE_END => pure (code_write e OPERATOR_END.code, c)
    | NODE_RETURN => do
        let (e, c) ←
          if left.isNull then pure (e, c)
          else do
            let (e, c) ← generate_walk left (e, c)
            pure (e, { c with stack_ := c.stack_ - 1 })
        let e := code_write e OPERATOR_RETURN.code
        pure (code_write e (if left.isNull then 0 else 1), c)
    | NODE_GOTO | NODE_GOSUB => do
        let gosub := tag == NODE_GOSUB
        match left with
        | .null => throw (.assertion (if gosub then 5859 else 5842))
        | .node ltag ltoken _ _ =>
            if ltag != NODE_LABEL then throw (.assertion (if gosub then 5860 else 5843))
            let label_name ← token_content ltoken (if gosub then 5862 else 5845)
            match search_label e label_name with
            | none => throw (.raise (if gosub then 5866 else 5849))
            | some label =>
                let op := if gosub then OPERATOR_GOSUB else OPERATOR_GOTO
                pure (code_write_pointer (code_write e op.code) label, c)
    | NODE_REPEAT => do
        let (e, c) ←
          if left.isNull then
            pure (code_write (code_write e OPERATOR_PUSH_INT.code) (-1), c)
          else do
            let (e, c) ← generate_walk left (e, c)
            pure (e, { c with stack_ := c.stack_ - 1 })
        let pos_head : Int := e.execute_code_.length
        let e := code_write (code_write e OPERATOR_REPEAT.code) 0
        if c.repeat_depth_ ≥ 32 ∨ c.repeat_depth_ < 0 then
          -- the message of the raise_error reads n->token_, which is null for this node
          let _ ← token_content token 5892
          throw (.raise 5892)
        let heads ← array_set c.repeat_head_ c.repeat_depth_ pos_head 5894
        let c := { c with repeat_head_ := heads, repeat_depth_ := c.repeat_depth_ + 1 }
        pure (code_write e OPERATOR_REPEAT_CHECK.code, c)
    | NODE_LOOP => do
        if c.repeat_depth_ ≤ 0 then
          -- the message of the raise_error reads n->token_, which is null for this node
          let _ ← token_content token 5904
          throw (.raise 5904)
        let loop_head : Int := e.execute_code_.length
        let e := code_write e OPERATOR_LOOP.code
        let head ← array_get c.repeat_head_ (c.repeat_depth_ - 1) 5910
        let write_offset := head + 1
        let code ← array_set e.execute_code_ write_offset loop_head 5911
        pure ({ e with execute_code_ := code }, { c with repeat_depth_ := c.repeat_depth_ - 1 })
    | NODE_CONTINUE => pure (code_write e OPERATOR_CONTINUE.code, c)
    | NODE_BREAK => pure (code_write e OPERATOR_BREAK.code, c)
    | NODE_IF => do
        if left.isNull then throw (.assertion 5920)
        let (e, c) ← generate_walk left (e, c)
        match right with
        | .null => throw (.assertion 5923)
        | .node dtag _ dleft dright =>
            if dtag != NODE_IF_DISPATCHER then throw (.assertion 5925)
            let pos_root : Int := e.execute_code_.length
            let e := code_write (code_write e OPERATOR_IF.code) 0
            let (e, c) ← generate_walk dleft (e, c)
            let pos_true_tail : Int := e.execute_code_.length
            let e := code_write (code_write e OPERATOR_JUMP_RELATIVE.code) 0
            let pos_false_head : Int := e.execute_code_.length
            let (e, c) ← walk_opt dright (e, c) (generate_walk dright (e, c))
            let pos_tail : Int := e.execute_code_.length
            let code ← array_set e.execute_code_ (pos_root + 1) (pos_false_head - pos_root) 5943
            let code ← array_set code (pos_true_tail + 1) (pos_tail - pos_true_tail) 5944
            pure ({ e with execute_code_ := code }, c)
    | NODE_IF_DISPATCHER => .error (.assertion 5948)

/-- Loop over the statements in `generate_and_append_code` (neteruhsp.cc:5580-5958). -/
def generate_statements : List ast_node_t → generate_state_t → Except Err generate_state_t
  | [], st => pure st
  | node :: rest, st => do
      let st ← generate_walk node st
      generate_statements rest st

/-- Source function `generate_and_append_code` (neteruhsp.cc:5565). -/
def generate_and_append_code (e : execute_environment_t) (ast : List ast_node_t) :
    Except Err execute_environment_t := do
  let context : generate_context_t :=
    { stack_ := 0, repeat_head_ := List.replicate 32 0, repeat_depth_ := 0 }
  let (e, context) ← generate_statements ast (e, context)
  if context.repeat_depth_ > 0 then throw (.raise 5962)
  if e.execute_code_.length ≤ 0 then pure (code_write e code_oprator_tag.OPERATOR_NOP.code)
  else pure e

/-! ## Immediate expression evaluator -/

open node_tag token_tag in
/-- Source function `evaluate_ast_node` (neteruhsp.cc:5990): the stack after the node, or
`none` when the function prints an error and returns `false`.  No variable exists while
the preprocessor evaluates, so the variable table is empty. -/
def evaluate_ast_node : ast_node_t → List value_t → Except Err (Option (List value_t))
  | .null, _ => .error (.undefined 5992)
  | .node tag token left right, stack =>
    match tag with
    | NODE_EMPTY => pure (some stack)
    | NODE_EXPRESSION =>
        if left.isNull then .error (.assertion 5997) else evaluate_ast_node left stack
    | NODE_BOR | NODE_BAND | NODE_BXOR | NODE_EQ | NODE_NEQ | NODE_GT | NODE_GTOE | NODE_LT
    | NODE_LTOE | NODE_ADD | NODE_SUB | NODE_MUL | NODE_DIV | NODE_MOD => do
        if left.isNull then throw (.assertion 6015)
        match (← evaluate_ast_node left stack) with
        | none => pure none
        | some stack =>
            if right.isNull then throw (.assertion 6020)
            match (← evaluate_ast_node right stack) with
            | none => pure none
            | some stack =>
                if stack.length < 2 then pure none
                else
                  let l ← stack_peek stack (-2)
                  let r ← stack_peek stack (-1)
                  let l ← value_isolate [] l
                  match (binary_node_operator tag).bind binary_operator with
                  | none => throw (.assertion 6052)
                  | some f =>
                      let l ← f [] l r
                      let stack ← stack_pop (stack_update stack (-2) l) 1
                      pure (some stack)
    | NODE_UNARY_MINUS => do
        if left.isNull then throw (.assertion 6061)
        match (← evaluate_ast_node left stack) with
        | none => pure none
        | some stack =>
            if stack.length < 1 then pure none
            else
              let v ← stack_peek stack (-1)
              let v ← value_isolate [] v
              let v ← value_unary_minus v
              pure (some (stack_update stack (-1) v))
    | NODE_PRIMITIVE_VALUE =>
        match token with
        | none => .error (.undefined 6079)
        | some t =>
            match t.tag_ with
            | TOKEN_INTEGER => pure (some (stack_push stack (.int (atoi t.content_))))
            | TOKEN_REAL => pure (some (stack_push stack (.double (atof t.content_))))
            | TOKEN_STRING => pure (some (stack_push stack (.string t.content_)))
            | _ => .error (.assertion 6084)
    | _ =>
        match token with
        | none => .error (.undefined 6089)
        | some _ => pure none

/-- Source function `evaluate_ast_immediate` (neteruhsp.cc:5972): `none` for
`nullptr`. -/
def evaluate_ast_immediate (ast : ast_node_t) : Except Err (Option value_t) := do
  match (← evaluate_ast_node ast []) with
  | some [v] => do
      let res ← create_value_copy v
      let res ← value_isolate [] res
      pure (some res)
  | _ => pure none

/-! ## Preprocessor -/

/-- Source enum `preprocessor_tag` (neteruhsp.hh:252). -/
inductive preprocessor_tag
  | PREPRO_DEFINE | PREPRO_UNDEF | PREPRO_IF | PREPRO_IFDEF | PREPRO_ENDIF | PREPRO_ENUM
deriving DecidableEq, Repr

open preprocessor_tag in
/-- Table of `query_preprocessor` (neteruhsp.cc:1993). -/
def preprocessor_table : List (preprocessor_tag × String) :=
  [ (PREPRO_DEFINE, "define"), (PREPRO_UNDEF, "undef"), (PREPRO_IF, "if"),
    (PREPRO_IFDEF, "ifdef"), (PREPRO_ENDIF, "endif"), (PREPRO_ENUM, "enum") ]

/-- Source function `query_preprocessor` (neteruhsp.cc:1987), `none` for
`PREPRO_UNKNOWN`. -/
def query_preprocessor (s : CStr) : Option preprocessor_tag :=
  query_table preprocessor_table s

/-- Source constant `PP_DIRECTIVE_MAX` (neteruhsp.hh:268). -/
def PP_DIRECTIVE_MAX : Int := 16

/-- Source constant `MACRO_PARAM_MAX` (neteruhsp.hh:276). -/
def MACRO_PARAM_MAX : Int := 16

/-- Source struct `pp_region_t` (neteruhsp.hh:270). -/
structure pp_region_t where
  is_valid_ : Bool
  line_ : Int
deriving DecidableEq, Repr

/-- Source struct `macro_t` (neteruhsp.hh:291).  `params_` holds the `default_param_` of
each of the 16 parameters, `none` for `nullptr`. -/
structure macro_t where
  name_ : CStr
  is_ctype_ : Bool
  replacing_ : CStr
  param_num_ : Int
  params_ : List (Option CStr)
deriving DecidableEq, Repr

/-- Source function `create_macro` (neteruhsp.cc:2029), with the name and replacement text
that its callers set right after. -/
def create_macro (name replacing : CStr) : macro_t :=
  { name_ := name, is_ctype_ := false, replacing_ := replacing, param_num_ := 0,
    params_ := List.replicate 16 none }

/-- Source struct `prepro_context_t` (neteruhsp.hh:308).  `out_buffer_` is the text
appended to the output buffer so far. -/
structure prepro_context_t where
  macro_list_ : List macro_t
  out_buffer_ : CStr
  line_ : Int
  is_current_region_valid_ : Bool
  pp_region_idx_ : Int
  pp_region_ : List pp_region_t
  enum_next_ : Int
deriving DecidableEq, Repr

/-- Source function `create_prepro_context` (neteruhsp.cc:2074); entries of `pp_region_`
the source leaves uninitialised are zero. -/
def create_prepro_context : prepro_context_t :=
  { macro_list_ := [], out_buffer_ := [], line_ := 0, is_current_region_valid_ := true,
    pp_region_idx_ := 0,
    pp_region_ := ⟨true, 1⟩ :: List.replicate 15 ⟨false, 0⟩,
    enum_next_ := 0 }

/-- Source function `prepro_find_macro` (neteruhsp.cc:2948). -/
def prepro_find_macro (pctx : prepro_context_t) (name : CStr) : Option macro_t :=
  pctx.macro_list_.find? (fun m => string_equal_igcase m.name_ name (-1))

/-- Source function `prepro_register_macro` (neteruhsp.cc:2964). -/
def prepro_register_macro (pctx : prepro_context_t) (m : macro_t) :
    Except Err prepro_context_t :=
  match ( prepro_find_macro pctx m.name_) with
  | some _ => .error (.raise 2970)
  | none => pure { pctx with macro_list_ := pctx.macro_list_ ++ [m] }

/-- Source function `prepro_erase_macro` (neteruhsp.cc:2982): the context without the
first macro of that name, `none` when the function returns `false`. -/
def prepro_erase_macro (pctx : prepro_context_t) (name : CStr) : Option prepro_context_t :=
  let i := pctx.macro_list_.findIdx (fun m => string_equal_igcase m.name_ name (-1))
  if i < pctx.macro_list_.length then
    some { pctx with macro_list_ := pctx.macro_list_.eraseIdx i }
  else none

/-- Source function `prepro_register_default_macros` (neteruhsp.cc:2111). -/
def prepro_register_default_macros (pctx : prepro_context_t) : Except Err prepro_context_t :=
  prepro_register_macro pctx ( create_macro "M_PI".toList "3.141592653589793238".toList)

/-- Source function `string_buffer_append` (neteruhsp.cc:1359) on the content of the
buffer: `len` characters of `s`, all of it when `len` is negative. -/
def string_buffer_append (sb : CStr) (s : CStr) (len : Int) : CStr :=
  if len < 0 then sb ++ s else sb ++ s.take len.toNat

/-- Source function `read_token` together with the index of the list node it returns,
which stands for the pointer where the source compares tokens by address. -/
def read_token_node (c : parse_context_t) : Except Err (token_t × Nat × parse_context_t) := do
  let idx := match c.token_current_ with
    | some i => i
    | none => c.token_list_.length
  let (t, c) ← read_token c
  pure (t, idx, c)

/-- Arguments of a macro call while they are collected: `marg` and `marg_num` of
`prepro_line_expand` (neteruhsp.cc:2697). -/
structure macro_args_t where
  marg : List (Option CStr)
  marg_num : Int
deriving DecidableEq, Repr

/-- The step "ここまで食う" of `prepro_line_expand` (neteruhsp.cc:2745-2757, 2767-2779,
2805-2817): the text from the argument's first token `nst` up to the token `nt` becomes
the next argument, unless both are the same token. -/
def take_argument (line : CStr) (m : macro_t) (a : macro_args_t) (nst nt : token_t)
    (nst_node nt_node : Nat) (line_raise : Nat) : Except Err macro_args_t := do
  if a.marg_num ≥ m.param_num_ then throw (.raise line_raise)
  let arg : Option CStr :=
    if nst_node != nt_node then
      some (substr line nst.cursor_begin_ (nt.cursor_begin_ - nst.cursor_begin_))
    else none
  let marg ← array_set a.marg a.marg_num arg line_raise
  pure { marg := marg, marg_num := a.marg_num + 1 }

open token_tag in
/-- Inner loop `for( ; ; )` of the argument scan of `prepro_line_expand`
(neteruhsp.cc:2733-2822), which reads one argument that starts at token `nst`: the
arguments, the parse context and `is_break`. -/
def expand_argument (line : CStr) (m : macro_t) (nst : token_t) (nst_node : Nat) :
    Nat → Int → macro_args_t → parse_context_t →
    Except Err (macro_args_t × parse_context_t × Bool)
  | 0, _, _, _ => .error .fuel
  | fuel + 1, parenthesis_depth, a, c => do
      let (nt, nt_node, c) ← read_token_node c
      if nt.tag_ == TOKEN_EOS || nt.tag_ == TOKEN_EOF then
        if parenthesis_depth > 0 ∨ m.is_ctype_ then throw (.raise 2740)
        let a ← take_argument line m a nst nt nst_node nt_node 2747
        let c ← unread_token c 1
        pure (a, c, true)
      else
        let is_rp_end := m.is_ctype_ && nt.tag_ == TOKEN_RPARENTHESIS
        if parenthesis_depth == 0 && (is_rp_end || nt.tag_ == TOKEN_COMMA) then
          let a ← take_argument line m a nst nt nst_node nt_node 2769
          if is_rp_end then
            let c ← unread_token c 1
            pure (a, c, true)
          else pure (a, c, false)
        else
          let d1 := if nt.tag_ == TOKEN_LPARENTHESIS then parenthesis_depth + 1
                    else parenthesis_depth
          let d2 := if nt.tag_ == TOKEN_RPARENTHESIS then d1 - 1 else d1
          expand_argument line m nst nst_node fuel d2 a c

/-- Outer loop `for( ; ; )` of the argument scan of `prepro_line_expand`
(neteruhsp.cc:2725-2826). -/
def expand_arguments (line : CStr) (m : macro_t) :
    Nat → macro_args_t → parse_context_t → Except Err (macro_args_t × parse_context_t)
  | 0, _, _ => .error .fuel
  | fuel + 1, a, c => do
      let (nst, nst_node, c) ← read_token_node c
      let c ← unread_token c 1
      let (a, c, is_break) ← expand_argument line m nst nst_node (line.length + 2) 0 a c
      if is_break then pure (a, c) else expand_arguments line m fuel a c

open token_tag in
/-- Loop `for( ; ; )` that writes the replacement text of a macro with parameters
(neteruhsp.cc:2863-2901): the output buffer and `iprev`. -/
def expand_replacement (m : macro_t) (marg : List (Option CStr)) :
    Nat → parse_context_t → Option token_t → CStr → Except Err (CStr × Option token_t)
  | 0, _, _, _ => .error .fuel
  | fuel + 1, lpctx, iprev, sb => do
      let (ist, lpctx) ← read_token lpctx
      if ist.tag_ == TOKEN_EOF then pure (sb, iprev)
      else if ist.tag_ == TOKEN_PP_ARG_INDICATOR then
        let (it, lpctx) ← read_token lpctx
        if it.tag_ != TOKEN_INTEGER || it.left_space_ then throw (.raise 2876)
        let itidx := atoi it.content_ - 1
        if itidx < 0 ∨ itidx > m.param_num_ then throw (.raise 2883)
        let mp ← array_get m.params_ itidx 2886
        let ma ← array_get marg itidx 2887
        let text ← in_bounds 2889 (if ma.isNone then mp else ma)
        expand_replacement m marg fuel lpctx (some it) (string_buffer_append sb text (-1))
      else
        let sb :=
          match iprev with
          | some ip =>
              string_buffer_append sb (m.replacing_.drop ip.cursor_end_)
                ((ist.cursor_begin_ : Int) - ip.cursor_end_)
          | none => sb
        let sb := string_buffer_append sb (m.replacing_.drop ist.cursor_begin_)
                    ((ist.cursor_end_ : Int) - ist.cursor_begin_)
        expand_replacement m marg fuel lpctx (some ist) sb

/-- Loop "省略チェック" of `prepro_line_expand` (neteruhsp.cc:2844-2853) over the
parameter indices `is_`. -/
def check_omitted (m : macro_t) (marg : List (Option CStr)) : List Nat → Except Err Unit
  | [] => pure ()
  | i :: rest => do
      let mp ← array_get m.params_ i 2846
      let ma ← array_get marg i 2847
      if ma.isNone && mp.isNone then throw (.raise 2850)
      check_omitted m marg rest

open token_tag in
/-- Expansion of a call of a macro with parameters in `prepro_line_expand`
(neteruhsp.cc:2694-2916), entered after the macro's name has been read: the output
buffer, the parse context and the new `prev`. -/
def expand_call (line : CStr) (m : macro_t) (c : parse_context_t) (sb : CStr) :
    Except Err (CStr × parse_context_t × token_t) := do
  let c ←
    if m.is_ctype_ then do
      let (lt, c) ← read_token c
      if lt.tag_ != TOKEN_LPARENTHESIS then throw (.raise 2709)
      pure c
    else do
      let (nst, c) ← read_token c
      let c ← unread_token c 1
      if !nst.left_space_ && (nst.tag_ != TOKEN_EOS && nst.tag_ != TOKEN_EOF) then
        throw (.raise 2720)
      pure c
  let (a, c) ← expand_arguments line m (line.length + 2)
                 { marg := List.replicate 16 none, marg_num := 0 } c
  let c ←
    if m.is_ctype_ then do
      let (rt, c) ← read_token c
      if rt.tag_ != TOKEN_RPARENTHESIS then throw (.raise 2834)
      pure c
    else pure c
  let (prev, c) ← read_token c
  let c ← unread_token c 1
  check_omitted m a.marg (List.range m.param_num_.toNat)
  -- 置き換え
  let lpctx := initialize_parse_context (initialize_tokenize_context m.replacing_)
  let (sb, iprev) ← expand_replacement m a.marg (m.replacing_.length + 2) lpctx none sb
  let sb :=
    match iprev with
    | some ip => string_buffer_append sb (m.replacing_.drop ip.cursor_end_) (-1)
    | none => sb
  pure (sb, c, prev)

open token_tag in
/-- Main loop `for( ; ; )` of `prepro_line_expand` (neteruhsp.cc:2670-2930). -/
def expand_loop (pctx : prepro_context_t) (line : CStr) :
    Nat → parse_context_t → Option token_t → CStr → Bool → Except Err (CStr × Bool)
  | 0, _, _, _, _ => .error .fuel
  | fuel + 1, c, prev, sb, is_replaced => do
      let (st, c) ← read_token c
      let sb :=
        match prev with
        | some pv =>
            let len : Int := (st.cursor_begin_ : Int) - pv.cursor_end_
            if len > 0 then string_buffer_append sb (line.drop pv.cursor_end_) len else sb
        | none => sb
      if st.tag_ == TOKEN_EOF then pure (sb, is_replaced)
      else
        let found := if st.tag_ == TOKEN_IDENTIFIER then prepro_find_macro pctx st.content_
                     else none
        match found with
        | some m =>
            if m.param_num_ > 0 then
              let (sb, c, prev) ← expand_call line m c sb
              expand_loop pctx line fuel c (some prev) sb true
            else
              expand_loop pctx line fuel c (some st)
                (string_buffer_append sb m.replacing_ (-1)) true
        | none =>
            expand_loop pctx line fuel c (some st)
              (string_buffer_append sb (line.drop st.cursor_begin_)
                ((st.cursor_end_ : Int) - st.cursor_begin_)) is_replaced

/-- Source function `prepro_line_expand` (neteruhsp.cc:2646): the expanded line and
`*out_is_replaced`. -/
def prepro_line_expand (pctx : prepro_context_t) (line : CStr) : Except Err (CStr × Bool) :=
  if !pctx.is_current_region_valid_ then pure ([], false)
  else
    expand_loop pctx line (line.length + 2)
      (initialize_parse_context (initialize_tokenize_context line)) none [] false

/-- Loop "展開があるならずっとループ" of `prepro_line` (neteruhsp.cc:2233-2255); `n` is
`MAX_REPLACE_LOOP + 1 - replaced_loop`. -/
def prepro_expand_fix (pctx : prepro_context_t) : Nat → CStr → Except Err CStr
  | 0, _ => .error (.raise 2252)
  | n + 1, line => do
      let (res, is_replaced) ← prepro_line_expand pctx line
      if !is_replaced then pure res else prepro_expand_fix pctx n res

/-- Source constant `MAX_REPLACE_LOOP` of `prepro_line` (neteruhsp.cc:2226). -/
def MAX_REPLACE_LOOP : Nat := 256

/-- Call `prepro_line( pctx, line, false )` (neteruhsp.cc:2217-2263), also the path
`prepro_line` takes for a line that is not a directive: leading blanks are skipped and
the line is expanded until nothing is replaced. -/
def prepro_line_plain (pctx : prepro_context_t) (line : CStr) : Except Err CStr :=
  prepro_expand_fix pctx (MAX_REPLACE_LOOP + 1) (line.dropWhile is_space)

open token_tag in
/-- Loop that reads the default value of a parameter of `#define`
(neteruhsp.cc:2373-2401), `at_` being the `=` token: the default text, the context and
`is_break`. -/
def define_default (script : CStr) (at_ : token_t) :
    Nat → Int → parse_context_t → Except Err (CStr × parse_context_t × Bool)
  | 0, _, _ => .error .fuel
  | fuel + 1, parenthesis_depth, c => do
      let (nt, c) ← read_token c
      if parenthesis_depth == 0
          && (nt.tag_ == TOKEN_RPARENTHESIS || nt.tag_ == TOKEN_COMMA) then
        let text := substr script at_.cursor_end_ (nt.cursor_begin_ - at_.cursor_end_)
        if nt.tag_ == TOKEN_RPARENTHESIS then
          let c ← unread_token c 1
          pure (text, c, true)
        else pure (text, c, false)
      else
        let d1 := if nt.tag_ == TOKEN_LPARENTHESIS then parenthesis_depth + 1
                  else parenthesis_depth
        let d2 := if nt.tag_ == TOKEN_RPARENTHESIS then d1 - 1 else d1
        if nt.tag_ == TOKEN_EOF then throw (.raise 2398)
        define_default script at_ fuel d2 c

open token_tag in
/-- Loop over the parameter list of `#define` (neteruhsp.cc:2325-2420). -/
def define_params (script : CStr) :
    Nat → macro_t → parse_context_t → Except Err (macro_t × parse_context_t)
  | 0, _, _ => .error .fuel
  | fuel + 1, nm, c => do
      let (ct, c) ← read_token c
      if ct.tag_ == TOKEN_EOF then throw (.raise 2330)
      if ct.tag_ == TOKEN_RPARENTHESIS then
        let c ← unread_token c 1
        pure (nm, c)
      else
        if ct.tag_ != TOKEN_PP_ARG_INDICATOR then throw (.raise 2341)
        let (it, c) ← read_token c
        if it.tag_ != TOKEN_INTEGER || it.left_space_ then throw (.raise 2348)
        let itidx := atoi it.content_
        if itidx != nm.param_num_ + 1 then throw (.raise 2355)
        if nm.param_num_ > MACRO_PARAM_MAX then throw (.raise 2361)
        let idx := nm.param_num_
        let _ ← array_get nm.params_ idx 2365
        let nm := { nm with param_num_ := nm.param_num_ + 1 }
        let (at_, c) ← read_token c
        if at_.tag_ == TOKEN_ASSIGN then
          let (text, c, is_break) ← define_default script at_ (script.length + 2) 0 c
          let params ← array_set nm.params_ idx (some text) 2379
          let nm := { nm with params_ := params }
          if is_break then pure (nm, c) else define_params script fuel nm c
        else if at_.tag_ == TOKEN_RPARENTHESIS then
          let c ← unread_token c 1
          pure (nm, c)
        else
          if at_.tag_ != TOKEN_COMMA then throw (.raise 2413)
          define_params script fuel nm c

open token_tag keyword_tag in
/-- Case `PREPRO_DEFINE` of `prepro_line` (neteruhsp.cc:2291-2440); `script` is the line
after its `#`. -/
def prepro_define (pctx : prepro_context_t) (script : CStr) (c : parse_context_t) :
    Except Err prepro_context_t := do
  if !pctx.is_current_region_valid_ then pure pctx
  else
    let (it, c) ← read_token c
    let (is_ctype, c) ←
      if it.tag_ == TOKEN_IDENTIFIER && query_keyword it.content_ == KEYWORD_CTYPE then
        pure (true, c)
      else do
        let c ← unread_token c 1
        pure (false, c)
    let (nit, c) ← read_token c
    if nit.tag_ != TOKEN_IDENTIFIER then throw (.raise 2311)
    let nm := { create_macro nit.content_ [] with is_ctype_ := is_ctype }
    let (rt, c) ← read_token c
    let nm ←
      if rt.tag_ == TOKEN_LPARENTHESIS then do
        let (nm, c) ← define_params script (script.length + 2) nm c
        let (lrt, _) ← read_token c
        if lrt.tag_ != TOKEN_RPARENTHESIS then throw (.raise 2426)
        pure { nm with replacing_ := script.drop lrt.cursor_end_ }
      else pure { nm with replacing_ := script.drop rt.cursor_begin_ }
    prepro_register_macro pctx nm

/-- The expression after `#if` or `#enum NAME =` (neteruhsp.cc:2465-2492, 2573-2600):
preprocessed, parsed and evaluated at once; `l` holds the lines of the four
`raise_error` calls. -/
def prepro_evaluate (pctx : prepro_context_t) (rest_top : CStr) (l : Nat × Nat × Nat) :
    Except Err value_t := do
  let rest_pp ← prepro_line_plain pctx rest_top
  let etoken_ctx := { initialize_tokenize_context rest_pp with line_ := pctx.line_ }
  let eparse_ctx := initialize_parse_context etoken_ctx
  let (east, _) ← parse_expression (16 * rest_pp.length + 64) eparse_ctx
  if east.isNull then throw (.raise l.1)
  match (← evaluate_ast_immediate east) with
  | none => throw (.raise l.2.1)
  | some ev => pure ev

/-- Push of a region in the cases `PREPRO_IF` and `PREPRO_IFDEF` of `prepro_line`
(neteruhsp.cc:2509-2518, 2531-2540). -/
def prepro_push_region (pctx : prepro_context_t) (is_valid : Bool) (line_raise : Nat) :
    Except Err prepro_context_t := do
  if pctx.pp_region_idx_ ≥ PP_DIRECTIVE_MAX ∨ pctx.pp_region_idx_ < 0 then
    throw (.raise line_raise)
  let idx := pctx.pp_region_idx_ + 1
  let directive : pp_region_t :=
    { is_valid_ := pctx.is_current_region_valid_ && is_valid, line_ := pctx.line_ }
  let regions ← array_set pctx.pp_region_ idx directive (line_raise + 4)
  pure { pctx with pp_region_idx_ := idx, pp_region_ := regions,
                   is_current_region_valid_ := directive.is_valid_ }

open token_tag preprocessor_tag value_tag in
/-- Source function `prepro_line` (neteruhsp.cc:2217) with `enable_preprocessor` true:
the output line and the context. -/
def prepro_line (pctx : prepro_context_t) (line : CStr) :
    Except Err (CStr × prepro_context_t) := do
  let line := line.dropWhile is_space
  if chAt line 0 != '#' then
    let res ← prepro_expand_fix pctx (MAX_REPLACE_LOOP + 1) line
    pure (res, pctx)
  else
    let line := line.drop 1
    let parse_ctx := initialize_parse_context (initialize_tokenize_context line)
    let (st, parse_ctx) ← read_token parse_ctx
    if st.tag_ != TOKEN_IDENTIFIER then throw (.raise 2278)
    match query_preprocessor st.content_ with
    | none => throw (.raise 2285)
    | some PREPRO_DEFINE => do
        let pctx ← prepro_define pctx line parse_ctx
        pure ([], pctx)
    | some PREPRO_UNDEF => do
        if pctx.is_current_region_valid_ then
          let (it, parse_ctx) ← read_token parse_ctx
          let (et, _) ← read_token parse_ctx
          if it.tag_ != TOKEN_IDENTIFIER || et.tag_ != TOKEN_EOF then throw (.raise 2449)
          match prepro_erase_macro pctx it.content_ with
          | none => throw (.raise 2454)
          | some pctx => pure ([], pctx)
        else pure ([], pctx)
    | some PREPRO_IF => do
        let is_valid ←
          if pctx.is_current_region_valid_ then do
            let ev ← prepro_evaluate pctx (line.drop st.cursor_end_) (2483, 2490, 0)
            value_calc_boolean [] ev
          else pure false
        let pctx ← prepro_push_region pctx is_valid 2511
        pure ([], pctx)
    | some PREPRO_IFDEF => do
        let (it, parse_ctx) ← read_token parse_ctx
        let (et, _) ← read_token parse_ctx
        if it.tag_ != TOKEN_IDENTIFIER || et.tag_ != TOKEN_EOF then throw (.raise 2527)
        let has_macro := ( prepro_find_macro pctx it.content_).isSome
        let pctx ← prepro_push_region pctx has_macro 2533
        pure ([], pctx)
    | some PREPRO_ENDIF => do
        let (et, _) ← read_token parse_ctx
        if et.tag_ != TOKEN_EOF then throw (.raise 2548)
        if pctx.pp_region_idx_ ≤ 0 then throw (.raise 2553)
        let idx := pctx.pp_region_idx_ - 1
        let region ← array_get pctx.pp_region_ idx 2557
        pure ([], { pctx with pp_region_idx_ := idx,
                              is_current_region_valid_ := region.is_valid_ })
    | some PREPRO_ENUM => do
        if pctx.is_current_region_valid_ then
          let (it, parse_ctx) ← read_token parse_ctx
          if it.tag_ != TOKEN_IDENTIFIER then throw (.raise 2567)
          let (at_, _) ← read_token parse_ctx
          let pctx ←
            if at_.tag_ == TOKEN_ASSIGN then do
              let ev ← prepro_evaluate pctx (line.drop at_.cursor_end_) (2591, 2598, 0)
              let ev ← value_isolate [] ev
              if (← value_get_primitive_tag [] ev) != VALUE_INT then throw (.raise 2605)
              let n ← value_calc_int [] ev
              pure { pctx with enum_next_ := n }
            else do
              if at_.tag_ != TOKEN_EOF then throw (.raise 2622)
              pure pctx
          let nm := create_macro it.content_ (create_string_from_int pctx.enum_next_)
          let pctx ← prepro_register_macro pctx nm
          pure ([], { pctx with enum_next_ := wrap32 (pctx.enum_next_ + 1) })
        else pure ([], pctx)

/-- Inner loop `for( ; ; )` of `prepro_do` (neteruhsp.cc:2137-2174), run on the text from
`p` on: the characters appended to `line`, the text from the final `p` on, and the
number of times `pctx->line_` was incremented. -/
def prepro_collect_line : Bool → CStr → CStr × CStr × Nat
  | _, [] => ([], [], 0)
  | is_in_multi_line_comment, [c] =>
      if c == '\n' && !is_in_multi_line_comment then ([], [c], 0)
      else
        ((if is_in_multi_line_comment then [] else [c]), [],
          if c == '\n' then 1 else 0)
  | is_in_multi_line_comment, c :: d :: rest =>
      if c == '/' && d == '*' then prepro_collect_line true rest
      else if c == '*' && d == '/' then prepro_collect_line false rest
      else if c == '\\' && d == '\n' then
        let r := prepro_collect_line is_in_multi_line_comment rest
        (r.1, r.2.1, r.2.2 + 1)
      else if c == '\n' && !is_in_multi_line_comment then ([], c :: d :: rest, 0)
      else
        let r := prepro_collect_line is_in_multi_line_comment (d :: rest)
        ((if is_in_multi_line_comment then r.1 else c :: r.1), r.2.1,
          r.2.2 + (if c == '\n' then 1 else 0))

/-- Outer loop `for ( ; ; )` of `prepro_do` (neteruhsp.cc:2128-2201) on the text from
`p` on.  Each pass but the last consumes a newline, so `fuel` above the length of the
source is never used up. -/
def prepro_do_loop : Nat → prepro_context_t → CStr → Except Err prepro_context_t
  | 0, _, _ => .error .fuel
  | fuel + 1, pctx, src => do
      let (line, rest, nl) := prepro_collect_line false src
      let pctx := { pctx with line_ := pctx.line_ + nl }
      let pctx ←
        if rest.length < src.length then do
          let (out_line, pctx) ← prepro_line pctx line
          pure { pctx with out_buffer_ := string_buffer_append pctx.out_buffer_ out_line (-1) }
        else pure pctx
      match rest with
      | [] => pure pctx
      | _ :: rest =>
          let pctx := { pctx with out_buffer_ := string_buffer_append pctx.out_buffer_ ['\n'] (-1),
                                  line_ := pctx.line_ + 1 }
          prepro_do_loop fuel pctx rest

/-- Source function `prepro_do` (neteruhsp.cc:2121). -/
def prepro_do (src : CStr) : Except Err CStr := do
  let pctx ← prepro_register_default_macros create_prepro_context
  let pctx ← prepro_do_loop (src.length + 1) pctx src
  if pctx.pp_region_idx_ > 0 then throw (.raise 2205)
  pure pctx.out_buffer_

/-! ## Loading a script -/

open node_tag in
/-- Function `walk` of the pre-pass of `load_script` (neteruhsp.cc:5108). -/
def load_walk : ast_node_t → execute_environment_t → Except Err execute_environment_t
  | .null, _ => .error (.undefined 5110)
  | .node tag token left right, e => do
      let e ←
        if tag == NODE_VARIABLE || tag == NODE_IDENTIFIER_EXPR then do
          let var_name ← token_content token 5112
          if (search_variable e.variable_table_ var_name).isNone then
            let table ← variable_set_by_name e.variable_table_ (.int 0) var_name 0
            pure { e with variable_table_ := table }
          else pure e
        else if tag == NODE_LABEL then do
          let name ← token_content token 5126
          pure { e with label_table_ := e.label_table_ ++ [{ name_ := name, position_ := none }] }
        else pure e
      let e ← if left.isNull then pure e else load_walk left e
      if right.isNull then pure e else load_walk right e

/-- Loop over the statements in the pre-pass of `load_script` (neteruhsp.cc:5137). -/
def load_walk_statements : List ast_node_t → execute_environment_t →
    Except Err execute_environment_t
  | [], e => pure e
  | node :: rest, e => do
      let e ← load_walk node e
      load_walk_statements rest e

/-- Source function `load_script` (neteruhsp.cc:5074), from the parsed statements on:
the pre-pass and the code generation. -/
def load_ast (e : execute_environment_t) (ast : List ast_node_t) :
    Except Err execute_environment_t := do
  let e ← load_walk_statements ast e
  generate_and_append_code e ast

/-- Source function `load_script` (neteruhsp.cc:5074).  `fuel` bounds the depth of the
calls of the parser. -/
def load_script (fuel : Nat) (e : execute_environment_t) (script : CStr) :
    Except Err execute_environment_t := do
  let preprocessed ← prepro_do script
  let tokenizer := initialize_tokenize_context preprocessed
  let parser := initialize_parse_context tokenizer
  let (ast, _) ← parse_script fuel parser
  load_ast e ast

/-! ## States and syntax trees the theorems speak about -/

open code_oprator_tag node_tag token_tag sysvar_tag value_tag preprocessor_tag
  builtin_function_tag

/-- At most `n` passes through the loop of `execute_inner` (neteruhsp.cc:5169-5546): the
state after them; a state at which the loop ends is kept. -/
def execute_steps (h : host_t) : Nat → execute_environment_t → execute_status_t →
    Except Err machine_t
  | 0, e, s => pure (e, s)
  | n + 1, e, s =>
      if execute_finished e s then pure (e, s)
      else do
        let (e, s) ← execute_step h e s
        execute_steps h n e s

/-- A platform with signed `char`, a constant `rand`, clock 0 and stand-ins for `<cmath>`;
the examples below do not depend on it. -/
def example_host : host_t :=
  { char_signed := true, rand := fun _ _ => 0, time := 0, math := fun _ x _ => x }

/-- Token of the literal `3` in `repeat 3`. -/
def example_count_token : token_t :=
  { tag_ := TOKEN_INTEGER, content_ := ['3'], cursor_begin_ := 7, cursor_end_ := 8,
    appear_line_ := 0, left_space_ := true, right_space_ := true }

/-- Token of the name in the label statement `*x`. -/
def example_label_token : token_t :=
  { tag_ := TOKEN_IDENTIFIER, content_ := ['x'], cursor_begin_ := 12, cursor_end_ := 13,
    appear_line_ := 0, left_space_ := false, right_space_ := true }

/-- Generator context at the start of `generate_and_append_code`. -/
def example_generate_context : generate_context_t :=
  { stack_ := 0, repeat_head_ := List.replicate 32 0, repeat_depth_ := 0 }

/-- Syntax tree of the label statement `*L`, where `tok` is the token of the name `L`
(neteruhsp.cc:3000). -/
def label_statement (tok : token_t) : ast_node_t := create_ast_node_token NODE_LABEL tok .null

/-- Syntax tree of `goto *L` (neteruhsp.cc:3191). -/
def goto_statement (tok : token_t) : ast_node_t :=
  create_ast_node NODE_GOTO (label_statement tok) .null

/-- Syntax tree of `gosub *L` (neteruhsp.cc:3191). -/
def gosub_statement (tok : token_t) : ast_node_t :=
  create_ast_node NODE_GOSUB (label_statement tok) .null

/-- What `return v` leaves in the system variables for a value `v` that is not a variable
(neteruhsp.cc:5523-5526): `stat` for an `int`, `refdval` for a `double`, `refstr` for a
string. -/
def return_value (v : value_t) (s : execute_status_t) : execute_status_t :=
  match v with
  | .int i => { s with stat_ := i }
  | .double d => { s with refdval_ := d }
  | .string str => { s with refstr_ := str }
  | _ => s

/-- Environment of the program `gosub *s`, `end`, `*s`, `return` (one statement a line)
after `load_script`. -/
def example_gosub_env : execute_environment_t :=
  { label_table_ := [{ name_ := ['s'], position_ := some 4 }, { name_ := ['s'], position_ := none }],
    variable_table_ := [],
    execute_code_ := [OPERATOR_GOSUB.code, 0, 0, OPERATOR_END.code, OPERATOR_LABEL.code,
                      OPERATOR_RETURN.code, 0],
    string_table_ := [] }

/-- Token of the name in `gosub *s`. -/
def example_gosub_token : token_t :=
  { tag_ := TOKEN_IDENTIFIER, content_ := ['s'], cursor_begin_ := 7, cursor_end_ := 8,
    appear_line_ := 0, left_space_ := false, right_space_ := false }

/-- Environment of that program after the pre-pass of `load_script`, before any code is
generated. -/
def example_gosub_prepass : execute_environment_t :=
  { label_table_ := [{ name_ := ['s'], position_ := none }, { name_ := ['s'], position_ := none }],
    variable_table_ := [], execute_code_ := [], string_table_ := [] }

/-- State of that program on its `return`: one call frame holds the position of the
operand of the `gosub`. -/
def example_return_status : execute_status_t :=
  { initialize_execute_status [] with
    pc_ := 5, current_call_frame_ := 1, call_frame_ := (List.replicate 16 (0 : Int)).set 0 2 }

/-- What `main` does with the text of a script (main.cc:143-152): `load_script` into a new
environment, then `execute` from the first word.  The result is the list of the lines
written to standard output.  `fuel` bounds both the depth of the parser and the number of
passes of the machine. -/
def run_script (h : host_t) (fuel : Nat) (script stdin : CStr) : Except Err (List CStr) := do
  let e ← load_script fuel create_execute_environment script
  let m ← execute h fuel e 0 stdin
  pure m.2.stdout_

/-- The variable `create_variable( name )` returns: `INT`, 16 elements of 4 bytes, all
zero. -/
def fresh_variable (name : CStr) : variable_t :=
  { name_ := name, type_ := VALUE_INT, granule_size_ := 64, length_ := 16,
    data_ := List.replicate 64 0, data_size_ := 64 }

/-- Environment with the one fresh variable `v`. -/
def example_poke_env : execute_environment_t :=
  { create_execute_environment with variable_table_ := [fresh_variable ['v']] }

/-- State in which the arguments of `poke v, 0, 200` are on the stack. -/
def example_poke_status : execute_status_t :=
  { initialize_execute_status [] with stack_ := [] ++ [.variable 0 0, .int 0, .int 200] }

/-- First part of `load_script` (neteruhsp.cc:5085-5098): the statements parsed from the
preprocessed script. -/
def parse_source (fuel : Nat) (script : CStr) : Except Err (List ast_node_t) := do
  let preprocessed ← prepro_do script
  let (ast, _) ← parse_script fuel (initialize_parse_context (initialize_tokenize_context preprocessed))
  pure ast

/-- Field `tag_` of a node. -/
def ast_node_t.tag_ : ast_node_t → Option node_tag
  | .null => none
  | .node tag _ _ _ => some tag

/-- Value of an expression as the machine computes it: the script `r = ` followed by the
expression is loaded and executed, and the element 0 of the variable `r` is read. -/
def evaluated_expression (h : host_t) (text : String) : Except Err value_t := do
  let e ← load_script (16 * text.length + 64) create_execute_environment ("r = " ++ text).toList
  let m ← execute h 1000 e 0 []
  value_isolate m.1.variable_table_ (.variable 0 0)

/-- What `main` does with the text of a script (main.cc:143-159), up to the final state of
the machine. -/
def run_machine (h : host_t) (fuel : Nat) (script stdin : CStr) : Except Err machine_t := do
  let e ← load_script fuel create_execute_environment script
  execute h fuel e 0 stdin

/-- A text without a newline character. -/
def nl_free (s : CStr) : Prop := '\n' ∉ s

/-- A macro whose replacement text and default parameter texts hold no newline. -/
def macro_nl_free (m : macro_t) : Prop :=
  nl_free m.replacing_ ∧ ∀ t : CStr, some t ∈ m.params_ → nl_free t

/-- Arguments of a macro call none of which holds a newline. -/
def args_nl_free (marg : List (Option CStr)) : Prop := ∀ t : CStr, some t ∈ marg → nl_free t

/-- A preprocessor context whose macros hold no newline. -/
def macros_nl_free (pctx : prepro_context_t) : Prop :=
  ∀ m : macro_t, m ∈ pctx.macro_list_ → macro_nl_free m

/-- Number of newline characters of a text. -/
def count_nl (s : CStr) : Nat := s.count '\n'

/-- Number of the newlines of a source text that do not end a line for the preprocessor:
those right after a backslash (line continuation) and those inside a comment `/* */`.
The text is read from the left as `prepro_do` reads it, `in_comment` telling whether it
starts inside a comment. -/
def joined_newlines : Bool → CStr → Nat
  | _, [] => 0
  | in_comment, [c] => if c == '\n' && in_comment then 1 else 0
  | in_comment, c :: d :: rest =>
      if c == '/' && d == '*' then joined_newlines true rest
      else if c == '*' && d == '/' then joined_newlines false rest
      else if c == '\\' && d == '\n' then joined_newlines in_comment rest + 1
      else if c == '\n' then
        if in_comment then joined_newlines true (d :: rest) + 1
        else joined_newlines false (d :: rest)
      else joined_newlines in_comment (d :: rest)

/-- Tags of the statements `parse_script` returns for a source text. -/
def statement_tags (fuel : Nat) (script : String) : Except Err (List (Option node_tag)) :=
  (parse_source fuel script.toList).map (fun ast => ast.map ast_node_t.tag_)

/-- Number of arguments the specification gives for each built-in function. -/
def specified_arity : builtin_function_tag → Int
  | FUNCTION_PEEK | FUNCTION_WPEEK | FUNCTION_LPEEK | FUNCTION_ATAN | FUNCTION_POWF => 2
  | FUNCTION_LIMIT | FUNCTION_LIMITF => 3
  | _ => 1

/-- Whether a script is loaded and run to its end without an error. -/
def runs_without_error (h : host_t) (fuel : Nat) (script : String) : Bool :=
  match run_script h fuel script.toList [] with
  | .ok _ => true
  | .error _ => false

/-- The error with which a script stops, `none` when it runs to its end. -/
def script_error (h : host_t) (fuel : Nat) (script : String) : Option Err :=
  match run_script h fuel script.toList [] with
  | .ok _ => none
  | .error err => some err

/-- Name of the macro number `i` of a chain: two letters. -/
def chain_name (i : Nat) : CStr := [Char.ofNat (97 + i / 20), Char.ofNat (97 + i % 20)]

/-- Preprocessor context with a chain of `n` macros without parameters: each one stands
for the name of the next one, and the last one for `x`. -/
def macro_chain (n : Nat) : prepro_context_t :=
  { create_prepro_context with
    macro_list_ := (List.range n).map (fun i =>
      create_macro (chain_name i) (if i + 1 < n then chain_name (i + 1) else ['x'])) }

/-- The directive `prepro_line` finds on a line (neteruhsp.cc:2219-2287): leading blanks are
skipped, the line starts with `#`, and the first token after it is an identifier that
`query_preprocessor` knows; `none` for any other line. -/
def line_directive (line : CStr) : Option preprocessor_tag :=
  let line := line.dropWhile is_space
  if chAt line 0 != '#' then none
  else
    match read_token (initialize_parse_context (initialize_tokenize_context (line.drop 1))) with
    | .ok (st, _) => if st.tag_ != TOKEN_IDENTIFIER then none else query_preprocessor st.content_
    | .error _ => none

/-- A preprocessor context inside the inactive region of an `#if 0`. -/
def example_inactive_context : prepro_context_t :=
  { create_prepro_context with
    is_current_region_valid_ := false, pp_region_idx_ := 1,
    pp_region_ := ⟨true, 1⟩ :: ⟨false, 0⟩ :: List.replicate 14 ⟨false, 0⟩ }

/-- The two tokens `prepro_line` reads after the name of the directive on a directive line
(neteruhsp.cc:2564, 2570). -/
def directive_operands (line : CStr) : Except Err (token_t × token_t) := do
  let line := (line.dropWhile is_space).drop 1
  let (_, c) ← read_token (initialize_parse_context (initialize_tokenize_context line))
  let (it, c) ← read_token c
  let (at_, _) ← read_token c
  pure (it, at_)

/-- The context after `#enum` defined the macro `name` with the value `n`: the macro is
appended to the list and `enum_next_` is the successor of `n` as an `int`. -/
def enum_defined (pctx : prepro_context_t) (name : CStr) (n : Int) : prepro_context_t :=
  { pctx with macro_list_ := pctx.macro_list_ ++ [ create_macro name (create_string_from_int n)],
              enum_next_ := wrap32 (n + 1) }

/-- Text of the expression after the `=` token `at_` of an `#enum` line
(neteruhsp.cc:2573). -/
def enum_expression (line : CStr) (at_ : token_t) : CStr :=
  ((line.dropWhile is_space).drop 1).drop at_.cursor_end_

/-- A value of one of the three primitive types as the program can hold it: an `int` in
range, the 64 bits of a `double`, or a C string, which has no NUL character in it. -/
def is_primitive_value : value_t → Bool
  | .int n => decide (INT_MIN ≤ n ∧ n ≤ INT_MAX)
  | .double d => decide (d.bits < 2 ^ 64)
  | .string s => !s.contains NUL
  | _ => false

/-- Bytes `variable_set` writes for a value (neteruhsp.cc:3965, 3970, 3975). -/
def value_bytes : value_t → List Nat
  | .int n => int_bytes n
  | .double d => double_bytes d
  | .string s => cstr_bytes s
  | _ => []

/-- The operators of the assignment statements (neteruhsp.cc:5260-5268). -/
def assignment_operators : List code_oprator_tag :=
  [OPERATOR_ASSIGN, OPERATOR_ADD_ASSIGN, OPERATOR_SUB_ASSIGN, OPERATOR_MUL_ASSIGN,
   OPERATOR_DIV_ASSIGN, OPERATOR_MOD_ASSIGN, OPERATOR_BOR_ASSIGN, OPERATOR_BAND_ASSIGN,
   OPERATOR_BXOR_ASSIGN]

/-- Machine with the fresh variable `v` whose stack holds the operands of `v = "hi"`. -/
def example_assign_status : execute_status_t :=
  { initialize_execute_status [] with stack_ := [.variable 0 0, .string "hi".toList] }

/-- State of the machine after `OPERATOR_ASSIGN` ran in `example_assign_status`. -/
def example_assign_result : machine_t :=
  match execute_operator example_host example_poke_env example_assign_status OPERATOR_ASSIGN with
  | .ok m => m
  | .error _ => (example_poke_env, example_assign_status)

/-- Lines of the `raise_error` calls for an operand of another type than the variable in
`variable_add`, `variable_sub`, `variable_mul`, `variable_div`, `variable_mod`,
`variable_bor`, `variable_band` and `variable_bxor`. -/
def type_mismatch_lines : List Nat := [3989, 4041, 4075, 4109, 4153, 4198, 4232, 4266]

/-- The `raise_error` calls with which a computation can stop are among the lines `S`. -/
def raises_within {α : Type} (S : List Nat) (x : Except Err α) : Prop :=
  ∀ line : Nat, x = .error (.raise line) → line ∈ S

/-- Lines of the `raise_error` calls with which a compound assignment can stop. -/
def compound_assignment_raise_lines : List Nat :=
  [4299, 4422, 5275, 4017, 4061, 4095, 4139, 4184, 4218, 4252, 4286, 4121, 4131, 4165, 4175,
   4213, 4247, 4281]

/-- Machine with the fresh variable `v` whose stack holds the operands of `v += 2.7`,
`2.7` being the `double` with the bits `0x400599999999999A`. -/
def example_add_status : execute_status_t :=
  { initialize_execute_status [] with stack_ := [.variable 0 0, .double ⟨0x400599999999999A⟩] }

/-- The operators of the binary expressions (neteruhsp.cc:5303-5316). -/
def binary_operators : List code_oprator_tag :=
  [OPERATOR_BOR, OPERATOR_BAND, OPERATOR_BXOR, OPERATOR_EQ, OPERATOR_NEQ, OPERATOR_GT,
   OPERATOR_GTOE, OPERATOR_LT, OPERATOR_LTOE, OPERATOR_ADD, OPERATOR_SUB, OPERATOR_MUL,
   OPERATOR_DIV, OPERATOR_MOD]

/-- The comparison operators `==`, `!=`, `>`, `>=`, `<`, `<=`. -/
def comparison_operators : List code_oprator_tag :=
  [OPERATOR_EQ, OPERATOR_NEQ, OPERATOR_GT, OPERATOR_GTOE, OPERATOR_LT, OPERATOR_LTOE]

/-- Machine whose stack holds the operands of `1.5 == 1.5`. -/
def example_compare_status : execute_status_t :=
  { initialize_execute_status [] with
    stack_ := [.double ⟨0x3FF8000000000000⟩, .double ⟨0x3FF8000000000000⟩] }

/-- String of the bytes `bs`, as `mem_cstr` returns it. -/
def bytes_string (bs : List Nat) : CStr := bs.map Char.ofNat

/-- A STRING variable in the layout `prepare_variable` gives it: `length_` elements of
`granule_size_` bytes each. -/
def string_variable (var : variable_t) : Prop :=
  var.type_ = VALUE_STRING ∧ 0 < var.granule_size_ ∧ var.granule_size_ ≤ INT_MAX ∧
  var.granule_size_ * var.length_ ≤ var.data_.length

/-- Element `i` of a STRING variable: the C string that starts at its place. -/
def string_element (var : variable_t) (i : Int) : Except Err CStr :=
  load_cstr var (var.granule_size_ * i) 4010

/-- The variable `s` after `sdim s, 16 : s = "hi"`. -/
def example_string_variable : variable_t :=
  { name_ := ['s'], type_ := VALUE_STRING, granule_size_ := 16, length_ := 1,
    data_ := [104, 105, 0] ++ List.replicate 13 0, data_size_ := 16 }

/-- Environment with the one variable `example_string_variable`. -/
def example_append_env : execute_environment_t :=
  { create_execute_environment with variable_table_ := [example_string_variable] }

/-- Machine whose stack holds the operands of `s += "!"`. -/
def example_append_status : execute_status_t :=
  { initialize_execute_status [] with stack_ := [.variable 0 0, .string "!".toList] }

/-- Syntax tree of `if cond { T } else { F }` and of the one-line forms, `F` being `null`
without `else` (neteruhsp.cc:3350-3352). -/
def if_node (cond T F : ast_node_t) : ast_node_t :=
  create_ast_node NODE_IF cond (create_ast_node NODE_IF_DISPATCHER T F)

/-- The words written for an `if` after the code of the condition: `OPERATOR_IF` with the
offset to the false branch, the true branch `tcode`, `OPERATOR_JUMP_RELATIVE` with the
offset to the end, the false branch `fcode`. -/
def if_code (tcode fcode : List Int) : List Int :=
  [OPERATOR_IF.code, (tcode.length : Int) + 4] ++ tcode ++
    [OPERATOR_JUMP_RELATIVE.code, (fcode.length : Int) + 2] ++ fcode

/-- Syntax tree of the condition `3`. -/
def example_if_condition : ast_node_t :=
  create_ast_node_token NODE_PRIMITIVE_VALUE example_count_token .null

/-- Syntax tree of the block `{ end }`. -/
def example_if_block : ast_node_t :=
  create_ast_node NODE_BLOCK_STATEMENTS (create_ast_node NODE_END .null .null) .null

/-- The words written for `if 3 { end }` before the offsets are patched. -/
def example_if_words : List Int :=
  [OPERATOR_PUSH_INT.code, 3, OPERATOR_IF.code, 0, OPERATOR_END.code,
   OPERATOR_JUMP_RELATIVE.code, 0]

/-- Environment with the words `ws` written. -/
def example_code_env (ws : List Int) : execute_environment_t :=
  { create_execute_environment with execute_code_ := ws }

/-- Test of the zero divisor in `value_div`, `value_mod`, `variable_div` and
`variable_mod`: the `int` 0, or a `double` equal to 0.0. -/
def zero_value : value_t → Bool
  | .int b => b == 0
  | .double d => d.isZero
  | _ => false

/-- The variable `prepare_variable` leaves: type, granule and length as given and a
storage of `size` zero bytes (neteruhsp.cc:3849-3871). -/
def zero_array (var : variable_t) (type : value_tag) (granule length size : Int) :
    variable_t :=
  { var with type_ := type, granule_size_ := granule, length_ := length,
             data_ := List.replicate size.toNat 0, data_size_ := wrap32 size }

/-- Syntax tree of `return` with the expression `expr`, `null` for none
(neteruhsp.cc:3170). -/
def return_node (expr : ast_node_t) : ast_node_t := create_ast_node NODE_RETURN expr .null

/-- Machine inside a subroutine called from position 0 (the call frame holds the position
2 of the last word of the `gosub`), about to return the value on the stack. -/
def example_return_double_status : execute_status_t :=
  { initialize_execute_status [] with
    stack_ := [.double ⟨0x4004000000000000⟩], pc_ := 5, current_call_frame_ := 1,
    call_frame_ := (List.replicate 16 (0 : Int)).set 0 2 }

/-- Code of `gosub *f : end : *f : return 2.5`. -/
def example_return_double_env : execute_environment_t :=
  { create_execute_environment with
    label_table_ := [{ name_ := ['f'], position_ := some 4 }],
    execute_code_ := [OPERATOR_GOSUB.code, 0, 0, OPERATOR_END.code, OPERATOR_LABEL.code,
      OPERATOR_RETURN.code, 1] }

/-- The characters `a` and `b` are the same or the two cases of one ASCII letter. -/
def same_letter (a b : Char) : Bool :=
  a == b ||
    (decide ('A' ≤ a ∧ a ≤ 'Z') && b.toNat == a.toNat + 32) ||
    (decide ('A' ≤ b ∧ b ≤ 'Z') && a.toNat == b.toNat + 32)

/-- The names `a` and `b` differ only in the case of ASCII letters. -/
def same_up_to_case : CStr → CStr → Bool
  | [], [] => true
  | a :: s, b :: t => same_letter a b && same_up_to_case s t
  | _, _ => false

/-- A string literal as the specification describes it, read from the text that follows
the opening quote: the body runs up to the closing quote, in it `\t` stands for TAB, `\n`
for LF, `\"` for a double quote and any other character for itself.  The result is the
decoded body and the number of characters read, closing quote included; `none` when a
backslash is followed by any other character or when there is no closing quote. -/
def string_literal_spec : CStr → Option (CStr × Nat)
  | [] => none
  | c :: rest =>
      if c == '"' then some ([], 1)
      else if c == '\\' then
        match rest with
        | [] => none
        | d :: rest2 =>
            if d == 't' then (string_literal_spec rest2).map (fun r => ('\t' :: r.1, r.2 + 2))
            else if d == 'n' then
              (string_literal_spec rest2).map (fun r => ('\n' :: r.1, r.2 + 2))
            else if d == '"' then
              (string_literal_spec rest2).map (fun r => ('"' :: r.1, r.2 + 2))
            else none
      else (string_literal_spec rest).map (fun r => (c :: r.1, r.2 + 1))

/-- What `get_token` computes for a string literal from the text that follows the opening
quote (neteruhsp.cc:1736-1753): the content of the token and the number of characters
read, closing quote included. -/
def scan_string_literal (s : CStr) : Except Err (CStr × Nat) :=
  match scan_string_body s with
  | none => .error (.raise 1742)
  | some n => (create_token_string (s.take n)).map (fun out => (out, n + 1))

/-- What the pre-pass of `load_script` does with the name of a `NODE_VARIABLE` or
`NODE_IDENTIFIER_EXPR` node (neteruhsp.cc:5112-5122): a variable of that name is appended
when the table has none. -/
def prepass_variable (e : execute_environment_t) (name : CStr) : execute_environment_t :=
  if (search_variable e.variable_table_ name).isNone then
    { e with variable_table_ := e.variable_table_ ++ [fresh_variable name] }
  else e

/-- The variables of the environment `load_script` builds from a script: name, type and
length of each. -/
def loaded_variables (script : String) : Except Err (List (CStr × value_tag × Int)) :=
  (load_script 1000 create_execute_environment script.toList).map
    (fun e => e.variable_table_.map (fun v => (v.name_, v.type_, v.length_)))

/-- Position of the cursor of the token buffer: the number of buffered tokens behind it.
With `token_current_` null the cursor is behind every buffered token. -/
def cursor_position (c : parse_context_t) : Nat :=
  match c.token_current_ with
  | none => c.token_list_.length
  | some i => i

/-- The cursor of the token buffer points into the list or is null. -/
def cursor_in_list (c : parse_context_t) : Prop :=
  ∀ i, c.token_current_ = some i → i < c.token_list_.length

/-- The call `read_token` `n` times in a row: the tokens returned, in order. -/
def read_tokens : Nat → parse_context_t → Except Err (List token_t × parse_context_t)
  | 0, c => pure ([], c)
  | n + 1, c => do
      let (t, c) ← read_token c
      let (ts, c) ← read_tokens n c
      pure (t :: ts, c)

/-- Parse context of the script `a b` after two calls of `read_token` and
`unread_token( c, 1 )`: `a` was returned last and is not unread, `b` is buffered ahead. -/
def example_unread_context : Except Err parse_context_t := do
  let c := initialize_parse_context (initialize_tokenize_context "a b".toList)
  let (_, c) ← read_token c
  let (_, c) ← read_token c
  unread_token c 1

/-- The script of `n` lines `#if 1` followed by `n` lines `#endif`. -/
def nested_regions (n : Nat) : CStr :=
  (List.replicate n "#if 1\n".toList).flatten ++ (List.replicate n "#endif\n".toList).flatten

/-- The variable `s` after `sdim s, 4, 2 : s(1) = "xyz" : s(0) = "ab"`. -/
def example_full_granule_variable : variable_t :=
  { name_ := ['s'], type_ := VALUE_STRING, granule_size_ := 4, length_ := 2,
    data_ := [97, 98, 0, 0, 120, 121, 122, 0], data_size_ := 8 }

/-- The macro of `#define ctype f(%1) %2`. -/
def example_reference_rule : macro_t :=
  { name_ := ['f'], is_ctype_ := true, replacing_ := "%2".toList, param_num_ := 1,
    params_ := List.replicate 16 none }

/-- Token `%` of the replacement text `%2`. -/
def example_indicator_token : token_t :=
  { tag_ := TOKEN_PP_ARG_INDICATOR, content_ := ['%'], cursor_begin_ := 0, cursor_end_ := 1,
    appear_line_ := 0, left_space_ := false, right_space_ := false }

/-- Token `2` of the replacement text `%2`. -/
def example_index_token : token_t :=
  { tag_ := TOKEN_INTEGER, content_ := ['2'], cursor_begin_ := 1, cursor_end_ := 2,
    appear_line_ := 0, left_space_ := false, right_space_ := false }

/-- Parse context of the replacement text `%2` after `n` tokens have been read. -/
def example_reference_context (n : Nat) : parse_context_t :=
  { token_list_ := [example_indicator_token, example_index_token].take n,
    token_current_ := none,
    tokenize_context_ := { script_ := "%2".toList, cursor_ := n, line_ := 0 } }

/-- Size in bytes of an element of a variable, as `prepare_variable` and
`variable_data_ptr` lay the storage out (neteruhsp.cc:3856-3864, 4302-4315): 4 for INT, 8
for DOUBLE, the granule for STRING. -/
def element_size (var : variable_t) : Int :=
  match var.type_ with
  | VALUE_INT => 4
  | VALUE_DOUBLE => 8
  | VALUE_STRING => var.granule_size_
  | _ => 0

/-- Bytes of element `j` of a variable, `none` when they are not all inside the storage. -/
def element_bytes (var : variable_t) (j : Int) : Option (List Nat) :=
  mem_read var.data_ (element_size var * j) (element_size var).toNat

/-- The variable `s` after `sdim s, 4, 2 : s(1) = "ab"`. -/
def example_two_strings_variable : variable_t :=
  { name_ := ['s'], type_ := VALUE_STRING, granule_size_ := 4, length_ := 2,
    data_ := [0, 0, 0, 0, 97, 98, 0, 0], data_size_ := 8 }

/-- The variable `s` after `sdim s, 4, 2 : s(1) = "ab" : s(0) = "longer"`. -/
def example_regrown_variable : variable_t :=
  { name_ := ['s'], type_ := VALUE_STRING, granule_size_ := 7, length_ := 2,
    data_ := [108, 111, 110, 103, 101, 114, 0, 0, 0, 0, 0, 0, 0, 0], data_size_ := 14 }

/-- The region state of the context `q` is that of `p`: depth, region stack and validity
of the current region. -/
def same_regions (p q : prepro_context_t) : Prop :=
  q.pp_region_idx_ = p.pp_region_idx_ ∧ q.pp_region_ = p.pp_region_ ∧
  q.is_current_region_valid_ = p.is_current_region_valid_

/-- Text of the expression of an `#if` line: what follows the name of the directive
(neteruhsp.cc:2465). -/
def if_expression (line : CStr) : Except Err CStr := do
  let line := (line.dropWhile is_space).drop 1
  let (st, _) ← read_token (initialize_parse_context (initialize_tokenize_context line))
  pure (line.drop st.cursor_end_)

/-- The region state of `pctx` stands for the open regions whose conditions are `conds`,
outermost first: the depth is their number, entry `j` of the region stack holds the
conjunction of the first `j` conditions, and the validity of the current region is the
conjunction of all of them. -/
def regions_track (pctx : prepro_context_t) (conds : List Bool) : Prop :=
  pctx.pp_region_idx_ = conds.length ∧ pctx.pp_region_.length = 16 ∧ conds.length ≤ 15 ∧
  (∀ j : Nat, j ≤ conds.length →
    (pctx.pp_region_[j]?).map (fun r => r.is_valid_) = some ((conds.take j).all id)) ∧
  pctx.is_current_region_valid_ = conds.all id

/-- A value of type INT, DOUBLE or STRING: not a reference to a variable and not the empty
value. -/
def is_scalar : value_t → Bool
  | .int _ => true
  | .double _ => true
  | .string _ => true
  | _ => false

/-- An error an operation on values gives: a `raise_error`, or an `int` division whose
quotient is not an `int`. -/
def operation_error : Err → Bool
  | .raise _ => true
  | .undefined _ => true
  | _ => false

/-- An expression tree as `parse_expression` builds it from literals, parentheses, unary
minus, binary operators and identifier expressions (neteruhsp.cc:3509-3815). -/
def expression_tree : ast_node_t → Bool
  | .null => false
  | .node tag token left right =>
      match tag with
      | NODE_PRIMITIVE_VALUE =>
          match token with
          | some t => t.tag_ == TOKEN_INTEGER || t.tag_ == TOKEN_REAL || t.tag_ == TOKEN_STRING
          | none => false
      | NODE_IDENTIFIER_EXPR => token.isSome
      | NODE_EXPRESSION | NODE_UNARY_MINUS => expression_tree left
      | NODE_BOR | NODE_BAND | NODE_BXOR | NODE_EQ | NODE_NEQ | NODE_GT | NODE_GTOE | NODE_LT
      | NODE_LTOE | NODE_ADD | NODE_SUB | NODE_MUL | NODE_DIV | NODE_MOD =>
          expression_tree left && expression_tree right
      | _ => false

/-- The tree holds an identifier expression outside the arguments of another one. -/
def holds_identifier : ast_node_t → Bool
  | .null => false
  | .node tag _ left right =>
      match tag with
      | NODE_IDENTIFIER_EXPR => true
      | NODE_EXPRESSION | NODE_UNARY_MINUS => holds_identifier left
      | NODE_BOR | NODE_BAND | NODE_BXOR | NODE_EQ | NODE_NEQ | NODE_GT | NODE_GTOE | NODE_LT
      | NODE_LTOE | NODE_ADD | NODE_SUB | NODE_MUL | NODE_DIV | NODE_MOD =>
          holds_identifier left || holds_identifier right
      | _ => false

/-- The first leaf of the tree, read from the left, is an identifier expression. -/
def starts_with_identifier : ast_node_t → Bool
  | .null => false
  | .node tag _ left _ =>
      match tag with
      | NODE_IDENTIFIER_EXPR => true
      | NODE_EXPRESSION | NODE_UNARY_MINUS | NODE_BOR | NODE_BAND | NODE_BXOR | NODE_EQ
      | NODE_NEQ | NODE_GT | NODE_GTOE | NODE_LT | NODE_LTOE | NODE_ADD | NODE_SUB | NODE_MUL
      | NODE_DIV | NODE_MOD => starts_with_identifier left
      | _ => false

/-- A pure expression: a tree built only from literals, parentheses, unary minus and
binary operators. -/
def pure_expression (a : ast_node_t) : Bool := expression_tree a && !holds_identifier a

/-- Value of a pure expression, computed with the functions of the source on values:
literals as `evaluate_ast_node` and the code generator read them (`atoi`, `atof`, the
content of the string token), `value_unary_minus` for the unary minus and the function of
`binary_operator` for a binary node, applied to the values of the operands from left to
right. -/
def pure_expression_value : ast_node_t → Except Err value_t
  | .null => .error (.undefined 5992)
  | .node tag token left right =>
      match tag with
      | NODE_PRIMITIVE_VALUE =>
          match token with
          | none => .error (.undefined 6079)
          | some t =>
              match t.tag_ with
              | TOKEN_INTEGER => pure (.int (atoi t.content_))
              | TOKEN_REAL => pure (.double (atof t.content_))
              | TOKEN_STRING => pure (.string t.content_)
              | _ => .error (.assertion 6084)
      | NODE_EXPRESSION => pure_expression_value left
      | NODE_UNARY_MINUS => do
          let v ← pure_expression_value left
          value_unary_minus v
      | _ =>
          match (binary_node_operator tag).bind binary_operator with
          | none => .error (.assertion 6052)
          | some f => do
              let l ← pure_expression_value left
              let r ← pure_expression_value right
              f [] l r

/-- The tree `parse_expression` builds from the text of an expression. -/
def expression_ast (text : String) : Except Err ast_node_t := do
  let c := initialize_parse_context (initialize_tokenize_context text.toList)
  let (node, _) ← parse_expression (16 * text.length + 64) c
  pure node

/-- The identifier expression `a`. -/
def example_identifier_node : ast_node_t :=
  create_ast_node_token NODE_IDENTIFIER_EXPR
    { tag_ := TOKEN_IDENTIFIER, content_ := ['a'], cursor_begin_ := 0, cursor_end_ := 1,
      appear_line_ := 0, left_space_ := false, right_space_ := false } .null

/-- The tree of the expression `3 + -3`. -/
def example_pure_node : ast_node_t :=
  create_ast_node NODE_ADD
    (create_ast_node_token NODE_PRIMITIVE_VALUE example_count_token .null)
    (create_ast_node NODE_UNARY_MINUS
      (create_ast_node_token NODE_PRIMITIVE_VALUE example_count_token .null) .null)

/-- The environment that holds the code of `3 + -3` and nothing else. -/
def example_pure_environment : execute_environment_t :=
  { create_execute_environment with
    execute_code_ := [OPERATOR_PUSH_INT.code, 3, OPERATOR_PUSH_INT.code, 3,
      OPERATOR_UNARY_MINUS.code, OPERATOR_ADD.code] }

/-- Shape of a variable: its type is INT, DOUBLE or STRING, it has at least one element,
its storage has the size of its elements together, and `data_size_` is that size
converted to `int`. -/
def variable_shape (var : variable_t) : Prop :=
  (var.type_ = VALUE_INT ∨ var.type_ = VALUE_DOUBLE ∨ var.type_ = VALUE_STRING) ∧
  1 ≤ var.length_ ∧ (var.data_.length : Int) = var.length_ * element_size var ∧
  var.data_size_ = wrap32 var.data_.length

/-- The fields `length_` and `granule_size_` of a variable hold values of an `int`, the
granule not negative. -/
def int_fields (var : variable_t) : Prop :=
  var.length_ ≤ INT_MAX ∧ 0 ≤ var.granule_size_ ∧ var.granule_size_ ≤ INT_MAX

/-- Every variable of a table has the shape and the `int` fields. -/
def table_shape (vars : List variable_t) : Prop :=
  ∀ v ∈ vars, variable_shape v ∧ int_fields v

/-! ## Theorems -/

theorem digit_char_eq (d : Nat) (hd : d < 10) : digit_char d = Nat.digitChar d := by
  interval_cases d <;> rfl

theorem digit_value_digit_char (d : Nat) (hd : d < 10) :
    digit_value 10 (digit_char d) = some d := by
  interval_cases d <;> rfl

theorem isspace_digit_char (d : Nat) (hd : d < 10) : isspace (digit_char d) = false := by
  interval_cases d <;> rfl

theorem scan_sign_digit_char (d : Nat) (hd : d < 10) (t : CStr) :
    scan_sign (digit_char d :: t) = (false, digit_char d :: t) := by
  interval_cases d <;> rfl

theorem dec_digits_head (fuel n : Nat) (hf : n < fuel) :
    ∃ d t, d < 10 ∧ dec_digits fuel n = digit_char d :: t := by
  induction fuel generalizing n with
  | zero => omega
  | succ fuel ih =>
    unfold dec_digits
    split
    · exact ⟨n, [], by omega, rfl⟩
    · obtain ⟨d, t, hd, ht⟩ := ih (n / 10) (by omega)
      exact ⟨d, t ++ [digit_char (n % 10)], hd, by rw [ht]; rfl⟩

theorem dec_digits_toDigits (fuel n : Nat) (hf : n < fuel) (ds : List Char) :
    Nat.toDigitsCore 10 fuel n ds = dec_digits fuel n ++ ds := by
  induction fuel generalizing n ds with
  | zero => omega
  | succ fuel ih =>
    unfold dec_digits Nat.toDigitsCore
    by_cases h10 : n < 10
    · have h0 : n / 10 = 0 := by omega
      have hm : n % 10 = n := by omega
      simp [h10, h0, hm, digit_char_eq n h10]
    · have h0 : ¬ (n / 10 = 0) := by omega
      simp only [h10, h0, if_false]
      rw [ih (n / 10) (by omega), digit_char_eq (n % 10) (by omega)]
      simp

theorem fmt_nat_toDigits (n : Nat) : fmt_nat n = Nat.toDigits 10 n := by
  unfold fmt_nat Nat.toDigits
  rw [dec_digits_toDigits (n + 1) n (by omega)]
  simp

theorem scan_digits_dec (fuel n : Nat) (hf : n < fuel) (acc : Nat) (rest : CStr) :
    (scan_digits 10 (dec_digits fuel n ++ rest) acc).1 =
      (scan_digits 10 rest (acc * 10 ^ (dec_digits fuel n).length + n)).1 := by
  induction fuel generalizing n acc rest with
  | zero => omega
  | succ fuel ih =>
    unfold dec_digits
    by_cases h10 : n < 10
    · simp [h10, scan_digits, digit_value_digit_char n h10]
    · simp only [h10, if_false, List.append_assoc]
      rw [ih (n / 10) (by omega)]
      simp only [List.singleton_append, scan_digits, digit_value_digit_char (n % 10) (by omega),
        List.length_append, List.length_singleton]
      congr 2
      rw [pow_succ]
      have := Nat.div_add_mod n 10
      nlinarith [this]

theorem scan_digits_fmt_nat (n : Nat) : (scan_digits 10 (fmt_nat n) 0).1 = n := by
  have h := scan_digits_dec (n + 1) n (by omega) 0 []
  simp only [List.append_nil] at h
  unfold fmt_nat
  rw [h]
  simp [scan_digits]

theorem atoi_fmt_nat (n : Nat) (hn : (n : Int) ≤ INT_MAX) : atoi (fmt_nat n) = n := by
  obtain ⟨d, t, hd, ht⟩ := dec_digits_head (n + 1) n (by omega)
  have hval := scan_digits_fmt_nat n
  unfold fmt_nat at hval
  unfold INT_MAX at hn
  unfold atoi fmt_nat
  rw [ht] at hval ⊢
  simp only [List.dropWhile, isspace_digit_char d hd, scan_sign_digit_char d hd]
  simp only [hval]
  simp [wrap32]
  omega

theorem atoi_fmt_d (n : Int) (hlo : INT_MIN ≤ n) (hhi : n ≤ INT_MAX) : atoi (fmt_d n) = n := by
  unfold fmt_d
  by_cases hneg : n < 0
  · simp only [hneg, if_true]
    obtain ⟨d, t, hd, ht⟩ := dec_digits_head (n.natAbs + 1) n.natAbs (by omega)
    have hval := scan_digits_fmt_nat n.natAbs
    unfold INT_MIN at hlo
    unfold atoi
    have hsp : isspace '-' = false := rfl
    have hsg : scan_sign ('-' :: fmt_nat n.natAbs) = (true, fmt_nat n.natAbs) := rfl
    simp only [List.dropWhile, hsp, hsg, hval]
    have hcl : max (-9223372036854775808) (min 9223372036854775807 (-(n.natAbs : Int))) = n := by
      rw [min_eq_right (by omega), max_eq_right (by omega)]; omega
    simp only [if_true, hcl]
    unfold wrap32
    omega
  · simp only [hneg, if_false]
    have h := atoi_fmt_nat n.natAbs (by omega)
    rw [h]; omega

theorem execute_steps_add (h : host_t) (a b : Nat) (e : execute_environment_t)
    (s : execute_status_t) :
    execute_steps h (a + b) e s = (execute_steps h a e s >>= fun m => execute_steps h b m.1 m.2) := by
  induction a generalizing e s with
  | zero => simp [execute_steps]
  | succ a ih =>
    rw [Nat.add_right_comm]
    simp only [execute_steps]
    split
    · rename_i hf
      cases b with
      | zero => simp [execute_steps]
      | succ b => simp [execute_steps, hf]
    · cases hs : execute_step h e s with
      | error err => rfl
      | ok m => simp [ih]

theorem execute_steps_trans (h : host_t) (a b : Nat) (e e1 e2 : execute_environment_t)
    (s s1 s2 : execute_status_t)
    (h1 : execute_steps h a e s = .ok (e1, s1)) (h2 : execute_steps h b e1 s1 = .ok (e2, s2)) :
    execute_steps h (a + b) e s = .ok (e2, s2) := by
  rw [execute_steps_add, h1]; exact h2

theorem code_at_ok (e : execute_environment_t) (p : Nat) (w : Int) (line : Nat)
    (hw : e.execute_code_[p]? = some w) : code_at e (p : Int) line = .ok w := by
  simp [code_at, array_get, in_bounds, hw]

theorem stack_peek_top (st : List value_t) (v : value_t) :
    stack_peek (st ++ [v]) (-1) = .ok v := by
  have h1 : ((st.length : Int) + 1 + -1).toNat = st.length := by omega
  have h2 : (0 : Int) ≤ (st.length : Int) + 1 + -1 ∧ (st.length : Int) + 1 + -1 < (st.length : Int) + 1 := by
    omega
  simp [stack_peek, h1, h2, pure, Except.pure]

theorem stack_pop_top (st : List value_t) (v : value_t) :
    stack_pop (st ++ [v]) 1 = .ok st := by
  simp [stack_pop, pure, Except.pure]

theorem decode_code (op : code_oprator_tag) : enum_decode operator_list op.code = some op := by
  cases op <;> rfl

theorem execute_step_op (h : host_t) (e : execute_environment_t) (s : execute_status_t)
    (p : Nat) (op : code_oprator_tag)
    (hop : e.execute_code_[p]? = some op.code) (hpc : s.pc_ = p) :
    execute_step h e s =
      (execute_operator h e s op >>= fun m => pure (m.1, { m.2 with pc_ := m.2.pc_ + 1 })) := by
  unfold execute_step
  rw [hpc, code_at_ok e p _ 5180 hop]
  simp only [bind, Except.bind, decode_code]

theorem wrap32_of_range (x : Int) (h1 : INT_MIN ≤ x) (h2 : x ≤ INT_MAX) : wrap32 x = x := by
  unfold INT_MIN at h1
  unfold INT_MAX at h2
  unfold wrap32
  omega

theorem execute_steps_one (h : host_t) (e : execute_environment_t) (s : execute_status_t)
    (m : machine_t) (p : Nat) (w : Int) (hrun : s.is_end_ = false) (hpc : s.pc_ = (p : Int))
    (hw : e.execute_code_[p]? = some w) (hs : execute_step h e s = .ok m) :
    execute_steps h 1 e s = .ok m := by
  have hlt : p < e.execute_code_.length := by
    by_contra hcon
    have : e.execute_code_[p]? = none := by rw [List.getElem?_eq_none_iff]; omega
    rw [this] at hw; cases hw
  have hfin : execute_finished e s = false := by
    simp [execute_finished, hrun, hpc]; omega
  simp [execute_steps, hfin, hs, bind, Except.bind, pure, Except.pure]

theorem execute_operator_push_int (h : host_t) (e : execute_environment_t)
    (s : execute_status_t) :
    execute_operator h e s OPERATOR_PUSH_INT = (do
      let v ← code_at e (s.pc_ + 1) 5187
      pure (e, { s with stack_ := stack_push s.stack_ (.int v), pc_ := s.pc_ + 1 })) := rfl

theorem step_push_int (h : host_t) (e : execute_environment_t) (s : execute_status_t)
    (p : Nat) (v : Int)
    (hop : e.execute_code_[p]? = some OPERATOR_PUSH_INT.code)
    (hv : e.execute_code_[p + 1]? = some v) (hpc : s.pc_ = (p : Int)) :
    execute_step h e s =
      .ok (e, { s with stack_ := s.stack_ ++ [.int v], pc_ := (p : Int) + 2 }) := by
  have hv' : code_at e ((p : Int) + 1) 5187 = .ok v := by
    have := code_at_ok e (p + 1) v 5187 hv
    simpa using this
  rw [execute_step_op h e s p _ hop hpc, execute_operator_push_int]
  simp [hpc, hv', stack_push, pure, Except.pure, bind, Except.bind]
  omega

theorem execute_operator_label (h : host_t) (e : execute_environment_t)
    (s : execute_status_t) : execute_operator h e s OPERATOR_LABEL = .ok (e, s) := rfl

theorem search_label_lt (e : execute_environment_t) (name : CStr) (i : Nat)
    (hfind : search_label e name = some i) : i < e.label_table_.length := by
  unfold search_label at hfind
  simp only at hfind
  split at hfind
  · cases hfind; assumption
  · cases hfind

theorem generate_label (tok : token_t) (e : execute_environment_t) (c : generate_context_t)
    (i : Nat) (hfind : search_label e tok.content_ = some i) :
    generate_walk (label_statement tok) (e, c) =
      .ok ({ e with label_table_ := e.label_table_.modify
                      (fun l => { l with position_ := some (e.execute_code_.length : Int) }) i,
                    execute_code_ := e.execute_code_ ++ [OPERATOR_LABEL.code] }, c) := by
  simp [label_statement, create_ast_node_token, generate_walk, token_content, hfind, code_write,
    pure, Except.pure, bind, Except.bind]

theorem generate_goto (tok : token_t) (e : execute_environment_t) (c : generate_context_t)
    (i : Nat) (hfind : search_label e tok.content_ = some i) :
    generate_walk (goto_statement tok) (e, c) =
      .ok ({ e with execute_code_ := e.execute_code_ ++ [OPERATOR_GOTO.code, (i : Int), 0] }, c) := by
  simp [goto_statement, label_statement, create_ast_node, create_ast_node_token, generate_walk,
    token_content, hfind, code_write, code_write_pointer, pure, Except.pure, bind, Except.bind]

theorem generate_gosub (tok : token_t) (e : execute_environment_t) (c : generate_context_t)
    (i : Nat) (hfind : search_label e tok.content_ = some i) :
    generate_walk (gosub_statement tok) (e, c) =
      .ok ({ e with execute_code_ := e.execute_code_ ++ [OPERATOR_GOSUB.code, (i : Int), 0] }, c) := by
  simp [gosub_statement, label_statement, create_ast_node, create_ast_node_token, generate_walk,
    token_content, hfind, code_write, code_write_pointer, pure, Except.pure, bind, Except.bind]

theorem execute_operator_goto (h : host_t) (e : execute_environment_t) (s : execute_status_t) :
    execute_operator h e s OPERATOR_GOTO = (do
      let label ← code_get_pointer e (s.pc_ + 1) 5461
      let l ← in_bounds 5463 e.label_table_[label]?
      let position ← in_bounds 5463 l.position_
      pure (e, { s with pc_ := position - 1 })) := rfl

theorem execute_operator_gosub (h : host_t) (e : execute_environment_t) (s : execute_status_t) :
    execute_operator h e s OPERATOR_GOSUB = (do
      if s.current_call_frame_ + 1 ≥ MAX_CALL_FRAME ∨ s.current_call_frame_ + 1 < 0 then
        throw (.raise 5444)
      let label ← code_get_pointer e (s.pc_ + 1) 5448
      let frames ← array_set s.call_frame_ s.current_call_frame_ (s.pc_ + 2) 5451
      let l ← in_bounds 5455 e.label_table_[label]?
      let position ← in_bounds 5455 l.position_
      pure (e, { s with call_frame_ := frames,
                        current_call_frame_ := s.current_call_frame_ + 1,
                        pc_ := position - 1 })) := rfl

theorem code_get_pointer_ok (e : execute_environment_t) (p i : Nat) (w : Int) (line : Nat)
    (hi : e.execute_code_[p + 1]? = some (i : Int)) (h0 : e.execute_code_[p + 2]? = some w) :
    code_get_pointer e ((p : Int) + 1) line = .ok i := by
  have h1 : code_at e ((p : Int) + 1) line = .ok (i : Int) := by
    have := code_at_ok e (p + 1) i line hi
    simpa using this
  have h2 : code_at e ((p : Int) + 1 + 1) line = .ok w := by
    have := code_at_ok e (p + 2) w line h0
    have hc : (((p + 2 : Nat)) : Int) = (p : Int) + 1 + 1 := by push_cast; ring
    rwa [hc] at this
  simp [code_get_pointer, h1, h2, pure, Except.pure, bind, Except.bind]

theorem step_label (h : host_t) (e : execute_environment_t) (s : execute_status_t) (q : Nat)
    (hq : e.execute_code_[q]? = some OPERATOR_LABEL.code) (hpc : s.pc_ = (q : Int)) :
    execute_step h e s = .ok (e, { s with pc_ := (q : Int) + 1 }) := by
  rw [execute_step_op h e s q OPERATOR_LABEL hq hpc, execute_operator_label]
  simp [hpc, bind, Except.bind, pure, Except.pure]

theorem step_goto (h : host_t) (e : execute_environment_t) (s : execute_status_t)
    (p i q : Nat) (w : Int) (l : label_node_t)
    (hop : e.execute_code_[p]? = some OPERATOR_GOTO.code)
    (hi : e.execute_code_[p + 1]? = some (i : Int)) (h0 : e.execute_code_[p + 2]? = some w)
    (hl : e.label_table_[i]? = some l) (hq : l.position_ = some (q : Int)) (hpc : s.pc_ = (p : Int)) :
    execute_step h e s = .ok (e, { s with pc_ := (q : Int) }) := by
  rw [execute_step_op h e s p _ hop hpc, execute_operator_goto, hpc,
    code_get_pointer_ok e p i w 5461 hi h0]
  simp [hl, hq, in_bounds, bind, Except.bind, pure, Except.pure]

theorem step_gosub (h : host_t) (e : execute_environment_t) (s : execute_status_t)
    (p i q cf : Nat) (w : Int) (l : label_node_t)
    (hop : e.execute_code_[p]? = some OPERATOR_GOSUB.code)
    (hi : e.execute_code_[p + 1]? = some (i : Int)) (h0 : e.execute_code_[p + 2]? = some w)
    (hl : e.label_table_[i]? = some l) (hq : l.position_ = some (q : Int)) (hpc : s.pc_ = (p : Int))
    (hcf : s.current_call_frame_ = (cf : Int)) (hcf16 : cf + 1 < 16)
    (hlen : s.call_frame_.length = 16) :
    execute_step h e s =
      .ok (e, { s with call_frame_ := s.call_frame_.set cf ((p : Int) + 2),
                       current_call_frame_ := (cf : Int) + 1,
                       pc_ := (q : Int) }) := by
  rw [execute_step_op h e s p _ hop hpc, execute_operator_gosub, hpc,
    code_get_pointer_ok e p i w 5448 hi h0]
  have h1 : ¬ ((cf : Int) + 1 ≥ 16 ∨ (cf : Int) + 1 < 0) := by omega
  have h2 : (0 : Int) ≤ (cf : Int) ∧ (cf : Int) < 16 := by omega
  simp [hl, hq, hcf, h1, h2, hlen, MAX_CALL_FRAME, array_set, in_bounds, bind, Except.bind, pure,
    Except.pure]

theorem execute_operator_return (h : host_t) (e : execute_environment_t)
    (s : execute_status_t) :
    execute_operator h e s OPERATOR_RETURN = (do
      if s.current_call_frame_ ≤ 0 then throw (.raise 5514)
      let arg_num ← code_at e (s.pc_ + 1) 5517
      let s ←
        if arg_num > 0 then do
          if arg_num ≠ 1 then throw (.assertion 5520)
          let res ← stack_peek s.stack_ (-1)
          let s ←
            match (← value_get_primitive_tag e.variable_table_ res) with
            | VALUE_INT => do
                let i ← value_calc_int e.variable_table_ res
                pure { s with stat_ := i }
            | VALUE_DOUBLE => do
                let d ← value_calc_double e.variable_table_ res
                pure { s with refdval_ := d }
            | VALUE_STRING => do
                let str ← value_calc_string e.variable_table_ res
                pure { s with refstr_ := str }
            | _ => throw (.assertion 5527)
          let st ← stack_pop s.stack_ 1
          pure { s with stack_ := st }
        else pure s
      let frame ← array_get s.call_frame_ (s.current_call_frame_ - 1) 5533
      pure (e, { s with current_call_frame_ := s.current_call_frame_ - 1, pc_ := frame })) := rfl

theorem step_return (h : host_t) (e : execute_environment_t) (s : execute_status_t)
    (r cf : Nat) (back : Int)
    (hop : e.execute_code_[r]? = some OPERATOR_RETURN.code)
    (h0 : e.execute_code_[r + 1]? = some 0) (hpc : s.pc_ = (r : Int))
    (hcf : s.current_call_frame_ = (cf : Int) + 1)
    (hframe : s.call_frame_[cf]? = some back) :
    execute_step h e s =
      .ok (e, { s with current_call_frame_ := (cf : Int), pc_ := back + 1 }) := by
  have h1 : code_at e ((r : Int) + 1) 5517 = .ok 0 := by
    have := code_at_ok e (r + 1) 0 5517 h0
    simpa using this
  have h2 : ¬ ((cf : Int) + 1 ≤ 0) := by omega
  rw [execute_step_op h e s r _ hop hpc, execute_operator_return, hpc, h1]
  simp [hcf, h2, hframe, array_get, in_bounds, bind, Except.bind, pure, Except.pure]

theorem step_return_value (h : host_t) (e : execute_environment_t) (s : execute_status_t)
    (r cf : Nat) (back : Int) (st : List value_t) (v : value_t)
    (hop : e.execute_code_[r]? = some OPERATOR_RETURN.code)
    (h1 : e.execute_code_[r + 1]? = some 1) (hpc : s.pc_ = (r : Int))
    (hcf : s.current_call_frame_ = (cf : Int) + 1)
    (hframe : s.call_frame_[cf]? = some back)
    (hst : s.stack_ = st ++ [v])
    (hv : v.type_ = VALUE_INT ∨ v.type_ = VALUE_DOUBLE ∨ v.type_ = VALUE_STRING) :
    execute_step h e s =
      .ok (e, { return_value v s with stack_ := st, current_call_frame_ := (cf : Int),
                                      pc_ := back + 1 }) := by
  have hw : code_at e ((r : Int) + 1) 5517 = .ok 1 := by
    have := code_at_ok e (r + 1) 1 5517 h1
    simpa using this
  have h2 : ¬ ((cf : Int) + 1 ≤ 0) := by omega
  rw [execute_step_op h e s r _ hop hpc, execute_operator_return, hpc, hw]
  rcases v with _ | i | d | str | ⟨a, b⟩
  · simp [value_t.type_] at hv
  · simp [hcf, h2, hframe, hst, stack_peek_top, stack_pop_top, value_get_primitive_tag,
      value_t.type_, value_calc_int, return_value, array_get, in_bounds, bind, Except.bind, pure,
      Except.pure]
  · simp [hcf, h2, hframe, hst, stack_peek_top, stack_pop_top, value_get_primitive_tag,
      value_t.type_, value_calc_double, return_value, array_get, in_bounds, bind, Except.bind,
      pure, Except.pure]
  · simp [hcf, h2, hframe, hst, stack_peek_top, stack_pop_top, value_get_primitive_tag,
      value_t.type_, value_calc_string, return_value, array_get, in_bounds, bind, Except.bind,
      pure, Except.pure]
  · simp [value_t.type_] at hv

set_option maxRecDepth 100000 in
theorem example_gosub_loaded :
    load_script 100 create_execute_environment "gosub *s\nend\n*s\nreturn".toList =
      .ok example_gosub_env := by decide!

/-- C2: `goto *L` and `gosub *L` continue with the first instruction after the label
statement `*L`, and `return` pops one call frame and continues after the `gosub` and its
operand.  `tok` is the token of the name `L`, found as label `i` by the generator in the
environment `eg`.  (1) The label statement gives label `i` the position at which its own
word `OPERATOR_LABEL` is written, so that the first instruction generated after the
statement is the next word; (2), (3) `goto *L` and `gosub *L` are written as the operator
and the two operand words that point to label `i`.  In the finished program `e`, where
label `i` has the position `q` of an `OPERATOR_LABEL` word and the operand at `p + 1`
points to it: (4) from a `goto` at `p` the machine is at `q + 1` after two passes (the jump
and the label word, which does nothing), with nothing else changed; (5) from a `gosub` at `p`
likewise, with one more call frame, which holds `p + 2`; (6) a `return` (at `r`, without a
value) executed with that frame on top pops it and continues at `p + 3`, the word after the
operator `gosub` and its two operand words; (7) so does a `return v` for a value `v` that
is not a variable, which also pops `v` and stores it in a system variable. -/
theorem goto_gosub_return
    (h : host_t) (tok : token_t) (eg : execute_environment_t) (c : generate_context_t)
    (e : execute_environment_t) (s sr : execute_status_t) (i p q r cf : Nat) (w : Int)
    (l : label_node_t)
    (hfind : search_label eg tok.content_ = some i)
    (hi : e.execute_code_[p + 1]? = some (i : Int)) (h0 : e.execute_code_[p + 2]? = some w)
    (hl : e.label_table_[i]? = some l) (hq : l.position_ = some (q : Int))
    (hlab : e.execute_code_[q]? = some OPERATOR_LABEL.code)
    (hpc : s.pc_ = (p : Int)) (hrun : s.is_end_ = false)
    (hcf : s.current_call_frame_ = (cf : Int)) (hcf16 : cf + 1 < 16)
    (hlen : s.call_frame_.length = 16)
    (hr : e.execute_code_[r]? = some OPERATOR_RETURN.code) (hrpc : sr.pc_ = (r : Int))
    (hrcf : sr.current_call_frame_ = (cf : Int) + 1)
    (hrframe : sr.call_frame_[cf]? = some ((p : Int) + 2)) :
    (generate_walk (label_statement tok) (eg, c) =
      .ok ({ eg with label_table_ := eg.label_table_.modify
                       (fun l => { l with position_ := some (eg.execute_code_.length : Int) }) i,
                     execute_code_ := eg.execute_code_ ++ [OPERATOR_LABEL.code] }, c) ∧
     ((eg.label_table_.modify
        (fun l => { l with position_ := some (eg.execute_code_.length : Int) }) i)[i]?.map
          (fun l => l.position_)) = some (some (eg.execute_code_.length : Int))) ∧
    generate_walk (goto_statement tok) (eg, c) =
      .ok ({ eg with execute_code_ := eg.execute_code_ ++ [OPERATOR_GOTO.code, (i : Int), 0] },
           c) ∧
    generate_walk (gosub_statement tok) (eg, c) =
      .ok ({ eg with execute_code_ := eg.execute_code_ ++ [OPERATOR_GOSUB.code, (i : Int), 0] },
           c) ∧
    (e.execute_code_[p]? = some OPERATOR_GOTO.code →
      execute_steps h 2 e s = .ok (e, { s with pc_ := (q : Int) + 1 })) ∧
    (e.execute_code_[p]? = some OPERATOR_GOSUB.code →
      execute_steps h 2 e s =
        .ok (e, { s with call_frame_ := s.call_frame_.set cf ((p : Int) + 2),
                         current_call_frame_ := (cf : Int) + 1,
                         pc_ := (q : Int) + 1 })) ∧
    (e.execute_code_[r + 1]? = some 0 →
      execute_step h e sr =
        .ok (e, { sr with current_call_frame_ := (cf : Int), pc_ := (p : Int) + 3 })) ∧
    (∀ (st : List value_t) (v : value_t), e.execute_code_[r + 1]? = some 1 →
      sr.stack_ = st ++ [v] →
      v.type_ = VALUE_INT ∨ v.type_ = VALUE_DOUBLE ∨ v.type_ = VALUE_STRING →
      execute_step h e sr =
        .ok (e, { return_value v sr with stack_ := st, current_call_frame_ := (cf : Int),
                                         pc_ := (p : Int) + 3 })) := by
  have hilt := search_label_lt eg tok.content_ i hfind
  refine ⟨⟨generate_label tok eg c i hfind, ?_⟩, generate_goto tok eg c i hfind,
    generate_gosub tok eg c i hfind, ?_, ?_, ?_, ?_⟩
  · simp [List.getElem?_modify, hilt]
  · intro hop
    have h1 := step_goto h e s p i q w l hop hi h0 hl hq hpc
    have h1s := execute_steps_one h e s _ p _ hrun hpc hop h1
    have h2 := step_label h e { s with pc_ := (q : Int) } q hlab rfl
    have h2s := execute_steps_one h e { s with pc_ := (q : Int) } _ q _ hrun rfl hlab h2
    exact execute_steps_trans h 1 1 _ _ _ _ _ _ h1s h2s
  · intro hop
    have h1 := step_gosub h e s p i q cf w l hop hi h0 hl hq hpc hcf hcf16 hlen
    have h1s := execute_steps_one h e s _ p _ hrun hpc hop h1
    have h2 := step_label h e
      { s with call_frame_ := s.call_frame_.set cf ((p : Int) + 2),
               current_call_frame_ := (cf : Int) + 1, pc_ := (q : Int) } q hlab rfl
    have h2s := execute_steps_one h e
      { s with call_frame_ := s.call_frame_.set cf ((p : Int) + 2),
               current_call_frame_ := (cf : Int) + 1, pc_ := (q : Int) } _ q _ hrun rfl hlab h2
    exact execute_steps_trans h 1 1 _ _ _ _ _ _ h1s h2s
  · intro hr0
    have := step_return h e sr r cf _ hr hr0 hrpc hrcf hrframe
    rw [this]
    have h3 : (p : Int) + 2 + 1 = (p : Int) + 3 := by ring
    rw [h3]
  · intro st v hr1 hst hv
    have := step_return_value h e sr r cf _ st v hr hr1 hrpc hrcf hrframe hst hv
    rw [this]
    have h3 : (p : Int) + 2 + 1 = (p : Int) + 3 := by ring
    rw [h3]

theorem goto_gosub_return_witness :
    execute_steps example_host 2 example_gosub_env (initialize_execute_status []) =
        .ok (example_gosub_env,
             { initialize_execute_status [] with
               call_frame_ := (initialize_execute_status []).call_frame_.set 0 2,
               current_call_frame_ := 1, pc_ := 5 }) ∧
    execute_step example_host example_gosub_env example_return_status =
        .ok (example_gosub_env, { example_return_status with current_call_frame_ := 0, pc_ := 3 }) :=
  have hall := goto_gosub_return example_host example_gosub_token example_gosub_prepass
    example_generate_context example_gosub_env (initialize_execute_status [])
    example_return_status 0 0 4 5 0 0 { name_ := ['s'], position_ := some 4 }
    (by decide) rfl rfl rfl rfl rfl rfl rfl rfl (by decide) rfl rfl rfl rfl rfl
  ⟨hall.2.2.2.2.1 rfl, hall.2.2.2.2.2.1 rfl⟩

set_option maxRecDepth 1000000 in
/-- C3 (as the code has it): a macro with parameters that is called with its arguments in
parentheses right after its name has to be defined with `ctype`.  With
`#define ctype SQ(%1) ((%1)*(%1))` the line `mes str(SQ(3+1))` is preprocessed to
`mes str(((3+1)*(3+1)))`, and the program prints the line `16`. -/
theorem ctype_macro_call_prints_16 :
    prepro_do "#define ctype SQ(%1) ((%1)*(%1))\nmes str(SQ(3+1))".toList =
      .ok "\nmes str(((3+1)*(3+1)))".toList ∧
    run_script example_host 1000 "#define ctype SQ(%1) ((%1)*(%1))\nmes str(SQ(3+1))".toList [] =
      .ok ["16".toList] := by
  constructor <;> decide!

set_option maxRecDepth 1000000 in
/-- Counterexample to C3 as stated: with `#define SQ(%1) ((%1)*(%1))`, without `ctype`,
the preprocessor raises the error of neteruhsp.cc:2720 on `mes str(SQ(3+1))` (no blank
after the name of the macro), so nothing is printed. -/
theorem plain_macro_call_is_rejected :
    prepro_do "#define SQ(%1) ((%1)*(%1))\nmes str(SQ(3+1))".toList = .error (.raise 2720) ∧
    (∀ fuel : Nat, run_script example_host fuel
        "#define SQ(%1) ((%1)*(%1))\nmes str(SQ(3+1))".toList [] ≠ .ok ["16".toList]) := by
  have h1 : prepro_do "#define SQ(%1) ((%1)*(%1))\nmes str(SQ(3+1))".toList =
      .error (.raise 2720) := by decide!
  refine ⟨h1, ?_⟩
  intro fuel
  unfold run_script load_script
  rw [h1]
  intro hcon
  cases hcon

theorem create_variable_fresh (name : CStr) : create_variable name = .ok (fresh_variable name) := by
  rfl

theorem except_ok_bind {α β : Type} (a : α) (f : α → Except Err β) :
    (Except.ok a >>= f) = f a := rfl

theorem prepare_variable_string (v : variable_t) (g : Int) (hg : 0 < g) (hb : g < 2 ^ 31) :
    prepare_variable v VALUE_STRING g 16 =
      .ok { v with type_ := VALUE_STRING, granule_size_ := g, length_ := 16,
                   data_ := List.replicate (g * 16).toNat 0, data_size_ := wrap32 (g * 16) } := by
  have h1 : g % 2 ^ 64 = g := by
    apply Int.emod_eq_of_lt <;> omega
  have h2 : (16 : Int) % 2 ^ 64 = 16 := by norm_num
  have h3 : (g * 16) % 2 ^ 64 = g * 16 := by
    apply Int.emod_eq_of_lt <;> omega
  have h4 : ¬ (g * 16 ≤ 0) := by omega
  unfold prepare_variable
  simp only [h1, h2, h3, h4, bind, Except.bind, pure, Except.pure, if_false]

theorem variable_set_string_fresh (name s : CStr) (hs : (s.length : Int) < INT_MAX) :
    variable_set (fresh_variable name) (.string s) 0 =
      .ok { name_ := name, type_ := VALUE_STRING,
            granule_size_ := max 64 ((s.length : Int) + 1), length_ := 16,
            data_ := cstr_bytes s ++
              (List.replicate (max 64 ((s.length : Int) + 1) * 16).toNat 0).drop (s.length + 1),
            data_size_ := wrap32 (max 64 ((s.length : Int) + 1) * 16) } := by
  unfold INT_MAX at hs
  have hw : wrap32 (s.length : Int) = (s.length : Int) := by
    apply wrap32_of_range
    · unfold INT_MIN; omega
    · unfold INT_MAX; omega
  have hne : ((fresh_variable name).type_ != VALUE_STRING) = true := by rfl
  have hp64 := prepare_variable_string (fresh_variable name) 64 (by norm_num) (by norm_num)
  have ht : (value_t.string s).type_ = VALUE_STRING := rfl
  have h00 : ¬ ((0 : Int) > 0) := by omega
  have h01 : ¬ ((0 : Int) < 0) := by omega
  have h16 : ¬ ((16 : Int) ≤ 0) := by omega
  have hbne : (VALUE_STRING != VALUE_STRING) = false := by rfl
  unfold variable_set
  simp only [ht, hne, if_true, h00, if_false, hw]
  rw [hp64]
  simp only [bind, Except.bind, h01, h16, if_false]
  by_cases hlen : (s.length : Int) + 1 ≤ 64
  · have hg : ¬ ((64 : Int) < (s.length : Int) + 1) := by omega
    have hmax : max (64 : Int) ((s.length : Int) + 1) = 64 := max_eq_left hlen
    rw [hmax]
    have hZlen : (List.replicate ((64 : Int) * 16).toNat 0).length = 1024 := by
      rw [List.length_replicate]; rfl
    generalize List.replicate ((64 : Int) * 16).toNat 0 = Z at hZlen ⊢
    have hsz : (0 : Int).toNat + (cstr_bytes s).length ≤ Z.length := by
      simp [cstr_bytes]; omega
    have hsz2 : (0 : Int) ≤ 64 * 0 ∧ ((64 : Int) * 0).toNat + (cstr_bytes s).length ≤ Z.length := by
      simp [cstr_bytes]; omega
    simp only [hg, decide_False, variable_data_ptr, store_bytes, mem_write, in_bounds, hbne,
      hsz2, h01, h16, bind, Except.bind, pure, Except.pure, if_false, if_true, Bool.false_eq_true,
      false_or, ge_iff_le, and_self]
    simp [fresh_variable, cstr_bytes]
  · have hg : (64 : Int) < (s.length : Int) + 1 := by omega
    have hmax : max (64 : Int) ((s.length : Int) + 1) = (s.length : Int) + 1 :=
      max_eq_right (by omega)
    rw [hmax]
    generalize List.replicate ((64 : Int) * 16).toNat 0 = Z
    have hp := prepare_variable_string
      { name_ := (fresh_variable name).name_, type_ := VALUE_STRING, granule_size_ := 64,
        length_ := 16, data_ := Z, data_size_ := wrap32 (64 * 16) }
      ((s.length : Int) + 1) (by omega) (by omega)
    have hsz2 : (0 : Int) ≤ ((s.length : Int) + 1) * 0 ∧
        ((((s.length : Int) + 1) * 0).toNat + (cstr_bytes s).length ≤
          (List.replicate (((s.length : Int) + 1) * 16).toNat 0).length) := by
      simp [cstr_bytes]
    simp only [hg, decide_True, if_true]
    rw [hp]
    simp only [variable_data_ptr, store_bytes, mem_write, in_bounds, hbne,
      hsz2, h01, h16, bind, Except.bind, pure, Except.pure, if_false, if_true, Bool.false_eq_true,
      false_or, ge_iff_le, and_self]
    simp [fresh_variable, cstr_bytes]

/-- C4 (as the code has it): assigning a string `s` to index 0 of a freshly created
variable (`INT`, length 16) makes it a `STRING` variable that still has length 16, not 1;
its granule size is `max 64 (len s + 1)`, which is at least the byte length of `s` plus 1,
and its storage holds `granule_size_ * 16` bytes, of which the first are the bytes of `s`
and the terminating zero. -/
theorem string_assign_to_fresh_variable (name s : CStr) (hs : (s.length : Int) < INT_MAX) :
    ∃ var : variable_t,
      (create_variable name >>= fun v => variable_set v (.string s) 0) = .ok var ∧
      var.type_ = VALUE_STRING ∧ var.length_ = 16 ∧
      var.granule_size_ = max 64 ((s.length : Int) + 1) ∧
      var.granule_size_ ≥ (s.length : Int) + 1 ∧
      (var.data_.length : Int) = var.granule_size_ * 16 ∧
      var.data_.take (s.length + 1) = cstr_bytes s := by
  refine ⟨{ name_ := name, type_ := VALUE_STRING,
            granule_size_ := max 64 ((s.length : Int) + 1), length_ := 16,
            data_ := cstr_bytes s ++
              (List.replicate (max 64 ((s.length : Int) + 1) * 16).toNat 0).drop (s.length + 1),
            data_size_ := wrap32 (max 64 ((s.length : Int) + 1) * 16) },
    ?_, rfl, rfl, rfl, ?_, ?_, ?_⟩
  · rw [create_variable_fresh, except_ok_bind, variable_set_string_fresh name s hs]
  · exact le_max_right _ _
  · have h1 : (s.length : Int) + 1 ≤ max 64 ((s.length : Int) + 1) := le_max_right _ _
    have h2 : (64 : Int) ≤ max 64 ((s.length : Int) + 1) := le_max_left _ _
    simp only [List.length_append, List.length_drop, List.length_replicate, cstr_bytes,
      List.length_map, List.length_singleton]
    omega
  · have hl : (cstr_bytes s).length = s.length + 1 := by simp [cstr_bytes]
    rw [← hl, List.take_left]

theorem string_assign_to_fresh_variable_witness :
    ∃ var : variable_t,
      (create_variable ['a'] >>= fun v => variable_set v (.string "hello".toList) 0) = .ok var ∧
      var.type_ = VALUE_STRING ∧ var.length_ = 16 ∧
      var.granule_size_ = max 64 (("hello".toList.length : Int) + 1) ∧
      var.granule_size_ ≥ ("hello".toList.length : Int) + 1 ∧
      (var.data_.length : Int) = var.granule_size_ * 16 ∧
      var.data_.take ("hello".toList.length + 1) = cstr_bytes "hello".toList :=
  string_assign_to_fresh_variable ['a'] "hello".toList (by decide)

set_option maxRecDepth 100000 in
/-- Counterexample to C4 as stated: after the string `a` is assigned to index 0 of a
fresh variable, the variable has length 16, not 1. -/
theorem string_assign_keeps_length_16 :
    ((create_variable ['v'] >>= fun v => variable_set v (.string ['a']) 0).map
        (fun var => var.length_)) = .ok 16 ∧
    ((create_variable ['v'] >>= fun v => variable_set v (.string ['a']) 0).map
        (fun var => var.length_)) ≠ .ok 1 := by
  constructor <;> decide!

theorem stack_peek_append (st top : List value_t) (k : Nat) (v : value_t) (i : Int)
    (hv : top[k]? = some v) (hi : i = -(top.length : Int) + (k : Int)) :
    stack_peek (st ++ top) i = .ok v := by
  have hk : k < top.length := by
    by_contra hcon
    have : top[k]? = none := by rw [List.getElem?_eq_none_iff]; omega
    rw [this] at hv; cases hv
  have h0 : i < 0 := by omega
  have h1 : ((st.length : Int) + (top.length : Int) + i).toNat = st.length + k := by omega
  have h2 : (0 : Int) ≤ (st.length : Int) + (top.length : Int) + i ∧
      (st.length : Int) + (top.length : Int) + i < (st.length : Int) + (top.length : Int) := by
    omega
  have h3 : (st ++ top)[st.length + k]? = some v := by
    rw [List.getElem?_append_right (by omega), Nat.add_sub_cancel_left, hv]
  simp only [stack_peek, h0, if_true, List.length_append, Nat.cast_add, h1, h2, and_self, h3,
    pure, Except.pure]

theorem stack_pop_append (st top : List value_t) (n : Int) (hn : n = (top.length : Int)) :
    stack_pop (st ++ top) n = .ok st := by
  subst hn
  simp [stack_pop, pure, Except.pure]

theorem mem_read_write_byte (data : List Nat) (i : Int) (b : Nat) (hi : 0 ≤ i)
    (hmem : i.toNat + 1 ≤ data.length) :
    ∃ data1, mem_write data i [b] = some data1 ∧ data1.length = data.length ∧
      mem_read data1 i 1 = some [b] := by
  have htl : (List.take i.toNat data).length = i.toNat := by
    rw [List.length_take]; omega
  have hlen : (data.take i.toNat ++ [b] ++ data.drop (i.toNat + 1)).length = data.length := by
    simp only [List.length_append, htl, List.length_singleton, List.length_drop]; omega
  refine ⟨data.take i.toNat ++ [b] ++ data.drop (i.toNat + 1), ?_, hlen, ?_⟩
  · simp [mem_write, hi, hmem]
  · have hl : i.toNat + 1 ≤ (data.take i.toNat ++ [b] ++ data.drop (i.toNat + 1)).length := by
      rw [hlen]; exact hmem
    have hd : (data.take i.toNat ++ [b] ++ data.drop (i.toNat + 1)).drop i.toNat =
        [b] ++ data.drop (i.toNat + 1) := by
      have := List.drop_left (data.take i.toNat) ([b] ++ data.drop (i.toNat + 1))
      rw [htl] at this
      rw [List.append_assoc]; exact this
    unfold mem_read
    rw [if_pos ⟨hi, hl⟩, hd]
    rfl

theorem le_bytes_byte (b : Int) (hb : 0 ≤ b) (hb256 : b < 256) :
    le_bytes 1 (to_u32 b) = [b.toNat] := by
  have h1 : (b % 4294967296).toNat = b.toNat := by
    rw [Int.emod_eq_of_lt hb (by omega)]
  have h2 : b.toNat % 256 = b.toNat := by omega
  simp [le_bytes, to_u32, h1, h2, List.range_succ]

theorem char_to_int_eq_iff (h : host_t) (b : Int) (hb : 0 ≤ b) (hb256 : b < 256) :
    char_to_int h b.toNat = b ↔ (h.char_signed = false ∨ b < 128) := by
  unfold char_to_int
  cases hs : h.char_signed
  · simp; omega
  · by_cases h128 : 128 ≤ b.toNat
    · simp [h128]; omega
    · simp [h128]; omega

/-- C5 (what the code does): after `poke v, i, b` with `0 ≤ b < 256` and the byte index `i`
inside the storage of `v`, `peek(v, i)` returns `char_to_int h b`: the byte read through
`const char*` and converted to `int`.  That is `b` exactly when plain `char` is unsigned on
the platform or `b < 128`; where `char` is signed, `peek` returns `b - 256` for
`128 ≤ b`.  The stack holds the arguments as the generated code pushes them: the variable,
the index, the byte. -/
theorem peek_after_poke (h : host_t) (e : execute_environment_t) (s : execute_status_t)
    (st : List value_t) (vi : Nat) (var : variable_t) (i b : Int)
    (hvar : e.variable_table_[vi]? = some var)
    (hi : 0 ≤ i) (hsize : i + 1 ≤ var.data_size_) (hmem : i.toNat + 1 ≤ var.data_.length)
    (hb : 0 ≤ b) (hb256 : b < 256)
    (hst : s.stack_ = st ++ [.variable vi 0, .int i, .int b]) :
    ∃ e1 : execute_environment_t,
      command_poke e s 3 = .ok (e1, { s with stack_ := st }) ∧
      function_peek h e1 { s with stack_ := st ++ [.variable vi 0, .int i] } 2 =
        .ok (e1, { s with stack_ := st ++ [.int (char_to_int h b.toNat)] }) ∧
      (char_to_int h b.toNat = b ↔ (h.char_signed = false ∨ b < 128)) := by
  obtain ⟨data1, hw, hlen1, hr⟩ := mem_read_write_byte var.data_ i b.toNat hi hmem
  have hvilt : vi < e.variable_table_.length := by
    by_contra hcon
    have : e.variable_table_[vi]? = none := by rw [List.getElem?_eq_none_iff]; omega
    rw [this] at hvar; cases hvar
  have hcond : ¬ (i < 0 ∨ var.data_size_ < i + 1) := by omega
  refine ⟨{ e with variable_table_ := e.variable_table_.set vi { var with data_ := data1 } },
    ?_, ?_, char_to_int_eq_iff h b hb hb256⟩
  · have p1 := stack_peek_append st [.variable vi 0, .int i, .int b] 0 _ (-3) rfl (by simp)
    have p2 := stack_peek_append st [.variable vi 0, .int i, .int b] 1 _ (-2) rfl (by simp)
    have p3 := stack_peek_append st [.variable vi 0, .int i, .int b] 2 _ (-1) rfl (by simp)
    have pp := stack_pop_append st [.variable vi 0, .int i, .int b] 3 (by simp)
    simp [command_poke, hst, p1, p2, p3, pp, deref_variable, in_bounds, hvar, value_calc_int,
      hcond, store_bytes, le_bytes_byte b hb hb256, hw, bind, Except.bind, pure, Except.pure]
  · have p1 := stack_peek_append st [.variable vi 0, .int i] 0 _ (-2) rfl (by simp)
    have p2 := stack_peek_append st [.variable vi 0, .int i] 1 _ (-1) rfl (by simp)
    have pp := stack_pop_append st [.variable vi 0, .int i] 2 (by simp)
    have hget : (e.variable_table_.set vi { var with data_ := data1 })[vi]? =
        some { var with data_ := data1 } := by
      simp [List.getElem?_set_self, hvilt]
    simp [function_peek, p1, p2, pp, deref_variable, in_bounds, hget, value_calc_int, hcond,
      hr, le_value, stack_push, bind, Except.bind, pure, Except.pure]

theorem peek_after_poke_witness :
    ∃ e1 : execute_environment_t,
      command_poke example_poke_env example_poke_status 3 =
        .ok (e1, { example_poke_status with stack_ := [] }) ∧
      function_peek example_host e1
          { example_poke_status with stack_ := [] ++ [.variable 0 0, .int 0] } 2 =
        .ok (e1, { example_poke_status with
                   stack_ := [] ++ [.int (char_to_int example_host (200 : Int).toNat)] }) ∧
      (char_to_int example_host (200 : Int).toNat = 200 ↔
        (example_host.char_signed = false ∨ (200 : Int) < 128)) :=
  peek_after_poke example_host example_poke_env example_poke_status [] 0 (fresh_variable ['v'])
    0 200 rfl (by decide) (by decide) (by decide) (by decide) (by decide) rfl

set_option maxRecDepth 1000000 in
/-- Failing input of C5: where plain `char` is signed, the program
`poke v, 0, 200 : mes str(peek(v, 0))` prints `-56`, not `200`. -/
theorem peek_after_poke_200_signed_char :
    run_script example_host 1000 "poke v, 0, 200 : mes str(peek(v, 0))".toList [] =
      .ok ["-56".toList] := by
  decide!

set_option maxRecDepth 1000000 in
/-- C6, failing input: a one-line `if` whose last statement is itself a one-line `if`
takes the first statement of the next line into its true branch.  The script
`if a : if a : mes "in"` followed by the line `mes "next"` is parsed to the single
statement `if`, and with `a = 0` in front the program prints nothing, where `next` is to
be printed.  With a plain one-line `if` the statement of the next line is a statement of
its own, and `next` is printed. -/
theorem nested_one_line_if_takes_next_line :
    (parse_source 1000 "if a : if a : mes \"in\"\nmes \"next\"".toList).map
        (fun ast => ast.map ast_node_t.tag_) = .ok [some NODE_IF] ∧
    run_script example_host 1000 "a = 0\nif a : if a : mes \"in\"\nmes \"next\"".toList [] =
      .ok [] ∧
    (parse_source 1000 "if a : mes \"in\"\nmes \"next\"".toList).map
        (fun ast => ast.map ast_node_t.tag_) = .ok [some NODE_IF, some NODE_COMMAND] ∧
    run_script example_host 1000 "a = 0\nif a : mes \"in\"\nmes \"next\"".toList [] =
      .ok ["next".toList] := by
  refine ⟨?_, ?_, ?_, ?_⟩ <;> decide!

/-- C8: for every 32-bit integer `n`, `str(n)` is the canonical decimal representation of
`n` (a minus sign exactly when `n < 0`, then the decimal digits of `|n|` without leading
zeros, as `Nat.toDigits 10` gives them), and `int(str(n)) = n`.  Both functions are run on
the stack as the machine calls them: `str` replaces the `int` on top of the stack by the
string, `int` replaces that string by `n` again. -/
theorem int_str_round_trip (e : execute_environment_t) (s : execute_status_t)
    (st : List value_t) (n : Int) (hlo : INT_MIN ≤ n) (hhi : n ≤ INT_MAX)
    (hst : s.stack_ = st ++ [.int n]) :
    function_str e s 1 =
      .ok (e, { s with stack_ := st ++ [.string (create_string_from_int n)] }) ∧
    create_string_from_int n =
      (if n < 0 then ['-'] else []) ++ Nat.toDigits 10 n.natAbs ∧
    function_int e { s with stack_ := st ++ [.string (create_string_from_int n)] } 1 =
      .ok (e, { s with stack_ := st ++ [.int n] }) := by
  have p1 := stack_peek_append st [.int n] 0 _ (-1) rfl (by simp)
  have pp1 := stack_pop_append st [.int n] 1 (by simp)
  have p2 := stack_peek_append st [.string (create_string_from_int n)] 0 _ (-1) rfl (by simp)
  have pp2 := stack_pop_append st [.string (create_string_from_int n)] 1 (by simp)
  refine ⟨?_, ?_, ?_⟩
  · simp [function_str, hst, p1, pp1, value_calc_string, stack_push, bind, Except.bind, pure,
      Except.pure]
  · unfold create_string_from_int fmt_d
    rw [fmt_nat_toDigits]
    by_cases hneg : n < 0 <;> simp [hneg]
  · have hr : atoi (create_string_from_int n) = n := atoi_fmt_d n hlo hhi
    simp [function_int, p2, pp2, value_calc_int, hr, stack_push, bind, Except.bind, pure,
      Except.pure]

theorem int_str_round_trip_witness :
    function_str create_execute_environment
        { initialize_execute_status [] with stack_ := [] ++ [.int (-2147483648)] } 1 =
      .ok (create_execute_environment,
           { initialize_execute_status [] with
             stack_ := [] ++ [.string (create_string_from_int (-2147483648))] }) ∧
    create_string_from_int (-2147483648) =
      (if (-2147483648 : Int) < 0 then ['-'] else []) ++
        Nat.toDigits 10 (-2147483648 : Int).natAbs ∧
    function_int create_execute_environment
        { initialize_execute_status [] with
          stack_ := [] ++ [.string (create_string_from_int (-2147483648))] } 1 =
      .ok (create_execute_environment,
           { initialize_execute_status [] with stack_ := [] ++ [.int (-2147483648)] }) :=
  int_str_round_trip create_execute_environment
    { initialize_execute_status [] with stack_ := [] ++ [.int (-2147483648)] } []
    (-2147483648) (by decide) (by decide) rfl

theorem string_equal_igcase_loop_self (s : CStr) (iter : Nat) :
    string_equal_igcase_loop (-1) s s iter = true := by
  induction s generalizing iter with
  | nil => simp [string_equal_igcase_loop]
  | cons a s ih => simp [string_equal_igcase_loop, ih]

theorem search_label_of_entry (pre post : List label_node_t) (name : CStr) (p : Option Int)
    (vt : List variable_t) (code : List Int) (st : List CStr) :
    ∃ i : Nat,
      search_label { label_table_ := pre ++ { name_ := name, position_ := p } :: post,
                     variable_table_ := vt, execute_code_ := code, string_table_ := st } name =
        some i := by
  have hex : ∃ x ∈ pre ++ { name_ := name, position_ := p } :: post,
      (fun label : label_node_t => string_equal_igcase label.name_ name (-1)) x = true :=
    ⟨{ name_ := name, position_ := p }, by simp,
      by simp [string_equal_igcase, string_equal_igcase_loop_self]⟩
  have hlt := List.findIdx_lt_length_of_exists hex
  exact ⟨_, by simp only [search_label]; rw [if_pos hlt]⟩

theorem load_walk_goto (tok : token_t) (e : execute_environment_t) :
    load_walk (goto_statement tok) e =
      .ok { e with label_table_ :=
              e.label_table_ ++ [{ name_ := tok.content_, position_ := none }] } ∧
    load_walk (gosub_statement tok) e =
      .ok { e with label_table_ :=
              e.label_table_ ++ [{ name_ := tok.content_, position_ := none }] } := by
  constructor <;>
    simp [goto_statement, gosub_statement, label_statement, create_ast_node,
      create_ast_node_token, load_walk, ast_node_t.isNull, token_content, bind, Except.bind,
      pure, Except.pure]

set_option maxRecDepth 1000000 in
/-- C10, failing input: `goto *L` and `gosub *L` with a label `L` that no label statement
defines are not rejected by the code generator.  (1) The pre-pass of `load_script` walks
into the label node under the `goto` and registers its name in the label table, without a
position; (2) so the code generator finds the name in the table, whatever else the table
holds, and writes the jump instead of raising the error of neteruhsp.cc:5849 or 5866;
(3) a program that consists of the one statement is loaded without an error; (4) for the
script `goto *L` the machine then reads the position that was never written, which is
undefined. -/
theorem goto_to_undefined_label_is_not_rejected (tok : token_t) :
    (∀ e : execute_environment_t,
      load_walk (goto_statement tok) e =
        .ok { e with label_table_ :=
                e.label_table_ ++ [{ name_ := tok.content_, position_ := none }] } ∧
      load_walk (gosub_statement tok) e =
        .ok { e with label_table_ :=
                e.label_table_ ++ [{ name_ := tok.content_, position_ := none }] }) ∧
    (∀ (pre post : List label_node_t) (p : Option Int) (vt : List variable_t) (code : List Int)
        (st : List CStr) (c : generate_context_t),
      ∃ i : Nat,
        generate_walk (goto_statement tok)
            ({ label_table_ := pre ++ { name_ := tok.content_, position_ := p } :: post,
               variable_table_ := vt, execute_code_ := code, string_table_ := st }, c) =
          .ok ({ label_table_ := pre ++ { name_ := tok.content_, position_ := p } :: post,
                 variable_table_ := vt,
                 execute_code_ := code ++ [OPERATOR_GOTO.code, (i : Int), 0],
                 string_table_ := st }, c) ∧
        generate_walk (gosub_statement tok)
            ({ label_table_ := pre ++ { name_ := tok.content_, position_ := p } :: post,
               variable_table_ := vt, execute_code_ := code, string_table_ := st }, c) =
          .ok ({ label_table_ := pre ++ { name_ := tok.content_, position_ := p } :: post,
                 variable_table_ := vt,
                 execute_code_ := code ++ [OPERATOR_GOSUB.code, (i : Int), 0],
                 string_table_ := st }, c)) ∧
    load_ast create_execute_environment [goto_statement tok] =
      .ok { label_table_ := [{ name_ := tok.content_, position_ := none }],
            variable_table_ := [], execute_code_ := [OPERATOR_GOTO.code, 0, 0],
            string_table_ := [] } ∧
    load_ast create_execute_environment [gosub_statement tok] =
      .ok { label_table_ := [{ name_ := tok.content_, position_ := none }],
            variable_table_ := [], execute_code_ := [OPERATOR_GOSUB.code, 0, 0],
            string_table_ := [] } ∧
    load_script 100 create_execute_environment "goto *L".toList =
      .ok { label_table_ := [{ name_ := ['L'], position_ := none }],
            variable_table_ := [], execute_code_ := [OPERATOR_GOTO.code, 0, 0],
            string_table_ := [] } ∧
    run_machine example_host 100 "goto *L".toList [] = .error (.undefined 5463) := by
  refine ⟨fun e => load_walk_goto tok e, ?_, ?_, ?_, by decide!, by decide!⟩
  · intro pre post p vt code st c
    obtain ⟨i, hi⟩ := search_label_of_entry pre post tok.content_ p vt code st
    exact ⟨i, generate_goto tok _ c i hi, generate_gosub tok _ c i hi⟩
  · simp [load_ast, load_walk_statements, load_walk, generate_and_append_code,
      generate_statements, generate_walk, goto_statement, label_statement, create_ast_node,
      create_ast_node_token, ast_node_t.isNull, token_content, create_execute_environment,
      search_label, List.findIdx_cons, string_equal_igcase, string_equal_igcase_loop_self,
      code_write, code_write_pointer, bind, Except.bind, pure, Except.pure]
  · simp [load_ast, load_walk_statements, load_walk, generate_and_append_code,
      generate_statements, generate_walk, gosub_statement, label_statement, create_ast_node,
      create_ast_node_token, ast_node_t.isNull, token_content, create_execute_environment,
      search_label, List.findIdx_cons, string_equal_igcase, string_equal_igcase_loop_self,
      code_write, code_write_pointer, bind, Except.bind, pure, Except.pure]

theorem nl_free_nil : nl_free [] := by simp [nl_free]

theorem nl_free_append {a b : CStr} (ha : nl_free a) (hb : nl_free b) : nl_free (a ++ b) := by
  simp only [nl_free, List.mem_append, not_or] at *
  exact ⟨ha, hb⟩

theorem nl_free_take {a : CStr} (n : Nat) (ha : nl_free a) : nl_free (a.take n) :=
  fun h => ha (List.mem_of_mem_take h)

theorem nl_free_drop {a : CStr} (n : Nat) (ha : nl_free a) : nl_free (a.drop n) :=
  fun h => ha (List.mem_of_mem_drop h)

theorem nl_free_substr {a : CStr} (i n : Nat) (ha : nl_free a) : nl_free (substr a i n) :=
  nl_free_take n (nl_free_drop i ha)

theorem nl_free_buffer_append {sb s : CStr} (len : Int) (hsb : nl_free sb) (hs : nl_free s) :
    nl_free (string_buffer_append sb s len) := by
  unfold string_buffer_append
  split
  · exact nl_free_append hsb hs
  · exact nl_free_append hsb (nl_free_take _ hs)

theorem bind_ok_iff {α β : Type} (x : Except Err α) (f : α → Except Err β) (r : β) :
    (x >>= f) = .ok r ↔ ∃ a, x = .ok a ∧ f a = .ok r := by
  cases x with
  | error e => simp [bind, Except.bind]
  | ok a => simp [bind, Except.bind]

theorem ite_ok_iff {α : Type} (c : Prop) [Decidable c] (x y : Except Err α) (r : α) :
    (if c then x else y) = .ok r ↔ (c ∧ x = .ok r) ∨ (¬ c ∧ y = .ok r) := by
  by_cases hc : c <;> simp [hc]

theorem pure_ok_iff {α : Type} (a r : α) : (pure a : Except Err α) = .ok r ↔ a = r := by
  simp [pure, Except.pure]

theorem throw_ok_iff {α : Type} (e : Err) (r : α) : (throw e : Except Err α) = .ok r ↔ False := by
  simp [throw, throwThe, MonadExceptOf.throw]

theorem error_ok_iff {α : Type} (e : Err) (r : α) : (Except.error e : Except Err α) = .ok r ↔ False := by
  simp

theorem array_get_mem {α : Type} (a : List α) (i : Int) (line : Nat) (x : α)
    (h : array_get a i line = .ok x) : x ∈ a := by
  unfold array_get at h
  split at h
  · cases hx : a[i.toNat]? with
    | none => rw [hx] at h; cases h
    | some y =>
      rw [hx] at h
      simp only [in_bounds, Except.ok.injEq] at h
      subst h
      exact List.getElem?_mem hx
  · cases h

theorem expand_replacement_nl_free (m : macro_t) (marg : List (Option CStr))
    (hm : macro_nl_free m) (hmarg : ∀ t : CStr, some t ∈ marg → nl_free t)
    (fuel : Nat) (lpctx : parse_context_t) (iprev : Option token_t) (sb : CStr)
    (res : CStr × Option token_t)
    (h : expand_replacement m marg fuel lpctx iprev sb = .ok res) (hsb : nl_free sb) :
    nl_free res.1 := by
  induction fuel generalizing lpctx iprev sb with
  | zero => simp [expand_replacement] at h
  | succ fuel ih =>
    rw [expand_replacement] at h
    simp only [bind_ok_iff] at h
    obtain ⟨a, _, h⟩ := h
    split at h
    · simp only [pure, Except.pure, Except.ok.injEq] at h
      subst h; exact hsb
    · split at h
      · simp only [bind_ok_iff] at h
        obtain ⟨b, _, h⟩ := h
        split at h
        · simp [bind, Except.bind, throw, throwThe, MonadExceptOf.throw] at h
        · simp only [bind_ok_iff] at h
          obtain ⟨_, _, h⟩ := h
          split at h
          · simp [bind, Except.bind, throw, throwThe, MonadExceptOf.throw] at h
          · simp only [bind_ok_iff] at h
            obtain ⟨_, _, mp, hmp, ma, hma, text, htext, h⟩ := h
            refine ih _ _ _ h (nl_free_buffer_append _ hsb ?_)
            have hmp' := array_get_mem _ _ _ _ hmp
            have hma' := array_get_mem _ _ _ _ hma
            cases ma with
            | none =>
              simp only [Option.isNone_none, if_true] at htext
              cases mp with
              | none => cases htext
              | some t =>
                simp only [in_bounds, Except.ok.injEq] at htext
                subst htext
                exact hm.2 _ hmp'
            | some t =>
              simp only [Option.isNone_some, Bool.false_eq_true, if_false, in_bounds,
                Except.ok.injEq] at htext
              subst htext
              exact hmarg _ hma'
      · refine ih _ _ _ h (nl_free_buffer_append _ ?_ (nl_free_drop _ hm.1))
        split
        · exact nl_free_buffer_append _ hsb (nl_free_drop _ hm.1)
        · exact hsb

theorem array_set_mem {α : Type} (a a1 : List α) (i : Int) (x : α) (line : Nat)
    (h : array_set a i x line = .ok a1) (y : α) (hy : y ∈ a1) : y ∈ a ∨ y = x := by
  unfold array_set at h
  split at h
  · simp only [pure, Except.pure, Except.ok.injEq] at h
    subst h
    exact List.mem_or_eq_of_mem_set hy
  · cases h

theorem take_argument_nl_free (line : CStr) (m : macro_t) (a a1 : macro_args_t)
    (nst nt : token_t) (nst_node nt_node : Nat) (line_raise : Nat)
    (hline : nl_free line) (ha : args_nl_free a.marg)
    (h : take_argument line m a nst nt nst_node nt_node line_raise = .ok a1) :
    args_nl_free a1.marg := by
  unfold take_argument at h
  simp only [bind_ok_iff, ite_ok_iff, pure_ok_iff, throw_ok_iff, error_ok_iff, false_and,
    and_false, exists_false, false_or, or_false] at h
  obtain ⟨_, _, _, marg, hmarg, h⟩ := h
  subst h
  intro t ht
  rcases array_set_mem _ _ _ _ _ hmarg _ ht with hmem | heq
  · exact ha t hmem
  · split at heq
    · simp only [Option.some.injEq] at heq
      subst heq
      exact nl_free_substr _ _ hline
    · cases heq

theorem expand_argument_nl_free (line : CStr) (m : macro_t) (nst : token_t) (nst_node : Nat)
    (hline : nl_free line) (fuel : Nat) (d : Int) (a : macro_args_t) (c : parse_context_t)
    (res : macro_args_t × parse_context_t × Bool) (ha : args_nl_free a.marg)
    (h : expand_argument line m nst nst_node fuel d a c = .ok res) :
    args_nl_free res.1.marg := by
  induction fuel generalizing d a c with
  | zero => simp [expand_argument] at h
  | succ fuel ih =>
    rw [expand_argument] at h
    simp only [bind_ok_iff] at h
    obtain ⟨x, _, h⟩ := h
    split at h
    · split at h
      · simp [bind, Except.bind, throw, throwThe, MonadExceptOf.throw] at h
      · simp only [bind_ok_iff] at h
        obtain ⟨_, _, a1, ha1, _, _, h⟩ := h
        simp only [pure, Except.pure, Except.ok.injEq] at h
        subst h
        exact take_argument_nl_free _ _ _ _ _ _ _ _ _ hline ha ha1
    · split at h
      · simp only [bind_ok_iff] at h
        obtain ⟨a1, ha1, h⟩ := h
        have h1 := take_argument_nl_free _ _ _ _ _ _ _ _ _ hline ha ha1
        split at h
        · simp only [bind_ok_iff] at h
          obtain ⟨_, _, h⟩ := h
          simp only [pure, Except.pure, Except.ok.injEq] at h
          subst h
          exact h1
        · simp only [pure, Except.pure, Except.ok.injEq] at h
          subst h
          exact h1
      · exact ih _ _ _ ha h

theorem expand_arguments_nl_free (line : CStr) (m : macro_t) (hline : nl_free line)
    (fuel : Nat) (a : macro_args_t) (c : parse_context_t)
    (res : macro_args_t × parse_context_t) (ha : args_nl_free a.marg)
    (h : expand_arguments line m fuel a c = .ok res) :
    args_nl_free res.1.marg := by
  induction fuel generalizing a c with
  | zero => simp [expand_arguments] at h
  | succ fuel ih =>
    rw [expand_arguments] at h
    simp only [bind_ok_iff] at h
    obtain ⟨_, _, _, _, r, hr, h⟩ := h
    have h1 := expand_argument_nl_free _ _ _ _ hline _ _ _ _ _ ha hr
    split at h
    · simp only [pure, Except.pure, Except.ok.injEq] at h
      subst h
      exact h1
    · exact ih _ _ h1 h

theorem expand_call_nl_free (line : CStr) (m : macro_t) (c : parse_context_t) (sb : CStr)
    (res : CStr × parse_context_t × token_t) (hline : nl_free line) (hm : macro_nl_free m)
    (hsb : nl_free sb) (h : expand_call line m c sb = .ok res) : nl_free res.1 := by
  have hinit : args_nl_free (List.replicate 16 (none : Option CStr)) := by
    intro t ht
    simp [List.mem_replicate] at ht
  unfold expand_call at h
  simp only [bind_ok_iff, ite_ok_iff, pure_ok_iff, throw_ok_iff, error_ok_iff, false_and,
    and_false, exists_false, false_or, or_false] at h
  casesm* _ ∨ _, _ ∧ _, ∃ _, _
  all_goals
    have hargs := expand_arguments_nl_free line m hline _ _ _ _ hinit (by assumption)
    have hr1 := expand_replacement_nl_free m _ hm hargs _ _ _ _ _ (by assumption) hsb
    subst_vars
    split <;> dsimp only <;>
      first | exact nl_free_buffer_append _ hr1 (nl_free_drop _ hm.1) | exact hr1

theorem find_macro_nl_free (pctx : prepro_context_t) (name : CStr) (m : macro_t)
    (hp : macros_nl_free pctx) (h : prepro_find_macro pctx name = some m) : macro_nl_free m :=
  hp m (List.mem_of_find?_eq_some h)

theorem expand_loop_nl_free (pctx : prepro_context_t) (line : CStr) (hline : nl_free line)
    (hp : macros_nl_free pctx) (fuel : Nat) (c : parse_context_t) (prev : Option token_t)
    (sb : CStr) (is_replaced : Bool) (res : CStr × Bool) (hsb : nl_free sb)
    (h : expand_loop pctx line fuel c prev sb is_replaced = .ok res) : nl_free res.1 := by
  induction fuel generalizing c prev sb is_replaced with
  | zero => simp [expand_loop] at h
  | succ fuel ih =>
    rw [expand_loop] at h
    simp only [bind_ok_iff] at h
    obtain ⟨x, _, h⟩ := h
    have key : ∀ sb1 : CStr, nl_free sb1 →
        (if (x.1.tag_ == TOKEN_EOF) = true then pure (sb1, is_replaced)
          else
            match (if (x.1.tag_ == TOKEN_IDENTIFIER) = true then
                prepro_find_macro pctx x.1.content_ else none) with
            | some m =>
                if m.param_num_ > 0 then do
                  let (sb, c, prev) ← expand_call line m x.2 sb1
                  expand_loop pctx line fuel c (some prev) sb true
                else
                  expand_loop pctx line fuel x.2 (some x.1)
                    (string_buffer_append sb1 m.replacing_ (-1)) true
            | none =>
                expand_loop pctx line fuel x.2 (some x.1)
                  (string_buffer_append sb1 (line.drop x.1.cursor_begin_)
                    ((x.1.cursor_end_ : Int) - x.1.cursor_begin_)) is_replaced) = .ok res →
        nl_free res.1 := by
      intro sb1 hsb1 h1
      split at h1
      · simp only [pure_ok_iff] at h1
        subst h1; exact hsb1
      · split at h1
        · rename_i m hfound
          have hm : macro_nl_free m := by
            split at hfound
            · exact find_macro_nl_free pctx _ m hp hfound
            · cases hfound
          split at h1
          · simp only [bind_ok_iff] at h1
            obtain ⟨r, hr, h1⟩ := h1
            exact ih _ _ _ _ (expand_call_nl_free line m _ _ _ hline hm hsb1 hr) h1
          · exact ih _ _ _ _ (nl_free_buffer_append _ hsb1 hm.1) h1
        · exact ih _ _ _ _ (nl_free_buffer_append _ hsb1 (nl_free_drop _ hline)) h1
    cases prev with
    | none => exact key sb hsb h
    | some pv =>
      by_cases hlen : (x.1.cursor_begin_ : Int) - pv.cursor_end_ > 0
      · simp only [hlen, if_true] at h
        exact key _ (nl_free_buffer_append _ hsb (nl_free_drop _ hline)) h
      · simp only [hlen, if_false] at h
        exact key sb hsb h

theorem prepro_line_expand_nl_free (pctx : prepro_context_t) (line : CStr)
    (hline : nl_free line) (hp : macros_nl_free pctx) (res : CStr × Bool)
    (h : prepro_line_expand pctx line = .ok res) : nl_free res.1 := by
  unfold prepro_line_expand at h
  split at h
  · simp only [pure_ok_iff] at h
    subst h; exact nl_free_nil
  · exact expand_loop_nl_free pctx line hline hp _ _ _ _ _ _ nl_free_nil h

theorem prepro_expand_fix_nl_free (pctx : prepro_context_t) (hp : macros_nl_free pctx)
    (n : Nat) (line res : CStr) (hline : nl_free line)
    (h : prepro_expand_fix pctx n line = .ok res) : nl_free res := by
  induction n generalizing line with
  | zero => simp [prepro_expand_fix] at h
  | succ n ih =>
    rw [prepro_expand_fix] at h
    simp only [bind_ok_iff] at h
    obtain ⟨r, hr, h⟩ := h
    have h1 := prepro_line_expand_nl_free pctx line hline hp r hr
    split at h
    · simp only [pure_ok_iff] at h
      subst h; exact h1
    · exact ih _ h1 h

theorem nl_free_dropWhile {a : CStr} (p : Char → Bool) (ha : nl_free a) :
    nl_free (a.dropWhile p) :=
  fun h => ha ((List.dropWhile_sublist p).subset h)

theorem dec_digits_nl_free (fuel n : Nat) : nl_free (dec_digits fuel n) := by
  induction fuel generalizing n with
  | zero => simp [dec_digits, nl_free]
  | succ fuel ih =>
    unfold dec_digits
    split
    · rename_i h10
      intro hmem
      simp only [List.mem_singleton] at hmem
      interval_cases n <;> simp [digit_char] at hmem
    · apply nl_free_append (ih _)
      intro hmem
      simp only [List.mem_singleton] at hmem
      have h10 : n % 10 < 10 := Nat.mod_lt _ (by decide)
      interval_cases (n % 10) <;> simp [digit_char] at hmem

theorem fmt_d_nl_free (v : Int) : nl_free (fmt_d v) := by
  unfold fmt_d fmt_nat
  split
  · intro hmem
    simp only [List.mem_cons] at hmem
    rcases hmem with hmem | hmem
    · revert hmem; decide
    · exact dec_digits_nl_free _ _ hmem
  · exact dec_digits_nl_free _ _

theorem create_macro_nl_free (name replacing : CStr) (hr : nl_free replacing) :
    macro_nl_free ( create_macro name replacing) := by
  refine ⟨hr, ?_⟩
  intro t ht
  simp [List.mem_replicate, create_macro] at ht

theorem register_macro_nl_free (pctx pctx1 : prepro_context_t) (m : macro_t)
    (hp : macros_nl_free pctx) (hm : macro_nl_free m)
    (h : prepro_register_macro pctx m = .ok pctx1) :
    macros_nl_free pctx1 ∧ pctx1.out_buffer_ = pctx.out_buffer_ := by
  unfold prepro_register_macro at h
  split at h
  · cases h
  · simp only [pure_ok_iff] at h
    subst h
    refine ⟨?_, rfl⟩
    intro x hx
    simp only [List.mem_append, List.mem_singleton] at hx
    rcases hx with hx | hx
    · exact hp x hx
    · subst hx; exact hm

theorem erase_macro_nl_free (pctx pctx1 : prepro_context_t) (name : CStr)
    (hp : macros_nl_free pctx) (h : prepro_erase_macro pctx name = some pctx1) :
    macros_nl_free pctx1 ∧ pctx1.out_buffer_ = pctx.out_buffer_ := by
  unfold prepro_erase_macro at h
  simp only at h
  split at h
  · simp only [Option.some.injEq] at h
    subst h
    exact ⟨fun x hx => hp x (List.mem_of_mem_eraseIdx hx), rfl⟩
  · cases h

theorem define_default_nl_free (script : CStr) (at_ : token_t) (hs : nl_free script)
    (fuel : Nat) (d : Int) (c : parse_context_t) (res : CStr × parse_context_t × Bool)
    (h : define_default script at_ fuel d c = .ok res) : nl_free res.1 := by
  induction fuel generalizing d c with
  | zero => simp [define_default] at h
  | succ fuel ih =>
    rw [define_default] at h
    simp only [bind_ok_iff, ite_ok_iff, pure_ok_iff, throw_ok_iff, error_ok_iff, false_and,
      and_false, exists_false, false_or, or_false] at h
    casesm* _ ∨ _, _ ∧ _, ∃ _, _
    all_goals first
      | (subst_vars; exact nl_free_substr _ _ hs)
      | exact ih _ _ (by assumption)

theorem macro_set_params_nl_free (nm : macro_t) (k : Int) (i : Int) (text : CStr)
    (a : List (Option CStr)) (line : Nat) (hnm : macro_nl_free nm) (htext : nl_free text)
    (hset : array_set nm.params_ i (some text) line = .ok a) :
    macro_nl_free { nm with param_num_ := k, params_ := a } := by
  refine ⟨hnm.1, ?_⟩
  intro t ht
  rcases array_set_mem _ _ _ _ _ hset _ ht with hmem | heq
  · exact hnm.2 t hmem
  · simp only [Option.some.injEq] at heq
    subst heq; exact htext

theorem define_params_nl_free (script : CStr) (hs : nl_free script) (fuel : Nat)
    (nm : macro_t) (c : parse_context_t) (res : macro_t × parse_context_t)
    (hnm : macro_nl_free nm) (h : define_params script fuel nm c = .ok res) :
    macro_nl_free res.1 := by
  induction fuel generalizing nm c with
  | zero => simp [define_params] at h
  | succ fuel ih =>
    rw [define_params] at h
    simp only [bind_ok_iff, ite_ok_iff, pure_ok_iff, throw_ok_iff, error_ok_iff, false_and,
      and_false, exists_false, false_or, or_false] at h
    casesm* _ ∨ _, _ ∧ _, ∃ _, _
    all_goals first
      | (subst_vars; exact hnm)
      | (subst_vars
         exact macro_set_params_nl_free nm _ _ _ _ _ hnm
           (define_default_nl_free script _ hs _ _ _ _ (by assumption)) (by assumption))
      | (refine ih _ _ ?_ (by assumption)
         exact macro_set_params_nl_free nm _ _ _ _ _ hnm
           (define_default_nl_free script _ hs _ _ _ _ (by assumption)) (by assumption))
      | (refine ih _ _ ?_ (by assumption)
         exact ⟨hnm.1, hnm.2⟩)

theorem prepro_define_nl_free (pctx pctx1 : prepro_context_t) (script : CStr)
    (c : parse_context_t) (hs : nl_free script) (hp : macros_nl_free pctx)
    (h : prepro_define pctx script c = .ok pctx1) :
    macros_nl_free pctx1 ∧ pctx1.out_buffer_ = pctx.out_buffer_ := by
  unfold prepro_define at h
  simp only [bind_ok_iff, ite_ok_iff, pure_ok_iff, throw_ok_iff, error_ok_iff, false_and,
    and_false, exists_false, false_or, or_false] at h
  casesm* _ ∨ _, _ ∧ _, ∃ _, _
  all_goals first
    | (subst_vars; exact ⟨hp, rfl⟩)
    | (subst_vars
       refine register_macro_nl_free pctx pctx1 _ hp ?_ (by assumption)
       first
         | (refine ⟨nl_free_drop _ hs,
               (define_params_nl_free script hs _ _ _ _ ?_ (by assumption)).2⟩
            refine ⟨nl_free_nil, ?_⟩
            intro t ht
            simp [List.mem_replicate, create_macro] at ht)
         | (refine ⟨nl_free_drop _ hs, ?_⟩
            intro t ht
            simp [List.mem_replicate, create_macro] at ht))

theorem push_region_nl_free (pctx pctx1 : prepro_context_t) (is_valid : Bool) (l : Nat)
    (hp : macros_nl_free pctx) (h : prepro_push_region pctx is_valid l = .ok pctx1) :
    macros_nl_free pctx1 ∧ pctx1.out_buffer_ = pctx.out_buffer_ := by
  unfold prepro_push_region at h
  simp only [bind_ok_iff, ite_ok_iff, pure_ok_iff, throw_ok_iff, error_ok_iff, false_and,
    and_false, exists_false, false_or, or_false] at h
  casesm* _ ∨ _, _ ∧ _, ∃ _, _
  subst_vars
  exact ⟨hp, rfl⟩

theorem register_enum_nl_free (p p1 : prepro_context_t) (name : CStr) (v : Int)
    (h : prepro_register_macro p ( create_macro name (create_string_from_int v)) = .ok p1)
    (hp : macros_nl_free p) : macros_nl_free p1 ∧ p1.out_buffer_ = p.out_buffer_ :=
  register_macro_nl_free p p1 _ hp (create_macro_nl_free _ _ (fmt_d_nl_free _)) h

theorem prepro_line_nl_free (pctx : prepro_context_t) (line : CStr)
    (res : CStr × prepro_context_t) (hline : nl_free line) (hp : macros_nl_free pctx)
    (h : prepro_line pctx line = .ok res) :
    nl_free res.1 ∧ macros_nl_free res.2 ∧ res.2.out_buffer_ = pctx.out_buffer_ := by
  unfold prepro_line at h
  simp only [bind_ok_iff, ite_ok_iff, pure_ok_iff, throw_ok_iff, error_ok_iff, false_and,
    and_false, exists_false, false_or, or_false] at h
  rcases h with ⟨_, r, hr, h⟩ | ⟨_, st, hst, _, _, _, h⟩
  · subst h
    exact ⟨prepro_expand_fix_nl_free pctx hp _ _ _ (nl_free_dropWhile _ hline) hr, hp, rfl⟩
  · have hl1 : nl_free ((line.dropWhile is_space).drop 1) :=
      nl_free_drop _ (nl_free_dropWhile _ hline)
    split at h
    · cases h
    · -- directive define
      simp only [bind_ok_iff, pure_ok_iff] at h
      obtain ⟨p1, hp1, h⟩ := h
      subst h
      have := prepro_define_nl_free pctx p1 _ _ hl1 hp hp1
      exact ⟨nl_free_nil, this.1, this.2⟩
    · -- directive undef
      simp only [bind_ok_iff, ite_ok_iff, pure_ok_iff, throw_ok_iff, error_ok_iff, false_and,
        and_false, exists_false, false_or, or_false] at h
      rcases h with ⟨_, _, _, _, _, _, _, _, h⟩ | ⟨_, h⟩
      · split at h
        · cases h
        · rename_i p1 hp1
          simp only [pure_ok_iff] at h
          subst h
          have := erase_macro_nl_free pctx p1 _ hp hp1
          exact ⟨nl_free_nil, this.1, this.2⟩
      · subst h
        exact ⟨nl_free_nil, hp, rfl⟩
    · -- directive if
      simp only [bind_ok_iff, ite_ok_iff, pure_ok_iff, throw_ok_iff, error_ok_iff, false_and,
        and_false, exists_false, false_or, or_false] at h
      casesm* _ ∨ _, _ ∧ _, ∃ _, _
      all_goals
        subst_vars
        have hreg := push_region_nl_free pctx _ _ _ hp (by assumption)
        exact ⟨nl_free_nil, hreg.1, hreg.2⟩
    · -- directive ifdef
      simp only [bind_ok_iff, ite_ok_iff, pure_ok_iff, throw_ok_iff, error_ok_iff, false_and,
        and_false, exists_false, false_or, or_false] at h
      obtain ⟨_, _, _, _, _, _, _, p1, hp1, h⟩ := h
      subst h
      have := push_region_nl_free pctx p1 _ _ hp hp1
      exact ⟨nl_free_nil, this.1, this.2⟩
    · -- directive endif
      simp only [bind_ok_iff, ite_ok_iff, pure_ok_iff, throw_ok_iff, error_ok_iff, false_and,
        and_false, exists_false, false_or, or_false] at h
      obtain ⟨_, _, _, _, _, _, _, _, _, _, h⟩ := h
      subst h
      exact ⟨nl_free_nil, hp, rfl⟩
    · -- directive enum
      simp only [bind_ok_iff, ite_ok_iff, pure_ok_iff, throw_ok_iff, error_ok_iff, false_and,
        and_false, exists_false, false_or, or_false] at h
      casesm* _ ∨ _, _ ∧ _, ∃ _, _
      all_goals first
        | (subst_vars; exact ⟨nl_free_nil, hp, rfl⟩)
        | (subst_vars
           have hreg := register_enum_nl_free _ _ _ _ (by assumption) (by exact hp)
           exact ⟨nl_free_nil, hreg.1, hreg.2⟩)

theorem count_nl_append (a b : CStr) : count_nl (a ++ b) = count_nl a + count_nl b := by
  simp [count_nl]

theorem count_nl_of_nl_free (a : CStr) (h : nl_free a) : count_nl a = 0 := by
  simp [count_nl, List.count_eq_zero]
  exact h

theorem count_nl_buffer_append (sb s : CStr) :
    count_nl (string_buffer_append sb s (-1)) = count_nl sb + count_nl s := by
  simp [string_buffer_append, count_nl_append]

theorem count_nl_cons (c : Char) (s : CStr) :
    count_nl (c :: s) = count_nl s + (if c = '\n' then 1 else 0) := by
  by_cases hc : c = '\n'
  · subst hc; simp [count_nl]
  · have hc1 : ¬ ('\n' = c) := fun h => hc h.symm
    simp [count_nl, List.count_cons, hc, hc1]

theorem nl_free_cons (c : Char) (s : CStr) (hc : c ≠ '\n') (hs : nl_free s) :
    nl_free (c :: s) := by
  intro h
  simp only [List.mem_cons] at h
  rcases h with h | h
  · exact hc h.symm
  · exact hs h

theorem collect_line_spec (n : Nat) (ic : Bool) (src : CStr) (hn : src.length = n) :
    nl_free (prepro_collect_line ic src).1 ∧
    ((prepro_collect_line ic src).2.1 = [] ∨
      ∃ r, (prepro_collect_line ic src).2.1 = '\n' :: r) ∧
    (prepro_collect_line ic src).2.1.length ≤ src.length ∧
    count_nl src = (prepro_collect_line ic src).2.2 + count_nl (prepro_collect_line ic src).2.1 ∧
    joined_newlines ic src =
      (prepro_collect_line ic src).2.2 + joined_newlines false (prepro_collect_line ic src).2.1 := by
  induction n using Nat.strong_induction_on generalizing ic src with
  | _ n ih =>
    match src, hn with
    | [], _ => simp [prepro_collect_line, nl_free, count_nl, joined_newlines]
    | [c], _ =>
      by_cases hc : c = '\n'
      · subst hc
        cases ic <;> simp [prepro_collect_line, nl_free, count_nl, joined_newlines]
      · have hc1 : ¬ ('\n' = c) := fun h => hc h.symm
        cases ic <;>
          simp [prepro_collect_line, nl_free, count_nl, joined_newlines, hc, hc1,
            List.count_cons]
    | c :: d :: rest, hn =>
      have hlen : rest.length + 2 = n := by simpa using hn
      have ih1 := fun ic => ih rest.length (by omega) ic rest rfl
      have ih2 := fun ic => ih (rest.length + 1) (by omega) ic (d :: rest) (by simp)
      rw [prepro_collect_line, joined_newlines]
      by_cases h1 : (c == '/' && d == '*') = true
      · have hc : c = '/' := by simp at h1; exact h1.1
        have hd : d = '*' := by simp at h1; exact h1.2
        obtain ⟨a1, a2, a3, a4, a5⟩ := ih1 true
        subst hc hd
        simp only [h1, if_true]
        refine ⟨a1, a2, by simp only [List.length_cons]; omega, ?_, a5⟩
        rw [count_nl_cons, count_nl_cons, a4]
        simp
      · simp only [h1, if_false, Bool.false_eq_true]
        by_cases h2 : (c == '*' && d == '/') = true
        · have hc : c = '*' := by simp at h2; exact h2.1
          have hd : d = '/' := by simp at h2; exact h2.2
          obtain ⟨a1, a2, a3, a4, a5⟩ := ih1 false
          subst hc hd
          simp only [h2, if_true]
          refine ⟨a1, a2, by simp only [List.length_cons]; omega, ?_, a5⟩
          rw [count_nl_cons, count_nl_cons, a4]
          simp
        · simp only [h2, if_false, Bool.false_eq_true]
          by_cases h3 : (c == '\\' && d == '\n') = true
          · have hc : c = '\\' := by simp at h3; exact h3.1
            have hd : d = '\n' := by simp at h3; exact h3.2
            obtain ⟨a1, a2, a3, a4, a5⟩ := ih1 ic
            subst hc hd
            simp only [h3, if_true]
            refine ⟨a1, a2, by simp only [List.length_cons]; omega, ?_, ?_⟩
            · rw [count_nl_cons, count_nl_cons, a4]
              simp; omega
            · rw [a5]; omega
          · simp only [h3, if_false, Bool.false_eq_true]
            by_cases h4 : c = '\n'
            · subst h4
              cases ic
              · simp [nl_free, joined_newlines]
              · obtain ⟨a1, a2, a3, a4, a5⟩ := ih2 true
                simp only [beq_self_eq_true, Bool.not_true, Bool.and_false, Bool.false_eq_true,
                  if_false, if_true]
                refine ⟨a1, a2, by simp only [List.length_cons] at a3 ⊢; omega, ?_, ?_⟩
                · rw [count_nl_cons, a4]
                  simp; omega
                · rw [a5]; omega
            · obtain ⟨a1, a2, a3, a4, a5⟩ := ih2 ic
              have h4b : (c == '\n') = false := by simp [h4]
              simp only [h4b, Bool.false_and, Bool.false_eq_true, if_false, Nat.add_zero]
              refine ⟨?_, a2, by simp only [List.length_cons] at a3 ⊢; omega, ?_, a5⟩
              · cases ic
                · exact nl_free_cons c _ h4 a1
                · exact a1
              · rw [count_nl_cons, a4]
                simp [h4]

theorem prepro_do_loop_count (fuel : Nat) (pctx pctx1 : prepro_context_t) (src : CStr)
    (hp : macros_nl_free pctx) (h : prepro_do_loop fuel pctx src = .ok pctx1) :
    count_nl pctx1.out_buffer_ + joined_newlines false src =
      count_nl pctx.out_buffer_ + count_nl src := by
  induction fuel generalizing pctx src with
  | zero => simp [prepro_do_loop] at h
  | succ fuel ih =>
    rw [prepro_do_loop] at h
    obtain ⟨a1, a2, a3, a4, a5⟩ := collect_line_spec src.length false src rfl
    generalize prepro_collect_line false src = r at h a1 a2 a3 a4 a5
    obtain ⟨line, rest, nl⟩ := r
    simp only at h a1 a2 a3 a4 a5
    have hj : ∀ r : CStr, joined_newlines false ('\n' :: r) = joined_newlines false r := by
      intro r
      cases r with
      | nil => simp [joined_newlines]
      | cons d r => simp [joined_newlines]
    have h1 : count_nl ['\n'] = 1 := by simp [count_nl]
    have h0 : count_nl [] = 0 := by simp [count_nl]
    have hj0 : joined_newlines false [] = 0 := by simp [joined_newlines]
    rcases a2 with a2 | ⟨r, a2⟩
    · subst a2
      simp only at h
      rw [a4, a5, h0, hj0]
      split at h
      · simp only [bind_ok_iff, pure_ok_iff] at h
        obtain ⟨x, hx, y, hy, h⟩ := h
        have hl := prepro_line_nl_free { pctx with line_ := pctx.line_ + nl } line x a1 hp hx
        subst hy h
        simp only [count_nl_buffer_append, hl.2.2, count_nl_of_nl_free _ hl.1]
        omega
      · simp only [bind_ok_iff, pure_ok_iff] at h
        obtain ⟨y, hy, h⟩ := h
        subst hy h
        simp only
    · subst a2
      simp only at h
      rw [a4, a5, hj, count_nl_cons]
      simp only [if_true]
      split at h
      · simp only [bind_ok_iff, pure_ok_iff] at h
        obtain ⟨x, hx, y, hy, h⟩ := h
        have hl := prepro_line_nl_free { pctx with line_ := pctx.line_ + nl } line x a1 hp hx
        subst hy
        have := ih _ _ (by exact hl.2.1) h
        simp only [count_nl_buffer_append, hl.2.2, count_nl_of_nl_free _ hl.1, h1] at this
        omega
      · simp only [bind_ok_iff, pure_ok_iff] at h
        obtain ⟨y, hy, h⟩ := h
        subst hy
        have := ih _ _ (by exact hp) h
        simp only [count_nl_buffer_append, h1] at this
        omega

theorem joined_newlines_zero (ic : Bool) (src : CStr)
    (h : ∀ c ∈ src, c ≠ '\\' ∧ c ≠ '*') (hic : ic = false) : joined_newlines ic src = 0 := by
  subst hic
  induction src with
  | nil => simp [joined_newlines]
  | cons c rest ih =>
    have hrest := ih (fun x hx => h x (List.mem_cons_of_mem _ hx))
    have hc := h c (List.mem_cons_self _ _)
    cases rest with
    | nil => simp [joined_newlines]
    | cons d rest =>
      have hd := h d (by simp)
      rw [joined_newlines]
      have h1 : (c == '/' && d == '*') = false := by simp [hd.2]
      have h2 : (c == '*' && d == '/') = false := by simp [hc.2]
      have h3 : (c == '\\' && d == '\n') = false := by simp [hc.1]
      simp only [h1, h2, h3, Bool.false_eq_true, if_false]
      split
      · exact hrest
      · exact hrest

/-- C7 (as the code has it): the output of `prepro_do` holds one newline for each newline
of the source that ends a line for the preprocessor.  A newline right after a backslash
(line continuation) and a newline inside a comment `/* */` do not end a line and are not
written, so the number of newlines of the output is the number of newlines of the source
minus `joined_newlines false src`, the number of those joined newlines; the text written
for a line never holds a newline itself.  In particular the output of a source without a
backslash and without `*` has as many newlines as the source. -/
theorem prepro_do_newline_count (src out : CStr) (h : prepro_do src = .ok out) :
    count_nl out + joined_newlines false src = count_nl src ∧
    ((∀ c ∈ src, c ≠ '\\' ∧ c ≠ '*') → count_nl out = count_nl src) := by
  suffices hmain : count_nl out + joined_newlines false src = count_nl src by
    refine ⟨hmain, fun hplain => ?_⟩
    rw [joined_newlines_zero false src hplain rfl] at hmain
    exact hmain
  unfold prepro_do at h
  simp only [bind_ok_iff, ite_ok_iff, pure_ok_iff, throw_ok_iff, error_ok_iff, false_and,
    and_false, exists_false, false_or, or_false] at h
  obtain ⟨p0, hp0, p1, hp1, _, _, _, h⟩ := h
  have h0 : macros_nl_free create_prepro_context := by
    intro m hm
    simp [create_prepro_context] at hm
  have hreg := register_macro_nl_free create_prepro_context p0 _ h0
    (create_macro_nl_free _ _ (by simp [nl_free])) hp0
  have hloop := prepro_do_loop_count _ p0 p1 src hreg.1 hp1
  rw [hreg.2] at hloop
  subst h
  have hz : count_nl create_prepro_context.out_buffer_ = 0 := by
    simp [create_prepro_context, count_nl]
  omega

set_option maxRecDepth 1000000 in
theorem prepro_do_newline_count_witness :
    count_nl "ab\nc  d\ne".toList + joined_newlines false "a\\\nb\nc /* x\ny */ d\ne".toList =
      count_nl "a\\\nb\nc /* x\ny */ d\ne".toList :=
  (prepro_do_newline_count "a\\\nb\nc /* x\ny */ d\ne".toList "ab\nc  d\ne".toList
    (by decide!)).1

set_option maxRecDepth 1000000 in
/-- Counterexample to C7 as stated: the source `a`, backslash, newline, `b` has one
newline, and the output of `prepro_do` for it, `ab`, has none. -/
theorem prepro_do_drops_continuation_newline :
    prepro_do "a\\\nb".toList = .ok "ab".toList ∧
    count_nl "a\\\nb".toList = 1 ∧ count_nl "ab".toList = 0 := by
  refine ⟨?_, ?_, ?_⟩ <;> decide!

/-- In `parse_statement`, a `}` that is read where a statement starts is an empty statement,
whatever was read before it. -/
theorem parse_statement_rbrace (fuel : Nat) (c c1 : parse_context_t) (t : token_t)
    (h : read_token c = .ok (t, c1)) (ht : t.tag_ = TOKEN_RBRACE) :
    parse_statement (fuel + 1) c = .ok (create_ast_node NODE_EMPTY .null .null, c1) := by
  rw [parse_statement]
  simp [h, ht, is_eos_like_token, bind, Except.bind, pure, Except.pure]

set_option maxRecDepth 1000000 in
/-- C11, failing input: a `}` without a matching `{` is accepted.  Where a statement
starts it is the empty statement, and after a statement it ends the statement like an end
of line, so the scripts `}` and `mes "a" }` are parsed without an error and the second one
runs and prints `a`.  A `{` that is never closed is rejected. -/
theorem closing_brace_without_opening_is_accepted :
    statement_tags 1000 "\x7d" = .ok [some NODE_EMPTY] ∧
    statement_tags 1000 "mes \"a\" \x7d" = .ok [some NODE_COMMAND] ∧
    statement_tags 1000 "a = 1 \x7d\n\x7d" = .ok [some NODE_ASSIGN, some NODE_EMPTY, some NODE_EMPTY] ∧
    run_script example_host 1000 "mes \"a\" \x7d\n\x7d".toList [] = .ok ["a".toList] ∧
    statement_tags 1000 "if a \x7b mes \"x\" \x7d \x7d" = .ok [some NODE_IF] ∧
    statement_tags 1000 "\x7b" = .error (.raise 3125) ∧
    statement_tags 1000 "if a \x7b" = .error (.raise 3249) ∧
    statement_tags 1000 "if a \x7b mes \"x\"" = .error (.raise 3249) ∧
    statement_tags 1000 "if a \x7b mes \"x\" \x7d else \x7b" = .error (.raise 3309) := by
  refine ⟨?_, ?_, ?_, ?_, ?_, ?_, ?_, ?_, ?_⟩ <;> decide!

set_option maxRecDepth 1000000 in
/-- C12: a built-in function called with a number of arguments other than its arity stops
with a `raise_error`, on every state of the machine, with the one exception of `powf`
called with one argument.  `function_powf` tests `arg_num <= 0` where two arguments are
needed, so `powf(x)` passes the test, reads its second operand from the bottom of the value
stack and returns a value: `a = powf(2)` runs without an error, while `powf()` and
`powf(1,2,3)` are rejected. -/
theorem function_arity_is_checked_except_powf
    (h : host_t) (tag : builtin_function_tag) (e : execute_environment_t)
    (s : execute_status_t) (arg_num : Int) (hne : arg_num ≠ specified_arity tag)
    (hpowf : ¬ (tag = FUNCTION_POWF ∧ arg_num = 1)) :
    (∃ line, get_function_delegate h tag e s arg_num = .error (.raise line)) ∧
    (∀ x : Dbl, function_powf h e { s with stack_ := [.double x] } 1 =
        .ok (e, { s with stack_ := [.double (h.math .pow x x)] })) ∧
    runs_without_error example_host 1000 "a = powf(2)" = true ∧
    script_error example_host 1000 "a = powf()" = some (.raise 1090) ∧
    script_error example_host 1000 "a = powf(1,2,3)" = some (.raise 1094) ∧
    script_error example_host 1000 "a = atan(1)" = some (.raise 1030) := by
  refine ⟨?_, ?_, by decide!, by decide!, by decide!, by decide!⟩
  · cases tag <;>
      simp only [get_function_delegate, specified_arity, function_int, function_double,
        function_str, function_peek, function_wpeek, function_lpeek, function_rnd,
        function_abs, function_absf, function_deg2rad, function_rad2deg, function_sin,
        function_cos, function_tan, function_atan, function_expf, function_logf,
        function_powf, function_sqrt, function_limit, function_limitf, function_strlen,
        bind, Except.bind, throw, throwThe, MonadExceptOf.throw, pure, Except.pure] at hne hpowf ⊢
    all_goals (split_ifs <;> first | exact ⟨_, rfl⟩ | (exfalso; omega) | (exfalso; simp at hpowf; omega))
  · intro x
    simp [function_powf, stack_peek, stack_pop, stack_push, value_calc_double, bind, Except.bind, throw, throwThe, MonadExceptOf.throw, pure, Except.pure]

set_option maxRecDepth 1000000 in
theorem function_arity_is_checked_except_powf_witness :
    (3 : Int) ≠ specified_arity FUNCTION_POWF ∧
    (∃ line, get_function_delegate example_host FUNCTION_POWF create_execute_environment
        (initialize_execute_status []) 3 = .error (.raise line)) :=
  ⟨by decide, (function_arity_is_checked_except_powf example_host FUNCTION_POWF
      create_execute_environment (initialize_execute_status []) 3 (by decide) (by decide)).1⟩

theorem chain_name_injective (i j : Nat) (hi : i < 400) (hj : j < 400)
    (h : chain_name i = chain_name j) : i = j := by
  have hval : ∀ n : Nat, n < 200 → (Char.ofNat n).toNat = n := by
    intro n hn
    have hv : n.isValidChar := Or.inl (by omega)
    simp only [Char.ofNat, hv, ↓reduceDIte, Char.ofNatAux]
    rfl
  simp only [chain_name, List.cons.injEq, and_true] at h
  have h1 := congrArg Char.toNat h.1
  have h2 := congrArg Char.toNat h.2
  rw [hval _ (by omega), hval _ (by omega)] at h1 h2
  omega

theorem macro_chain_get (n i : Nat) (hi : i < n) :
    (macro_chain n).macro_list_[i]? =
      some ( create_macro (chain_name i) (if i + 1 < n then chain_name (i + 1) else ['x'])) := by
  simp [macro_chain, List.getElem?_map, List.getElem?_range hi]

theorem prepro_push_region_frame (pctx pctx1 : prepro_context_t) (is_valid : Bool) (line : Nat)
    (h : prepro_push_region pctx is_valid line = .ok pctx1) :
    pctx1.macro_list_ = pctx.macro_list_ ∧ pctx1.enum_next_ = pctx.enum_next_ ∧
    pctx1.out_buffer_ = pctx.out_buffer_ ∧ pctx1.line_ = pctx.line_ ∧
    pctx1.is_current_region_valid_ = (pctx.is_current_region_valid_ && is_valid) := by
  simp only [prepro_push_region, bind_ok_iff, ite_ok_iff, pure_ok_iff, throw_ok_iff,
    false_and, and_false, exists_false, false_or, or_false] at h
  casesm* _ ∨ _, _ ∧ _, ∃ _, _
  subst_vars
  simp

theorem prepro_line_inactive (pctx : prepro_context_t) (line : CStr)
    (hinactive : pctx.is_current_region_valid_ = false) :
    ((line_directive line = some PREPRO_DEFINE ∨ line_directive line = some PREPRO_UNDEF ∨
        line_directive line = some PREPRO_ENUM) → prepro_line pctx line = .ok ([], pctx)) ∧
    (line_directive line = some PREPRO_IF →
        prepro_line pctx line =
          (prepro_push_region pctx false 2511).map (fun pctx1 => ([], pctx1))) ∧
    (∀ (out : CStr) (pctx1 : prepro_context_t), prepro_line pctx line = .ok (out, pctx1) →
        out = [] ∧ pctx1.macro_list_ = pctx.macro_list_ ∧ pctx1.enum_next_ = pctx.enum_next_ ∧
        pctx1.out_buffer_ = pctx.out_buffer_ ∧ pctx1.line_ = pctx.line_) := by
  have hplain : ∀ l : CStr, prepro_expand_fix pctx (MAX_REPLACE_LOOP + 1) l = .ok [] := by
    intro l
    simp [MAX_REPLACE_LOOP, prepro_expand_fix, prepro_line_expand, hinactive, bind, Except.bind,
      pure, Except.pure]
  by_cases hs : chAt (line.dropWhile is_space) 0 = '#'
  swap
  · have h1 : prepro_line pctx line = .ok ([], pctx) := by
      simp [prepro_line, hs, hplain, bind, Except.bind, pure, Except.pure]
    have h2 : line_directive line = none := by simp [line_directive, hs]
    simp [h1, h2]
  cases hr : read_token (initialize_parse_context
      (initialize_tokenize_context (line.dropWhile is_space).tail)) with
  | error err =>
      have h1 : prepro_line pctx line = .error err := by
        simp [prepro_line, hs, hr, bind, Except.bind]
      have h2 : line_directive line = none := by simp [line_directive, hs, hr]
      simp [h1, h2]
  | ok r =>
      obtain ⟨st, c⟩ := r
      by_cases htag : st.tag_ = TOKEN_IDENTIFIER
      swap
      · have h1 : prepro_line pctx line = .error (.raise 2278) := by
          simp [prepro_line, hs, hr, htag, bind, Except.bind, throw, throwThe,
            MonadExceptOf.throw]
        have h2 : line_directive line = none := by simp [line_directive, hs, hr, htag]
        simp [h1, h2]
      have h2 : line_directive line = query_preprocessor st.content_ := by
        simp [line_directive, hs, hr, htag]
      rw [h2]
      cases hq : query_preprocessor st.content_ with
      | none =>
          have h1 : prepro_line pctx line = .error (.raise 2285) := by
            simp [prepro_line, hs, hr, htag, hq, bind, Except.bind, throw, throwThe,
              MonadExceptOf.throw, pure, Except.pure]
          simp [h1]
      | some tag =>
          cases tag
          · have h1 : prepro_line pctx line = .ok ([], pctx) := by
              simp [prepro_line, hs, hr, htag, hq, hinactive, prepro_define, bind, Except.bind,
                throw, throwThe, MonadExceptOf.throw, pure, Except.pure]
            simp [h1]
          · have h1 : prepro_line pctx line = .ok ([], pctx) := by
              simp [prepro_line, hs, hr, htag, hq, hinactive, bind, Except.bind,
                throw, throwThe, MonadExceptOf.throw, pure, Except.pure]
            simp [h1]
          · have h1 : prepro_line pctx line =
                (prepro_push_region pctx false 2511).map (fun pctx1 => ([], pctx1)) := by
              simp [prepro_line, hs, hr, htag, hq, hinactive, bind, Except.bind,
                throw, throwThe, MonadExceptOf.throw, pure, Except.pure, Except.map]
            refine ⟨by simp, fun _ => h1, ?_⟩
            intro out pctx1 h
            rw [h1] at h
            cases hp : prepro_push_region pctx false 2511 with
            | error err => rw [hp] at h; cases h
            | ok p =>
                rw [hp] at h
                simp only [Except.map, Except.ok.injEq, Prod.mk.injEq] at h
                obtain ⟨rfl, rfl⟩ := h
                have := prepro_push_region_frame pctx p false 2511 hp
                exact ⟨rfl, this.1, this.2.1, this.2.2.1, this.2.2.2.1⟩
          · refine ⟨by simp, by simp, ?_⟩
            intro out pctx1 h
            simp [prepro_line, hs, hr, htag, hq, bind, Except.bind, throw, throwThe,
              MonadExceptOf.throw, pure, Except.pure] at h
            split at h
            · cases h
            split at h
            · cases h
            split at h
            · cases h
            split at h
            · cases h
            rename_i p hp
            simp only [Except.ok.injEq, Prod.mk.injEq] at h
            obtain ⟨rfl, rfl⟩ := h
            have := prepro_push_region_frame pctx p _ 2533 hp
            exact ⟨rfl, this.1, this.2.1, this.2.2.1, this.2.2.2.1⟩
          · refine ⟨by simp, by simp, ?_⟩
            intro out pctx1 h
            simp [prepro_line, hs, hr, htag, hq, bind, Except.bind, throw, throwThe,
              MonadExceptOf.throw, pure, Except.pure] at h
            split at h
            · cases h
            split at h
            swap
            · cases h
            split at h
            · cases h
            split at h
            · cases h
            simp only [Except.ok.injEq, Prod.mk.injEq] at h
            obtain ⟨rfl, rfl⟩ := h
            simp
          · have h1 : prepro_line pctx line = .ok ([], pctx) := by
              simp [prepro_line, hs, hr, htag, hq, hinactive, bind, Except.bind,
                throw, throwThe, MonadExceptOf.throw, pure, Except.pure]
            simp [h1]

set_option maxRecDepth 1000000 in
/-- C14: while the current region is inactive, (1) a `#define`, `#undef` or `#enum` line
is accepted whatever follows the directive's name and leaves the whole context unchanged;
(2) an `#if` line does not look at its expression: all it does is push a region (or raise
the nesting error); (3) whatever the line is, when `prepro_line` returns, the macro list,
`enum_next_`, the output buffer and the line counter are unchanged and the line comes out
empty.  So inside `#if 0` the lines `#if 1/0`, `#define X 1`, `#enum Y = 1/0` and `#undef Z`
are accepted and `X` is not defined afterwards, while in an active region `#if 1/0` and
`#enum Y = 1/0` stop with the division error and `#undef Z` with its own error. -/
theorem inactive_region_keeps_macros_and_enum (pctx : prepro_context_t) (line : CStr)
    (hinactive : pctx.is_current_region_valid_ = false) :
    ((line_directive line = some PREPRO_DEFINE ∨ line_directive line = some PREPRO_UNDEF ∨
        line_directive line = some PREPRO_ENUM) → prepro_line pctx line = .ok ([], pctx)) ∧
    (line_directive line = some PREPRO_IF →
        prepro_line pctx line =
          (prepro_push_region pctx false 2511).map (fun pctx1 => ([], pctx1))) ∧
    (∀ (out : CStr) (pctx1 : prepro_context_t), prepro_line pctx line = .ok (out, pctx1) →
        out = [] ∧ pctx1.macro_list_ = pctx.macro_list_ ∧ pctx1.enum_next_ = pctx.enum_next_ ∧
        pctx1.out_buffer_ = pctx.out_buffer_ ∧ pctx1.line_ = pctx.line_) ∧
    prepro_do ("#if 0\n#if 1/0\n#define X 1\n#enum Y = 1/0\n#undef Z\n#endif\n#endif\n" ++
        "mes str(X)").toList = .ok "\n\n\n\n\n\n\nmes str(X)".toList ∧
    prepro_do "#if 1/0\n#endif".toList = .error (.raise 4811) ∧
    prepro_do "#enum Y = 1/0".toList = .error (.raise 4811) ∧
    prepro_do "#undef Z".toList = .error (.raise 2454) := by
  have hg := prepro_line_inactive pctx line hinactive
  exact ⟨hg.1, hg.2.1, hg.2.2, by decide!, by decide!, by decide!, by decide!⟩

set_option maxRecDepth 1000000 in
theorem inactive_region_keeps_macros_and_enum_witness :
    example_inactive_context.is_current_region_valid_ = false ∧
    prepro_line example_inactive_context "#define X 1".toList =
      .ok ([], example_inactive_context) :=
  ⟨rfl, (inactive_region_keeps_macros_and_enum example_inactive_context "#define X 1".toList
      rfl).1 (Or.inl (by decide!))⟩

theorem enum_line_tokens (line : CStr) (it at_ : token_t)
    (hline : line_directive line = some PREPRO_ENUM)
    (hops : directive_operands line = .ok (it, at_)) :
    chAt (line.dropWhile is_space) 0 = '#' ∧
    ∃ (st : token_t) (c1 c2 c3 : parse_context_t),
      read_token (initialize_parse_context
        (initialize_tokenize_context (line.dropWhile is_space).tail)) = .ok (st, c1) ∧
      st.tag_ = TOKEN_IDENTIFIER ∧ query_preprocessor st.content_ = some PREPRO_ENUM ∧
      read_token c1 = .ok (it, c2) ∧ read_token c2 = .ok (at_, c3) := by
  unfold line_directive at hline
  by_cases hs : chAt (line.dropWhile is_space) 0 = '#'
  swap
  · simp [hs] at hline
  refine ⟨hs, ?_⟩
  unfold directive_operands at hops
  simp only [List.drop_one] at hline hops
  cases hr : read_token (initialize_parse_context
      (initialize_tokenize_context (line.dropWhile is_space).tail)) with
  | error err => simp [hs, hr] at hline
  | ok r =>
      obtain ⟨st, c1⟩ := r
      simp only [hs, hr, bne_self_eq_false, Bool.false_eq_true, ↓reduceIte] at hline
      by_cases htag : st.tag_ = TOKEN_IDENTIFIER
      swap
      · simp [htag] at hline
      simp only [htag, bne_self_eq_false, Bool.false_eq_true, ↓reduceIte] at hline
      simp only [hr, bind_ok_iff, pure_ok_iff, Except.ok.injEq, exists_eq_left,
        Prod.exists] at hops
      simp only [Prod.mk.injEq] at hops
      obtain ⟨a, c1x, ⟨rfl, rfl⟩, b, c2, h2, w, c3, h3, rfl, rfl⟩ := hops
      exact ⟨st, c1, c2, c3, rfl, htag, hline, h2, h3⟩

set_option maxRecDepth 1000000 in
/-- C15: in an active region, on a line `#enum NAME` whose `NAME` is not a macro yet,
(1) without an expression the macro `NAME` is defined as the decimal text of `enum_next_`
and `enum_next_` is incremented; (2) with `= expr`, where `expr` evaluates to the INT `n`,
`enum_next_` is set to `n` first, so `NAME` is defined as the decimal text of `n` and
`enum_next_` becomes `n + 1`; an `expr` of another type is rejected; (3) the increment is
the successor below `INT_MAX`.  The lines `#enum A`, `#enum B`, `#enum C=10`, `#enum D`
define `A`, `B`, `C`, `D` as 0, 1, 10, 11. -/
theorem enum_defines_and_increments (pctx : prepro_context_t) (line : CStr)
    (it at_ : token_t)
    (hactive : pctx.is_current_region_valid_ = true)
    (hline : line_directive line = some PREPRO_ENUM)
    (hops : directive_operands line = .ok (it, at_))
    (hname : it.tag_ = TOKEN_IDENTIFIER)
    (hnew : prepro_find_macro pctx it.content_ = none) :
    (at_.tag_ = TOKEN_EOF →
        prepro_line pctx line = .ok ([], enum_defined pctx it.content_ pctx.enum_next_)) ∧
    (∀ n : Int, at_.tag_ = TOKEN_ASSIGN →
        prepro_evaluate pctx (enum_expression line at_) (2591, 2598, 0) = .ok (.int n) →
        prepro_line pctx line = .ok ([], enum_defined pctx it.content_ n)) ∧
    (∀ ev : value_t, at_.tag_ = TOKEN_ASSIGN →
        prepro_evaluate pctx (enum_expression line at_) (2591, 2598, 0) = .ok ev →
        ev.type_ = VALUE_DOUBLE ∨ ev.type_ = VALUE_STRING →
        prepro_line pctx line = .error (.raise 2605)) ∧
    (∀ n : Int, INT_MIN ≤ n → n < INT_MAX → wrap32 (n + 1) = n + 1) ∧
    prepro_do ("#enum A\n#enum B\n#enum C=10\n#enum D\n" ++
        "mes str(A)+\",\"+str(B)+\",\"+str(C)+\",\"+str(D)").toList =
      .ok "\n\n\n\nmes str(0)+\",\"+str(1)+\",\"+str(10)+\",\"+str(11)".toList ∧
    run_script example_host 1000 ("#enum A\n#enum B\n#enum C=10\n#enum D\n" ++
        "mes str(A)+\",\"+str(B)+\",\"+str(C)+\",\"+str(D)").toList [] =
      .ok ["0,1,10,11".toList] := by
  refine ⟨?_, ?_, ?_, ?_, by decide!, by decide!⟩
  · intro hat
    obtain ⟨hs, st, c1, c2, c3, hr, htag, hq, h2, h3⟩ := enum_line_tokens line it at_ hline hops
    simp [prepro_line, hs, hr, htag, hq, hactive, h2, h3, hname, hat, hnew,
      prepro_register_macro, enum_defined, create_macro, bind, Except.bind, throw, throwThe,
      MonadExceptOf.throw, pure, Except.pure]
  · intro n hat hev
    obtain ⟨hs, st, c1, c2, c3, hr, htag, hq, h2, h3⟩ := enum_line_tokens line it at_ hline hops
    simp [enum_expression] at hev
    have hnew1 : List.find? (fun m => string_equal_igcase m.name_ it.content_ (-1))
        pctx.macro_list_ = none := hnew
    simp [prepro_line, hs, hr, htag, hq, hactive, h2, h3, hname, hat, hev,
      value_isolate, value_get_primitive_tag, value_t.type_, value_calc_int,
      prepro_register_macro, prepro_find_macro, enum_defined, create_macro, bind, Except.bind,
      throw, throwThe, MonadExceptOf.throw, pure, Except.pure]
    rw [hnew1]
  · intro ev hat hev hty
    obtain ⟨hs, st, c1, c2, c3, hr, htag, hq, h2, h3⟩ := enum_line_tokens line it at_ hline hops
    simp [enum_expression] at hev
    rcases ev with _ | i | d | str | ⟨a, b⟩ <;> simp [value_t.type_] at hty <;>
    simp [prepro_line, hs, hr, htag, hq, hactive, h2, h3, hname, hat, hev,
      value_isolate, value_get_primitive_tag, value_t.type_, value_calc_int,
      bind, Except.bind, throw, throwThe, MonadExceptOf.throw, pure, Except.pure]
  · intro n h1 h2
    apply wrap32_of_range <;> simp only [INT_MIN, INT_MAX] at * <;> omega

set_option maxRecDepth 1000000 in
theorem enum_defines_and_increments_witness :
    create_prepro_context.is_current_region_valid_ = true ∧
    prepro_line create_prepro_context "#enum A".toList =
      .ok ([], enum_defined create_prepro_context ['A'] 0) :=
  ⟨rfl, (enum_defines_and_increments create_prepro_context "#enum A".toList
      { tag_ := TOKEN_IDENTIFIER, content_ := ['A'], cursor_begin_ := 5, cursor_end_ := 6,
        appear_line_ := 0, left_space_ := true, right_space_ := false }
      { tag_ := TOKEN_EOF, content_ := [], cursor_begin_ := 6, cursor_end_ := 6,
        appear_line_ := 0, left_space_ := false, right_space_ := false }
      rfl (by decide!) (by decide!) rfl (by decide!)).1 rfl⟩

theorem mem_read_after_write (data data1 : List Nat) (off : Int) (bs : List Nat)
    (h : mem_write data off bs = some data1) : mem_read data1 off bs.length = some bs := by
  unfold mem_write at h
  split at h
  · rename_i hc
    simp only [Option.some.injEq] at h
    subst h
    unfold mem_read
    have hlen : (data.take off.toNat ++ bs ++ data.drop (off.toNat + bs.length)).length
        = data.length := by
      simp only [List.length_append, List.length_take, List.length_drop]
      omega
    rw [if_pos ⟨hc.1, by rw [hlen]; exact hc.2⟩]
    have ht : (data.take off.toNat).length = off.toNat := by
      rw [List.length_take]; omega
    rw [List.append_assoc, List.drop_append_of_le_length (by omega), List.drop_of_length_le (by omega)]
    simp
  · cases h

theorem le_value_le_bytes_4 (n : Nat) (hn : n < 2 ^ 32) : le_value (le_bytes 4 n) = n := by
  simp only [le_bytes, le_value, List.range, List.range.loop, List.map, List.foldr]
  norm_num
  omega

theorem le_value_le_bytes_8 (n : Nat) (hn : n < 2 ^ 64) : le_value (le_bytes 8 n) = n := by
  simp only [le_bytes, le_value, List.range, List.range.loop, List.map, List.foldr]
  norm_num
  omega

theorem wrap32_to_u32 (v : Int) (h1 : INT_MIN ≤ v) (h2 : v ≤ INT_MAX) :
    wrap32 (to_u32 v) = v := by
  simp only [INT_MIN, INT_MAX] at h1 h2
  unfold wrap32 to_u32
  omega

theorem to_u32_lt (v : Int) : to_u32 v < 2 ^ 32 := by
  unfold to_u32
  omega

theorem bytes_to_nul_append (bs rest : List Nat) (h : ∀ b ∈ bs, b ≠ 0) :
    bytes_to_nul (bs ++ 0 :: rest) = some bs := by
  induction bs with
  | nil => simp [bytes_to_nul]
  | cons b bs ih =>
      have hb : b ≠ 0 := h b (List.mem_cons_self _ _)
      simp [bytes_to_nul, hb, ih (fun x hx => h x (List.mem_cons_of_mem _ hx))]

theorem mem_cstr_after_write (data data1 : List Nat) (off : Int) (s : CStr)
    (hs : s.contains NUL = false)
    (h : mem_write data off (cstr_bytes s) = some data1) : mem_cstr data1 off = some s := by
  unfold mem_write at h
  split at h
  · rename_i hc
    simp only [Option.some.injEq] at h
    subst h
    unfold mem_cstr
    have ht : (data.take off.toNat).length = off.toNat := by
      rw [List.length_take]; omega
    rw [if_pos ⟨hc.1, by simp only [List.length_append, ht]; omega⟩]
    rw [List.append_assoc, List.drop_append_of_le_length (by omega),
      List.drop_of_length_le (by omega)]
    have hz : ∀ b ∈ s.map Char.toNat, b ≠ 0 := by
      intro b hb hb0
      obtain ⟨c, hc1, hc2⟩ := List.mem_map.mp hb
      have : c = NUL := by
        rw [← Char.ofNat_toNat c, hc2, hb0]; rfl
      subst this
      simp at hs
      exact hs hc1
    simp only [cstr_bytes, List.nil_append, List.append_assoc, List.singleton_append]
    rw [bytes_to_nul_append _ _ hz]
    simp [Function.comp_def]
  · cases h

theorem store_bytes_ok_iff (v v1 : variable_t) (ptr : Int) (bs : List Nat) (line : Nat) :
    store_bytes v ptr bs line = .ok v1 ↔
      ∃ data, mem_write v.data_ ptr bs = some data ∧ v1 = { v with data_ := data } := by
  unfold store_bytes
  cases hw : mem_write v.data_ ptr bs with
  | none => simp [in_bounds, bind, Except.bind]
  | some d =>
      simp only [in_bounds, bind, Except.bind, pure, Except.pure, Except.ok.injEq,
        Option.some.injEq, exists_eq_left']
      exact eq_comm

theorem prepare_variable_shape (v v1 : variable_t) (t : value_tag) (g l : Int)
    (h : prepare_variable v t g l = .ok v1) :
    v1.type_ = t ∧ v1.granule_size_ = g ∧ v1.length_ = l := by
  unfold prepare_variable at h
  cases t <;>
    simp only [bind, Except.bind, pure, Except.pure] at h <;>
    first
    | cases h
    | (split at h
       · cases h
       · simp only [Except.ok.injEq] at h
         subst h
         exact ⟨rfl, rfl, rfl⟩)

theorem eq_of_not_bne {a b : value_tag} (h : ¬ (a != b) = true) : a = b := by
  simpa [bne_iff_ne] using h

/-- What a successful `variable_set` has done: the variable, re-initialised where the
source does so, has the type of the value, and the bytes of the value were written at the
place of element `idx`. -/
theorem variable_set_stores (var var1 : variable_t) (x : value_t) (idx : Int)
    (h : variable_set var x idx = .ok var1) :
    ∃ (var0 : variable_t) (ptr : Int) (bs : List Nat),
      var0.type_ = x.type_ ∧ variable_data_ptr var0 idx = .ok ptr ∧
      mem_write var0.data_ ptr bs = some var1.data_ ∧
      var1 = { var0 with data_ := var1.data_ } ∧
      bs = value_bytes x := by
  rcases x with _ | n | d | s | ⟨a, b⟩ <;>
    simp only [variable_set, bind_ok_iff, ite_ok_iff, pure_ok_iff, throw_ok_iff,
      error_ok_iff, store_bytes_ok_iff, false_and, and_false, exists_false, false_or,
      or_false] at h
  any_goals
    casesm* _ ∨ _, _ ∧ _, ∃ _, _
  all_goals
    rename_i v0 _ hty p hp d hw heq
    subst heq
    exact ⟨v0, p, _, eq_of_not_bne hty, hp, hw, rfl, rfl⟩

/-- Element `idx` of a variable read as `value_isolate` reads it, right after a successful
`variable_set` of a primitive value: the value, and the variable has its type. -/
theorem variable_get_after_set (var var1 : variable_t) (x : value_t) (idx : Int)
    (hx : is_primitive_value x = true) (h : variable_set var x idx = .ok var1)
    (vars : List variable_t) (k : Nat) (hk : vars[k]? = some var1) :
    var1.type_ = x.type_ ∧ value_isolate vars (.variable k idx) = .ok x := by
  obtain ⟨var0, ptr, bs, hty, hptr, hw, heq, hbs⟩ := variable_set_stores var var1 x idx h
  have hty1 : var1.type_ = x.type_ := by rw [heq]; exact hty
  have hptr1 : variable_data_ptr var1 idx = .ok ptr := by
    rw [heq]; exact hptr
  refine ⟨hty1, ?_⟩
  rcases x with _ | n | d | s | ⟨a, b⟩
  · simp [is_primitive_value] at hx
  · simp only [is_primitive_value, decide_eq_true_eq] at hx
    have hr := mem_read_after_write _ _ _ _ hw
    simp only [hbs, value_bytes, int_bytes, le_bytes, List.length_map, List.length_range] at hr
    simp only [value_t.type_] at hty1
    simp only [value_isolate, deref_variable, hk, in_bounds, hty1, variable_calc_int, hptr1,
      load_int, hr, bind, Except.bind, pure, Except.pure, Except.map]
    rw [show List.map (fun k => to_u32 n / 256 ^ k % 256) (List.range 4) = le_bytes 4 (to_u32 n)
      from rfl, le_value_le_bytes_4 _ (to_u32_lt n), wrap32_to_u32 n hx.1 hx.2]
  · simp only [is_primitive_value, decide_eq_true_eq] at hx
    have hr := mem_read_after_write _ _ _ _ hw
    simp only [hbs, value_bytes, double_bytes, le_bytes, List.length_map, List.length_range] at hr
    simp only [value_t.type_] at hty1
    simp only [value_isolate, deref_variable, hk, in_bounds, hty1, variable_calc_double, hptr1,
      load_double, hr, bind, Except.bind, pure, Except.pure, Except.map]
    rw [show List.map (fun k => d.bits % 2 ^ 64 / 256 ^ k % 256) (List.range 8)
        = le_bytes 8 (d.bits % 2 ^ 64) from rfl,
      le_value_le_bytes_8 _ (Nat.mod_lt _ (by norm_num)), Nat.mod_eq_of_lt hx]
  · simp only [is_primitive_value, Bool.not_eq_true'] at hx
    rw [hbs] at hw
    have hr := mem_cstr_after_write _ _ _ _ hx hw
    simp only [value_t.type_] at hty1
    simp only [value_isolate, deref_variable, hk, in_bounds, hty1, variable_calc_string, hptr1,
      load_cstr, hr, bind, Except.bind, pure, Except.pure, Except.map]
  · simp [is_primitive_value] at hx

theorem execute_operator_assign (h : host_t) (e : execute_environment_t) (s : execute_status_t)
    (op : code_oprator_tag) (hop : op ∈ assignment_operators) :
    execute_operator h e s op = (do
      if s.stack_.length < 2 then throw (.assertion 5270)
      let var ← stack_peek s.stack_ (-2)
      match var with
      | .variable variable_ index_ =>
          let v ← stack_peek s.stack_ (-1)
          let v ← value_isolate e.variable_table_ v
          let x ← deref_variable e.variable_table_ variable_ 5283
          let x ←
            match assign_operator op with
            | none => variable_set x v index_
            | some f => do
                let t ← value_convert_type e.variable_table_ x.type_ v
                f x t index_
          let st ← stack_pop (stack_update s.stack_ (-1) v) 2
          pure ({ e with variable_table_ := e.variable_table_.set variable_ x },
                { s with stack_ := st })
      | _ => throw (.raise 5275)) := by
  simp only [assignment_operators, List.mem_cons, List.mem_singleton, List.not_mem_nil,
    or_false] at hop
  rcases hop with rfl | rfl | rfl | rfl | rfl | rfl | rfl | rfl | rfl <;> rfl

theorem getElem?_lt_of_some {α : Type} (l : List α) (k : Nat) (a : α) (h : l[k]? = some a) :
    k < l.length := by
  by_contra hcon
  have : l[k]? = none := by rw [List.getElem?_eq_none_iff]; omega
  rw [this] at h; cases h

set_option maxRecDepth 1000000 in
/-- C16: `=` replaces.  When `OPERATOR_ASSIGN` runs with the variable reference `v(i)` and
a primitive value `x` (an INT, a DOUBLE or a STRING) on top of the stack and raises no
error, then right after it element `i` of the variable reads as `x` and the variable has
the type of `x`; the two operands are popped.  The script `a=1 : b=2 : mes str(a+b)`
prints `3`. -/
theorem assignment_then_read (h : host_t) (e e1 : execute_environment_t)
    (s s1 : execute_status_t) (st : List value_t) (k : Nat) (i : Int) (x : value_t)
    (hx : is_primitive_value x = true)
    (hst : s.stack_ = st ++ [.variable k i, x])
    (hrun : execute_operator h e s OPERATOR_ASSIGN = .ok (e1, s1)) :
    value_isolate e1.variable_table_ (.variable k i) = .ok x ∧
    value_get_primitive_tag e1.variable_table_ (.variable k i) = .ok x.type_ ∧
    s1.stack_ = st ∧
    run_script example_host 1000 "a=1 : b=2 : mes str(a+b)".toList [] = .ok ["3".toList] := by
  have p1 : stack_peek (st ++ [.variable k i, x]) (-2) = .ok (.variable k i) :=
    stack_peek_append st [.variable k i, x] 0 _ (-2) rfl (by simp)
  have p2 : stack_peek (st ++ [.variable k i, x]) (-1) = .ok x :=
    stack_peek_append st [.variable k i, x] 1 _ (-1) rfl (by simp)
  have hiso : value_isolate e.variable_table_ x = .ok x := by
    rcases x with _ | n | d | str | ⟨a, b⟩ <;> first | rfl | simp [is_primitive_value] at hx
  have hupd : stack_update (st ++ [.variable k i, x]) (-1) x = st ++ [.variable k i, x] := by
    have hidx : ((st.length : Int) + 2 + -1).toNat = st.length + 1 := by omega
    simp only [stack_update, List.length_append, List.length_cons, List.length_nil,
      Nat.cast_add, Nat.cast_ofNat, show ((-1 : Int) < 0) from by decide, if_true]
    norm_num
    rw [hidx, List.set_append_right _ _ (by omega)]
    simp
  have pp := stack_pop_append st [.variable k i, x] 2 (by simp)
  rw [execute_operator_assign h e s _ (by simp [assignment_operators])] at hrun
  simp only [hst, p1, p2, hiso, hupd, pp, assign_operator, List.length_append, List.length_cons,
    List.length_nil, bind, Except.bind, pure, Except.pure] at hrun
  split at hrun
  · cases hrun
  cases hd : deref_variable e.variable_table_ k 5283 with
  | error err => rw [hd] at hrun; cases hrun
  | ok var =>
      rw [hd] at hrun
      simp only [] at hrun
      cases hv : variable_set var x i with
      | error err => rw [hv] at hrun; cases hrun
      | ok var1 =>
          rw [hv] at hrun
          simp only [Except.ok.injEq, Prod.mk.injEq] at hrun
          obtain ⟨rfl, rfl⟩ := hrun
          have hk : k < e.variable_table_.length := by
            unfold deref_variable at hd
            cases hg : e.variable_table_[k]? with
            | none => rw [hg] at hd; cases hd
            | some a => exact getElem?_lt_of_some _ _ _ hg
          have hget : (e.variable_table_.set k var1)[k]? = some var1 := by
            simp [List.getElem?_set_self, hk]
          have hr := variable_get_after_set var var1 x i hx hv _ k hget
          refine ⟨hr.2, ?_, rfl, by decide!⟩
          simp [value_get_primitive_tag, deref_variable, hget, in_bounds, hr.1, bind,
            Except.bind, pure, Except.pure]

set_option maxRecDepth 1000000 in
theorem assignment_then_read_witness :
    is_primitive_value (.string "hi".toList) = true ∧
    value_isolate example_assign_result.1.variable_table_ (.variable 0 0) =
      .ok (.string "hi".toList) :=
  ⟨by decide,
   (assignment_then_read example_host example_poke_env example_assign_result.1
      example_assign_status example_assign_result.2 [] 0 0 (.string "hi".toList)
      (by decide) rfl (by decide!)).1⟩

theorem raises_within_bind {α β : Type} (S : List Nat) (x : Except Err α)
    (f : α → Except Err β) (hx : raises_within S x) (hf : ∀ a, raises_within S (f a)) :
    raises_within S (x >>= f) := by
  intro line h
  cases x with
  | error err =>
      simp only [bind, Except.bind, Except.error.injEq] at h
      exact hx line (by rw [h])
  | ok a => exact hf a line h

theorem raises_within_bind_ok {α β : Type} (S : List Nat) (x : Except Err α)
    (f : α → Except Err β) (hx : raises_within S x)
    (hf : ∀ a, x = .ok a → raises_within S (f a)) :
    raises_within S (x >>= f) := by
  intro line h
  cases x with
  | error err =>
      simp only [bind, Except.bind, Except.error.injEq] at h
      exact hx line (by rw [h])
  | ok a => exact hf a rfl line h

theorem raises_within_ok {α : Type} (S : List Nat) (a : α) :
    raises_within S (Except.ok a : Except Err α) := by
  intro line h; cases h

theorem raises_within_pure {α : Type} (S : List Nat) (a : α) :
    raises_within S (pure a : Except Err α) := raises_within_ok S a

theorem raises_within_raise {α : Type} (S : List Nat) (line : Nat) (h : line ∈ S) :
    raises_within S (Except.error (.raise line) : Except Err α) := by
  intro l hl
  simp only [Except.error.injEq, Err.raise.injEq] at hl
  exact hl ▸ h

theorem raises_within_undefined {α : Type} (S : List Nat) (line : Nat) :
    raises_within S (Except.error (.undefined line) : Except Err α) := by
  intro l hl; cases hl

theorem raises_within_assertion {α : Type} (S : List Nat) (line : Nat) :
    raises_within S (Except.error (.assertion line) : Except Err α) := by
  intro l hl; cases hl

theorem raises_within_in_bounds {α : Type} (S : List Nat) (line : Nat) (o : Option α) :
    raises_within S (in_bounds line o) := by
  cases o
  · exact raises_within_undefined S line
  · exact raises_within_ok S _

theorem raises_within_ite {α : Type} (S : List Nat) (c : Prop) [Decidable c]
    (x y : Except Err α) (hx : raises_within S x) (hy : raises_within S y) :
    raises_within S (if c then x else y) := by
  split
  · exact hx
  · exact hy

theorem raises_within_map {α β : Type} (S : List Nat) (g : α → β) (x : Except Err α)
    (hx : raises_within S x) : raises_within S (x.map g) := by
  cases x with
  | error err =>
      intro line h
      simp only [Except.map, Except.error.injEq] at h
      exact hx line (by rw [h])
  | ok a => exact raises_within_ok S _

theorem variable_data_ptr_raises (S : List Nat) (h : 4299 ∈ S) (v : variable_t) (idx : Int) :
    raises_within S (variable_data_ptr v idx) := by
  unfold variable_data_ptr
  apply raises_within_ite
  · exact raises_within_raise S _ h
  · cases v.type_ <;> first
      | exact raises_within_pure S _
      | exact raises_within_assertion S _

theorem store_bytes_raises (S : List Nat) (v : variable_t) (ptr : Int) (bs : List Nat)
    (line : Nat) : raises_within S (store_bytes v ptr bs line) := by
  unfold store_bytes
  exact raises_within_bind S _ _ (raises_within_in_bounds S _ _) (fun _ => raises_within_pure S _)

theorem load_int_raises (S : List Nat) (v : variable_t) (ptr : Int) (line : Nat) :
    raises_within S (load_int v ptr line) := by
  unfold load_int
  exact raises_within_bind S _ _ (raises_within_in_bounds S _ _) (fun _ => raises_within_pure S _)

theorem load_double_raises (S : List Nat) (v : variable_t) (ptr : Int) (line : Nat) :
    raises_within S (load_double v ptr line) := by
  unfold load_double
  exact raises_within_bind S _ _ (raises_within_in_bounds S _ _) (fun _ => raises_within_pure S _)

theorem load_cstr_raises (S : List Nat) (v : variable_t) (ptr : Int) (line : Nat) :
    raises_within S (load_cstr v ptr line) := raises_within_in_bounds S _ _

/-- With an operand of the variable's type, `variable_arith` stops only with the errors of
the element access, of the operation itself and of the string case. -/
theorem variable_arith_raises (S : List Nat) (lt lo ls la : Nat)
    (fi : Int → Int → Except Err Int) (fd : Dbl → Dbl → Except Err Dbl)
    (var : variable_t) (t : value_t) (idx : Int) (hty : var.type_ = t.type_)
    (h1 : 4299 ∈ S) (h2 : ls ∈ S) (hfi : ∀ a b, raises_within S (fi a b))
    (hfd : ∀ a b, raises_within S (fd a b)) :
    raises_within S (variable_arith lt lo ls la fi fd var t idx) := by
  unfold variable_arith
  simp only [hty, bne_self_eq_false, Bool.false_eq_true, ↓reduceIte]
  apply raises_within_bind S _ _ (variable_data_ptr_raises S h1 _ _)
  intro ptr
  rcases t with _ | i | d | s | ⟨a, b⟩
  · exact raises_within_assertion S _
  · exact raises_within_bind S _ _ (load_int_raises S _ _ _) (fun x =>
      raises_within_bind S _ _ (hfi x i) (fun y => store_bytes_raises S _ _ _ _))
  · exact raises_within_bind S _ _ (load_double_raises S _ _ _) (fun x =>
      raises_within_bind S _ _ (hfd x d) (fun y => store_bytes_raises S _ _ _ _))
  · exact raises_within_raise S _ h2
  · exact raises_within_assertion S _

theorem variable_calc_int_raises (S : List Nat) (h : 4299 ∈ S) (r : variable_t) (idx : Int) :
    raises_within S (variable_calc_int r idx) := by
  unfold variable_calc_int
  apply raises_within_bind S _ _ (variable_data_ptr_raises S h _ _)
  intro ptr
  cases r.type_ <;> first
    | exact load_int_raises S _ _ _
    | exact raises_within_bind S _ _ (load_double_raises S _ _ _) (fun _ => raises_within_pure S _)
    | exact raises_within_bind S _ _ (load_cstr_raises S _ _ _) (fun _ => raises_within_pure S _)
    | exact raises_within_assertion S _

theorem variable_calc_double_raises (S : List Nat) (h : 4299 ∈ S) (r : variable_t) (idx : Int) :
    raises_within S (variable_calc_double r idx) := by
  unfold variable_calc_double
  apply raises_within_bind S _ _ (variable_data_ptr_raises S h _ _)
  intro ptr
  cases r.type_ <;> first
    | exact load_double_raises S _ _ _
    | exact raises_within_bind S _ _ (load_int_raises S _ _ _) (fun _ => raises_within_pure S _)
    | exact raises_within_bind S _ _ (load_cstr_raises S _ _ _) (fun _ => raises_within_pure S _)
    | exact raises_within_assertion S _

theorem variable_calc_string_raises (S : List Nat) (h : 4299 ∈ S) (r : variable_t) (idx : Int) :
    raises_within S (variable_calc_string r idx) := by
  unfold variable_calc_string
  apply raises_within_bind S _ _ (variable_data_ptr_raises S h _ _)
  intro ptr
  cases r.type_ <;> first
    | exact load_cstr_raises S _ _ _
    | exact raises_within_bind S _ _ (load_int_raises S _ _ _) (fun _ => raises_within_pure S _)
    | exact raises_within_bind S _ _ (load_double_raises S _ _ _) (fun _ => raises_within_pure S _)
    | exact raises_within_assertion S _

theorem value_isolate_raises (S : List Nat) (h : 4299 ∈ S) (vars : List variable_t)
    (v : value_t) : raises_within S (value_isolate vars v) := by
  rcases v with _ | i | d | s | ⟨a, b⟩
  any_goals exact raises_within_pure S _
  unfold value_isolate
  apply raises_within_bind S _ _ (raises_within_in_bounds S _ _)
  intro x
  cases x.type_ <;> first
    | exact raises_within_map S _ _ (variable_calc_int_raises S h _ _)
    | exact raises_within_map S _ _ (variable_calc_double_raises S h _ _)
    | exact raises_within_map S _ _ (variable_calc_string_raises S h _ _)
    | exact raises_within_assertion S _

theorem value_convert_type_raises (S : List Nat) (h1 : 4299 ∈ S) (h2 : 4422 ∈ S)
    (vars : List variable_t) (to_ : value_tag) (r : value_t) :
    raises_within S (value_convert_type vars to_ r) := by
  unfold value_convert_type
  apply raises_within_ite
  · rcases r with _ | i | d | s | ⟨a, b⟩
    · exact raises_within_raise S _ h2
    all_goals exact raises_within_pure S _
  · have hi : raises_within S (value_calc_int vars r) := by
      rcases r with _ | i | d | s | ⟨a, b⟩
      · exact raises_within_assertion S _
      · exact raises_within_pure S _
      · exact raises_within_pure S _
      · exact raises_within_pure S _
      · exact raises_within_bind S _ _ (raises_within_in_bounds S _ _)
          (fun _ => variable_calc_int_raises S h1 _ _)
    have hd : raises_within S (value_calc_double vars r) := by
      rcases r with _ | i | d | s | ⟨a, b⟩
      · exact raises_within_assertion S _
      · exact raises_within_pure S _
      · exact raises_within_pure S _
      · exact raises_within_pure S _
      · exact raises_within_bind S _ _ (raises_within_in_bounds S _ _)
          (fun _ => variable_calc_double_raises S h1 _ _)
    have hs : raises_within S (value_calc_string vars r) := by
      rcases r with _ | i | d | s | ⟨a, b⟩
      · exact raises_within_assertion S _
      · exact raises_within_pure S _
      · exact raises_within_pure S _
      · exact raises_within_pure S _
      · exact raises_within_bind S _ _ (raises_within_in_bounds S _ _)
          (fun _ => variable_calc_string_raises S h1 _ _)
    cases to_ <;> first
      | exact raises_within_map S _ _ hi
      | exact raises_within_map S _ _ hd
      | exact raises_within_map S _ _ hs
      | exact raises_within_assertion S _

/-- A value that `value_convert_type` returns has the type asked for. -/
theorem value_convert_type_type (vars : List variable_t) (to_ : value_tag) (r t : value_t)
    (h : value_convert_type vars to_ r = .ok t) : t.type_ = to_ := by
  unfold value_convert_type at h
  split at h
  · rename_i heq
    have heq1 : to_ = r.type_ := by simpa using heq
    rcases r with _ | i | d | s | ⟨a, b⟩ <;>
      simp only [create_value_copy, pure, Except.pure, Except.ok.injEq] at h
    · cases h
    all_goals (subst h; exact heq1.symm)
  · cases to_
    · cases h
    · cases hc : value_calc_int vars r with
      | error err => rw [hc] at h; cases h
      | ok a => rw [hc] at h; simp only [Except.map, Except.ok.injEq] at h; subst h; rfl
    · cases hc : value_calc_double vars r with
      | error err => rw [hc] at h; cases h
      | ok a => rw [hc] at h; simp only [Except.map, Except.ok.injEq] at h; subst h; rfl
    · cases hc : value_calc_string vars r with
      | error err => rw [hc] at h; cases h
      | ok a => rw [hc] at h; simp only [Except.map, Except.ok.injEq] at h; subst h; rfl
    · cases h

theorem int_div_raises (S : List Nat) (a b : Int) (line : Nat) :
    raises_within S (int_div a b line) := by
  unfold int_div
  exact raises_within_ite S _ _ _ (raises_within_undefined S _) (raises_within_pure S _)

theorem int_mod_raises (S : List Nat) (a b : Int) (line : Nat) :
    raises_within S (int_mod a b line) := by
  unfold int_mod
  exact raises_within_ite S _ _ _ (raises_within_undefined S _) (raises_within_pure S _)

theorem stack_peek_raises (S : List Nat) (st : List value_t) (i : Int) :
    raises_within S (stack_peek st i) := by
  intro line h
  unfold stack_peek at h
  simp only [] at h
  split_ifs at h <;> first | cases h | (split at h <;> cases h)

theorem prepare_variable_raises (S : List Nat) (v : variable_t) (t : value_tag) (g l : Int) :
    raises_within S (prepare_variable v t g l) := by
  intro line h
  unfold prepare_variable at h
  cases t <;>
    simp only [bind, Except.bind, pure, Except.pure] at h <;>
    first
    | cases h
    | (split at h <;> cases h)

theorem stack_pop_raises (S : List Nat) (st : List value_t) (n : Int) :
    raises_within S (stack_pop st n) := by
  unfold stack_pop
  exact raises_within_ite S _ _ _ (raises_within_pure S _) (raises_within_assertion S _)

theorem variable_add_raises (var : variable_t) (t : value_t) (idx : Int)
    (hty : var.type_ = t.type_) :
    raises_within compound_assignment_raise_lines (variable_add var t idx) := by
  unfold variable_add
  simp only [hty, bne_self_eq_false, Bool.false_eq_true, ↓reduceIte]
  apply raises_within_bind _ _ _ (variable_data_ptr_raises _ (by decide) _ _)
  intro ptr
  rcases t with _ | i | d | s | ⟨a, b⟩
  · exact raises_within_assertion _ _
  · exact raises_within_bind _ _ _ (load_int_raises _ _ _ _) (fun x => store_bytes_raises _ _ _ _ _)
  · exact raises_within_bind _ _ _ (load_double_raises _ _ _ _)
      (fun x => store_bytes_raises _ _ _ _ _)
  · apply raises_within_bind _ _ _ (load_cstr_raises _ _ _ _)
    intro varstr
    apply raises_within_ite
    · apply raises_within_ite
      · exact raises_within_raise _ _ (by decide)
      · exact raises_within_bind _ _ _ (prepare_variable_raises _ _ _ _ _)
          (fun _ => raises_within_undefined _ _)
    · exact store_bytes_raises _ _ _ _ _
  · exact raises_within_assertion _ _

/-- With an operand of the variable's type, none of the functions behind the compound
assignments stops with its type-mismatch error. -/
theorem assign_operator_raises (op : code_oprator_tag)
    (f : variable_t → value_t → Int → Except Err variable_t)
    (hop : assign_operator op = some f) (var : variable_t) (t : value_t) (idx : Int)
    (hty : var.type_ = t.type_) :
    raises_within compound_assignment_raise_lines (f var t idx) := by
  cases op <;> simp only [assign_operator, Option.some.injEq] at hop <;> try cases hop
  · exact variable_add_raises var t idx hty
  all_goals
    apply variable_arith_raises _ _ _ _ _ _ _ _ _ _ hty (by decide) (by decide)
    · intro a b
      first
      | exact raises_within_pure _ _
      | exact raises_within_ite _ _ _ _ (raises_within_raise _ _ (by decide))
          (int_div_raises _ _ _ _)
      | exact raises_within_ite _ _ _ _ (raises_within_raise _ _ (by decide))
          (int_mod_raises _ _ _ _)
    · intro a b
      first
      | exact raises_within_pure _ _
      | exact raises_within_raise _ _ (by decide)
      | exact raises_within_ite _ _ _ _ (raises_within_raise _ _ (by decide))
          (raises_within_pure _ _)

theorem assign_operator_mem (op : code_oprator_tag)
    (f : variable_t → value_t → Int → Except Err variable_t)
    (hop : assign_operator op = some f) : op ∈ assignment_operators := by
  cases op <;> simp [assign_operator] at hop <;> simp [assignment_operators]

theorem stack_update_top (st : List value_t) (a v v0 : value_t) :
    stack_update (st ++ [a, v]) (-1) v0 = st ++ [a, v0] := by
  have hidx : ((st.length : Int) + 2 + -1).toNat = st.length + 1 := by omega
  simp only [stack_update, List.length_append, List.length_cons, List.length_nil,
    Nat.cast_add, Nat.cast_ofNat, show ((-1 : Int) < 0) from by decide, if_true]
  norm_num
  rw [hidx, List.set_append_right _ _ (by omega)]
  simp

/-- A compound assignment with the variable reference `v(i)` and the value `v` on top of
the stack: the value is materialised, converted to the type of the variable, and the
function of the operator is applied to the variable and the converted value. -/
theorem execute_compound_assignment (h : host_t) (e : execute_environment_t)
    (s : execute_status_t) (op : code_oprator_tag)
    (f : variable_t → value_t → Int → Except Err variable_t)
    (st : List value_t) (k : Nat) (i : Int) (v : value_t)
    (hop : assign_operator op = some f) (hst : s.stack_ = st ++ [.variable k i, v]) :
    execute_operator h e s op =
      (value_isolate e.variable_table_ v >>= fun v0 =>
       deref_variable e.variable_table_ k 5283 >>= fun x =>
       value_convert_type e.variable_table_ x.type_ v0 >>= fun t =>
       f x t i >>= fun x1 =>
       pure ({ e with variable_table_ := e.variable_table_.set k x1 },
             { s with stack_ := st })) := by
  have p1 : stack_peek (st ++ [.variable k i, v]) (-2) = .ok (.variable k i) :=
    stack_peek_append st [.variable k i, v] 0 _ (-2) rfl (by simp)
  have p2 : stack_peek (st ++ [.variable k i, v]) (-1) = .ok v :=
    stack_peek_append st [.variable k i, v] 1 _ (-1) rfl (by simp)
  have hlen : ¬ (st ++ [value_t.variable k i, v]).length < 2 := by simp
  rw [execute_operator_assign h e s op (assign_operator_mem op f hop), hop]
  simp only [hst, p1, p2, hlen, ↓reduceIte, bind, Except.bind, pure, Except.pure]
  cases value_isolate e.variable_table_ v with
  | error err => rfl
  | ok v0 =>
      simp only []
      cases deref_variable e.variable_table_ k 5283 with
      | error err => rfl
      | ok x =>
          simp only []
          cases value_convert_type e.variable_table_ x.type_ v0 with
          | error err => rfl
          | ok t =>
              simp only []
              cases f x t i with
              | error err => rfl
              | ok x1 =>
                  simp only [stack_update_top]
                  rw [stack_pop_append st [.variable k i, v0] 2 (by simp)]

theorem execute_compound_assignment_raises (h : host_t) (e : execute_environment_t)
    (s : execute_status_t) (op : code_oprator_tag)
    (f : variable_t → value_t → Int → Except Err variable_t)
    (st : List value_t) (k : Nat) (i : Int) (v : value_t)
    (hop : assign_operator op = some f) (hst : s.stack_ = st ++ [.variable k i, v]) :
    raises_within compound_assignment_raise_lines (execute_operator h e s op) := by
  rw [execute_compound_assignment h e s op f st k i v hop hst]
  apply raises_within_bind _ _ _ (value_isolate_raises _ (by decide) _ _)
  intro v0
  apply raises_within_bind _ _ _ (raises_within_in_bounds _ _ _)
  intro x
  apply raises_within_bind_ok _ _ _ (value_convert_type_raises _ (by decide) (by decide) _ _ _)
  intro t ht
  have hty := value_convert_type_type _ _ _ _ ht
  exact raises_within_bind _ _ _ (assign_operator_raises op f hop x t i hty.symm)
    (fun _ => raises_within_pure _ _)

set_option maxRecDepth 1000000 in
/-- C17: a compound assignment (`+=`, `-=`, `*=`, `/=`, `\=`, `|=`, `&=`, `^=`) with the
variable reference `v(i)` and the value `v` on top of the stack (1) materialises `v`,
converts it to the type of the variable and applies the function of the operator to the
variable and the converted value; (2) the converted value has the type of the variable;
(3) so the step never stops with the type-mismatch error of one of these functions.  For an
INT variable holding 5, `a += 2.7` and `a += "2"` both leave 7, and `a /= 0.5` is a
division by the INT 0; a DOUBLE variable holding 1.5 is 3.75 after `a += "2.25"`, and a
STRING variable holding `x` is `x2` after `a += 2`. -/
theorem compound_assignment_converts_first (h : host_t) (e : execute_environment_t)
    (s : execute_status_t) (op : code_oprator_tag)
    (f : variable_t → value_t → Int → Except Err variable_t)
    (st : List value_t) (k : Nat) (i : Int) (v : value_t)
    (hop : assign_operator op = some f) (hst : s.stack_ = st ++ [.variable k i, v]) :
    execute_operator h e s op =
      (value_isolate e.variable_table_ v >>= fun v0 =>
       deref_variable e.variable_table_ k 5283 >>= fun x =>
       value_convert_type e.variable_table_ x.type_ v0 >>= fun t =>
       f x t i >>= fun x1 =>
       pure ({ e with variable_table_ := e.variable_table_.set k x1 },
             { s with stack_ := st })) ∧
    (∀ (x : variable_t) (v0 t : value_t),
        value_convert_type e.variable_table_ x.type_ v0 = .ok t → t.type_ = x.type_) ∧
    (∀ line ∈ type_mismatch_lines, execute_operator h e s op ≠ .error (.raise line)) ∧
    run_script example_host 1000 "a = 5 : a += 2.7 : mes str(a)".toList [] = .ok ["7".toList] ∧
    run_script example_host 1000 "a = 5 : a += \"2\" : mes str(a)".toList [] =
      .ok ["7".toList] ∧
    run_script example_host 1000 "a = 1.5 : a += \"2.25\" : mes str(a)".toList [] =
      .ok ["3.750000".toList] ∧
    run_script example_host 1000 "a = \"x\" : a += 2 : mes a".toList [] = .ok ["x2".toList] ∧
    run_script example_host 1000 "a = 5 : a /= 0.5".toList [] = .error (.raise 4121) := by
  refine ⟨execute_compound_assignment h e s op f st k i v hop hst,
    fun x v0 t ht => value_convert_type_type _ _ _ _ ht, ?_,
    by decide!, by decide!, by decide!, by decide!, by decide!⟩
  intro line hline hrun
  have hmem := execute_compound_assignment_raises h e s op f st k i v hop hst line hrun
  have hdisjoint : ∀ l ∈ type_mismatch_lines, l ∉ compound_assignment_raise_lines := by decide
  exact hdisjoint line hline hmem

set_option maxRecDepth 1000000 in
theorem compound_assignment_converts_first_witness :
    assign_operator OPERATOR_ADD_ASSIGN = some variable_add ∧
    execute_operator example_host example_poke_env example_add_status OPERATOR_ADD_ASSIGN ≠
      .error (.raise 3989) :=
  ⟨rfl, (compound_assignment_converts_first example_host example_poke_env example_add_status
      OPERATOR_ADD_ASSIGN variable_add [] 0 0 (.double ⟨0x400599999999999A⟩) rfl rfl).2.2.1
      3989 (by decide)⟩

theorem execute_operator_binary (h : host_t) (e : execute_environment_t) (s : execute_status_t)
    (op : code_oprator_tag) (hop : op ∈ binary_operators) :
    execute_operator h e s op = (do
      if s.stack_.length < 2 then throw (.assertion 5318)
      let l ← stack_peek s.stack_ (-2)
      let r ← stack_peek s.stack_ (-1)
      let l ← value_isolate e.variable_table_ l
      match binary_operator op with
      | none => throw (.assertion 5339)
      | some f =>
          let l ← f e.variable_table_ l r
          let st ← stack_pop (stack_update s.stack_ (-2) l) 1
          pure (e, { s with stack_ := st })) := by
  simp only [binary_operators, List.mem_cons, List.mem_singleton, List.not_mem_nil,
    or_false] at hop
  rcases hop with rfl | rfl | rfl | rfl | rfl | rfl | rfl | rfl | rfl | rfl | rfl | rfl | rfl | rfl <;>
    rfl

theorem binary_operator_mem (op : code_oprator_tag)
    (f : List variable_t → value_t → value_t → Except Err value_t)
    (hop : binary_operator op = some f) : op ∈ binary_operators := by
  cases op <;> simp [binary_operator] at hop <;> simp [binary_operators]

theorem stack_update_second (st : List value_t) (l r l1 : value_t) :
    stack_update (st ++ [l, r]) (-2) l1 = st ++ [l1, r] := by
  have hidx : ((st.length : Int) + 2 + -2).toNat = st.length := by omega
  simp only [stack_update, List.length_append, List.length_cons, List.length_nil,
    Nat.cast_add, Nat.cast_ofNat, show ((-2 : Int) < 0) from by decide, if_true]
  norm_num

/-- What a binary operator function does with a materialised left operand: the right
operand is converted to the type of the left one, and the result is an INT for a
comparison and has the type of the left operand otherwise. -/
theorem binary_operator_result (op : code_oprator_tag)
    (f : List variable_t → value_t → value_t → Except Err value_t)
    (hop : binary_operator op = some f) (vars : List variable_t) (l r res : value_t)
    (h : f vars l r = .ok res) :
    ∃ t, value_convert_type vars l.type_ r = .ok t ∧ t.type_ = l.type_ ∧
      res.type_ = (if op ∈ comparison_operators then VALUE_INT else l.type_) := by
  cases hc : value_convert_type vars l.type_ r with
  | error err =>
      exfalso
      cases op <;> simp only [binary_operator, Option.some.injEq] at hop <;> try cases hop
      all_goals
        simp [value_bor, value_band, value_bxor, value_eq, value_neq, value_gt, value_gtoe,
          value_lt, value_ltoe, value_add, value_sub, value_mul, value_div, value_mod, hc,
          bind, Except.bind] at h
  | ok t =>
      have hty := value_convert_type_type _ _ _ _ hc
      refine ⟨t, rfl, hty, ?_⟩
      cases op <;> simp only [binary_operator, Option.some.injEq] at hop <;> try cases hop
      all_goals
        rcases l with _ | a | a | a | ⟨a, a1⟩ <;> rcases t with _ | b | b | b | ⟨b, b1⟩ <;>
          simp only [value_t.type_] at hty <;>
          simp only [value_bor, value_band, value_bxor, value_eq, value_neq, value_gt,
            value_gtoe, value_lt, value_ltoe, value_add, value_sub, value_mul, value_div,
            value_mod, hc, bind, Except.bind, pure, Except.pure] at h <;>
          first
          | (cases h <;> simp [comparison_operators, value_t.type_])
          | (split at h
             · cases h
             · cases hd : int_div a b 4814 with
               | error err => rw [hd] at h; cases h
               | ok q => rw [hd] at h; cases h; simp [comparison_operators, value_t.type_])
          | (split at h
             · cases h
             · cases hd : int_mod a b 4845 with
               | error err => rw [hd] at h; cases h
               | ok q => rw [hd] at h; cases h; simp [comparison_operators, value_t.type_])
          | (split at h
             · cases h
             · cases h; simp [comparison_operators, value_t.type_])

theorem deref_variable_line (vars : List variable_t) (k : Nat) (l1 l2 : Nat) (x : variable_t)
    (h : deref_variable vars k l1 = .ok x) : deref_variable vars k l2 = .ok x := by
  unfold deref_variable at h ⊢
  cases hg : vars[k]? with
  | none => rw [hg] at h; cases h
  | some y => rw [hg] at h; exact h

/-- The type of a materialised value is the primitive type of the value it comes from. -/
theorem value_isolate_type (vars : List variable_t) (l l0 : value_t)
    (h : value_isolate vars l = .ok l0) :
    value_get_primitive_tag vars l = .ok l0.type_ := by
  rcases l with _ | a | a | a | ⟨k, i⟩
  any_goals (cases h; rfl)
  simp only [value_isolate, bind_ok_iff] at h
  obtain ⟨x, hx, h⟩ := h
  simp only [value_get_primitive_tag, deref_variable_line _ _ _ 4481 _ hx, bind, Except.bind,
    pure, Except.pure]
  cases hty : x.type_ <;> rw [hty] at h <;> simp only [] at h
  · cases h
  · cases hc : variable_calc_int x i with
    | error err => rw [hc] at h; cases h
    | ok a => rw [hc] at h; cases h; rfl
  · cases hc : variable_calc_double x i with
    | error err => rw [hc] at h; cases h
    | ok a => rw [hc] at h; cases h; rfl
  · cases hc : variable_calc_string x i with
    | error err => rw [hc] at h; cases h
    | ok a => rw [hc] at h; cases h; rfl
  · cases h

set_option maxRecDepth 1000000 in
/-- C18: when a binary operator (`|`, `&`, `^`, `==`, `!=`, `>`, `>=`, `<`, `<=`, `+`,
`-`, `*`, `/`, `\`) runs with `l` and `r` on top of the stack and raises no error, the left
operand was materialised to a value `l0` of the primitive type of `l`, the right operand
was converted to a value `t` of that type, and the result replaces both operands.  The
result has the type of `l0` for the arithmetic and bitwise operators, and is an INT for
the six comparison operators, whatever the type of `l0`.  So `1 + 2.5` is the INT 3,
`2.5 + 1` is the DOUBLE 3.5 and `"a" + 1` is the STRING `a1`. -/
theorem binary_operator_converts_right_operand (h : host_t) (e e1 : execute_environment_t)
    (s s1 : execute_status_t) (op : code_oprator_tag)
    (f : List variable_t → value_t → value_t → Except Err value_t)
    (st : List value_t) (l r : value_t)
    (hop : binary_operator op = some f) (hst : s.stack_ = st ++ [l, r])
    (hrun : execute_operator h e s op = .ok (e1, s1)) :
    (∃ l0 t res : value_t,
      value_isolate e.variable_table_ l = .ok l0 ∧
      value_get_primitive_tag e.variable_table_ l = .ok l0.type_ ∧
      value_convert_type e.variable_table_ l0.type_ r = .ok t ∧ t.type_ = l0.type_ ∧
      f e.variable_table_ l0 r = .ok res ∧
      res.type_ = (if op ∈ comparison_operators then VALUE_INT else l0.type_) ∧
      e1 = e ∧ s1 = { s with stack_ := st ++ [res] }) ∧
    evaluated_expression example_host "1 + 2.5" = .ok (.int 3) ∧
    evaluated_expression example_host "2.5 + 1" = .ok (.double ⟨0x400C000000000000⟩) ∧
    evaluated_expression example_host "\"a\" + 1" = .ok (.string "a1".toList) := by
  refine ⟨?_, by decide!, by decide!, by decide!⟩
  have p1 : stack_peek (st ++ [l, r]) (-2) = .ok l :=
    stack_peek_append st [l, r] 0 _ (-2) rfl (by simp)
  have p2 : stack_peek (st ++ [l, r]) (-1) = .ok r :=
    stack_peek_append st [l, r] 1 _ (-1) rfl (by simp)
  have hlen : ¬ (st ++ [l, r]).length < 2 := by simp
  rw [execute_operator_binary h e s op (binary_operator_mem op f hop), hop] at hrun
  simp only [hst, p1, p2, hlen, ↓reduceIte, bind, Except.bind, pure, Except.pure] at hrun
  cases hl : value_isolate e.variable_table_ l with
  | error err => rw [hl] at hrun; cases hrun
  | ok l0 =>
      rw [hl] at hrun
      simp only [] at hrun
      cases hf : f e.variable_table_ l0 r with
      | error err => rw [hf] at hrun; cases hrun
      | ok res =>
          rw [hf] at hrun
          simp only [stack_update_second] at hrun
          have hpop : stack_pop (st ++ [res, r]) 1 = .ok (st ++ [res]) := by
            have := stack_pop_append (st ++ [res]) [r] 1 (by simp)
            simpa using this
          rw [hpop] at hrun
          obtain ⟨t, ht, hty, hres⟩ := binary_operator_result op f hop _ _ _ _ hf
          simp only [Except.ok.injEq, Prod.mk.injEq] at hrun
          exact ⟨l0, t, res, rfl, value_isolate_type _ _ _ hl, ht, hty, hf, hres,
            hrun.1.symm, hrun.2.symm⟩

set_option maxRecDepth 1000000 in
/-- C18, counterexample: a comparison of two DOUBLE values or of two STRING values yields
an INT, not a value of the type of the left operand. -/
theorem comparison_yields_int :
    evaluated_expression example_host "1.5 == 1.5" = .ok (.int 1) ∧
    evaluated_expression example_host "\"a\" != \"a\"" = .ok (.int 0) ∧
    evaluated_expression example_host "2.5 > 1" = .ok (.int 1) := by
  refine ⟨by decide!, by decide!, by decide!⟩

set_option maxRecDepth 1000000 in
theorem binary_operator_converts_right_operand_witness :
    binary_operator OPERATOR_EQ = some value_eq ∧
    ∃ l0 t res : value_t,
      value_isolate [] (.double ⟨0x3FF8000000000000⟩) = .ok l0 ∧
      value_get_primitive_tag [] (.double ⟨0x3FF8000000000000⟩) = .ok l0.type_ ∧
      value_convert_type [] l0.type_ (.double ⟨0x3FF8000000000000⟩) = .ok t ∧
      t.type_ = l0.type_ ∧
      value_eq [] l0 (.double ⟨0x3FF8000000000000⟩) = .ok res ∧
      res.type_ = (if OPERATOR_EQ ∈ comparison_operators then VALUE_INT else l0.type_) ∧
      create_execute_environment = create_execute_environment ∧
      ({ example_compare_status with stack_ := [.int 1] } : execute_status_t) =
        { example_compare_status with stack_ := [] ++ [res] } :=
  ⟨rfl, (binary_operator_converts_right_operand example_host create_execute_environment
      create_execute_environment example_compare_status
      { example_compare_status with stack_ := [.int 1] } OPERATOR_EQ value_eq []
      (.double ⟨0x3FF8000000000000⟩) (.double ⟨0x3FF8000000000000⟩) rfl rfl (by decide!)).1⟩

theorem bytes_to_nul_some (l bs : List Nat) (h : bytes_to_nul l = some bs) :
    (∃ rest, l = bs ++ 0 :: rest) ∧ ∀ b ∈ bs, b ≠ 0 := by
  induction l generalizing bs with
  | nil => simp [bytes_to_nul] at h
  | cons a l ih =>
      unfold bytes_to_nul at h
      by_cases ha : a = 0
      · subst ha
        simp at h
        subst h
        exact ⟨⟨l, rfl⟩, by simp⟩
      · have ha1 : (a == 0) = false := by simpa using ha
        simp only [ha1, Bool.false_eq_true, ↓reduceIte, Option.map_eq_some'] at h
        obtain ⟨bs1, h1, rfl⟩ := h
        obtain ⟨⟨rest, hr⟩, hz⟩ := ih bs1 h1
        refine ⟨⟨rest, by rw [hr]; rfl⟩, ?_⟩
        intro b hb
        rcases List.mem_cons.mp hb with rfl | hb
        · exact ha
        · exact hz b hb

theorem mem_write_at (pre tail bs : List Nat) (off : Int) (hoff : off = pre.length)
    (h : bs.length ≤ tail.length) :
    mem_write (pre ++ tail) off bs = some (pre ++ bs ++ tail.drop bs.length) := by
  subst hoff
  unfold mem_write
  rw [if_pos ⟨by omega, by simp; omega⟩]
  simp only [Int.toNat_ofNat, List.take_left', Option.some.injEq]
  rw [List.drop_append_eq_append_drop]
  simp

theorem mem_cstr_at (pre bs rest : List Nat) (off : Int) (hoff : off = pre.length)
    (hz : ∀ b ∈ bs, b ≠ 0) :
    mem_cstr (pre ++ bs ++ 0 :: rest) off = some (bytes_string bs) := by
  subst hoff
  unfold mem_cstr
  rw [if_pos ⟨by omega, by simp⟩]
  simp only [Int.toNat_ofNat, List.append_assoc, List.drop_left']
  rw [bytes_to_nul_append _ _ hz]
  rfl

theorem load_cstr_split (var : variable_t) (off : Int) (line : Nat) (s : CStr)
    (h : load_cstr var off line = .ok s) :
    0 ≤ off ∧ ∃ pre bs rest, var.data_ = pre ++ bs ++ 0 :: rest ∧ off = pre.length ∧
      (∀ b ∈ bs, b ≠ 0) ∧ bytes_string bs = s := by
  unfold load_cstr mem_cstr at h
  split at h
  · rename_i hc
    cases hb : bytes_to_nul (var.data_.drop off.toNat) with
    | none => rw [hb] at h; cases h
    | some bs =>
        rw [hb] at h
        simp only [Option.map_some', in_bounds, Except.ok.injEq] at h
        obtain ⟨⟨rest, hr⟩, hz⟩ := bytes_to_nul_some _ _ hb
        refine ⟨hc.1, var.data_.take off.toNat, bs, rest, ?_, ?_, hz, h⟩
        · rw [List.append_assoc, ← hr, List.take_append_drop]
        · rw [List.length_take]; omega
  · cases h

theorem string_add_within_granule (var : variable_t) (i : Int) (s t : CStr)
    (hvar : string_variable var) (hi : 0 ≤ i) (hlen : i < var.length_)
    (hs : string_element var i = .ok s) (ht : t.contains NUL = false)
    (hfit : (s.length : Int) + t.length < var.granule_size_) :
    ∃ data1, variable_add var (.string t) i = .ok { var with data_ := data1 } ∧
      string_element { var with data_ := data1 } i = .ok (s ++ t) := by
  obtain ⟨hty, hg0, hgmax, hdata⟩ := hvar
  obtain ⟨hoff0, pre, bs, rest, hd, hoff, hz, hbs⟩ := load_cstr_split _ _ _ _ hs
  have hslen : bs.length = s.length := by rw [← hbs]; simp [bytes_string]
  simp only [INT_MAX] at hgmax
  have hsl : (s.length : Int) ≤ 2147483647 := by omega
  have htl : (t.length : Int) ≤ 2147483647 := by omega
  have hsl0 : INT_MIN ≤ (s.length : Int) := by simp only [INT_MIN]; omega
  have htl0 : INT_MIN ≤ (t.length : Int) := by simp only [INT_MIN]; omega
  have hnofit : ¬ ((s.length : Int) + t.length > var.granule_size_) := by omega
  have hend : var.granule_size_ * i + var.granule_size_ ≤ var.granule_size_ * var.length_ := by
    have : var.granule_size_ * (i + 1) ≤ var.granule_size_ * var.length_ :=
      Int.mul_le_mul_of_nonneg_left (by omega) (by omega)
    rw [Int.mul_add, Int.mul_one] at this
    exact this
  have hdl : (var.data_.length : Int) = pre.length + bs.length + 1 + rest.length := by
    rw [hd]; simp; ring
  have hrest : t.length ≤ rest.length := by omega
  have hptr : variable_data_ptr var i = .ok (var.granule_size_ * i) := by
    simp [variable_data_ptr, hty, show ¬ (i < 0 ∨ i ≥ var.length_) from by omega, pure,
      Except.pure]
  have htb : (cstr_bytes t).length ≤ (0 :: rest).length := by
    simp [cstr_bytes]; omega
  have hw := mem_write_at (pre ++ bs) (0 :: rest) (cstr_bytes t)
    (var.granule_size_ * i + s.length) (by rw [hoff, ← hslen]; simp) htb
  rw [← hd] at hw
  have hw1 : wrap32 (s.length : Int) = s.length := wrap32_of_range _ hsl0 hsl
  have hw2 : wrap32 (t.length : Int) = t.length := wrap32_of_range _ htl0 htl
  refine ⟨pre ++ bs ++ cstr_bytes t ++ List.drop (cstr_bytes t).length (0 :: rest), ?_, ?_⟩
  · have htyeq : (var.type_ != (value_t.string t).type_) = false := by rw [hty]; rfl
    unfold string_element at hs
    unfold variable_add
    rw [htyeq]
    simp only [Bool.false_eq_true, ↓reduceIte]
    rw [hptr, except_ok_bind]
    rw [hs, except_ok_bind]
    rw [hw1, hw2, if_neg hnofit]
    unfold store_bytes
    rw [hw]
    rfl
  · have hdrop : (0 :: rest).drop (cstr_bytes t).length = rest.drop t.length := by
      simp [cstr_bytes]
    have hzt : ∀ b ∈ bs ++ t.map Char.toNat, b ≠ 0 := by
      intro b hb
      rcases List.mem_append.mp hb with hb | hb
      · exact hz b hb
      · intro hb0
        obtain ⟨c, hc1, hc2⟩ := List.mem_map.mp hb
        have : c = NUL := by rw [← Char.ofNat_toNat c, hc2, hb0]; rfl
        subst this
        simp at ht
        exact ht hc1
    have hcat : pre ++ bs ++ cstr_bytes t ++ rest.drop t.length =
        pre ++ (bs ++ t.map Char.toNat) ++ 0 :: rest.drop t.length := by
      simp [cstr_bytes]
    unfold string_element load_cstr
    simp only [hdrop, hcat]
    rw [mem_cstr_at pre _ _ _ hoff hzt]
    simp only [in_bounds, bytes_string, List.map_append, List.map_map, Except.ok.injEq]
    rw [← hbs]
    simp [bytes_string, Function.comp_def]

set_option maxRecDepth 1000000 in
/-- C19: for a STRING variable (in the layout `prepare_variable` gives it) whose element
`i` holds `s`, and a string `t` with `len(s) + len(t)` below the granule, `v(i) += t`
succeeds, leaves element `i` equal to `s` followed by `t`, and leaves the type, the length
and the granule of the variable as they were: `OPERATOR_ADD_ASSIGN` with `v(i)` and `t` on
top of the stack replaces the variable by the result of `variable_add` and pops both.
The script `sdim s, 16 : s="hi" : s+="!" : mes s` prints `hi!`. -/
theorem string_add_within_granule_appends (h : host_t) (e : execute_environment_t)
    (st0 : execute_status_t) (st : List value_t) (k : Nat) (var : variable_t) (i : Int)
    (s t : CStr)
    (hk : e.variable_table_[k]? = some var)
    (hvar : string_variable var) (hi : 0 ≤ i) (hlen : i < var.length_)
    (hs : string_element var i = .ok s) (ht : t.contains NUL = false)
    (hfit : (s.length : Int) + t.length < var.granule_size_)
    (hst : st0.stack_ = st ++ [.variable k i, .string t]) :
    (∃ var1 : variable_t,
      variable_add var (.string t) i = .ok var1 ∧
      execute_operator h e st0 OPERATOR_ADD_ASSIGN =
        .ok ({ e with variable_table_ := e.variable_table_.set k var1 },
             { st0 with stack_ := st }) ∧
      string_element var1 i = .ok (s ++ t) ∧
      var1.type_ = var.type_ ∧ var1.length_ = var.length_ ∧
      var1.granule_size_ = var.granule_size_) ∧
    run_script example_host 1000 "sdim s, 16 : s=\"hi\" : s+=\"!\" : mes s".toList [] =
      .ok ["hi!".toList] := by
  refine ⟨?_, by decide!⟩
  obtain ⟨data1, hadd, hel⟩ := string_add_within_granule var i s t hvar hi hlen hs ht hfit
  refine ⟨_, hadd, ?_, hel, rfl, rfl, rfl⟩
  rw [execute_compound_assignment h e st0 OPERATOR_ADD_ASSIGN variable_add st k i (.string t)
    rfl hst]
  have hty : var.type_ = VALUE_STRING := hvar.1
  have hconv : value_convert_type e.variable_table_ var.type_ (.string t) = .ok (.string t) := by
    rw [hty]; rfl
  have hderef : deref_variable e.variable_table_ k 5283 = .ok var := by
    unfold deref_variable; rw [hk]; rfl
  have hiso : value_isolate e.variable_table_ (.string t) = .ok (.string t) := rfl
  rw [hiso, except_ok_bind, hderef, except_ok_bind, hconv, except_ok_bind, hadd, except_ok_bind]
  rfl

set_option maxRecDepth 1000000 in
theorem string_add_within_granule_appends_witness :
    string_variable example_string_variable ∧
    string_element example_string_variable 0 = .ok "hi".toList ∧
    ∃ var1 : variable_t,
      variable_add example_string_variable (.string "!".toList) 0 = .ok var1 ∧
      execute_operator example_host example_append_env example_append_status
          OPERATOR_ADD_ASSIGN =
        .ok ({ example_append_env with
               variable_table_ := example_append_env.variable_table_.set 0 var1 },
             { example_append_status with stack_ := [] }) ∧
      string_element var1 0 = .ok ("hi".toList ++ "!".toList) ∧
      var1.type_ = example_string_variable.type_ ∧
      var1.length_ = example_string_variable.length_ ∧
      var1.granule_size_ = example_string_variable.granule_size_ :=
  ⟨⟨rfl, by decide, by decide, by decide⟩, by decide!,
   (string_add_within_granule_appends example_host example_append_env example_append_status
      [] 0 example_string_variable 0 "hi".toList "!".toList rfl
      ⟨rfl, by decide, by decide, by decide⟩ (by decide)
      (by decide) (by decide!) (by decide) (by decide) rfl).1⟩

theorem if_code_patch (pre tcode fcode : List Int) (x y : Int) :
    ((pre ++ [OPERATOR_IF.code, 0] ++ tcode ++ [OPERATOR_JUMP_RELATIVE.code, 0] ++ fcode).set
        (pre.length + 1) x).set (pre.length + 2 + tcode.length + 1) y =
      pre ++ ([OPERATOR_IF.code, x] ++ tcode ++ [OPERATOR_JUMP_RELATIVE.code, y] ++ fcode) := by
  have h1 : ¬ (pre.length + 1 < pre.length) := by omega
  have h2 : pre.length + 1 - pre.length = 1 := by omega
  have h3 : ¬ (pre.length + 2 + tcode.length + 1 < pre.length) := by omega
  have h4 : pre.length + 2 + tcode.length + 1 - pre.length = tcode.length + 3 := by omega
  have h5 : ¬ (tcode.length + 3 - 2 < tcode.length) := by omega
  have h6 : tcode.length + 3 - 2 - tcode.length = 1 := by omega
  simp [List.set_append, h1, h2, h3, h4, h5, h6]

theorem execute_operator_if (h : host_t) (e : execute_environment_t) (s : execute_status_t) :
    execute_operator h e s OPERATOR_IF = (do
      let cond ← stack_peek s.stack_ (-1)
      let is_cond ← value_calc_boolean e.variable_table_ cond
      let st ← stack_pop s.stack_ 1
      if is_cond then pure (e, { s with stack_ := st, pc_ := s.pc_ + 1 })
      else
        let false_head ← code_at e (s.pc_ + 1) 5365
        pure (e, { s with stack_ := st, pc_ := s.pc_ + (false_head - 1) })) := rfl

theorem execute_operator_jump_relative (h : host_t) (e : execute_environment_t)
    (s : execute_status_t) :
    execute_operator h e s OPERATOR_JUMP_RELATIVE = (do
      let offset ← code_at e (s.pc_ + 1) 5507
      pure (e, { s with pc_ := s.pc_ + (offset - 1) })) := rfl

theorem step_if (h : host_t) (e : execute_environment_t) (s : execute_status_t)
    (p : Nat) (off : Int) (st : List value_t) (v : value_t) (b : Bool)
    (hop : e.execute_code_[p]? = some OPERATOR_IF.code)
    (hoff : e.execute_code_[p + 1]? = some off) (hpc : s.pc_ = (p : Int))
    (hst : s.stack_ = st ++ [v])
    (hb : value_calc_boolean e.variable_table_ v = .ok b) :
    execute_step h e s =
      .ok (e, { s with stack_ := st,
                       pc_ := if b then (p : Int) + 2 else (p : Int) + off }) := by
  have hw : code_at e ((p : Int) + 1) 5365 = .ok off := by
    have := code_at_ok e (p + 1) off 5365 hoff
    simpa using this
  rw [execute_step_op h e s p _ hop hpc, execute_operator_if, hst, stack_peek_top,
    stack_pop_top, hpc]
  cases b
  · simp [hb, hw, bind, Except.bind, pure, Except.pure]
    omega
  · simp [hb, bind, Except.bind, pure, Except.pure]
    omega

theorem step_jump_relative (h : host_t) (e : execute_environment_t) (s : execute_status_t)
    (p : Nat) (off : Int)
    (hop : e.execute_code_[p]? = some OPERATOR_JUMP_RELATIVE.code)
    (hoff : e.execute_code_[p + 1]? = some off) (hpc : s.pc_ = (p : Int)) :
    execute_step h e s = .ok (e, { s with pc_ := (p : Int) + off }) := by
  have hw : code_at e ((p : Int) + 1) 5507 = .ok off := by
    have := code_at_ok e (p + 1) off 5507 hoff
    simpa using this
  rw [execute_step_op h e s p _ hop hpc, execute_operator_jump_relative, hpc, hw]
  simp [bind, Except.bind, pure, Except.pure]
  omega

theorem generate_if (cond T F : ast_node_t) (e0 eC eT eF : execute_environment_t)
    (c0 cC cT cF : generate_context_t) (tcode fcode : List Int)
    (hcond : generate_walk cond (e0, c0) = .ok (eC, cC))
    (hT : generate_walk T
      ({ eC with execute_code_ := eC.execute_code_ ++ [OPERATOR_IF.code, 0] }, cC) =
        .ok (eT, cT))
    (hTcode : eT.execute_code_ = eC.execute_code_ ++ [OPERATOR_IF.code, 0] ++ tcode)
    (hF : (if F.isNull then
        pure ({ eT with execute_code_ :=
                  eT.execute_code_ ++ [OPERATOR_JUMP_RELATIVE.code, 0] }, cT)
      else generate_walk F
        ({ eT with execute_code_ :=
             eT.execute_code_ ++ [OPERATOR_JUMP_RELATIVE.code, 0] }, cT)) = .ok (eF, cF))
    (hFcode : eF.execute_code_ =
      eT.execute_code_ ++ [OPERATOR_JUMP_RELATIVE.code, 0] ++ fcode) :
    generate_walk (if_node cond T F) (e0, c0) =
      .ok ({ eF with execute_code_ := eC.execute_code_ ++ if_code tcode fcode }, cF) := by
  have hcn : cond.isNull = false := by
    cases cond with
    | null => simp [generate_walk] at hcond
    | node a b c d => rfl
  rw [if_node, create_ast_node, generate_walk]
  simp only [create_ast_node, hcn, Bool.false_eq_true, if_false, hcond, bind, Except.bind,
    pure, Except.pure, bne_self_eq_false, code_write, List.append_assoc, List.singleton_append]
  simp only [List.append_assoc, List.singleton_append, List.cons_append, List.nil_append]
    at hT hF hTcode hFcode
  simp only [hT, pure, Except.pure] at hF ⊢
  rw [hF]
  simp only []
  have hlen : eF.execute_code_.length = eC.execute_code_.length + 2 + tcode.length + 2 +
      fcode.length := by
    rw [hFcode, hTcode]; simp; omega
  have hlenT : eT.execute_code_.length = eC.execute_code_.length + 2 + tcode.length := by
    rw [hTcode]; simp; omega
  have a1 : (0 : Int) ≤ (eC.execute_code_.length : Int) + 1 ∧
      (eC.execute_code_.length : Int) + 1 < (eF.execute_code_.length : Int) := by
    rw [hlen]; push_cast; omega
  have a2 : (0 : Int) ≤ (eT.execute_code_.length : Int) + 1 ∧
      (eT.execute_code_.length : Int) + 1 < (eF.execute_code_.length : Int) := by
    rw [hlen, hlenT]; push_cast; omega
  have t1 : ((eC.execute_code_.length : Int) + 1).toNat = eC.execute_code_.length + 1 := by
    omega
  have t2 : ((eT.execute_code_.length : Int) + 1).toNat =
      eC.execute_code_.length + 2 + tcode.length + 1 := by
    rw [hlenT]; omega
  have hF2 : eF.execute_code_ = eC.execute_code_ ++ [OPERATOR_IF.code, 0] ++ tcode ++
      [OPERATOR_JUMP_RELATIVE.code, 0] ++ fcode := by
    rw [hFcode, hTcode]; simp
  have hx : ((eT.execute_code_.length + (0 + 1 + 1) : Nat) : Int) - eC.execute_code_.length =
      (tcode.length : Int) + 4 := by
    rw [hlenT]; push_cast; omega
  have hy : (eF.execute_code_.length : Int) - eT.execute_code_.length =
      (fcode.length : Int) + 2 := by
    rw [hlen, hlenT]; push_cast; omega
  have hpatch := if_code_patch eC.execute_code_ tcode fcode ((tcode.length : Int) + 4)
    ((fcode.length : Int) + 2)
  rw [← hF2] at hpatch
  simp only [array_set, List.length_append, List.length_cons, List.length_nil, a1, a2, t1, t2,
    List.length_set, and_self, if_true, pure, Except.pure, bind, Except.bind]
  rw [hx, hy, hpatch]
  rfl

theorem getElem?_append_at (a b : List Int) (i : Nat) :
    (a ++ b)[a.length + i]? = b[i]? := by
  rw [List.getElem?_append_right (by omega)]
  congr 1
  omega

theorem if_code_layout (pre post tcode fcode : List Int) :
    (pre ++ if_code tcode fcode ++ post)[pre.length]? = some OPERATOR_IF.code ∧
    (pre ++ if_code tcode fcode ++ post)[pre.length + 1]? = some ((tcode.length : Int) + 4) ∧
    (pre ++ if_code tcode fcode ++ post)[pre.length + 2 + tcode.length]? =
      some OPERATOR_JUMP_RELATIVE.code ∧
    (pre ++ if_code tcode fcode ++ post)[pre.length + 2 + tcode.length + 1]? =
      some ((fcode.length : Int) + 2) := by
  have hshape : pre ++ if_code tcode fcode ++ post =
      pre ++ ([OPERATOR_IF.code, (tcode.length : Int) + 4] ++
        (tcode ++ ([OPERATOR_JUMP_RELATIVE.code, (fcode.length : Int) + 2] ++
          (fcode ++ post)))) := by
    simp [if_code]
  rw [hshape]
  refine ⟨?_, ?_, ?_, ?_⟩
  · exact getElem?_append_at pre _ 0
  · rw [getElem?_append_at pre _ 1]; simp
  · rw [Nat.add_assoc, getElem?_append_at pre _ (2 + tcode.length)]
    have := getElem?_append_at [OPERATOR_IF.code, (tcode.length : Int) + 4]
      (tcode ++ ([OPERATOR_JUMP_RELATIVE.code, (fcode.length : Int) + 2] ++ (fcode ++ post)))
      tcode.length
    simp only [List.length_cons, List.length_nil, Nat.zero_add] at this
    rw [this]
    exact getElem?_append_at tcode _ 0
  · rw [Nat.add_assoc, Nat.add_assoc, getElem?_append_at pre _ (2 + (tcode.length + 1))]
    have := getElem?_append_at [OPERATOR_IF.code, (tcode.length : Int) + 4]
      (tcode ++ ([OPERATOR_JUMP_RELATIVE.code, (fcode.length : Int) + 2] ++ (fcode ++ post)))
      (tcode.length + 1)
    simp only [List.length_cons, List.length_nil, Nat.zero_add] at this
    rw [this, getElem?_append_at tcode _ 1]; simp

set_option maxRecDepth 1000000 in
/-- C21: the code of `if cond { T } else { F }` and of the one-line forms.  The condition
`cond` and the branches are taken to generate code (`hcond`, `hT`, `hF`, `F` being `null`
without `else`), the branches the words `tcode` and `fcode`.  (1) The generator writes,
after the code of the condition, `IF` with the offset `|tcode| + 4`, `tcode`,
`JUMP_RELATIVE` with the offset `|fcode| + 2`, and `fcode`.  In a machine whose code holds
these words with `IF` at position `p`: (2) `IF` pops the condition and goes to the first
word `p + 2` of `T` when it is true and to the first word `p + |tcode| + 4` of `F` when it
is false, which is the first word after the statement when there is no `else`;
(3) `JUMP_RELATIVE` behind `T` goes to the first word `p + |tcode| + 4 + |fcode|` after
the statement, over the words of `F`; (4) if `T`, entered after a true condition, runs to
its end, the machine gets from `IF` to the first word after the statement; (5) after a
false condition the machine goes on as from the first word of `F`. -/
theorem if_else_runs_one_branch (h : host_t) (cond T F : ast_node_t)
    (e0 eC eT eF : execute_environment_t) (c0 cC cT cF : generate_context_t)
    (tcode fcode post : List Int) (e : execute_environment_t) (p : Nat)
    (hcond : generate_walk cond (e0, c0) = .ok (eC, cC))
    (hT : generate_walk T
      ({ eC with execute_code_ := eC.execute_code_ ++ [OPERATOR_IF.code, 0] }, cC) =
        .ok (eT, cT))
    (hTcode : eT.execute_code_ = eC.execute_code_ ++ [OPERATOR_IF.code, 0] ++ tcode)
    (hF : (if F.isNull then
        pure ({ eT with execute_code_ :=
                  eT.execute_code_ ++ [OPERATOR_JUMP_RELATIVE.code, 0] }, cT)
      else generate_walk F
        ({ eT with execute_code_ :=
             eT.execute_code_ ++ [OPERATOR_JUMP_RELATIVE.code, 0] }, cT)) = .ok (eF, cF))
    (hFcode : eF.execute_code_ =
      eT.execute_code_ ++ [OPERATOR_JUMP_RELATIVE.code, 0] ++ fcode)
    (hp : p = eC.execute_code_.length)
    (hcode : e.execute_code_ = eC.execute_code_ ++ if_code tcode fcode ++ post) :
    generate_walk (if_node cond T F) (e0, c0) =
      .ok ({ eF with execute_code_ := eC.execute_code_ ++ if_code tcode fcode }, cF) ∧
    (F.isNull = true → fcode = []) ∧
    (∀ (s : execute_status_t) (st : List value_t) (v : value_t) (b : Bool),
      s.pc_ = (p : Int) → s.stack_ = st ++ [v] →
      value_calc_boolean e.variable_table_ v = .ok b →
      execute_step h e s =
        .ok (e, { s with stack_ := st,
                         pc_ := if b then (p : Int) + 2
                                else (p : Int) + ((tcode.length : Int) + 4) })) ∧
    (∀ s : execute_status_t, s.pc_ = ((p + 2 + tcode.length : Nat) : Int) →
      execute_step h e s =
        .ok (e, { s with pc_ := (p : Int) + ((tcode.length : Int) + 4) + fcode.length })) ∧
    (∀ (s : execute_status_t) (st : List value_t) (v : value_t) (n : Nat) (m1 : machine_t),
      s.pc_ = (p : Int) → s.is_end_ = false → s.stack_ = st ++ [v] →
      value_calc_boolean e.variable_table_ v = .ok true →
      execute_steps h n e { s with stack_ := st, pc_ := (p : Int) + 2 } = .ok m1 →
      m1.1 = e → m1.2.is_end_ = false → m1.2.pc_ = ((p + 2 + tcode.length : Nat) : Int) →
      execute_steps h (1 + (n + 1)) e s =
        .ok (e, { m1.2 with pc_ := (p : Int) + ((tcode.length : Int) + 4) + fcode.length })) ∧
    (∀ (s : execute_status_t) (st : List value_t) (v : value_t) (n : Nat) (m1 : machine_t),
      s.pc_ = (p : Int) → s.is_end_ = false → s.stack_ = st ++ [v] →
      value_calc_boolean e.variable_table_ v = .ok false →
      execute_steps h n e { s with stack_ := st, pc_ := (p : Int) + ((tcode.length : Int) + 4) }
        = .ok m1 →
      execute_steps h (1 + n) e s = .ok m1) ∧
    run_script example_host 1000
      "a = 1\nif a \x7b\nmes \"T\"\n\x7d else \x7b\nmes \"F\"\n\x7d\nmes \"after\"".toList [] =
      .ok ["T".toList, "after".toList] ∧
    run_script example_host 1000
      "a = 0\nif a \x7b\nmes \"T\"\n\x7d else \x7b\nmes \"F\"\n\x7d\nmes \"after\"".toList [] =
      .ok ["F".toList, "after".toList] ∧
    run_script example_host 1000 "a = 1\nif a \x7b\nmes \"T\"\n\x7d\nmes \"after\"".toList [] =
      .ok ["T".toList, "after".toList] ∧
    run_script example_host 1000 "a = 0\nif a \x7b\nmes \"T\"\n\x7d\nmes \"after\"".toList [] =
      .ok ["after".toList] ∧
    run_script example_host 1000
      "a = 1\nif a : mes \"T\" : else : mes \"F\"\nmes \"after\"".toList [] =
      .ok ["T".toList, "after".toList] ∧
    run_script example_host 1000
      "a = 0\nif a : mes \"T\" : else : mes \"F\"\nmes \"after\"".toList [] =
      .ok ["F".toList, "after".toList] ∧
    run_script example_host 1000 "a = 0\nif a : mes \"T\"\nmes \"after\"".toList [] =
      .ok ["after".toList] := by
  obtain ⟨l0, l1, l2, l3⟩ := if_code_layout eC.execute_code_ post tcode fcode
  rw [← hcode, ← hp] at l0 l1 l2 l3
  have hstepif := fun s st v b => step_if h e s p _ st v b l0 l1
  have hjr : ∀ s : execute_status_t, s.pc_ = ((p + 2 + tcode.length : Nat) : Int) →
      execute_step h e s =
        .ok (e, { s with pc_ := (p : Int) + ((tcode.length : Int) + 4) + fcode.length }) := by
    intro s hpc
    rw [step_jump_relative h e s (p + 2 + tcode.length) _ l2 l3 hpc]
    congr 3
    push_cast
    omega
  refine ⟨generate_if cond T F e0 eC eT eF c0 cC cT cF tcode fcode hcond hT hTcode hF hFcode,
    ?_, hstepif, hjr, ?_, ?_, by decide!, by decide!, by decide!, by decide!, by decide!,
    by decide!, by decide!⟩
  · intro hnull
    simp only [hnull, if_true, pure, Except.pure, Except.ok.injEq, Prod.mk.injEq] at hF
    have hc := congrArg execute_environment_t.execute_code_ hF.1
    simp only [] at hc
    have hl := congrArg List.length hFcode
    rw [← hc] at hl
    simp only [List.length_append, List.length_cons, List.length_nil] at hl
    exact List.length_eq_zero.mp (by omega)
  · intro s st v n m1 hpc hrun hst hb hrunT hm1 hend hpc1
    have h1 := hstepif s st v true hpc hst hb
    simp only [if_true] at h1
    have h1s := execute_steps_one h e s _ p _ hrun hpc l0 h1
    obtain ⟨e1, s1⟩ := m1
    simp only [] at hm1 hend hpc1
    subst hm1
    have h2 := hjr s1 hpc1
    have h2s := execute_steps_one h e1 s1 _ (p + 2 + tcode.length) _ hend hpc1 l2 h2
    exact execute_steps_trans h _ _ _ _ _ _ _ _ h1s
      (execute_steps_trans h _ _ _ _ _ _ _ _ hrunT h2s)
  · intro s st v n m1 hpc hrun hst hb hrunF
    have h1 := hstepif s st v false hpc hst hb
    simp only [Bool.false_eq_true, if_false] at h1
    have h1s := execute_steps_one h e s _ p _ hrun hpc l0 h1
    obtain ⟨e1, s1⟩ := m1
    exact execute_steps_trans h _ _ _ _ _ _ _ _ h1s hrunF

theorem if_else_runs_one_branch_witness :
    generate_walk (if_node example_if_condition example_if_block .null)
        (create_execute_environment, example_generate_context) =
      .ok ({ example_code_env example_if_words with
             execute_code_ :=
               (example_code_env [OPERATOR_PUSH_INT.code, 3]).execute_code_ ++
                 if_code [OPERATOR_END.code] [] },
           { example_generate_context with stack_ := 1 }) :=
  (if_else_runs_one_branch example_host example_if_condition example_if_block .null
    create_execute_environment (example_code_env [OPERATOR_PUSH_INT.code, 3])
    (example_code_env (example_if_words.take 5)) (example_code_env example_if_words)
    example_generate_context { example_generate_context with stack_ := 1 }
    { example_generate_context with stack_ := 1 } { example_generate_context with stack_ := 1 }
    [OPERATOR_END.code] [] []
    (example_code_env ([OPERATOR_PUSH_INT.code, 3] ++ if_code [OPERATOR_END.code] [])) 2
    (by decide) (by decide) (by decide) (by decide) (by decide) (by decide) (by decide)).1

theorem int_div_not_raise (a b : Int) (line : Nat) (l : Nat) :
    (int_div a b line).map value_t.int ≠ .error (.raise l) := by
  unfold int_div
  split <;> simp [Except.map, pure, Except.pure]

theorem int_mod_not_raise (a b : Int) (line : Nat) (l : Nat) :
    (int_mod a b line).map value_t.int ≠ .error (.raise l) := by
  unfold int_mod
  split <;> simp [Except.map, pure, Except.pure]

theorem value_div_raises_iff (vars : List variable_t) (l r t : value_t)
    (hnum : l.type_ = VALUE_INT ∨ l.type_ = VALUE_DOUBLE)
    (ht : value_convert_type vars l.type_ r = .ok t) :
    ((∃ line, value_div vars l r = .error (.raise line)) ↔ zero_value t = true) ∧
    ((∃ line, value_mod vars l r = .error (.raise line)) ↔ zero_value t = true) := by
  have htt := value_convert_type_type _ _ _ _ ht
  rcases l with _ | a | a | a | ⟨k, i⟩
  · simp [value_t.type_] at hnum
  · rcases t with _ | b | b | b | ⟨k, i⟩ <;> simp [value_t.type_] at htt
    simp only [value_div, value_mod, value_t.type_] at ht ⊢
    simp only [ht, except_ok_bind, zero_value, beq_iff_eq]
    by_cases hb : b = 0
    · simp [hb]
    · simp only [hb, if_false, iff_false, not_exists]
      exact ⟨fun line => int_div_not_raise _ _ _ _, fun line => int_mod_not_raise _ _ _ _⟩
  · rcases t with _ | b | b | b | ⟨k, i⟩ <;> simp [value_t.type_] at htt
    simp only [value_div, value_mod, value_t.type_] at ht ⊢
    simp only [ht, except_ok_bind, zero_value]
    by_cases hb : b.isZero = true
    · simp [hb]
    · simp [hb, pure, Except.pure]
  · simp [value_t.type_] at hnum
  · simp [value_t.type_] at hnum

theorem tdiv_in_range (a b : Int) (ha : INT_MIN ≤ a) (ha2 : a ≤ INT_MAX) (hb : b ≠ 0)
    (hover : ¬ (a = INT_MIN ∧ b = -1)) :
    INT_MIN ≤ Int.tdiv a b ∧ Int.tdiv a b ≤ INT_MAX := by
  unfold INT_MIN INT_MAX at *
  have hq := Int.natAbs_tdiv a b
  have hbpos : 0 < b.natAbs := Int.natAbs_pos.mpr hb
  have hle : (Int.tdiv a b).natAbs ≤ a.natAbs := by
    rw [hq]; exact Nat.div_le_self _ _
  have ha3 : a.natAbs ≤ 2147483648 := by omega
  constructor
  · omega
  · by_contra hcon
    have hq1 : (Int.tdiv a b).natAbs = 2147483648 := by omega
    have ha4 : a.natAbs = 2147483648 := by omega
    have ha5 : a = -2147483648 := by omega
    have hb1 : b.natAbs = 1 := by
      by_contra hne
      have h2 : 2 ≤ b.natAbs := by omega
      have : a.natAbs / b.natAbs ≤ a.natAbs / 2 := Nat.div_le_div_left h2 (by omega)
      have hdiv : a.natAbs.div b.natAbs = a.natAbs / b.natAbs := rfl
      rw [hq, hdiv] at hq1
      omega
    have hb2 : b = 1 := by omega
    subst hb2
    simp at hcon
    omega

theorem store_bytes_not_raise (var : variable_t) (p : Int) (bs : List Nat) (line l : Nat) :
    store_bytes var p bs line ≠ .error (.raise l) := by
  unfold store_bytes
  cases mem_write var.data_ p bs <;> simp [in_bounds, bind, Except.bind, pure, Except.pure]

theorem variable_div_int_raises_iff (var : variable_t) (idx b p : Int) (bs : List Nat)
    (hty : var.type_ = VALUE_INT) (hptr : variable_data_ptr var idx = .ok p)
    (hmem : mem_read var.data_ p 4 = some bs) :
    ((∃ line, variable_div var (.int b) idx = .error (.raise line)) ↔ b = 0) ∧
    ((∃ line, variable_mod var (.int b) idx = .error (.raise line)) ↔ b = 0) := by
  simp only [variable_div, variable_mod, variable_arith, hty, value_t.type_, bne_self_eq_false,
    Bool.false_eq_true, if_false, hptr, except_ok_bind, load_int, hmem, in_bounds, pure,
    Except.pure]
  by_cases hb : b = 0
  · simp only [hb, if_true, iff_true]
    exact ⟨⟨_, rfl⟩, ⟨_, rfl⟩⟩
  · simp only [hb, if_false, iff_false, not_exists]
    constructor
    · intro line
      simp only [int_div]
      by_cases hc : wrap32 ↑(le_value bs) = INT_MIN ∧ b = -1
      · rw [if_pos hc]; simp [bind, Except.bind]
      · rw [if_neg hc]
        simp only [pure, Except.pure, except_ok_bind]
        exact store_bytes_not_raise _ _ _ _ _
    · intro line
      simp only [int_mod]
      by_cases hc : wrap32 ↑(le_value bs) = INT_MIN ∧ b = -1
      · rw [if_pos hc]; simp [bind, Except.bind]
      · rw [if_neg hc]
        simp only [pure, Except.pure, except_ok_bind]
        exact store_bytes_not_raise _ _ _ _ _

theorem variable_div_double_raises_iff (var : variable_t) (idx p : Int) (d : Dbl)
    (bs : List Nat)
    (hty : var.type_ = VALUE_DOUBLE) (hptr : variable_data_ptr var idx = .ok p)
    (hmem : mem_read var.data_ p 8 = some bs) :
    ((∃ line, variable_div var (.double d) idx = .error (.raise line)) ↔ d.isZero = true) ∧
    ((∃ line, variable_mod var (.double d) idx = .error (.raise line)) ↔ d.isZero = true) := by
  simp only [variable_div, variable_mod, variable_arith, hty, value_t.type_, bne_self_eq_false,
    Bool.false_eq_true, if_false, hptr, except_ok_bind, load_double, hmem, in_bounds, pure,
    Except.pure]
  by_cases hb : d.isZero = true
  · simp only [hb, if_true, iff_true]
    exact ⟨⟨_, rfl⟩, ⟨_, rfl⟩⟩
  · simp only [hb, if_false, iff_false, not_exists, Bool.false_eq_true]
    constructor
    · intro line
      simp only [pure, Except.pure, except_ok_bind]
      exact store_bytes_not_raise _ _ _ _ _
    · intro line
      simp only [pure, Except.pure, except_ok_bind]
      exact store_bytes_not_raise _ _ _ _ _

set_option maxRecDepth 1000000 in
/-- C22: for a left operand `l` of type INT or DOUBLE, `/` and `\` raise an error exactly
when the right operand converted to the type of `l` is zero (the `int` 0, or a `double`
equal to 0.0), and so do `/=` and `\=` on an INT or DOUBLE element with the converted
right-hand value.  On `int` operands with `b` not 0, other than `INT_MIN / -1` whose
quotient is not an `int`, `/` is the quotient truncated toward zero (its magnitude is
`|a| / |b|` rounded down, and it is an `int`), `\` is the matching remainder, and
`a = (a / b) * b + (a \ b)`; `5 \ 3` is 2. -/
theorem division_raises_for_zero_divisor (vars : List variable_t) (l r t : value_t)
    (hnum : l.type_ = VALUE_INT ∨ l.type_ = VALUE_DOUBLE)
    (ht : value_convert_type vars l.type_ r = .ok t) :
    ((∃ line, value_div vars l r = .error (.raise line)) ↔ zero_value t = true) ∧
    ((∃ line, value_mod vars l r = .error (.raise line)) ↔ zero_value t = true) ∧
    (∀ a b : Int, INT_MIN ≤ a → a ≤ INT_MAX → b ≠ 0 → ¬ (a = INT_MIN ∧ b = -1) →
      value_div vars (.int a) (.int b) = .ok (.int (Int.tdiv a b)) ∧
      value_mod vars (.int a) (.int b) = .ok (.int (Int.tmod a b)) ∧
      a = Int.tdiv a b * b + Int.tmod a b ∧
      (Int.tdiv a b).natAbs = a.natAbs / b.natAbs ∧
      INT_MIN ≤ Int.tdiv a b ∧ Int.tdiv a b ≤ INT_MAX) ∧
    (∀ (var : variable_t) (idx b p : Int) (bs : List Nat),
      var.type_ = VALUE_INT → variable_data_ptr var idx = .ok p →
      mem_read var.data_ p 4 = some bs →
      ((∃ line, variable_div var (.int b) idx = .error (.raise line)) ↔ b = 0) ∧
      ((∃ line, variable_mod var (.int b) idx = .error (.raise line)) ↔ b = 0)) ∧
    (∀ (var : variable_t) (idx p : Int) (d : Dbl) (bs : List Nat),
      var.type_ = VALUE_DOUBLE → variable_data_ptr var idx = .ok p →
      mem_read var.data_ p 8 = some bs →
      ((∃ line, variable_div var (.double d) idx = .error (.raise line)) ↔
        d.isZero = true) ∧
      ((∃ line, variable_mod var (.double d) idx = .error (.raise line)) ↔
        d.isZero = true)) ∧
    evaluated_expression example_host "5\\3" = .ok (.int 2) ∧
    evaluated_expression example_host "-7/2" = .ok (.int (-3)) ∧
    evaluated_expression example_host "-7\\2" = .ok (.int (-1)) ∧
    evaluated_expression example_host "5.0/2.0" = .ok (.double ⟨0x4004000000000000⟩) ∧
    evaluated_expression example_host "1/0.5" = .error (.raise 4811) ∧
    evaluated_expression example_host "1\\0" = .error (.raise 4842) ∧
    evaluated_expression example_host "1.5/0" = .error (.raise 4819) ∧
    run_script example_host 1000 "a = 7 : a /= 2 : mes str(a)".toList [] =
      .ok ["3".toList] ∧
    run_script example_host 1000 "a = 7 : a \\= 0".toList [] = .error (.raise 4165) := by
  obtain ⟨h1, h2⟩ := value_div_raises_iff vars l r t hnum ht
  refine ⟨h1, h2, ?_, variable_div_int_raises_iff, variable_div_double_raises_iff,
    by decide!, by decide!, by decide!, by decide!, by decide!, by decide!, by decide!,
    by decide!, by decide!⟩
  intro a b ha ha2 hb hover
  obtain ⟨hr1, hr2⟩ := tdiv_in_range a b ha ha2 hb hover
  refine ⟨?_, ?_, ?_, ?_, hr1, hr2⟩
  · simp [value_div, value_convert_type, value_t.type_, create_value_copy, int_div, hb, hover,
      bind, Except.bind, pure, Except.pure, Except.map]
  · simp [value_mod, value_convert_type, value_t.type_, create_value_copy, int_mod, hb, hover,
      bind, Except.bind, pure, Except.pure, Except.map]
  · have := Int.tdiv_add_tmod a b
    rw [Int.mul_comm] at this
    exact this.symm
  · rw [Int.natAbs_tdiv]; rfl

theorem division_raises_for_zero_divisor_witness :
    ∃ line, value_div [] (.int 1) (.int 0) = .error (.raise line) :=
  (division_raises_for_zero_divisor [] (.int 1) (.int 0) (.int 0) (Or.inl rfl) rfl).1.mpr rfl

set_option maxRecDepth 1000000 in
/-- C22, counterexample: with a STRING left operand `/` and `\` raise an error although
the right operand converted to STRING, here the string `2`, is not zero; so do `/=` and
`\=` on a STRING variable. -/
theorem string_division_raises :
    evaluated_expression example_host "\"6\"/2" = .error (.raise 4826) ∧
    evaluated_expression example_host "\"6\"\\2" = .error (.raise 4857) ∧
    value_convert_type [] VALUE_STRING (.int 2) = .ok (.string "2".toList) ∧
    run_script example_host 1000 "a = \"6\" : a /= 2".toList [] = .error (.raise 4139) ∧
    run_script example_host 1000 "a = \"6\" : a \\= 2".toList [] = .error (.raise 4184) := by
  refine ⟨by decide!, by decide!, by decide!, by decide!, by decide!⟩

theorem prepare_variable_zero_array (var : variable_t) (g n : Int)
    (hg : 0 < g) (hg2 : g ≤ INT_MAX) (hn : 0 < n) (hn2 : n ≤ INT_MAX) :
    prepare_variable var VALUE_INT g n = .ok (zero_array var VALUE_INT g n (4 * n)) ∧
    prepare_variable var VALUE_DOUBLE g n = .ok (zero_array var VALUE_DOUBLE g n (8 * n)) ∧
    prepare_variable var VALUE_STRING g n = .ok (zero_array var VALUE_STRING g n (g * n)) := by
  unfold INT_MAX at hg2 hn2
  have h4 : (4 * n) % 18446744073709551616 = 4 * n := Int.emod_eq_of_lt (by omega) (by omega)
  have h8 : (8 * n) % 18446744073709551616 = 8 * n := Int.emod_eq_of_lt (by omega) (by omega)
  have hgm : g % 18446744073709551616 = g := Int.emod_eq_of_lt (by omega) (by omega)
  have hnm : n % 18446744073709551616 = n := Int.emod_eq_of_lt (by omega) (by omega)
  have hpos : 0 < g * n := Int.mul_pos hg hn
  have hle : g * n ≤ 2147483647 * 2147483647 := Int.mul_le_mul hg2 hn2 (by omega) (by omega)
  have hgn : (g * n) % 18446744073709551616 = g * n := Int.emod_eq_of_lt (by omega) (by omega)
  refine ⟨?_, ?_, ?_⟩
  · have hc : ¬ (4 * n ≤ 0) := by omega
    simp [prepare_variable, h4, hc, zero_array, bind, Except.bind, pure, Except.pure]
  · have hc : ¬ (8 * n ≤ 0) := by omega
    simp [prepare_variable, h8, hc, zero_array, bind, Except.bind, pure, Except.pure]
  · have hc : ¬ (g * n ≤ 0) := by omega
    simp [prepare_variable, hgm, hnm, hgn, hc, zero_array, bind, Except.bind, pure,
      Except.pure]

theorem read_zero_bytes (N : Nat) (off : Int) (w : Nat) (h0 : 0 ≤ off)
    (hfit : off.toNat + w ≤ N) :
    mem_read (List.replicate N 0) off w = some (List.replicate w 0) := by
  have h1 : 0 ≤ off ∧ off.toNat + w ≤ (List.replicate N 0).length := by simp; omega
  simp only [mem_read, h1, and_self, if_true, List.drop_replicate, List.take_replicate]
  congr 2
  omega

theorem zero_array_int_element (var : variable_t) (g n j : Int) (hj : 0 ≤ j) (hjn : j < n) :
    variable_calc_int (zero_array var VALUE_INT g n (4 * n)) j = .ok 0 := by
  have hc : ¬ (j < 0 ∨ j ≥ n) := by omega
  have hr := read_zero_bytes (4 * n).toNat (4 * j) 4 (by omega) (by omega)
  simp only [variable_calc_int, variable_data_ptr, zero_array, hc, if_false, pure, Except.pure,
    except_ok_bind, load_int, hr, in_bounds]
  rfl

theorem zero_array_double_element (var : variable_t) (g n j : Int) (hj : 0 ≤ j)
    (hjn : j < n) :
    variable_calc_double (zero_array var VALUE_DOUBLE g n (8 * n)) j = .ok ⟨0⟩ := by
  have hc : ¬ (j < 0 ∨ j ≥ n) := by omega
  have hr := read_zero_bytes (8 * n).toNat (8 * j) 8 (by omega) (by omega)
  simp only [variable_calc_double, variable_data_ptr, zero_array, hc, if_false, pure,
    Except.pure, except_ok_bind, load_double, hr, in_bounds]
  rfl

theorem zero_array_string_element (var : variable_t) (g n j : Int) (hg : 0 < g)
    (hj : 0 ≤ j) (hjn : j < n) :
    variable_calc_string (zero_array var VALUE_STRING g n (g * n)) j = .ok [] := by
  have hc : ¬ (j < 0 ∨ j ≥ n) := by omega
  have hgj : 0 ≤ g * j := Int.mul_nonneg (by omega) hj
  have hlt : g * j < g * n := Int.mul_lt_mul_of_pos_left hjn hg
  have hb : 0 ≤ g * j ∧ (g * j).toNat ≤ (List.replicate (g * n).toNat 0).length := by
    simp; omega
  obtain ⟨m, hm⟩ : ∃ m, (g * n).toNat - (g * j).toNat = m + 1 :=
    ⟨(g * n).toNat - (g * j).toNat - 1, by omega⟩
  simp only [variable_calc_string, variable_data_ptr, zero_array, hc, if_false, pure,
    Except.pure, except_ok_bind, load_cstr, mem_cstr, hb, and_self, if_true,
    List.drop_replicate, hm, List.replicate_succ, bytes_to_nul, in_bounds]
  rfl

set_option maxRecDepth 1000000 in
/-- C24: `dim v, n`, `ddim v, n`, `sdim v, g` and `sdim v, g, n`, called on a variable
`v` (not an element `v(m)` with `m > 0`) with `int` values `g` and `n`: `n ≤ 0` or
`g ≤ 0` raises an error; otherwise `v` is left as an INT / DOUBLE / STRING array of
length `n` (length 1 for `sdim v, g`), with granule `g` for `sdim`, whose storage is
`4 n` / `8 n` / `g n` zero bytes, and the arguments are popped.  Every element `j` with
`0 ≤ j < n` of such an array reads as the INT 0, the DOUBLE +0.0, the empty string. -/
theorem dim_prepares_zero_array (e : execute_environment_t) (s : execute_status_t)
    (st : List value_t) (k : Nat) (idx : Int) (gv nv : value_t) (var : variable_t)
    (g n : Int)
    (hvar : e.variable_table_[k]? = some var) (hidx : idx ≤ 0)
    (hg : value_calc_int e.variable_table_ gv = .ok g)
    (hn : value_calc_int e.variable_table_ nv = .ok n)
    (hgr : g ≤ INT_MAX) (hnr : n ≤ INT_MAX)
    (hst : s.stack_ = st ++ [.variable k idx, gv, nv]) :
    command_dim e { s with stack_ := st ++ [.variable k idx, nv] } 2 =
      (if n ≤ 0 then .error (.raise 323)
       else .ok ({ e with variable_table_ :=
                     e.variable_table_.set k (zero_array var VALUE_INT 64 n (4 * n)) },
                 { s with stack_ := st })) ∧
    command_ddim e { s with stack_ := st ++ [.variable k idx, nv] } 2 =
      (if n ≤ 0 then .error (.raise 357)
       else .ok ({ e with variable_table_ :=
                     e.variable_table_.set k (zero_array var VALUE_DOUBLE 64 n (8 * n)) },
                 { s with stack_ := st })) ∧
    command_sdim e { s with stack_ := st ++ [.variable k idx, gv] } 2 =
      (if g ≤ 0 then .error (.raise 393)
       else .ok ({ e with variable_table_ :=
                     e.variable_table_.set k (zero_array var VALUE_STRING g 1 (g * 1)) },
                 { s with stack_ := st })) ∧
    command_sdim e s 3 =
      (if g ≤ 0 then .error (.raise 393)
       else if n ≤ 0 then .error (.raise 397)
       else .ok ({ e with variable_table_ :=
                     e.variable_table_.set k (zero_array var VALUE_STRING g n (g * n)) },
                 { s with stack_ := st })) ∧
    (∀ j : Int, 0 ≤ j → j < n →
      variable_calc_int (zero_array var VALUE_INT 64 n (4 * n)) j = .ok 0 ∧
      variable_calc_double (zero_array var VALUE_DOUBLE 64 n (8 * n)) j = .ok ⟨0⟩ ∧
      (0 < g → variable_calc_string (zero_array var VALUE_STRING g n (g * n)) j = .ok [])) ∧
    (0 < g → variable_calc_string (zero_array var VALUE_STRING g 1 (g * 1)) 0 = .ok []) ∧
    run_script example_host 1000 "dim a, 3 : a(2) = 5 : mes str(a(0) + a(2))".toList [] =
      .ok ["5".toList] ∧
    run_script example_host 1000 "a = 5 : dim a, 3 : mes str(a)".toList [] =
      .ok ["0".toList] ∧
    run_script example_host 1000 "dim a, 3 : mes str(a(3))".toList [] =
      .error (.raise 4299) ∧
    run_script example_host 1000 "ddim d, 2 : mes str(d(1))".toList [] =
      .ok ["0.000000".toList] ∧
    run_script example_host 1000 "sdim s, 8, 2 : mes s(1)".toList [] = .ok [[]] ∧
    run_script example_host 1000 "sdim s, 8 : mes s(1)".toList [] = .error (.raise 4299) ∧
    run_script example_host 1000 "dim a, 0".toList [] = .error (.raise 323) ∧
    run_script example_host 1000 "ddim a, 0".toList [] = .error (.raise 357) ∧
    run_script example_host 1000 "sdim s, 0".toList [] = .error (.raise 393) ∧
    run_script example_host 1000 "sdim s, 4, 0".toList [] = .error (.raise 397) := by
  have p1 := stack_peek_append st [.variable k idx, gv, nv] 0 _ (-3) rfl (by simp)
  have p2 := stack_peek_append st [.variable k idx, gv, nv] 1 _ (-2) rfl (by simp)
  have p3 := stack_peek_append st [.variable k idx, gv, nv] 2 _ (-1) rfl (by simp)
  have pp := stack_pop_append st [.variable k idx, gv, nv] 3 (by simp)
  have q1 := stack_peek_append st [.variable k idx, nv] 0 _ (-2) rfl (by simp)
  have q2 := stack_peek_append st [.variable k idx, nv] 1 _ (-1) rfl (by simp)
  have qq := stack_pop_append st [.variable k idx, nv] 2 (by simp)
  have r1 := stack_peek_append st [.variable k idx, gv] 0 _ (-2) rfl (by simp)
  have r2 := stack_peek_append st [.variable k idx, gv] 1 _ (-1) rfl (by simp)
  have rr := stack_pop_append st [.variable k idx, gv] 2 (by simp)
  have hidx1 : ¬ (idx > 0) := by omega
  have hderef : ∀ line, deref_variable e.variable_table_ k line = .ok var := by
    intro line; simp [deref_variable, in_bounds, hvar]
  have h64 : (0 : Int) < 64 ∧ (64 : Int) ≤ INT_MAX := by decide
  have h1 : (0 : Int) < 1 ∧ (1 : Int) ≤ INT_MAX := by decide
  refine ⟨?_, ?_, ?_, ?_, ?_, ?_, by decide!, by decide!, by decide!, by decide!, by decide!,
    by decide!, by decide!, by decide!, by decide!, by decide!⟩
  · by_cases hn0 : n ≤ 0
    · simp [command_dim, q1, q2, hidx1, hn, hn0, bind, Except.bind, pure, Except.pure, throw,
        throwThe, MonadExceptOf.throw]
    · have hp := (prepare_variable_zero_array var 64 n h64.1 h64.2 (by omega) hnr).1
      simp [command_dim, q1, q2, qq, hidx1, hn, hn0, hderef, hp, bind, Except.bind, pure,
        Except.pure]
  · by_cases hn0 : n ≤ 0
    · simp [command_ddim, q1, q2, hidx1, hn, hn0, bind, Except.bind, pure, Except.pure, throw,
        throwThe, MonadExceptOf.throw]
    · have hp := (prepare_variable_zero_array var 64 n h64.1 h64.2 (by omega) hnr).2.1
      simp [command_ddim, q1, q2, qq, hidx1, hn, hn0, hderef, hp, bind, Except.bind, pure,
        Except.pure]
  · by_cases hg0 : g ≤ 0
    · simp [command_sdim, r1, r2, hidx1, hg, hg0, bind, Except.bind, pure, Except.pure, throw,
        throwThe, MonadExceptOf.throw]
    · have hp := (prepare_variable_zero_array var g 1 (by omega) hgr h1.1 h1.2).2.2
      simp [command_sdim, r1, r2, rr, hidx1, hg, hg0, hderef, hp, bind, Except.bind, pure,
        Except.pure]
  · by_cases hg0 : g ≤ 0
    · simp [command_sdim, hst, p1, p2, p3, hidx1, hg, hn, hg0, bind, Except.bind, pure,
        Except.pure, throw, throwThe, MonadExceptOf.throw]
    · by_cases hn0 : n ≤ 0
      · simp [command_sdim, hst, p1, p2, p3, hidx1, hg, hn, hg0, hn0, bind, Except.bind, pure,
          Except.pure, throw, throwThe, MonadExceptOf.throw]
      · have hp := (prepare_variable_zero_array var g n (by omega) hgr (by omega) hnr).2.2
        simp [command_sdim, hst, p1, p2, p3, pp, hidx1, hg, hn, hg0, hn0, hderef, hp, bind,
          Except.bind, pure, Except.pure]
  · intro j hj hjn
    exact ⟨zero_array_int_element var 64 n j hj hjn,
      zero_array_double_element var 64 n j hj hjn,
      fun hg0 => zero_array_string_element var g n j hg0 hj hjn⟩
  · intro hg0
    exact zero_array_string_element var g 1 0 hg0 (by omega) (by omega)

theorem dim_prepares_zero_array_witness :
    command_dim example_poke_env
        { example_poke_status with stack_ := [] ++ [.variable 0 0, .int 3] } 2 =
      (if (3 : Int) ≤ 0 then .error (.raise 323)
       else .ok ({ example_poke_env with variable_table_ :=
                     [zero_array (fresh_variable ['v']) VALUE_INT 64 3 (4 * 3)] },
                 { example_poke_status with stack_ := [] })) :=
  (dim_prepares_zero_array example_poke_env
    { example_poke_status with stack_ := [] ++ [.variable 0 0, .int 8, .int 3] }
    [] 0 0 (.int 8) (.int 3) (fresh_variable ['v']) 8 3 rfl (by decide) rfl rfl (by decide)
    (by decide) rfl).1

theorem value_calc_of_isolate (vars : List variable_t) (v x : value_t)
    (h : value_isolate vars v = .ok x) :
    (∀ n, x = .int n → value_calc_int vars v = .ok n) ∧
    (∀ d, x = .double d → value_calc_double vars v = .ok d) ∧
    (∀ str, x = .string str → value_calc_string vars v = .ok str) := by
  rcases v with _ | a | a | a | ⟨k, i⟩
  any_goals (cases h; refine ⟨?_, ?_, ?_⟩ <;> intro y hy <;> cases hy <;> rfl)
  simp only [value_isolate, bind_ok_iff] at h
  obtain ⟨y, hy, h⟩ := h
  simp only [value_calc_int, value_calc_double, value_calc_string,
    deref_variable_line _ _ _ 4504 _ hy, deref_variable_line _ _ _ 4517 _ hy,
    deref_variable_line _ _ _ 4543 _ hy, except_ok_bind]
  cases hty : y.type_ <;> rw [hty] at h <;> simp only [] at h
  · cases h
  · cases hc : variable_calc_int y i with
    | error err => rw [hc] at h; cases h
    | ok a =>
      rw [hc] at h; cases h
      refine ⟨?_, ?_, ?_⟩ <;> intro z hz <;> cases hz
      rfl
  · cases hc : variable_calc_double y i with
    | error err => rw [hc] at h; cases h
    | ok a =>
      rw [hc] at h; cases h
      refine ⟨?_, ?_, ?_⟩ <;> intro z hz <;> cases hz
      rfl
  · cases hc : variable_calc_string y i with
    | error err => rw [hc] at h; cases h
    | ok a =>
      rw [hc] at h; cases h
      refine ⟨?_, ?_, ?_⟩ <;> intro z hz <;> cases hz
      rfl
  · cases h

set_option maxRecDepth 1000000 in
/-- C25: `OPERATOR_RETURN` with the operand 1, executed inside a subroutine (`cf + 1` call
frames) with the value `v` on top of the stack, where `v` materialises to the primitive
value `x`: (1) `x` is stored into `stat` when it is INT, into `refdval` when it is DOUBLE
and into `refstr` when it is STRING, the value is taken off the stack, the call frame `cf`
is popped, and the word after its stored position `back` is next; (2)-(4) the two other of
the three slots are as before; (5) with no call frame `OPERATOR_RETURN` raises an error;
(6)-(7) the generator writes `RETURN 0` for `return` and the code of the expression
followed by `RETURN 1` for `return expr`. -/
theorem return_stores_value_and_pops_frame
    (h : host_t) (e : execute_environment_t) (s : execute_status_t)
    (r cf : Nat) (back : Int) (st : List value_t) (v x : value_t)
    (hop : e.execute_code_[r]? = some OPERATOR_RETURN.code)
    (h1 : e.execute_code_[r + 1]? = some 1) (hpc : s.pc_ = (r : Int))
    (hcf : s.current_call_frame_ = (cf : Int) + 1)
    (hframe : s.call_frame_[cf]? = some back)
    (hst : s.stack_ = st ++ [v])
    (hx : value_isolate e.variable_table_ v = .ok x)
    (hty : x.type_ = VALUE_INT ∨ x.type_ = VALUE_DOUBLE ∨ x.type_ = VALUE_STRING) :
    execute_step h e s =
      .ok (e, { return_value x s with stack_ := st, current_call_frame_ := (cf : Int),
                                      pc_ := back + 1 }) ∧
    (∀ n, x = .int n → (return_value x s).stat_ = n ∧
      (return_value x s).refdval_ = s.refdval_ ∧ (return_value x s).refstr_ = s.refstr_) ∧
    (∀ d, x = .double d → (return_value x s).refdval_ = d ∧
      (return_value x s).stat_ = s.stat_ ∧ (return_value x s).refstr_ = s.refstr_) ∧
    (∀ str, x = .string str → (return_value x s).refstr_ = str ∧
      (return_value x s).stat_ = s.stat_ ∧ (return_value x s).refdval_ = s.refdval_) ∧
    (∀ (e2 : execute_environment_t) (s2 : execute_status_t), s2.current_call_frame_ ≤ 0 →
      execute_operator h e2 s2 OPERATOR_RETURN = .error (.raise 5514)) ∧
    (∀ (e2 : execute_environment_t) (c2 : generate_context_t),
      generate_walk (return_node .null) (e2, c2) =
        .ok ({ e2 with execute_code_ := e2.execute_code_ ++ [OPERATOR_RETURN.code, 0] }, c2)) ∧
    (∀ (expr : ast_node_t) (e2 e3 : execute_environment_t) (c2 c3 : generate_context_t),
      expr.isNull = false → generate_walk expr (e2, c2) = .ok (e3, c3) →
      generate_walk (return_node expr) (e2, c2) =
        .ok ({ e3 with execute_code_ := e3.execute_code_ ++ [OPERATOR_RETURN.code, 1] },
             { c3 with stack_ := c3.stack_ - 1 })) ∧
    run_script example_host 1000
      ("gosub *f\nmes str(stat)\nmes str(refdval)\nmes refstr\nend\n*f\n" ++
        "return 7").toList [] = .ok ["7".toList, "0.000000".toList, [] ] ∧
    run_script example_host 1000
      ("gosub *f\nmes str(stat)\nmes str(refdval)\nmes refstr\nend\n*f\n" ++
        "return 2.5").toList [] = .ok ["0".toList, "2.500000".toList, [] ] ∧
    run_script example_host 1000
      ("gosub *f\nmes str(stat)\nmes str(refdval)\nmes refstr\nend\n*f\n" ++
        "return \"s\"").toList [] = .ok ["0".toList, "0.000000".toList, "s".toList] ∧
    run_script example_host 1000 "return 1".toList [] = .error (.raise 5514) := by
  refine ⟨?_, ?_, ?_, ?_, ?_, ?_, ?_, by decide!, by decide!, by decide!, by decide!⟩
  · have hw : code_at e ((r : Int) + 1) 5517 = .ok 1 := by
      have := code_at_ok e (r + 1) 1 5517 h1
      simpa using this
    have h2 : ¬ ((cf : Int) + 1 ≤ 0) := by omega
    obtain ⟨hi, hd, hs⟩ := value_calc_of_isolate _ _ _ hx
    have htag := value_isolate_type _ _ _ hx
    rw [execute_step_op h e s r _ hop hpc, execute_operator_return, hpc, hw]
    rcases x with _ | i | d | str | ⟨a, b⟩
    · simp [value_t.type_] at hty
    · simp [hcf, h2, hframe, hst, stack_peek_top, stack_pop_top, htag, hi i rfl,
        value_t.type_, return_value, array_get, in_bounds, bind, Except.bind, pure,
        Except.pure]
    · simp [hcf, h2, hframe, hst, stack_peek_top, stack_pop_top, htag, hd d rfl,
        value_t.type_, return_value, array_get, in_bounds, bind, Except.bind, pure,
        Except.pure]
    · simp [hcf, h2, hframe, hst, stack_peek_top, stack_pop_top, htag, hs str rfl,
        value_t.type_, return_value, array_get, in_bounds, bind, Except.bind, pure,
        Except.pure]
    · simp [value_t.type_] at hty
  · intro n hn; subst hn; exact ⟨rfl, rfl, rfl⟩
  · intro d hd; subst hd; exact ⟨rfl, rfl, rfl⟩
  · intro str hs; subst hs; exact ⟨rfl, rfl, rfl⟩
  · intro e2 s2 h0
    rw [execute_operator_return]
    simp [h0, bind, Except.bind, throw, throwThe, MonadExceptOf.throw]
  · intro e2 c2
    simp [return_node, create_ast_node, generate_walk, ast_node_t.isNull, code_write, pure,
      Except.pure, bind, Except.bind]
  · intro expr e2 e3 c2 c3 hnull hgen
    cases expr with
    | null => simp [ast_node_t.isNull] at hnull
    | node tag tok l r =>
      rw [return_node, create_ast_node, generate_walk]
      simp only [ast_node_t.isNull, Bool.false_eq_true, if_false, hgen, bind, Except.bind,
        pure, Except.pure, code_write, List.append_assoc, List.singleton_append]

theorem return_stores_value_and_pops_frame_witness :
    execute_step example_host example_return_double_env example_return_double_status =
      .ok (example_return_double_env,
        { example_return_double_status with
          refdval_ := ⟨0x4004000000000000⟩, stack_ := [], current_call_frame_ := 0,
          pc_ := 3 }) :=
  (return_stores_value_and_pops_frame example_host example_return_double_env
    example_return_double_status 5 0 2 [] (.double ⟨0x4004000000000000⟩)
    (.double ⟨0x4004000000000000⟩) rfl rfl rfl rfl rfl rfl rfl (Or.inr (Or.inl rfl))).1

theorem char_le_iff (a b : Char) : a ≤ b ↔ a.toNat ≤ b.toNat := by
  rw [Char.le_def]
  exact Iff.rfl

theorem tol_same_letter (a b : Char) (h : same_letter a b = true) : tol a = tol b := by
  simp only [same_letter, Bool.or_eq_true, Bool.and_eq_true, beq_iff_eq, decide_eq_true_eq,
    char_le_iff] at h
  have hA : 'A'.toNat = 65 := rfl
  have hZ : 'Z'.toNat = 90 := rfl
  have ha : 'a'.toNat = 97 := rfl
  simp only [tol, char_le_iff, hA, hZ, ha]
  rw [hA, hZ] at h
  rcases h with (h | h) | h
  · rw [h]
  · have hb : ¬ (65 ≤ b.toNat ∧ b.toNat ≤ 90) := by omega
    rw [if_pos h.1, if_neg hb]; omega
  · have hb : ¬ (65 ≤ a.toNat ∧ a.toNat ≤ 90) := by omega
    rw [if_pos h.1, if_neg hb]; omega

theorem igcase_loop_right (len : Int) (a b : CStr) (h : same_up_to_case a b = true)
    (s : CStr) (iter : Nat) :
    string_equal_igcase_loop len s a iter = string_equal_igcase_loop len s b iter := by
  induction a generalizing b s iter with
  | nil =>
    cases b with
    | nil => rfl
    | cons y t => simp [same_up_to_case] at h
  | cons x a ih =>
    cases b with
    | nil => simp [same_up_to_case] at h
    | cons y t =>
      simp only [same_up_to_case, Bool.and_eq_true] at h
      cases s with
      | nil => simp [string_equal_igcase_loop]
      | cons z s =>
        simp only [string_equal_igcase_loop, tol_same_letter x y h.1]
        rw [ih t h.2]

theorem igcase_loop_left (len : Int) (a b : CStr) (h : same_up_to_case a b = true)
    (s : CStr) (iter : Nat) :
    string_equal_igcase_loop len a s iter = string_equal_igcase_loop len b s iter := by
  induction a generalizing b s iter with
  | nil =>
    cases b with
    | nil => rfl
    | cons y t => simp [same_up_to_case] at h
  | cons x a ih =>
    cases b with
    | nil => simp [same_up_to_case] at h
    | cons y t =>
      simp only [same_up_to_case, Bool.and_eq_true] at h
      cases s with
      | nil => simp [string_equal_igcase_loop]
      | cons z s =>
        simp only [string_equal_igcase_loop, tol_same_letter x y h.1]
        rw [ih t h.2]

theorem query_table_same {α : Type} (table : List (α × String)) (a b : CStr)
    (h : same_up_to_case a b = true) : query_table table a = query_table table b := by
  have hf : (fun e : α × String => string_equal_igcase a e.2.toList (-1)) =
      (fun e : α × String => string_equal_igcase b e.2.toList (-1)) := by
    funext e
    exact igcase_loop_left (-1) a b h _ 0
  simp only [query_table, hf]

/-- C26: name lookup ignores ASCII letter case.  For two names `a` and `b` that differ
only in the case of ASCII letters, `string_equal_igcase` gives the same answer against any
other string, on either side, and so `query_keyword`, `query_preprocessor`,
`query_command`, `query_function`, `query_sysvar`, `search_variable`, `search_label` and
`prepro_find_macro` return the same result for `a` and `b`, whatever the tables hold;
e.g. `MES`, `Mes` and `mes` all are the command `mes`. -/
theorem name_lookup_ignores_case (a b : CStr) (h : same_up_to_case a b = true) :
    (∀ (s : CStr) (len : Int),
      string_equal_igcase s a len = string_equal_igcase s b len ∧
      string_equal_igcase a s len = string_equal_igcase b s len) ∧
    query_keyword a = query_keyword b ∧
    query_preprocessor a = query_preprocessor b ∧
    query_command a = query_command b ∧
    query_function a = query_function b ∧
    query_sysvar a = query_sysvar b ∧
    (∀ table : List variable_t, search_variable table a = search_variable table b) ∧
    (∀ e : execute_environment_t, search_label e a = search_label e b) ∧
    (∀ pctx : prepro_context_t, prepro_find_macro pctx a = prepro_find_macro pctx b) ∧
    query_command "MES".toList = query_command "mes".toList ∧
    query_command "Mes".toList = some builtin_command_tag.COMMAND_MES ∧
    query_function "StrLen".toList = some FUNCTION_STRLEN ∧
    query_keyword "REPEAT".toList = keyword_tag.KEYWORD_REPEAT ∧
    run_script example_host 1000 "Abc = 2 : MES STR(aBC + ABC)".toList [] =
      .ok ["4".toList] := by
  have hv : (fun var : variable_t => string_equal_igcase var.name_ a (-1)) =
      (fun var : variable_t => string_equal_igcase var.name_ b (-1)) := by
    funext var; exact igcase_loop_right (-1) a b h _ 0
  have hl : (fun label : label_node_t => string_equal_igcase label.name_ a (-1)) =
      (fun label : label_node_t => string_equal_igcase label.name_ b (-1)) := by
    funext label; exact igcase_loop_right (-1) a b h _ 0
  have hm : (fun m : macro_t => string_equal_igcase m.name_ a (-1)) =
      (fun m : macro_t => string_equal_igcase m.name_ b (-1)) := by
    funext m; exact igcase_loop_right (-1) a b h _ 0
  refine ⟨fun s len => ⟨igcase_loop_right len a b h s 0, igcase_loop_left len a b h s 0⟩,
    ?_, query_table_same _ a b h, query_table_same _ a b h, query_table_same _ a b h,
    query_table_same _ a b h, ?_, ?_, ?_, by decide!, by decide!, by decide!, by decide!,
    by decide!⟩
  · simp only [query_keyword, query_table_same _ a b h]
  · intro table; simp only [search_variable, hv]
  · intro e; simp only [search_label, hl]
  · intro pctx; simp only [ prepro_find_macro, hm]

theorem name_lookup_ignores_case_witness :
    query_function "PowF".toList = query_function "powf".toList :=
  (name_lookup_ignores_case "PowF".toList "powf".toList (by decide)).2.2.2.2.1

theorem scan_string_literal_quote (rest : CStr) :
    scan_string_literal ('"' :: rest) = .ok ([], 1) := by
  simp [scan_string_literal, scan_string_body, scan_string_loop, create_token_string,
    Except.map]

theorem scan_string_loop_plain (c : Char) (rest : CStr) (h1 : c ≠ '"') (h2 : c ≠ '\\') :
    scan_string_loop false (c :: rest) =
      (scan_string_loop false rest).map (fun n => n + 1) := by
  have b1 : (c == '"') = false := by simp [h1]
  have b2 : (c == '\\') = false := by simp [h2]
  simp only [scan_string_loop, b1, b2, Bool.false_eq_true, if_false, Bool.false_and]

theorem scan_string_loop_escape (d : Char) (rest2 : CStr) (hd : d ≠ '"') (hb : d ≠ '\\') :
    scan_string_loop false ('\\' :: d :: rest2) =
      (scan_string_loop false rest2).map (fun n => n + 2) := by
  have b1 : (d == '"') = false := by simp [hd]
  have b2 : (d == '\\') = false := by simp [hb]
  have b3 : (('\\' : Char) == '"') = false := by decide
  have b4 : (some d == some '"') = false := by simp [hd]
  simp only [scan_string_loop, b1, b2, b3, b4, Bool.false_eq_true, if_false, Bool.false_and,
    Bool.and_false, List.head?_cons, Option.map_map]
  rfl

theorem scan_string_loop_escaped_quote (rest2 : CStr) :
    scan_string_loop false ('\\' :: '"' :: rest2) =
      (scan_string_loop false rest2).map (fun n => n + 2) := by
  have b3 : (('\\' : Char) == '"') = false := by decide
  have b4 : (some ('"' : Char) == some '"') = true := by decide
  have b5 : (('\\' : Char) == '\\') = true := by decide
  simp only [scan_string_loop, b3, b4, b5, Bool.false_eq_true, if_false, if_true,
    Bool.and_self, List.head?_cons, Option.map_map]
  rfl

theorem scan_string_loop_bad_escape (d : Char) (rest2 : CStr) (hd : d ≠ '"') :
    scan_string_loop false ('\\' :: d :: rest2) = none ∨
    ∃ m, scan_string_loop false ('\\' :: d :: rest2) = some (m + 2) := by
  have b1 : (d == '"') = false := by simp [hd]
  have b3 : (('\\' : Char) == '"') = false := by decide
  have b4 : (some d == some '"') = false := by simp [hd]
  simp only [scan_string_loop, b1, b3, b4, Bool.false_eq_true, if_false, Bool.and_false,
    List.head?_cons, Option.map_map]
  cases scan_string_loop (d == '\\' && rest2.head? == some '"') rest2 with
  | none => exact Or.inl rfl
  | some m => exact Or.inr ⟨m, rfl⟩

theorem scan_string_literal_plain (c : Char) (rest : CStr) (h1 : c ≠ '"') (h2 : c ≠ '\\') :
    scan_string_literal (c :: rest) =
      (scan_string_literal rest).map (fun r => (c :: r.1, r.2 + 1)) := by
  have b2 : (c == '\\') = false := by simp [h2]
  simp only [scan_string_literal, scan_string_body, scan_string_loop_plain c rest h1 h2]
  cases hs : scan_string_loop false rest with
  | none => rfl
  | some n =>
    have hx : ∀ t : CStr, create_token_string (c :: t) =
        (create_token_string t).map (fun r => c :: r) := by
      intro t
      cases t <;> simp [create_token_string, b2]
    simp only [Option.map, List.take_succ_cons]
    rw [hx]
    cases create_token_string (List.take n rest) <;> rfl

theorem scan_string_literal_escape (d x : Char) (rest2 : CStr)
    (hd : d ≠ '"') (hb : d ≠ '\\')
    (hx : ∀ t : CStr, create_token_string ('\\' :: d :: t) =
      (create_token_string t).map (fun r => x :: r)) :
    scan_string_literal ('\\' :: d :: rest2) =
      (scan_string_literal rest2).map (fun r => (x :: r.1, r.2 + 2)) := by
  simp only [scan_string_literal, scan_string_body, scan_string_loop_escape d rest2 hd hb]
  cases hs : scan_string_loop false rest2 with
  | none => rfl
  | some n =>
    simp only [Option.map, List.take_succ_cons]
    rw [hx]
    cases create_token_string (List.take n rest2) <;> rfl

theorem scan_string_literal_escaped_quote (rest2 : CStr) :
    scan_string_literal ('\\' :: '"' :: rest2) =
      (scan_string_literal rest2).map (fun r => ('"' :: r.1, r.2 + 2)) := by
  simp only [scan_string_literal, scan_string_body, scan_string_loop_escaped_quote rest2]
  cases hs : scan_string_loop false rest2 with
  | none => rfl
  | some n =>
    have hx : ∀ t : CStr, create_token_string ('\\' :: '"' :: t) =
        (create_token_string t).map (fun r => '"' :: r) := by
      intro t
      simp [create_token_string]
    simp only [Option.map, List.take_succ_cons]
    rw [hx]
    cases create_token_string (List.take n rest2) <;> rfl

theorem scan_string_literal_bad_escape (d : Char) (rest2 : CStr)
    (ht : d ≠ 't') (hn : d ≠ 'n') (hd : d ≠ '"') :
    ∃ line, scan_string_literal ('\\' :: d :: rest2) = .error (.raise line) := by
  rcases scan_string_loop_bad_escape d rest2 hd with h | ⟨m, h⟩
  · exact ⟨1742, by simp only [scan_string_literal, scan_string_body, h]⟩
  · refine ⟨1875, ?_⟩
    have b1 : (d == 't') = false := by simp [ht]
    have b2 : (d == 'n') = false := by simp [hn]
    have b3 : (d == '"') = false := by simp [hd]
    have b5 : (('\\' : Char) == '\\') = true := by decide
    simp only [scan_string_literal, scan_string_body, h, List.take_succ_cons,
      create_token_string, b1, b2, b3, b5, if_true, Bool.false_eq_true, if_false]
    rfl

theorem string_literal_spec_quote (rest : CStr) :
    string_literal_spec ('"' :: rest) = some ([], 1) := by
  cases rest <;> simp [string_literal_spec]

theorem string_literal_spec_plain (c : Char) (rest : CStr) (h1 : c ≠ '"') (h2 : c ≠ '\\') :
    string_literal_spec (c :: rest) =
      (string_literal_spec rest).map (fun r => (c :: r.1, r.2 + 1)) := by
  cases rest <;> simp [string_literal_spec, h1, h2]

theorem string_literal_spec_bad (d : Char) (rest2 : CStr) (ht : d ≠ 't') (hn : d ≠ 'n')
    (hd : d ≠ '"') : string_literal_spec ('\\' :: d :: rest2) = none := by
  simp [string_literal_spec, ht, hn, hd]

theorem string_literal_spec_escape (rest2 : CStr) :
    string_literal_spec ('\\' :: 't' :: rest2) =
      (string_literal_spec rest2).map (fun r => ('\t' :: r.1, r.2 + 2)) ∧
    string_literal_spec ('\\' :: 'n' :: rest2) =
      (string_literal_spec rest2).map (fun r => ('\n' :: r.1, r.2 + 2)) ∧
    string_literal_spec ('\\' :: '"' :: rest2) =
      (string_literal_spec rest2).map (fun r => ('"' :: r.1, r.2 + 2)) := by
  refine ⟨?_, ?_, ?_⟩ <;> simp [string_literal_spec]

theorem string_literal_spec_end : string_literal_spec ['\\'] = none := by
  simp [string_literal_spec]

theorem literal_map_transfer (sp : Option (CStr × Nat)) (sc : Except Err (CStr × Nat))
    (f : CStr × Nat → CStr × Nat)
    (ih : (∀ r, sp = some r → sc = .ok r) ∧
      (sp = none → ∃ line, sc = .error (.raise line))) :
    (∀ r, sp.map f = some r → sc.map f = .ok r) ∧
    (sp.map f = none → ∃ line, sc.map f = .error (.raise line)) := by
  cases sp with
  | none =>
    obtain ⟨line, hl⟩ := ih.2 rfl
    exact ⟨fun r h => (by cases h), fun _ => ⟨line, (by rw [hl]; rfl)⟩⟩
  | some r0 =>
    have h0 := ih.1 r0 rfl
    refine ⟨fun r h => ?_, fun h => (by cases h)⟩
    simp only [Option.map, Option.some.injEq] at h
    rw [h0, ← h]; rfl

theorem scan_string_literal_length (n : Nat) : ∀ s : CStr, s.length ≤ n →
    (∀ r, string_literal_spec s = some r → scan_string_literal s = .ok r) ∧
    (string_literal_spec s = none → ∃ line, scan_string_literal s = .error (.raise line)) := by
  have hnil : (∀ r, string_literal_spec [] = some r → scan_string_literal [] = .ok r) ∧
      (string_literal_spec [] = none →
        ∃ line, scan_string_literal [] = .error (.raise line)) :=
    ⟨fun r h => (by simp [string_literal_spec] at h), fun _ => ⟨1742, rfl⟩⟩
  induction n with
  | zero =>
    intro s hs
    have : s = [] := List.length_eq_zero.mp (by omega)
    subst this
    exact hnil
  | succ n ih =>
    intro s hs
    cases s with
    | nil => exact hnil
    | cons c rest =>
      have hrest : rest.length ≤ n := by simpa using hs
      by_cases hq : c = '"'
      · subst hq
        rw [scan_string_literal_quote, string_literal_spec_quote]
        exact ⟨fun r h => (by cases h; rfl), fun h => (by cases h)⟩
      · by_cases hb : c = '\\'
        · subst hb
          cases rest with
          | nil =>
            rw [string_literal_spec_end]
            exact ⟨fun r h => (by cases h), fun _ => ⟨1742, rfl⟩⟩
          | cons d rest2 =>
            have hrest2 : rest2.length ≤ n := by
              simp only [List.length_cons] at hrest; omega
            have ih2 := ih rest2 hrest2
            obtain ⟨st, sn, sq⟩ := string_literal_spec_escape rest2
            by_cases ht : d = 't'
            · subst ht
              have hx : ∀ t : CStr, create_token_string ('\\' :: 't' :: t) =
                  (create_token_string t).map (fun r => '\t' :: r) := by
                intro t; simp [create_token_string]
              rw [scan_string_literal_escape 't' '\t' rest2 (by decide) (by decide) hx, st]
              exact literal_map_transfer _ _ _ ih2
            · by_cases hn : d = 'n'
              · subst hn
                have hx : ∀ t : CStr, create_token_string ('\\' :: 'n' :: t) =
                    (create_token_string t).map (fun r => '\n' :: r) := by
                  intro t; simp [create_token_string]
                rw [scan_string_literal_escape 'n' '\n' rest2 (by decide) (by decide) hx, sn]
                exact literal_map_transfer _ _ _ ih2
              · by_cases hd : d = '"'
                · subst hd
                  rw [scan_string_literal_escaped_quote, sq]
                  exact literal_map_transfer _ _ _ ih2
                · rw [string_literal_spec_bad d rest2 ht hn hd]
                  exact ⟨fun r h => (by cases h),
                    fun _ => scan_string_literal_bad_escape d rest2 ht hn hd⟩
        · rw [scan_string_literal_plain c rest hq hb, string_literal_spec_plain c rest hq hb]
          exact literal_map_transfer _ _ _ (ih rest hrest)

theorem scan_string_literal_correct (s : CStr) :
    (∀ r, string_literal_spec s = some r → scan_string_literal s = .ok r) ∧
    (string_literal_spec s = none → ∃ line, scan_string_literal s = .error (.raise line)) :=
  scan_string_literal_length s.length s (le_refl _)

theorem get_token_scan_string (script : CStr) (fuel p : Nat) (line : Int) (lsp : Bool)
    (s : CStr) (hcur : script.drop p = '"' :: s) :
    get_token_scan script (fuel + 1) p line lsp =
      (scan_string_literal s).map (fun r =>
        { tag := TOKEN_STRING, content := some r.1, prev_cursor := p, p := p + 1 + r.2,
          line := line, appear_line := line, left_space := lsp }) := by
  have hch : chAt script p = '"' := by
    have h1 : (script.drop p)[0]? = some '"' := by rw [hcur]; simp
    rw [List.getElem?_drop] at h1
    simp only [Nat.add_zero] at h1
    simp [chAt, List.getD, h1]
  have hdrop : script.drop (p + 1) = s := by
    have := congrArg List.tail hcur
    simpa [List.tail_drop] using this
  rw [get_token_scan]
  simp only [hch, hdrop, substr]
  simp [NUL, scan_string_literal]
  cases scan_string_body s with
  | none => rfl
  | some n =>
    cases hc : create_token_string (List.take n s) with
    | error err => simp only [hc]; rfl
    | ok out => simp only [hc]; rfl
set_option maxRecDepth 1000000 in
/-- C27: `get_token` on a double-quoted literal.  The cursor of the tokenizer stands on a
double quote and `s` is the text after it.  (1) When `s` starts with a body in which
every backslash is followed by `t`, `n` or a double quote, and the closing quote follows
it, `get_token` returns a `TOKEN_STRING` token whose content is the body with `\t`
replaced by TAB, `\n` by LF, `\"` by a double quote and every other character unchanged,
and the cursor moves behind the closing quote.  (2) When a backslash in the body is
followed by any other character, or the closing quote is missing, `get_token` raises an
error. -/
theorem string_literal_token (c : tokenize_context_t) (s : CStr)
    (hcur : c.script_.drop c.cursor_ = '"' :: s) :
    (∀ (out : CStr) (n : Nat), string_literal_spec s = some (out, n) →
      get_token c =
        .ok ({ tag_ := TOKEN_STRING, content_ := out, cursor_begin_ := c.cursor_,
               cursor_end_ := c.cursor_ + 1 + n, appear_line_ := c.line_,
               left_space_ := false,
               right_space_ := is_space (chAt c.script_ (c.cursor_ + 1 + n)) },
             { c with cursor_ := c.cursor_ + 1 + n })) ∧
    (string_literal_spec s = none → ∃ line, get_token c = .error (.raise line)) ∧
    string_literal_spec "a\\tb\\n\\\"c\" + 1".toList = some ("a\tb\n\"c".toList, 10) ∧
    (get_token (initialize_tokenize_context "\"a\\tb\"".toList)).map
      (fun r => (r.1.tag_, r.1.content_)) = .ok (TOKEN_STRING, "a\tb".toList) ∧
    get_token (initialize_tokenize_context "\"a\\qb\"".toList) = .error (.raise 1875) ∧
    get_token (initialize_tokenize_context "\"a\\\\\" + \"b\"".toList) =
      .error (.raise 1875) ∧
    get_token (initialize_tokenize_context "\"abc".toList) = .error (.raise 1742) ∧
    get_token (initialize_tokenize_context "\"abc\\\"".toList) = .error (.raise 1742) ∧
    run_script example_host 1000 "mes \"a\\\"b\"".toList [] = .ok ["a\"b".toList] := by
  have hscan := get_token_scan_string c.script_ (c.script_.length + 1) c.cursor_ c.line_ false
    s hcur
  obtain ⟨hok, herr⟩ := scan_string_literal_correct s
  refine ⟨?_, ?_, by decide, by decide, by decide, by decide, by decide, by decide,
    by decide!⟩
  · intro out n hspec
    have h1 := hok _ hspec
    simp only [get_token, hscan, h1, Except.map, bind, Except.bind, pure, Except.pure]
  · intro hspec
    obtain ⟨line, h1⟩ := herr hspec
    exact ⟨line, by simp only [get_token, hscan, h1, Except.map, bind, Except.bind]⟩

theorem string_literal_token_witness :
    get_token (initialize_tokenize_context "\"hi\"".toList) =
      .ok ({ tag_ := TOKEN_STRING, content_ := "hi".toList, cursor_begin_ := 0,
             cursor_end_ := 4, appear_line_ := 0, left_space_ := false,
             right_space_ := false },
           { script_ := "\"hi\"".toList, cursor_ := 4, line_ := 0 }) :=
  (string_literal_token (initialize_tokenize_context "\"hi\"".toList) "hi\"".toList rfl).1
    "hi".toList 3 (by decide)

theorem variable_set_fresh_zero (name : CStr) :
    variable_set (fresh_variable name) (.int 0) 0 = .ok (fresh_variable name) := by
  rfl

theorem prepass_variable_set (e : execute_environment_t) (name : CStr)
    (h : search_variable e.variable_table_ name = none) :
    variable_set_by_name e.variable_table_ (.int 0) name 0 =
      .ok (e.variable_table_ ++ [fresh_variable name]) := by
  simp only [variable_set_by_name, h, create_variable_fresh, except_ok_bind,
    variable_set_fresh_zero]
  rfl

theorem load_walk_variable (tag : node_tag) (tok : token_t) (left right : ast_node_t)
    (e : execute_environment_t)
    (htag : tag = NODE_VARIABLE ∨ tag = NODE_IDENTIFIER_EXPR) :
    load_walk (.node tag (some tok) left right) e = (do
      let e1 ← if left.isNull then pure (prepass_variable e tok.content_)
        else load_walk left (prepass_variable e tok.content_)
      if right.isNull then pure e1 else load_walk right e1) := by
  have ht : (tag == NODE_VARIABLE || tag == NODE_IDENTIFIER_EXPR) = true := by
    rcases htag with rfl | rfl <;> rfl
  rw [load_walk]
  simp only [ht, if_true, token_content]
  cases hs : search_variable e.variable_table_ tok.content_ with
  | none =>
    simp only [prepass_variable, hs, Option.isNone_none, if_true, prepass_variable_set e _ hs,
      pure, Except.pure, bind, Except.bind]
  | some i =>
    simp only [prepass_variable, hs, Option.isNone_some, pure, Except.pure, bind, Except.bind]
    rfl

set_option maxRecDepth 1000000 in
/-- C28: the pre-pass of `load_script` creates a variable (INT, length 16, all zero) for
the name of every `NODE_VARIABLE` and `NODE_IDENTIFIER_EXPR` node that is not in the
variable table yet, and leaves the table as it is when the name is there already; it then
walks the children.  Whether the name is that of a built-in function or of a system
variable is not looked at. -/
theorem prepass_creates_variable_for_every_name (tok : token_t) (left right : ast_node_t)
    (e : execute_environment_t) :
    (load_walk (.node NODE_VARIABLE (some tok) left right) e = (do
      let e1 ← if left.isNull then pure (prepass_variable e tok.content_)
        else load_walk left (prepass_variable e tok.content_)
      if right.isNull then pure e1 else load_walk right e1)) ∧
    (load_walk (.node NODE_IDENTIFIER_EXPR (some tok) left right) e = (do
      let e1 ← if left.isNull then pure (prepass_variable e tok.content_)
        else load_walk left (prepass_variable e tok.content_)
      if right.isNull then pure e1 else load_walk right e1)) ∧
    (search_variable e.variable_table_ tok.content_ = none →
      (prepass_variable e tok.content_).variable_table_ =
        e.variable_table_ ++ [fresh_variable tok.content_]) ∧
    ((search_variable e.variable_table_ tok.content_).isSome →
      prepass_variable e tok.content_ = e) ∧
    (fresh_variable tok.content_).type_ = VALUE_INT ∧
    (fresh_variable tok.content_).length_ = 16 ∧
    loaded_variables "a = 1 : b = a + 2" =
      .ok [("a".toList, VALUE_INT, 16), ("b".toList, VALUE_INT, 16)] ∧
    loaded_variables "a = int(2.5) : mes str(a + stat)" =
      .ok [("a".toList, VALUE_INT, 16), ("int".toList, VALUE_INT, 16), ("str".toList, VALUE_INT, 16),
           ("stat".toList, VALUE_INT, 16)] := by
  refine ⟨load_walk_variable _ tok left right e (Or.inl rfl),
    load_walk_variable _ tok left right e (Or.inr rfl), ?_, ?_, rfl, rfl, by decide!,
    by decide!⟩
  · intro h
    simp [prepass_variable, h]
  · intro h
    cases hs : search_variable e.variable_table_ tok.content_ with
    | none => rw [hs] at h; cases h
    | some i => simp [prepass_variable, hs]

set_option maxRecDepth 1000000 in
/-- C28, counterexample: after loading `mes str(cnt)` the variable table holds a variable
named `str` and a variable named `cnt`, although `str` is a built-in function and `cnt` a
system variable. -/
theorem prepass_creates_variables_str_and_cnt :
    loaded_variables "mes str(cnt)" =
      .ok [("str".toList, VALUE_INT, 16), ("cnt".toList, VALUE_INT, 16)] ∧
    query_function "str".toList = some FUNCTION_STR ∧
    query_sysvar "cnt".toList = some SYSVAR_CNT := by
  refine ⟨by decide!, by decide!, by decide!⟩

theorem step_back_some (line : Nat) (n i : Nat) (h : n ≤ i) :
    step_back line n (some i) = .ok (some (i - n)) := by
  induction n generalizing i with
  | zero => rfl
  | succ n ih =>
    have hi : i ≠ 0 := by omega
    simp only [step_back, node_prev, hi, if_false]
    rw [ih (i - 1) (by omega)]
    congr 2
    omega

theorem step_back_tail (line : Nat) (n len : Nat) (h : n < len) :
    step_back line n (list_tail len) = .ok (some (len - 1 - n)) := by
  have hl : len ≠ 0 := by omega
  simp only [list_tail, hl, if_false]
  exact step_back_some line n (len - 1) (by omega)

theorem read_tokens_buffered (n : Nat) (toks : List token_t) (tc : tokenize_context_t)
    (j : Nat) (hj : j < toks.length) (hn : j + n ≤ toks.length) :
    read_tokens n { token_list_ := toks, token_current_ := some j, tokenize_context_ := tc } =
      .ok ((toks.drop j).take n,
           { token_list_ := toks,
             token_current_ := if j + n < toks.length then some (j + n) else none,
             tokenize_context_ := tc }) := by
  induction n generalizing j with
  | zero => simp [read_tokens, hj, pure, Except.pure]
  | succ n ih =>
    have hget : toks[j]? = some toks[j] := by simp [hj]
    have hdrop : List.drop j toks = toks[j] :: List.drop (j + 1) toks := by
      rw [List.drop_eq_getElem_cons hj]
    have hread : read_token
        { token_list_ := toks, token_current_ := some j, tokenize_context_ := tc } =
        .ok (toks[j], { token_list_ := toks,
                        token_current_ := if j + 1 < toks.length then some (j + 1) else none,
                        tokenize_context_ := tc }) := by
      simp only [read_token, hget, node_next]; rfl
    rw [read_tokens, hread, except_ok_bind]
    by_cases hlast : j + 1 < toks.length
    · rw [if_pos hlast]
      simp only []
      rw [ih (j + 1) hlast (by omega), except_ok_bind, hdrop, List.take_succ_cons]
      have e1 : j + 1 + n = j + (n + 1) := by omega
      rw [e1]; rfl
    · have hn0 : n = 0 := by omega
      subst hn0
      rw [if_neg hlast, hdrop]
      have e2 : ¬ (j + (0 + 1) < toks.length) := by omega
      simp only [e2, if_false]
      rfl

theorem read_tokens_fresh (p : Nat) (c c0 : parse_context_t) (toks : List token_t)
    (hc : c.token_current_ = none)
    (h : read_tokens p c = .ok (toks, c0)) :
    c0.token_list_ = c.token_list_ ++ toks ∧ c0.token_current_ = none ∧ toks.length = p := by
  induction p generalizing c toks with
  | zero =>
    simp only [read_tokens, pure, Except.pure, Except.ok.injEq, Prod.mk.injEq] at h
    obtain ⟨rfl, rfl⟩ := h
    simp [hc]
  | succ p ih =>
    simp only [read_tokens, read_token, hc, bind_ok_iff, pure_ok_iff, Prod.exists] at h
    obtain ⟨t, c1, ⟨t1, tc, _, hr⟩, ts, c2, h2, hfin⟩ := h
    simp only [Prod.mk.injEq] at hr hfin
    obtain ⟨rfl, rfl⟩ := hr
    obtain ⟨rfl, rfl⟩ := hfin
    obtain ⟨hl, hcur, hlen⟩ := ih _ ts rfl h2
    refine ⟨?_, hcur, by simp [hlen]⟩
    rw [hl]; simp

set_option maxRecDepth 100000 in
/-- C29: `prev_token( c, k )` returns the token `k` positions behind the cursor when no
token is buffered ahead of the cursor (`token_current_` is null): then it is the token
with index `cursor_position c - 1 - k`, for `k = 0` the one `read_token` returned last.
When tokens are buffered ahead (`token_current_` points to node `j`), it returns the
token with index `j - k` instead, for `k = 0` the token at the cursor, which the next
`read_token` will return: in the script `a b`, after two reads and `unread_token( c, 1 )`
the token returned last and not unread is `a`, and `prev_token( c, 0 )` is `b`. -/
theorem prev_token_behind_cursor (c : parse_context_t) (k : Nat)
    (hend : c.token_current_ = none) (hk : k < c.token_list_.length) :
    (∃ t, c.token_list_[cursor_position c - 1 - k]? = some t ∧ prev_token c k = .ok t) ∧
    (∀ (c1 : parse_context_t) (j k1 : Nat),
      c1.token_current_ = some j → j < c1.token_list_.length → k1 ≤ j →
      ∃ t, c1.token_list_[j - k1]? = some t ∧ prev_token c1 k1 = .ok t ∧
        (k1 = 0 → (read_token c1).map (fun r => r.1) = .ok t)) ∧
    example_unread_context.map
        (fun c => (cursor_position c, c.token_list_.map (fun t => t.content_))) =
      .ok (1, ["a".toList, "b".toList]) ∧
    (example_unread_context >>= fun c => prev_token c 0).map (fun t => t.content_) =
      .ok "b".toList := by
  refine ⟨?_, ?_, by decide, by decide⟩
  · have hpos : cursor_position c = c.token_list_.length := by simp [cursor_position, hend]
    have hlt : c.token_list_.length - 1 - k < c.token_list_.length := by omega
    refine ⟨c.token_list_[c.token_list_.length - 1 - k], by simp [hpos, hlt], ?_⟩
    simp only [prev_token, hend, step_back_tail 1979 k _ hk, bind, Except.bind]
    simp [hlt, pure, Except.pure]
  · intro c1 j k1 hcur hj hk1
    have hlt : j - k1 < c1.token_list_.length := by omega
    refine ⟨c1.token_list_[j - k1], by simp [hlt], ?_, ?_⟩
    · simp only [prev_token, hcur, step_back_some 1979 k1 j hk1, bind, Except.bind]
      simp [hlt, pure, Except.pure]
    · intro h0
      subst h0
      simp [read_token, hcur, hj, Except.map, pure, Except.pure]

theorem prev_token_behind_cursor_witness :
    ∃ t, [example_label_token][0]? = some t ∧
      prev_token { token_list_ := [example_label_token], token_current_ := none,
                   tokenize_context_ := initialize_tokenize_context [] } 0 = .ok t :=
  (prev_token_behind_cursor
    { token_list_ := [example_label_token], token_current_ := none,
      tokenize_context_ := initialize_tokenize_context [] } 0 rfl (by decide)).1

set_option maxRecDepth 100000 in
/-- C30: `unread_token( c, n )` rewinds by `n` tokens.  In a parse context whose cursor
has at least `n ≥ 1` buffered tokens behind it, `unread_token( c, n )` moves the cursor
back by `n` and touches neither the token list nor the tokenizer, and `n` calls of
`read_token` after it return the `n` tokens that were behind the cursor, in order, and
end in the very context `c` from before the unread: no token is pulled from the
tokenizer and the cursor is where it was.  After `p` calls of `read_token` on a fresh
context these `n` tokens are the last `n` of the `p` tokens returned. -/
theorem unread_then_read_again (c : parse_context_t) (n : Nat)
    (hc : cursor_in_list c) (h1 : 1 ≤ n) (hn : n ≤ cursor_position c) :
    (∃ c1, unread_token c n = .ok c1 ∧ cursor_position c1 = cursor_position c - n ∧
      c1.token_list_ = c.token_list_ ∧ c1.tokenize_context_ = c.tokenize_context_ ∧
      read_tokens n c1 = .ok ((c.token_list_.drop (cursor_position c - n)).take n, c)) ∧
    (∀ (t : tokenize_context_t) (p : Nat) (toks : List token_t) (c0 : parse_context_t),
      read_tokens p (initialize_parse_context t) = .ok (toks, c0) →
      c0.token_list_ = toks ∧ cursor_in_list c0 ∧ cursor_position c0 = p ∧
      (c0.token_list_.drop (cursor_position c0 - n)).take n = toks.drop (p - n)) ∧
    ((do
      let c := initialize_parse_context (initialize_tokenize_context "a b c".toList)
      let (first, c) ← read_tokens 3 c
      let c ← unread_token c 2
      let (again, c1) ← read_tokens 2 c
      pure (first.map (fun t : token_t => t.content_),
        again.map (fun t : token_t => t.content_),
        c1.token_list_.length, c1.token_current_)) =
      .ok (["a".toList, "b".toList, "c".toList], ["b".toList, "c".toList], 3, none)) := by
  refine ⟨?_, ?_, by decide⟩
  · obtain ⟨toks, cur, tc⟩ := c
    cases cur with
    | none =>
      simp only [cursor_position] at hn ⊢
      have hn0 : n ≠ 0 := by omega
      have hu : unread_token
          { token_list_ := toks, token_current_ := none, tokenize_context_ := tc } n =
          .ok { token_list_ := toks, token_current_ := some (toks.length - n),
                tokenize_context_ := tc } := by
        simp only [unread_token, hn0, if_false, step_back_tail 1965 (n - 1) toks.length (by omega),
          bind, Except.bind, pure, Except.pure]
        congr 3
        omega
      refine ⟨_, hu, rfl, rfl, rfl, ?_⟩
      rw [read_tokens_buffered n toks tc (toks.length - n) (by omega) (by omega)]
      have e : ¬ (toks.length - n + n < toks.length) := by omega
      simp only [e, if_false]
    | some i =>
      simp only [cursor_position] at hn ⊢
      have hi : i < toks.length := hc i rfl
      have hn0 : n ≠ 0 := by omega
      have hu : unread_token
          { token_list_ := toks, token_current_ := some i, tokenize_context_ := tc } n =
          .ok { token_list_ := toks, token_current_ := some (i - n),
                tokenize_context_ := tc } := by
        simp only [unread_token, hn0, if_false, step_back_some 1965 n i hn, bind, Except.bind,
          pure, Except.pure]
      refine ⟨_, hu, rfl, rfl, rfl, ?_⟩
      rw [read_tokens_buffered n toks tc (i - n) (by omega) (by omega)]
      have e : i - n + n = i := by omega
      simp only [e, hi, if_true]
  · intro t p toks c0 h
    obtain ⟨hl, hcur, hlen⟩ := read_tokens_fresh p _ c0 toks rfl h
    have hl1 : c0.token_list_ = toks := by simpa [initialize_parse_context] using hl
    have hpos : cursor_position c0 = p := by simp [cursor_position, hcur, hl1, hlen]
    refine ⟨hl1, ?_, hpos, ?_⟩
    · intro i hi; rw [hcur] at hi; cases hi
    · rw [hpos, hl1]
      apply List.take_of_length_le
      simp [hlen]; omega

theorem unread_then_read_again_witness :
    ∃ c1, unread_token { token_list_ := [example_label_token, example_count_token],
                         token_current_ := none,
                         tokenize_context_ := initialize_tokenize_context [] } 1 = .ok c1 ∧
      read_tokens 1 c1 =
        .ok ([example_count_token],
             { token_list_ := [example_label_token, example_count_token],
               token_current_ := none,
               tokenize_context_ := initialize_tokenize_context [] }) :=
  (unread_then_read_again
    { token_list_ := [example_label_token, example_count_token], token_current_ := none,
      tokenize_context_ := initialize_tokenize_context [] } 1
    (fun _ hi => by cases hi) (by decide) (by decide)).1.imp
    (fun _ hc1 => ⟨hc1.1, hc1.2.2.2.2⟩)

theorem prepro_push_region_below (pctx : prepro_context_t) (is_valid : Bool) (line : Nat)
    (hlen : pctx.pp_region_.length = 16) (h0 : 0 ≤ pctx.pp_region_idx_)
    (h : pctx.pp_region_idx_ ≤ 14) :
    prepro_push_region pctx is_valid line =
      .ok { pctx with
            pp_region_idx_ := pctx.pp_region_idx_ + 1,
            pp_region_ := pctx.pp_region_.set (pctx.pp_region_idx_ + 1).toNat
              { is_valid_ := pctx.is_current_region_valid_ && is_valid, line_ := pctx.line_ },
            is_current_region_valid_ := pctx.is_current_region_valid_ && is_valid } := by
  have h1 : ¬ (pctx.pp_region_idx_ ≥ PP_DIRECTIVE_MAX ∨ pctx.pp_region_idx_ < 0) := by
    simp only [PP_DIRECTIVE_MAX]; omega
  have h2 : 0 ≤ pctx.pp_region_idx_ + 1 ∧
      pctx.pp_region_idx_ + 1 < (pctx.pp_region_.length : Int) := by
    rw [hlen]; constructor <;> omega
  simp only [prepro_push_region, array_set, h1, h2, if_false, if_true, and_self]
  rfl

theorem prepro_push_region_last (pctx : prepro_context_t) (is_valid : Bool) (line : Nat)
    (hlen : pctx.pp_region_.length = 16) (h : pctx.pp_region_idx_ = 15) :
    prepro_push_region pctx is_valid line = .error (.undefined (line + 4)) := by
  have h1 : ¬ (pctx.pp_region_idx_ ≥ PP_DIRECTIVE_MAX ∨ pctx.pp_region_idx_ < 0) := by
    simp only [PP_DIRECTIVE_MAX]; omega
  have h2 : ¬ (0 ≤ pctx.pp_region_idx_ + 1 ∧
      pctx.pp_region_idx_ + 1 < (pctx.pp_region_.length : Int)) := by
    rw [hlen]; omega
  simp only [prepro_push_region, array_set, h1, h2, if_false]
  rfl

theorem prepro_push_region_deep (pctx : prepro_context_t) (is_valid : Bool) (line : Nat)
    (h : 16 ≤ pctx.pp_region_idx_) :
    prepro_push_region pctx is_valid line = .error (.raise line) := by
  have h1 : pctx.pp_region_idx_ ≥ PP_DIRECTIVE_MAX ∨ pctx.pp_region_idx_ < 0 := by
    simp only [PP_DIRECTIVE_MAX]; omega
  simp only [prepro_push_region, h1, if_true]
  rfl

set_option maxRecDepth 1000000 in
/-- C38: the push of a region by `#if` / `#ifdef` with the 16-entry `pp_region_` at depth
`idx` (`0 ≤ idx`).  For `idx ≤ 14` the entry written is `idx + 1`, inside the array, and
the depth becomes `idx + 1`.  For `idx ≥ 16` the nest-too-deep error is raised and nothing
is written.  For `idx = 15` the check `pp_region_idx_ >= PP_DIRECTIVE_MAX` passes and the
entry written is `pp_region_[16]`, outside the array: 15 nested `#if 1` are accepted, the
sixteenth is not rejected but writes outside the array. -/
theorem region_stack_write_index (pctx : prepro_context_t) (is_valid : Bool) (line : Nat)
    (hlen : pctx.pp_region_.length = 16) (h0 : 0 ≤ pctx.pp_region_idx_) :
    (pctx.pp_region_idx_ ≤ 14 →
      ∃ pctx1, prepro_push_region pctx is_valid line = .ok pctx1 ∧
        pctx1.pp_region_idx_ = pctx.pp_region_idx_ + 1 ∧
        pctx1.pp_region_ = pctx.pp_region_.set (pctx.pp_region_idx_ + 1).toNat
          { is_valid_ := pctx.is_current_region_valid_ && is_valid, line_ := pctx.line_ } ∧
        (pctx.pp_region_idx_ + 1).toNat < pctx.pp_region_.length ∧
        pctx1.pp_region_.length = 16) ∧
    (16 ≤ pctx.pp_region_idx_ →
      prepro_push_region pctx is_valid line = .error (.raise line)) ∧
    (pctx.pp_region_idx_ = 15 →
      prepro_push_region pctx is_valid line = .error (.undefined (line + 4))) ∧
    (prepro_do (nested_regions 15)).isOk = true ∧
    prepro_do (nested_regions 16) = .error (.undefined 2515) := by
  refine ⟨fun h => ?_, fun h => prepro_push_region_deep pctx is_valid line h,
    fun h => prepro_push_region_last pctx is_valid line hlen h, by decide!, by decide!⟩
  refine ⟨_, prepro_push_region_below pctx is_valid line hlen h0 h, rfl, rfl, ?_, ?_⟩
  · rw [hlen]; omega
  · simp [hlen]

/-- C38 at the fresh context: the first region is written at index 1. -/
theorem region_stack_write_index_witness :
    ∃ pctx1, prepro_push_region create_prepro_context true 2511 = .ok pctx1 ∧
      pctx1.pp_region_idx_ = 1 :=
  have h := (region_stack_write_index create_prepro_context true 2511 (by decide)
    (by decide)).1 (by decide)
  h.elim fun pctx1 hp => ⟨pctx1, hp.1, hp.2.1⟩

theorem string_add_at_granule (var : variable_t) (i : Int) (s t : CStr)
    (hvar : string_variable var) (hi : 0 ≤ i) (hlen : i + 1 < var.length_)
    (hs : string_element var i = .ok s)
    (hfull : (s.length : Int) + t.length = var.granule_size_) :
    ∃ data1, variable_add var (.string t) i = .ok { var with data_ := data1 } ∧
      string_element { var with data_ := data1 } (i + 1) = .ok [] := by
  obtain ⟨hty, hg0, hgmax, hdata⟩ := hvar
  obtain ⟨hoff0, pre, bs, rest, hd, hoff, hz, hbs⟩ := load_cstr_split _ _ _ _ hs
  have hslen : bs.length = s.length := by rw [← hbs]; simp [bytes_string]
  simp only [INT_MAX] at hgmax
  have hsl : (s.length : Int) ≤ 2147483647 := by omega
  have htl : (t.length : Int) ≤ 2147483647 := by omega
  have hsl0 : INT_MIN ≤ (s.length : Int) := by simp only [INT_MIN]; omega
  have htl0 : INT_MIN ≤ (t.length : Int) := by simp only [INT_MIN]; omega
  have hnofit : ¬ ((s.length : Int) + t.length > var.granule_size_) := by omega
  have hend : var.granule_size_ * i + 2 * var.granule_size_ ≤
      var.granule_size_ * var.length_ := by
    have : var.granule_size_ * (i + 2) ≤ var.granule_size_ * var.length_ :=
      Int.mul_le_mul_of_nonneg_left (by omega) (by omega)
    rw [Int.mul_add] at this
    linarith
  have hdl : (var.data_.length : Int) = pre.length + bs.length + 1 + rest.length := by
    rw [hd]; simp; ring
  have hrest : t.length ≤ rest.length := by omega
  have hptr : variable_data_ptr var i = .ok (var.granule_size_ * i) := by
    simp [variable_data_ptr, hty, show ¬ (i < 0 ∨ i ≥ var.length_) from by omega, pure,
      Except.pure]
  have htb : (cstr_bytes t).length ≤ (0 :: rest).length := by
    simp [cstr_bytes]; omega
  have hw := mem_write_at (pre ++ bs) (0 :: rest) (cstr_bytes t)
    (var.granule_size_ * i + s.length) (by rw [hoff, ← hslen]; simp) htb
  rw [← hd] at hw
  have hw1 : wrap32 (s.length : Int) = s.length := wrap32_of_range _ hsl0 hsl
  have hw2 : wrap32 (t.length : Int) = t.length := wrap32_of_range _ htl0 htl
  refine ⟨pre ++ bs ++ cstr_bytes t ++ List.drop (cstr_bytes t).length (0 :: rest), ?_, ?_⟩
  · have htyeq : (var.type_ != (value_t.string t).type_) = false := by rw [hty]; rfl
    unfold string_element at hs
    unfold variable_add
    rw [htyeq]
    simp only [Bool.false_eq_true, ↓reduceIte]
    rw [hptr, except_ok_bind]
    rw [hs, except_ok_bind]
    rw [hw1, hw2, if_neg hnofit]
    unfold store_bytes
    rw [hw]
    rfl
  · have hdrop : (0 :: rest).drop (cstr_bytes t).length = rest.drop t.length := by
      simp [cstr_bytes]
    have hcat : pre ++ bs ++ cstr_bytes t ++ rest.drop t.length =
        (pre ++ bs ++ t.map Char.toNat) ++ [] ++ 0 :: rest.drop t.length := by
      simp [cstr_bytes]
    have hoff1 : var.granule_size_ * (i + 1) =
        ((pre ++ bs ++ t.map Char.toNat).length : Int) := by
      simp only [List.length_append, List.length_map, Nat.cast_add, hslen]
      rw [← hoff, Int.mul_add, Int.mul_one]
      omega
    unfold string_element load_cstr
    simp only [hdrop, hcat]
    rw [mem_cstr_at _ [] _ _ hoff1 (by simp)]
    rfl

set_option maxRecDepth 1000000 in
/-- C37: `v(i) += t` on a STRING variable (in the layout `prepare_variable` gives it) whose
element `i` holds `s`, with `len(s) + len(t)` equal to the granule and an element `i + 1`
behind it.  The test `varstrlen + vstrlen > granule_size_` of `variable_add` does not count
the terminator: the append succeeds without an error and without a new allocation, the
granule stays as it was, so `len(s) + len(t) + 1` exceeds it, and the terminator is written
into the first byte of element `i + 1`, which reads as the empty string afterwards.  The
script `sdim s, 4, 2 : s(1) = "xyz" : s(0) = "ab" : s(0) += "cd" : mes s(0) : mes s(1)`
prints `abcd` and an empty line. -/
theorem string_add_filling_granule_overruns (var : variable_t) (i : Int) (s t : CStr)
    (hvar : string_variable var) (hi : 0 ≤ i) (hlen : i + 1 < var.length_)
    (hs : string_element var i = .ok s)
    (hfull : (s.length : Int) + t.length = var.granule_size_) :
    (∃ var1 : variable_t,
      variable_add var (.string t) i = .ok var1 ∧
      var1.granule_size_ = var.granule_size_ ∧ var1.length_ = var.length_ ∧
      ¬ ((s.length : Int) + t.length + 1 ≤ var1.granule_size_) ∧
      string_element var1 (i + 1) = .ok []) ∧
    run_script example_host 1000
      "sdim s, 4, 2 : s(1) = \"xyz\" : s(0) = \"ab\" : s(0) += \"cd\" : mes s(0) : mes s(1)".toList
      [] = .ok ["abcd".toList, []] := by
  refine ⟨?_, by decide!⟩
  obtain ⟨data1, hadd, hel⟩ := string_add_at_granule var i s t hvar hi hlen hs hfull
  exact ⟨_, hadd, rfl, rfl, by show ¬ ((s.length : Int) + t.length + 1 ≤ var.granule_size_); omega, hel⟩

/-- C37 at `s(0) += "cd"` for the variable of `sdim s, 4, 2 : s(1) = "xyz" : s(0) = "ab"`:
element 1, which held `xyz`, is empty afterwards. -/
theorem string_add_filling_granule_overruns_witness :
    string_element example_full_granule_variable 1 = .ok "xyz".toList ∧
    ∃ var1 : variable_t,
      variable_add example_full_granule_variable (.string "cd".toList) 0 = .ok var1 ∧
      string_element var1 (0 + 1) = .ok [] :=
  ⟨by decide,
   (string_add_filling_granule_overruns example_full_granule_variable 0 "ab".toList
      "cd".toList ⟨rfl, by decide, by decide, by decide⟩ (by decide) (by decide) (by decide)
      (by decide)).1.elim
    fun var1 hv => ⟨var1, hv.1, hv.2.2.2.2⟩⟩

theorem expand_replacement_indicator (m : macro_t) (marg : List (Option CStr)) (fuel : Nat)
    (lpctx lpctx1 lpctx2 : parse_context_t) (ist it : token_t) (iprev : Option token_t)
    (sb : CStr)
    (h1 : read_token lpctx = .ok (ist, lpctx1)) (htag : ist.tag_ = TOKEN_PP_ARG_INDICATOR)
    (h2 : read_token lpctx1 = .ok (it, lpctx2)) (hint : it.tag_ = TOKEN_INTEGER)
    (hsp : it.left_space_ = false) :
    expand_replacement m marg (fuel + 1) lpctx iprev sb =
      if atoi it.content_ - 1 < 0 ∨ atoi it.content_ - 1 > m.param_num_ then
        .error (.raise 2883)
      else
        (array_get m.params_ (atoi it.content_ - 1) 2886) >>= fun mp =>
        (array_get marg (atoi it.content_ - 1) 2887) >>= fun ma =>
        (in_bounds 2889 (if ma.isNone then mp else ma)) >>= fun text =>
        expand_replacement m marg fuel lpctx2 (some it) (string_buffer_append sb text (-1)) := by
  rw [expand_replacement, h1, except_ok_bind]
  simp only [htag, hint, hsp]
  rw [h2, except_ok_bind]
  have e1 : (TOKEN_PP_ARG_INDICATOR == TOKEN_EOF) = false := by decide
  have e2 : (TOKEN_PP_ARG_INDICATOR == TOKEN_PP_ARG_INDICATOR) = true := by decide
  have e3 : (TOKEN_INTEGER != TOKEN_INTEGER || false) = false := by decide
  simp only [e1, e2, e3, hint, hsp, Bool.false_eq_true, if_false, if_true]
  split <;> rfl

set_option maxRecDepth 1000000 in
/-- C40: the step of the replacement loop of a macro with `param_num_` parameters at a
reference `%N` (the token `%` followed, without a blank, by the integer token `N`).  For
`N < 1` and for `N > param_num_ + 1` the expansion error is raised.  For
`1 ≤ N ≤ param_num_` the argument text, or the declared default when the argument was
omitted, is appended.  For `N = param_num_ + 1` the test `itidx > param_num_` lets the
reference pass: no error is raised, entry `param_num_` of the parameters and of the
arguments is read, which no definition and no call sets, and the null text is appended.
With `#define ctype f(%1) %1+%3` and with `%0` the call `f(1)` raises the error; with
`%1+%2` it does not. -/
theorem parameter_reference_range (m : macro_t) (marg : List (Option CStr)) (fuel : Nat)
    (lpctx lpctx1 lpctx2 : parse_context_t) (ist it : token_t) (iprev : Option token_t)
    (sb : CStr)
    (h1 : read_token lpctx = .ok (ist, lpctx1)) (htag : ist.tag_ = TOKEN_PP_ARG_INDICATOR)
    (h2 : read_token lpctx1 = .ok (it, lpctx2)) (hint : it.tag_ = TOKEN_INTEGER)
    (hsp : it.left_space_ = false) :
    ((atoi it.content_ < 1 ∨ m.param_num_ + 1 < atoi it.content_) →
      expand_replacement m marg (fuel + 1) lpctx iprev sb = .error (.raise 2883)) ∧
    (∀ (mp ma : Option CStr) (text : CStr),
      1 ≤ atoi it.content_ → atoi it.content_ ≤ m.param_num_ →
      m.params_[(atoi it.content_ - 1).toNat]? = some mp →
      marg[(atoi it.content_ - 1).toNat]? = some ma →
      (if ma.isNone then mp else ma) = some text →
      expand_replacement m marg (fuel + 1) lpctx iprev sb =
        expand_replacement m marg fuel lpctx2 (some it) (sb ++ text)) ∧
    (atoi it.content_ = m.param_num_ + 1 → 0 ≤ m.param_num_ →
      m.params_[m.param_num_.toNat]? = some none →
      marg[m.param_num_.toNat]? = some none →
      expand_replacement m marg (fuel + 1) lpctx iprev sb = .error (.undefined 2889)) ∧
    prepro_do "#define ctype f(%1) %1+%3\nmes f(1)\n".toList = .error (.raise 2883) ∧
    prepro_do "#define ctype f(%1) %1+%0\nmes f(1)\n".toList = .error (.raise 2883) ∧
    prepro_do "#define ctype f(%1,%2=5) %2+%1\nmes f(1)\n".toList = .ok "\nmes 5+1\n".toList ∧
    prepro_do "#define ctype f(%1) %1+%2\nmes f(1)\n".toList = .error (.undefined 2889) := by
  have hstep := expand_replacement_indicator m marg fuel lpctx lpctx1 lpctx2 ist it iprev sb
    h1 htag h2 hint hsp
  refine ⟨?_, ?_, ?_, by decide!, by decide!, by decide!, by decide!⟩
  · intro h
    rw [hstep, if_pos (by omega)]
  · intro mp ma text hlo hhi hmp hma htext
    rw [hstep, if_neg (by omega)]
    simp only [array_get, if_pos (show 0 ≤ atoi it.content_ - 1 by omega), hmp, hma, in_bounds,
      htext, except_ok_bind, string_buffer_append]
    rfl
  · intro hN h0 hmp hma
    rw [hstep, if_neg (by omega)]
    have hidx : atoi it.content_ - 1 = m.param_num_ := by omega
    simp only [hidx, array_get, if_pos h0, hmp, hma, in_bounds, except_ok_bind]
    rfl

/-- C40 at the reference `%2` of the macro of `#define ctype f(%1) %2` called as `f(1)`:
no expansion error is raised. -/
theorem parameter_reference_range_witness :
    example_reference_rule.param_num_ = 1 ∧ atoi example_index_token.content_ = 2 ∧
    expand_replacement example_reference_rule (some ['1'] :: List.replicate 15 none) (0 + 1)
      (example_reference_context 0) none [] = .error (.undefined 2889) :=
  ⟨rfl, by decide,
   (parameter_reference_range example_reference_rule (some ['1'] :: List.replicate 15 none) 0
      (example_reference_context 0) (example_reference_context 1)
      (example_reference_context 2) example_indicator_token example_index_token none []
      (by decide) rfl (by decide) rfl rfl).2.2.1 (by decide) (by decide) (by decide)
      (by decide)⟩

theorem mem_write_length (data data1 : List Nat) (off : Int) (bs : List Nat)
    (h : mem_write data off bs = some data1) :
    data1.length = data.length ∧ 0 ≤ off ∧ off.toNat + bs.length ≤ data.length ∧
    data1 = data.take off.toNat ++ bs ++ data.drop (off.toNat + bs.length) := by
  unfold mem_write at h
  split at h
  · rename_i hc
    simp only [Option.some.injEq] at h
    subst h
    refine ⟨?_, hc.1, hc.2, rfl⟩
    simp only [List.length_append, List.length_take, List.length_drop]
    omega
  · cases h

theorem mem_read_write_other (data data1 : List Nat) (off off2 : Int) (bs : List Nat) (n : Nat)
    (h : mem_write data off bs = some data1) (h0 : 0 ≤ off2)
    (hd : off2 + n ≤ off ∨ off + bs.length ≤ off2) :
    mem_read data1 off2 n = mem_read data off2 n := by
  obtain ⟨hlen, hoff, hin, heq⟩ := mem_write_length data data1 off bs h
  unfold mem_read
  rw [hlen]
  by_cases hc : 0 ≤ off2 ∧ off2.toNat + n ≤ data.length
  · rw [if_pos hc, if_pos hc]
    congr 1
    rw [heq]
    rcases hd with hd | hd
    · have h1 : off2.toNat + n ≤ off.toNat := by omega
      rw [List.take_drop, List.take_drop, List.append_assoc,
        List.take_append_of_le_length (by rw [List.length_take]; omega),
        List.take_take, Nat.min_eq_left h1]
    · have h1 : off.toNat + bs.length ≤ off2.toNat := by omega
      have h2 : (data.take off.toNat ++ bs).length = off.toNat + bs.length := by
        rw [List.length_append, List.length_take]; omega
      rw [List.drop_append_eq_append_drop, h2, List.drop_drop,
        List.drop_of_length_le (by omega), List.nil_append]
      congr 2
      omega
  · rw [if_neg hc, if_neg hc]

theorem variable_set_in_place (var : variable_t) (x : value_t) (i : Int)
    (hty : var.type_ = x.type_) (hsz : 0 < element_size var)
    (hg0 : 0 ≤ var.granule_size_) (hg1 : var.granule_size_ ≤ INT_MAX)
    (hdata : element_size var * var.length_ ≤ var.data_.length)
    (hi : 0 ≤ i) (hlen : i < var.length_)
    (hfit : ∀ str, x = .string str → (str.length : Int) + 1 ≤ var.granule_size_) :
    ∃ data1, variable_set var x i = .ok { var with data_ := data1 } ∧
      mem_write var.data_ (element_size var * i) (value_bytes x) = some data1 ∧
      ((value_bytes x).length : Int) ≤ element_size var := by
  have hne : (var.type_ != x.type_) = false := by rw [hty]; simp
  have hend : element_size var * i + element_size var ≤ var.data_.length := by
    have : element_size var * (i + 1) ≤ element_size var * var.length_ :=
      Int.mul_le_mul_of_nonneg_left (by omega) (by omega)
    rw [Int.mul_add, Int.mul_one] at this
    omega
  have hoff : 0 ≤ element_size var * i := Int.mul_nonneg (by omega) hi
  have hi1 : ¬ (i < 0) := by omega
  have hi2 : ¬ (var.length_ ≤ i) := by omega
  have hi3 : ¬ (i < 0 ∨ i ≥ var.length_) := by omega
  have hw : ∀ bs : List Nat, (bs.length : Int) ≤ element_size var →
      mem_write var.data_ (element_size var * i) bs =
        some (var.data_.take (element_size var * i).toNat ++ bs ++
          var.data_.drop ((element_size var * i).toNat + bs.length)) := by
    intro bs hbs
    unfold mem_write
    rw [if_pos ⟨hoff, by omega⟩]
  rcases x with _ | n | d | str | ⟨a, b⟩
  · simp only [value_t.type_] at hty
    simp only [element_size, hty] at hsz
    omega
  · simp only [value_t.type_] at hty
    have hes : element_size var = 4 := by simp only [element_size, hty]
    have hb : ((value_bytes (.int n)).length : Int) ≤ element_size var := by
      rw [hes]; simp [value_bytes, int_bytes, le_bytes]
    have hinit : decide (var.granule_size_ < 0) = false := by
      simp only [decide_eq_false_iff_not]; omega
    refine ⟨_, ?_, hw _ hb, hb⟩
    have hw1 := hw _ hb
    simp only [value_bytes, hes] at hw1
    simp only [variable_set, hne, hinit, hi1, hi2, Bool.false_eq_true, if_false, bind,
      Except.bind, pure, Except.pure]
    simp only [variable_data_ptr, hi3, hty, if_false, pure, Except.pure, store_bytes, hw1,
      in_bounds, bind, Except.bind, hes]
    rfl
  · simp only [value_t.type_] at hty
    have hes : element_size var = 8 := by simp only [element_size, hty]
    have hb : ((value_bytes (.double d)).length : Int) ≤ element_size var := by
      rw [hes]; simp [value_bytes, double_bytes, le_bytes]
    have hinit : decide (var.granule_size_ < 0) = false := by
      simp only [decide_eq_false_iff_not]; omega
    refine ⟨_, ?_, hw _ hb, hb⟩
    have hw1 := hw _ hb
    simp only [value_bytes, hes] at hw1
    simp only [variable_set, hne, hinit, hi1, hi2, Bool.false_eq_true, if_false, bind,
      Except.bind, pure, Except.pure]
    simp only [variable_data_ptr, hi3, hty, if_false, pure, Except.pure, store_bytes, hw1,
      in_bounds, bind, Except.bind, hes]
    rfl
  · simp only [value_t.type_] at hty
    have hes : element_size var = var.granule_size_ := by simp only [element_size, hty]
    have hf := hfit str rfl
    simp only [INT_MAX] at hg1
    have hwr : wrap32 (str.length : Int) = str.length :=
      wrap32_of_range _ (by simp only [INT_MIN]; omega) (by simp only [INT_MAX]; omega)
    have hb : ((value_bytes (.string str)).length : Int) ≤ element_size var := by
      rw [hes]; simp [value_bytes, cstr_bytes]; omega
    have hinit : decide (var.granule_size_ < (str.length : Int) + 1) = false := by
      simp only [decide_eq_false_iff_not]; omega
    refine ⟨_, ?_, hw _ hb, hb⟩
    have hw1 := hw _ hb
    simp only [value_bytes, hes] at hw1
    unfold variable_set
    rw [hne]
    dsimp only []
    rw [if_neg Bool.false_ne_true, pure_bind, if_neg hi1, if_neg hi2, hwr, hinit,
      if_neg Bool.false_ne_true, pure_bind, hne, if_neg Bool.false_ne_true]
    have hptr : variable_data_ptr var i = .ok (var.granule_size_ * i) := by
      simp only [variable_data_ptr, hi3, hty, if_false]
      rfl
    rw [hptr, except_ok_bind]
    unfold store_bytes
    rw [hw1]
    simp only [hes]
    rfl
  · simp only [value_t.type_] at hty
    simp only [element_size, hty] at hsz
    omega

theorem bytes_to_nul_take (l : List Nat) (n : Nat) (h : 0 ∈ l.take n) :
    bytes_to_nul l = bytes_to_nul (l.take n) := by
  induction l generalizing n with
  | nil => simp at h
  | cons a l ih =>
      cases n with
      | zero => simp at h
      | succ n =>
          rw [List.take_succ_cons] at h ⊢
          unfold bytes_to_nul
          by_cases ha : a = 0
          · subst ha
            rfl
          · have ha1 : (a == 0) = false := by simpa using ha
            have hmem : 0 ∈ l.take n := by
              rcases List.mem_cons.mp h with h0 | h0
              · exact absurd h0.symm ha
              · exact h0
            simp only [ha1, Bool.false_eq_true, if_false]
            rw [ih n hmem]

theorem mem_cstr_of_read (data : List Nat) (off : Int) (n : Nat) (chunk : List Nat)
    (h : mem_read data off n = some chunk) (hz : 0 ∈ chunk) :
    mem_cstr data off = (bytes_to_nul chunk).map (fun bs => bs.map Char.ofNat) := by
  unfold mem_read at h
  split at h
  · rename_i hc
    simp only [Option.some.injEq] at h
    subst h
    unfold mem_cstr
    rw [if_pos ⟨hc.1, by omega⟩, bytes_to_nul_take _ n hz]
  · cases h

theorem element_bytes_after_write (var : variable_t) (data1 : List Nat) (i j : Int)
    (bs : List Nat) (hsz : 0 < element_size var)
    (hw : mem_write var.data_ (element_size var * i) bs = some data1)
    (hb : (bs.length : Int) ≤ element_size var) (hj : 0 ≤ j) (hji : j ≠ i) :
    element_bytes { var with data_ := data1 } j = element_bytes var j := by
  have hes : element_size { var with data_ := data1 } = element_size var := rfl
  unfold element_bytes
  rw [hes]
  refine mem_read_write_other _ _ _ _ _ _ hw (Int.mul_nonneg (by omega) hj) ?_
  rw [Int.toNat_of_nonneg (by omega)]
  rcases Int.lt_or_gt_of_ne hji with hlt | hgt
  · left
    have : element_size var * (j + 1) ≤ element_size var * i :=
      Int.mul_le_mul_of_nonneg_left (by omega) (by omega)
    rw [Int.mul_add, Int.mul_one] at this
    exact this
  · right
    have : element_size var * (i + 1) ≤ element_size var * j :=
      Int.mul_le_mul_of_nonneg_left (by omega) (by omega)
    rw [Int.mul_add, Int.mul_one] at this
    omega

theorem element_reads_of_bytes (var : variable_t) (data1 : List Nat) (j : Int)
    (h : element_bytes { var with data_ := data1 } j = element_bytes var j) :
    (var.type_ = VALUE_INT →
      variable_calc_int { var with data_ := data1 } j = variable_calc_int var j) ∧
    (var.type_ = VALUE_DOUBLE →
      variable_calc_double { var with data_ := data1 } j = variable_calc_double var j) ∧
    (var.type_ = VALUE_STRING → (∃ bs, element_bytes var j = some bs ∧ 0 ∈ bs) →
      variable_calc_string { var with data_ := data1 } j = variable_calc_string var j) := by
  have hptr : variable_data_ptr { var with data_ := data1 } j = variable_data_ptr var j := rfl
  refine ⟨fun hty => ?_, fun hty => ?_, fun hty hz => ?_⟩
  · have hes : element_size var = 4 := by simp only [element_size, hty]
    have hes1 : element_size { var with data_ := data1 } = 4 := hes
    simp only [element_bytes, hes, hes1] at h
    have h4 : (4 : Int).toNat = 4 := rfl
    rw [h4] at h
    unfold variable_calc_int
    rw [hptr]
    have hp : variable_data_ptr var j = .ok (4 * j) ∨ ∃ err, variable_data_ptr var j = .error err := by
      unfold variable_data_ptr
      split
      · exact Or.inr ⟨_, rfl⟩
      · rw [hty]; exact Or.inl rfl
    rcases hp with hp | ⟨err, hp⟩
    · rw [hp, except_ok_bind, except_ok_bind]
      simp only [hty, load_int, h]
    · rw [hp]; rfl
  · have hes : element_size var = 8 := by simp only [element_size, hty]
    have hes1 : element_size { var with data_ := data1 } = 8 := hes
    simp only [element_bytes, hes, hes1] at h
    have h8 : (8 : Int).toNat = 8 := rfl
    rw [h8] at h
    unfold variable_calc_double
    rw [hptr]
    have hp : variable_data_ptr var j = .ok (8 * j) ∨ ∃ err, variable_data_ptr var j = .error err := by
      unfold variable_data_ptr
      split
      · exact Or.inr ⟨_, rfl⟩
      · rw [hty]; exact Or.inl rfl
    rcases hp with hp | ⟨err, hp⟩
    · rw [hp, except_ok_bind, except_ok_bind]
      simp only [hty, load_double, h]
    · rw [hp]; rfl
  · obtain ⟨bs, hbs, h0⟩ := hz
    have hes : element_size var = var.granule_size_ := by simp only [element_size, hty]
    have hes1 : element_size { var with data_ := data1 } = var.granule_size_ := hes
    rw [hbs] at h
    simp only [element_bytes, hes, hes1] at h hbs
    have hc1 := mem_cstr_of_read _ _ _ _ h h0
    have hc := mem_cstr_of_read _ _ _ _ hbs h0
    unfold variable_calc_string
    rw [hptr]
    have hp : variable_data_ptr var j = .ok (var.granule_size_ * j) ∨
        ∃ err, variable_data_ptr var j = .error err := by
      unfold variable_data_ptr
      split
      · exact Or.inr ⟨_, rfl⟩
      · rw [hty]; exact Or.inl rfl
    rcases hp with hp | ⟨err, hp⟩
    · rw [hp, except_ok_bind, except_ok_bind]
      simp only [hty, load_cstr, hc, hc1]
    · rw [hp]; rfl

/-- C36: `variable_set( var, x, i )` on a variable laid out as `prepare_variable` leaves it
(elements of 4, 8 or granule bytes, all inside the storage), with `x` of the variable's
type, `0 ≤ i < length_` and, when `x` is a string, `len(x) + 1` within the granule: the
call succeeds, type, length, granule and storage size stay as they were, and every
element `j ≠ i` keeps its bytes, so that it reads the same through `variable_calc_int` (INT
variable), `variable_calc_double` (DOUBLE variable) and `variable_calc_string` (STRING
variable whose element `j` holds its terminator). -/
theorem variable_set_changes_one_element (var : variable_t) (x : value_t) (i : Int)
    (hty : var.type_ = x.type_) (hsz : 0 < element_size var)
    (hg0 : 0 ≤ var.granule_size_) (hg1 : var.granule_size_ ≤ INT_MAX)
    (hdata : element_size var * var.length_ ≤ var.data_.length)
    (hi : 0 ≤ i) (hlen : i < var.length_)
    (hfit : ∀ str, x = .string str → (str.length : Int) + 1 ≤ var.granule_size_) :
    ∃ var1 : variable_t, variable_set var x i = .ok var1 ∧
      var1.type_ = var.type_ ∧ var1.length_ = var.length_ ∧
      var1.granule_size_ = var.granule_size_ ∧ var1.data_.length = var.data_.length ∧
      ∀ j : Int, 0 ≤ j → j ≠ i →
        element_bytes var1 j = element_bytes var j ∧
        (var.type_ = VALUE_INT → variable_calc_int var1 j = variable_calc_int var j) ∧
        (var.type_ = VALUE_DOUBLE →
          variable_calc_double var1 j = variable_calc_double var j) ∧
        (var.type_ = VALUE_STRING → (∃ bs, element_bytes var j = some bs ∧ 0 ∈ bs) →
          variable_calc_string var1 j = variable_calc_string var j) := by
  obtain ⟨data1, hset, hw, hb⟩ :=
    variable_set_in_place var x i hty hsz hg0 hg1 hdata hi hlen hfit
  refine ⟨_, hset, rfl, rfl, rfl, (mem_write_length _ _ _ _ hw).1, ?_⟩
  intro j hj hji
  have hbytes := element_bytes_after_write var data1 i j _ hsz hw hb hj hji
  exact ⟨hbytes, element_reads_of_bytes var data1 j hbytes⟩

/-- C36 at `s(0) = "lon"` for the variable of `sdim s, 4, 2 : s(1) = "ab"`: element 1
still reads `ab`. -/
theorem variable_set_changes_one_element_witness :
    ∃ var1 : variable_t,
      variable_set example_two_strings_variable (.string "lon".toList) 0 = .ok var1 ∧
      variable_calc_string var1 1 = variable_calc_string example_two_strings_variable 1 :=
  (variable_set_changes_one_element example_two_strings_variable (.string "lon".toList) 0
    rfl (by decide) (by decide) (by decide) (by decide) (by decide) (by decide)
    (fun str h => by cases h; decide)).elim
    fun var1 hv => ⟨var1, hv.1,
      (hv.2.2.2.2.2 1 (by decide) (by decide)).2.2.2 rfl ⟨[97, 98, 0, 0], by decide, by decide⟩⟩

set_option maxRecDepth 1000000 in
/-- A string assignment that changes other elements: `s(0) = "longer"` for the variable of
`sdim s, 4, 2 : s(1) = "ab"`.  The string does not fit the granule 4, `variable_set`
prepares the variable again with granule 7 and the same length 2, and element 1, which
held `ab`, reads as the empty string afterwards.  The script
`sdim s, 4, 2 : s(1) = "ab" : s(0) = "longer" : mes s(1) : mes s(0)` prints an empty line
and `longer`. -/
theorem string_assignment_beyond_granule_clears_elements :
    variable_calc_string example_two_strings_variable 1 = .ok "ab".toList ∧
    (∃ var1 : variable_t,
      variable_set example_two_strings_variable (.string "longer".toList) 0 = .ok var1 ∧
      var1.length_ = 2 ∧ var1.granule_size_ = 7 ∧
      variable_calc_string var1 0 = .ok "longer".toList ∧
      variable_calc_string var1 1 = .ok []) ∧
    run_script example_host 1000
      "sdim s, 4, 2 : s(1) = \"ab\" : s(0) = \"longer\" : mes s(1) : mes s(0)".toList [] =
      .ok [[], "longer".toList] := by
  refine ⟨by decide!, ⟨example_regrown_variable, by decide!, ?_⟩, by decide!⟩
  decide!

theorem prepro_register_regions (pctx pctx1 : prepro_context_t) (m : macro_t)
    (h : prepro_register_macro pctx m = .ok pctx1) : same_regions pctx pctx1 := by
  unfold prepro_register_macro at h
  split at h
  · cases h
  · cases h
    exact ⟨rfl, rfl, rfl⟩

theorem prepro_define_regions (pctx pctx1 : prepro_context_t) (script : CStr)
    (c : parse_context_t) (h : prepro_define pctx script c = .ok pctx1) :
    same_regions pctx pctx1 := by
  simp only [prepro_define, bind_ok_iff, ite_ok_iff, pure_ok_iff, throw_ok_iff,
    error_ok_iff, false_and, and_false, exists_false, false_or, or_false] at h
  casesm* _ ∨ _, _ ∧ _, ∃ _, _
  all_goals
    first
    | exact prepro_register_regions _ _ _ (by assumption)
    | (subst_vars; exact ⟨rfl, rfl, rfl⟩)

theorem prepro_erase_regions (pctx pctx1 : prepro_context_t) (name : CStr)
    (h : prepro_erase_macro pctx name = some pctx1) : same_regions pctx pctx1 := by
  unfold prepro_erase_macro at h
  simp only [] at h
  split at h
  · cases h
    exact ⟨rfl, rfl, rfl⟩
  · cases h

theorem prepro_line_regions (pctx pctx1 : prepro_context_t) (line out : CStr)
    (h : prepro_line pctx line = .ok (out, pctx1)) :
    (line_directive line = some PREPRO_IF ∧
      ∃ c, prepro_push_region pctx c 2511 = .ok pctx1 ∧
        (pctx.is_current_region_valid_ = false → c = false) ∧
        (pctx.is_current_region_valid_ = true →
          ∃ text ev, if_expression line = .ok text ∧
            prepro_evaluate pctx text (2483, 2490, 0) = .ok ev ∧
            value_calc_boolean [] ev = .ok c)) ∨
    (line_directive line = some PREPRO_IFDEF ∧
      ∃ it et, directive_operands line = .ok (it, et) ∧
        prepro_push_region pctx ( prepro_find_macro pctx it.content_).isSome 2533 =
          .ok pctx1) ∨
    (line_directive line = some PREPRO_ENDIF ∧ 0 < pctx.pp_region_idx_ ∧
      ∃ region, array_get pctx.pp_region_ (pctx.pp_region_idx_ - 1) 2557 = .ok region ∧
        pctx1 = { pctx with pp_region_idx_ := pctx.pp_region_idx_ - 1,
                            is_current_region_valid_ := region.is_valid_ }) ∨
    (line_directive line ≠ some PREPRO_IF ∧ line_directive line ≠ some PREPRO_IFDEF ∧
      line_directive line ≠ some PREPRO_ENDIF ∧ same_regions pctx pctx1) := by
  by_cases hs : chAt (line.dropWhile is_space) 0 = '#'
  swap
  · have h2 : line_directive line = none := by simp [line_directive, hs]
    simp [prepro_line, hs, bind, Except.bind, pure, Except.pure] at h
    split at h
    · cases h
    · simp only [Except.ok.injEq, Prod.mk.injEq] at h
      rw [← h.2, h2]
      simp [same_regions]
  cases hr : read_token (initialize_parse_context
      (initialize_tokenize_context (line.dropWhile is_space).tail)) with
  | error err =>
      simp [prepro_line, hs, hr, bind, Except.bind] at h
  | ok r =>
      obtain ⟨st, c⟩ := r
      by_cases htag : st.tag_ = TOKEN_IDENTIFIER
      swap
      · simp [prepro_line, hs, hr, htag, bind, Except.bind, throw, throwThe,
          MonadExceptOf.throw] at h
      have h2 : line_directive line = query_preprocessor st.content_ := by
        simp [line_directive, hs, hr, htag]
      rw [h2]
      cases hq : query_preprocessor st.content_ with
      | none =>
          simp [prepro_line, hs, hr, htag, hq, bind, Except.bind, throw, throwThe,
            MonadExceptOf.throw, pure, Except.pure] at h
      | some tag =>
          cases tag <;>
            simp [prepro_line, hs, hr, htag, hq, bind, Except.bind, throw, throwThe,
              MonadExceptOf.throw, pure, Except.pure] at h
          · split at h
            · cases h
            · rename_i v hv
              simp only [Except.ok.injEq, Prod.mk.injEq] at h
              rw [← h.2]
              simp [prepro_define_regions _ _ _ _ hv]
          · split at h
            · repeat (split at h; try cases h)
              rename_i p hp
              simp only [Except.ok.injEq, Prod.mk.injEq] at h
              rw [← h.2]
              simp [prepro_erase_regions _ _ _ hp]
            · simp only [Except.ok.injEq, Prod.mk.injEq] at h
              rw [← h.2]
              simp [same_regions]
          · split at h
            · repeat (split at h; try cases h)
              rename_i hval _ ev hev _ cb hcb _ p hp
              simp only [Except.ok.injEq, Prod.mk.injEq] at h
              rw [← h.2]
              refine Or.inl ⟨rfl, cb, hp, fun hf => (by rw [hf] at hval; cases hval), fun _ => ?_⟩
              refine ⟨_, ev, ?_, hev, hcb⟩
              simp [if_expression, hr, bind, Except.bind, pure, Except.pure]
            · repeat (split at h; try cases h)
              rename_i hval _ p hp
              simp only [Except.ok.injEq, Prod.mk.injEq] at h
              rw [← h.2]
              refine Or.inl ⟨rfl, false, hp, fun _ => rfl, fun ht => absurd ht hval⟩
          · repeat (split at h; try cases h)
            rename_i _ v2 hv2 _ v1 hv1 _ _ p hp
            simp only [Except.ok.injEq, Prod.mk.injEq] at h
            rw [← h.2]
            refine Or.inr (Or.inl ⟨rfl, v2.1, v1.1, ?_, hp⟩)
            simp [directive_operands, hr, hv2, hv1, bind, Except.bind, pure, Except.pure]
          · repeat (split at h; try cases h)
            · rename_i _ v1 hv1 _ hidx _ region hregion
              simp only [Except.ok.injEq, Prod.mk.injEq] at h
              rw [← h.2]
              exact Or.inr (Or.inr (Or.inl ⟨rfl, by omega, region, hregion, rfl⟩))
            · cases h
          · split at h
            · repeat (split at h; try cases h)
              all_goals try split_ifs at h
              all_goals try (cases h; done)
              all_goals try split at h
              all_goals try (cases h; done)
              all_goals
                rename_i p hp
                simp only [Except.ok.injEq, Prod.mk.injEq] at h
                rw [← h.2]
                have hreg := prepro_register_regions _ _ _ hp
                exact Or.inr (Or.inr (Or.inr ⟨by simp, by simp, by simp, hreg.1, hreg.2.1,
                  hreg.2.2⟩))
            · simp only [Except.ok.injEq, Prod.mk.injEq] at h
              rw [← h.2]
              simp [same_regions]

theorem regions_track_same (p q : prepro_context_t) (conds : List Bool)
    (h : regions_track p conds) (hs : same_regions p q) : regions_track q conds := by
  obtain ⟨h1, h2, h3, h4, h5⟩ := h
  obtain ⟨s1, s2, s3⟩ := hs
  exact ⟨by rw [s1, h1], by rw [s2, h2], h3, by rw [s2]; exact h4, by rw [s3, h5]⟩

theorem regions_track_push (pctx pctx1 : prepro_context_t) (conds : List Bool) (c : Bool)
    (line : Nat) (h : regions_track pctx conds)
    (hp : prepro_push_region pctx c line = .ok pctx1) :
    regions_track pctx1 (conds ++ [c]) := by
  obtain ⟨h1, h2, h3, h4, h5⟩ := h
  simp only [prepro_push_region, array_set, bind_ok_iff, ite_ok_iff, pure_ok_iff,
    throw_ok_iff, error_ok_iff, false_and, and_false, exists_false, false_or, or_false,
    PP_DIRECTIVE_MAX] at hp
  obtain ⟨hidx, _, _, regions, ⟨hin, hreg⟩, heq⟩ := hp
  subst heq
  subst hreg
  have hn : conds.length ≤ 14 := by omega
  have hnat : (pctx.pp_region_idx_ + 1).toNat = conds.length + 1 := by omega
  refine ⟨?_, ?_, ?_, ?_, ?_⟩
  · simp only [List.length_append, List.length_singleton]
    omega
  · simp only [List.length_set]
    exact h2
  · simp only [List.length_append, List.length_singleton]
    omega
  · intro j hj
    simp only [List.length_append, List.length_singleton] at hj
    simp only [hnat]
    by_cases hjn : j = conds.length + 1
    · subst hjn
      rw [List.getElem?_set_self (by omega)]
      simp only [Option.map, Option.some.injEq]
      rw [List.take_of_length_le (by simp), List.all_append, h5]
      simp
    · rw [List.getElem?_set_ne (by omega), List.take_append_of_le_length (by omega)]
      exact h4 j (by omega)
  · simp only [List.all_append, h5]
    simp

theorem regions_track_pop (pctx : prepro_context_t) (conds : List Bool) (region : pp_region_t)
    (h : regions_track pctx conds) (hidx : 0 < pctx.pp_region_idx_)
    (hr : array_get pctx.pp_region_ (pctx.pp_region_idx_ - 1) 2557 = .ok region) :
    conds ≠ [] ∧
    regions_track { pctx with pp_region_idx_ := pctx.pp_region_idx_ - 1,
                              is_current_region_valid_ := region.is_valid_ } conds.dropLast := by
  obtain ⟨h1, h2, h3, h4, h5⟩ := h
  have hne : conds ≠ [] := by
    intro hnil
    subst hnil
    simp at h1
    omega
  have hlen : conds.length ≠ 0 := by
    intro h0
    exact hne (List.length_eq_zero.mp h0)
  have hnat : (pctx.pp_region_idx_ - 1).toNat = conds.length - 1 := by omega
  have hvalid : region.is_valid_ = (conds.take (conds.length - 1)).all id := by
    unfold array_get at hr
    rw [if_pos (by omega), hnat] at hr
    have := h4 (conds.length - 1) (by omega)
    cases hg : pctx.pp_region_[conds.length - 1]? with
    | none => rw [hg] at hr; cases hr
    | some y =>
        rw [hg] at hr this
        simp only [in_bounds, Except.ok.injEq] at hr
        subst hr
        simpa using this
  refine ⟨hne, ?_, h2, ?_, ?_, ?_⟩
  · simp only [List.length_dropLast]
    omega
  · simp only [List.length_dropLast]
    omega
  · intro j hj
    simp only [List.length_dropLast] at hj
    rw [List.dropLast_eq_take, List.take_take, Nat.min_eq_left hj]
    exact h4 j (by omega)
  · rw [List.dropLast_eq_take]
    exact hvalid

theorem prepro_line_tracks (pctx pctx1 : prepro_context_t) (line out : CStr)
    (conds : List Bool) (ht : regions_track pctx conds)
    (h : prepro_line pctx line = .ok (out, pctx1)) :
    (line_directive line = some PREPRO_IF →
      ∃ c, regions_track pctx1 (conds ++ [c]) ∧
        (pctx.is_current_region_valid_ = true →
          ∃ text ev, if_expression line = .ok text ∧
            prepro_evaluate pctx text (2483, 2490, 0) = .ok ev ∧
            value_calc_boolean [] ev = .ok c)) ∧
    (line_directive line = some PREPRO_IFDEF →
      ∃ it et, directive_operands line = .ok (it, et) ∧
        regions_track pctx1 (conds ++ [( prepro_find_macro pctx it.content_).isSome])) ∧
    (line_directive line = some PREPRO_ENDIF →
      conds ≠ [] ∧ regions_track pctx1 conds.dropLast) ∧
    (line_directive line ≠ some PREPRO_IF → line_directive line ≠ some PREPRO_IFDEF →
      line_directive line ≠ some PREPRO_ENDIF → regions_track pctx1 conds) := by
  rcases prepro_line_regions pctx pctx1 line out h with
    ⟨hd, c, hp, _, hc⟩ | ⟨hd, it, et, hop, hp⟩ | ⟨hd, hidx, region, hr, heq⟩ | ⟨h1, h2, h3, hs⟩
  · refine ⟨fun _ => ⟨c, regions_track_push _ _ _ _ _ ht hp, hc⟩, ?_, ?_, ?_⟩
    · intro h'; rw [hd] at h'; cases h'
    · intro h'; rw [hd] at h'; cases h'
    · intro h'; exact absurd hd h'
  · refine ⟨?_, fun _ => ⟨it, et, hop, regions_track_push _ _ _ _ _ ht hp⟩, ?_, ?_⟩
    · intro h'; rw [hd] at h'; cases h'
    · intro h'; rw [hd] at h'; cases h'
    · intro _ h'; exact absurd hd h'
  · refine ⟨?_, ?_, fun _ => ?_, ?_⟩
    · intro h'; rw [hd] at h'; cases h'
    · intro h'; rw [hd] at h'; cases h'
    · rw [heq]; exact regions_track_pop _ _ _ ht hidx hr
    · intro _ _ h'; exact absurd hd h'
  · exact ⟨fun h' => absurd h' h1, fun h' => absurd h' h2, fun h' => absurd h' h3,
      fun _ _ _ => regions_track_same _ _ _ ht hs⟩

theorem prepro_line_keeps_tracking (pctx pctx1 : prepro_context_t) (line out : CStr)
    (conds : List Bool) (ht : regions_track pctx conds)
    (h : prepro_line pctx line = .ok (out, pctx1)) : ∃ conds1, regions_track pctx1 conds1 := by
  have hk := prepro_line_tracks pctx pctx1 line out conds ht h
  by_cases h1 : line_directive line = some PREPRO_IF
  · obtain ⟨c, hc, _⟩ := hk.1 h1
    exact ⟨_, hc⟩
  by_cases h2 : line_directive line = some PREPRO_IFDEF
  · obtain ⟨it, et, _, hc⟩ := hk.2.1 h2
    exact ⟨_, hc⟩
  by_cases h3 : line_directive line = some PREPRO_ENDIF
  · exact ⟨_, (hk.2.2.1 h3).2⟩
  · exact ⟨_, hk.2.2.2 h1 h2 h3⟩

theorem prepro_do_loop_tracks (fuel : Nat) (pctx pctx1 : prepro_context_t) (src : CStr)
    (conds : List Bool) (ht : regions_track pctx conds)
    (h : prepro_do_loop fuel pctx src = .ok pctx1) : ∃ conds1, regions_track pctx1 conds1 := by
  induction fuel generalizing pctx src conds with
  | zero => simp [prepro_do_loop] at h
  | succ n ih =>
      rw [prepro_do_loop] at h
      simp only [] at h
      generalize prepro_collect_line false src = r at h
      obtain ⟨line, rest, nl⟩ := r
      simp only [] at h
      have hstep : ∀ pa : prepro_context_t, (∃ ca, regions_track pa ca) →
          (match rest with
            | [] => (pure pa : Except Err prepro_context_t)
            | _ :: rest =>
              prepro_do_loop n
                { pa with out_buffer_ := string_buffer_append pa.out_buffer_ ['\n'] (-1),
                          line_ := pa.line_ + 1 } rest) = .ok pctx1 →
          ∃ conds1, regions_track pctx1 conds1 := by
        intro pa hpa hm
        obtain ⟨ca, hca⟩ := hpa
        cases rest with
        | nil =>
            simp only [pure_ok_iff] at hm
            subst hm
            exact ⟨ca, hca⟩
        | cons x rest =>
            exact ih { pa with out_buffer_ := string_buffer_append pa.out_buffer_ ['\n'] (-1),
                               line_ := pa.line_ + 1 } rest ca
              (regions_track_same pa _ ca hca ⟨rfl, rfl, rfl⟩) hm
      have htL : regions_track { pctx with line_ := pctx.line_ + nl } conds :=
        regions_track_same pctx _ conds ht ⟨rfl, rfl, rfl⟩
      split at h
      · simp only [bind_ok_iff, Prod.exists, pure_ok_iff] at h
        obtain ⟨o, pb, hl, pa, heq, hm⟩ := h
        obtain ⟨cb, hcb⟩ := prepro_line_keeps_tracking _ pb line o conds htL hl
        subst heq
        exact hstep { pb with out_buffer_ := string_buffer_append pb.out_buffer_ o (-1) }
          ⟨cb, regions_track_same pb _ cb hcb ⟨rfl, rfl, rfl⟩⟩ hm
      · simp only [bind_ok_iff, pure_ok_iff] at h
        obtain ⟨pa, heq, hm⟩ := h
        subst heq
        exact hstep { pctx with line_ := pctx.line_ + nl } ⟨conds, htL⟩ hm

theorem regions_track_initial : regions_track create_prepro_context [] := by
  refine ⟨rfl, rfl, by simp, ?_, rfl⟩
  intro j hj
  have : j = 0 := by simpa using hj
  subst this
  rfl

set_option maxRecDepth 1000000 in
/-- C32: validity of the current region.  `regions_track pctx conds` says that the conditions
of the open `#if` / `#ifdef` regions are `conds` (outermost first), that the depth is their
number, that entry `j` of the region stack holds the conjunction of the first `j` of them and
that `is_current_region_valid_` is the conjunction of all of them; it holds for the fresh
context with no region open.  When it holds and `prepro_line` accepts a line, it holds
afterwards for the open regions of that moment: an `#if` line opens a region whose
condition, in an active region, is the value of its expression; an `#ifdef NAME` line opens
one whose condition is that the macro `NAME` exists; an `#endif` line closes the innermost
region, so the validity of the enclosing region is back; any other line leaves the regions as
they are.  An `#endif` with no open region is never accepted (`#endif` alone raises the
error of line 2553), and `prepro_do` returns a text only when every region has been closed:
with a region open at the end of the input it raises the error of line 2205. -/
theorem region_validity_is_conjunction (pctx pctx1 : prepro_context_t) (line out : CStr)
    (conds : List Bool) (ht : regions_track pctx conds)
    (h : prepro_line pctx line = .ok (out, pctx1)) :
    (line_directive line = some PREPRO_IF →
      ∃ c, regions_track pctx1 (conds ++ [c]) ∧
        pctx1.is_current_region_valid_ = (conds ++ [c]).all id ∧
        (pctx.is_current_region_valid_ = true →
          ∃ text ev, if_expression line = .ok text ∧
            prepro_evaluate pctx text (2483, 2490, 0) = .ok ev ∧
            value_calc_boolean [] ev = .ok c)) ∧
    (line_directive line = some PREPRO_IFDEF →
      ∃ it et, directive_operands line = .ok (it, et) ∧
        regions_track pctx1 (conds ++ [( prepro_find_macro pctx it.content_).isSome]) ∧
        pctx1.is_current_region_valid_ =
          (conds ++ [( prepro_find_macro pctx it.content_).isSome]).all id) ∧
    (line_directive line = some PREPRO_ENDIF →
      conds ≠ [] ∧ regions_track pctx1 conds.dropLast ∧
      pctx1.is_current_region_valid_ = conds.dropLast.all id) ∧
    (line_directive line ≠ some PREPRO_IF → line_directive line ≠ some PREPRO_IFDEF →
      line_directive line ≠ some PREPRO_ENDIF →
      regions_track pctx1 conds ∧ pctx1.is_current_region_valid_ = conds.all id) ∧
    (∀ (p p1 : prepro_context_t) (l o : CStr), line_directive l = some PREPRO_ENDIF →
      p.pp_region_idx_ ≤ 0 → prepro_line p l ≠ .ok (o, p1)) ∧
    regions_track create_prepro_context [] ∧
    (∀ (src text : CStr), prepro_do src = .ok text →
      ∃ p0 p, prepro_register_default_macros create_prepro_context = .ok p0 ∧
        prepro_do_loop (src.length + 1) p0 src = .ok p ∧ regions_track p []) ∧
    (∀ (src : CStr) (p0 p : prepro_context_t),
      prepro_register_default_macros create_prepro_context = .ok p0 →
      prepro_do_loop (src.length + 1) p0 src = .ok p → 0 < p.pp_region_idx_ →
      prepro_do src = .error (.raise 2205)) ∧
    prepro_do "#endif\n".toList = .error (.raise 2553) ∧
    prepro_do "#if 1\n#endif\n#endif".toList = .error (.raise 2553) ∧
    prepro_do "#if 1\nmes 1\n".toList = .error (.raise 2205) ∧
    prepro_do "#if 1\n#if 0\nmes 1\n#endif\nmes 2\n#endif\nmes 3".toList =
      .ok "\n\n\n\nmes 2\n\nmes 3".toList ∧
    prepro_do "#if 0\n#if 1\nmes 1\n#endif\nmes 2\n#endif\nmes 3".toList =
      .ok "\n\n\n\n\n\nmes 3".toList ∧
    prepro_do "#define A 1\n#ifdef A\nmes 1\n#endif\n#ifdef B\nmes 2\n#endif".toList =
      .ok "\n\nmes 1\n\n\n\n".toList := by
  have hk := prepro_line_tracks pctx pctx1 line out conds ht h
  refine ⟨?_, ?_, ?_, ?_, ?_, regions_track_initial, ?_, ?_, by decide!, by decide!,
    by decide!, by decide!, by decide!, by decide!⟩
  · intro hd
    obtain ⟨c, hc, hv⟩ := hk.1 hd
    exact ⟨c, hc, hc.2.2.2.2, hv⟩
  · intro hd
    obtain ⟨it, et, hop, hc⟩ := hk.2.1 hd
    exact ⟨it, et, hop, hc, hc.2.2.2.2⟩
  · intro hd
    obtain ⟨hne, hc⟩ := hk.2.2.1 hd
    exact ⟨hne, hc, hc.2.2.2.2⟩
  · intro h1 h2 h3
    have hc := hk.2.2.2 h1 h2 h3
    exact ⟨hc, hc.2.2.2.2⟩
  · intro p p1 l o hd hidx hok
    rcases prepro_line_regions p p1 l o hok with
      ⟨hd1, _⟩ | ⟨hd1, _⟩ | ⟨_, hpos, _⟩ | ⟨_, _, h3, _⟩
    · rw [hd] at hd1; cases hd1
    · rw [hd] at hd1; cases hd1
    · omega
    · exact h3 hd
  · intro src text hdo
    simp only [prepro_do, bind_ok_iff, ite_ok_iff, pure_ok_iff, throw_ok_iff, false_and,
      and_false, exists_false, false_or, or_false] at hdo
    obtain ⟨p0, hp0, p, hp, hidx, _⟩ := hdo
    have ht0 : regions_track p0 [] :=
      regions_track_same _ _ _ regions_track_initial
        (prepro_register_regions _ _ _ hp0)
    obtain ⟨conds1, hc1⟩ := prepro_do_loop_tracks _ _ _ _ _ ht0 hp
    have hnil : conds1 = [] := by
      have := hc1.1
      apply List.length_eq_zero.mp
      omega
    subst hnil
    exact ⟨p0, p, hp0, hp, hc1⟩
  · intro src p0 p hp0 hp hidx
    simp only [prepro_do, hp0, hp, except_ok_bind, hidx, if_true]
    rfl

/-- C32 at the line `#if 0` in the fresh context: afterwards one region with the condition
`false` is open and the current region is not valid. -/
theorem region_validity_is_conjunction_witness :
    ∃ c, regions_track
        { create_prepro_context with
          is_current_region_valid_ := false, pp_region_idx_ := 1,
          pp_region_ := ⟨true, 1⟩ :: ⟨false, 0⟩ :: List.replicate 14 ⟨false, 0⟩ }
        ([] ++ [c]) ∧
      false = ([] ++ [c]).all id :=
  ((region_validity_is_conjunction create_prepro_context
    { create_prepro_context with
      is_current_region_valid_ := false, pp_region_idx_ := 1,
      pp_region_ := ⟨true, 1⟩ :: ⟨false, 0⟩ :: List.replicate 14 ⟨false, 0⟩ }
    "#if 0".toList [] [] regions_track_initial (by decide!)).1 (by decide!)).elim
    fun c hc => ⟨c, hc.1, hc.2.1⟩

theorem value_convert_scalar (vars : List variable_t) (t : value_tag) (r : value_t)
    (ht : t = VALUE_INT ∨ t = VALUE_DOUBLE ∨ t = VALUE_STRING) (hr : is_scalar r = true) :
    ∃ v, value_convert_type vars t r = .ok v ∧ v.type_ = t ∧ is_scalar v = true ∧
      value_convert_type [] t r = .ok v := by
  rcases r with _ | a | a | a | ⟨k, i⟩ <;> simp [is_scalar] at hr <;>
    rcases ht with rfl | rfl | rfl <;>
    simp [value_convert_type, value_t.type_, create_value_copy, value_calc_int,
      value_calc_double, value_calc_string, Except.map, pure, Except.pure, is_scalar]

theorem scalar_type (v : value_t) (h : is_scalar v = true) :
    v.type_ = VALUE_INT ∨ v.type_ = VALUE_DOUBLE ∨ v.type_ = VALUE_STRING := by
  rcases v with _ | a | a | a | ⟨k, i⟩ <;> simp [is_scalar, value_t.type_] at h ⊢

theorem binary_operator_scalar (op : code_oprator_tag)
    (f : List variable_t → value_t → value_t → Except Err value_t)
    (hf : binary_operator op = some f) (vars : List variable_t) (l r : value_t)
    (hl : is_scalar l = true) (hr : is_scalar r = true) :
    f vars l r = f [] l r ∧ (∀ v, f [] l r = .ok v → is_scalar v = true) ∧
      (∀ e, f [] l r = .error e → operation_error e = true) := by
  obtain ⟨t, ht1, hty, hts, ht2⟩ := value_convert_scalar vars l.type_ r (scalar_type l hl) hr
  cases op <;> simp only [binary_operator] at hf <;> try (cases hf; done)
  all_goals
    cases hf
    simp only [value_bor, value_band, value_bxor, value_eq, value_neq, value_gt, value_gtoe,
      value_lt, value_ltoe, value_add, value_sub, value_mul, value_div, value_mod, ht1, ht2,
      except_ok_bind]
    refine ⟨trivial, ?_, ?_⟩
    all_goals
      rcases l with _ | a | a | a | ⟨k, i⟩ <;> simp [is_scalar] at hl <;>
        rcases t with _ | b | b | b | ⟨k2, i2⟩ <;> simp [is_scalar, value_t.type_] at hts hty <;>
        simp only [pure, Except.pure, int_div, int_mod, Except.map] <;>
        intro x hx <;> (try split_ifs at hx) <;>
        (try cases hx) <;> simp [is_scalar, operation_error]

theorem unary_minus_scalar (v : value_t) (hv : is_scalar v = true) :
    (∀ w, value_unary_minus v = .ok w → is_scalar w = true) ∧
    (∀ e, value_unary_minus v = .error e → operation_error e = true) := by
  rcases v with _ | a | a | a | ⟨k, i⟩ <;> simp [is_scalar] at hv <;>
    simp [value_unary_minus, pure, Except.pure, is_scalar, operation_error]

theorem value_isolate_scalar (vars : List variable_t) (v : value_t)
    (hv : is_scalar v = true) : value_isolate vars v = .ok v := by
  rcases v with _ | a | a | a | ⟨k, i⟩ <;> simp [is_scalar] at hv <;> rfl

theorem stack_binary (st : List value_t) (a b x : value_t) :
    stack_peek (st ++ [a, b]) (-2) = .ok a ∧ stack_peek (st ++ [a, b]) (-1) = .ok b ∧
    stack_pop (stack_update (st ++ [a, b]) (-2) x) 1 = .ok (st ++ [x]) := by
  refine ⟨stack_peek_append st [a, b] 0 a (-2) rfl (by simp),
    stack_peek_append st [a, b] 1 b (-1) rfl (by simp), ?_⟩
  rw [stack_update_second]
  have : st ++ [x, b] = (st ++ [x]) ++ [b] := by simp
  rw [this]
  exact stack_pop_append (st ++ [x]) [b] 1 rfl

theorem evaluate_binary_node (tag : node_tag) (op : code_oprator_tag)
    (f : List variable_t → value_t → value_t → Except Err value_t) (token : Option token_t)
    (left right : ast_node_t) (st : List value_t) (h1 : binary_node_operator tag = some op)
    (h2 : binary_operator op = some f) :
    evaluate_ast_node (.node tag token left right) st =
      if left.isNull then .error (.assertion 6015)
      else
        evaluate_ast_node left st >>= fun r1 =>
          match r1 with
          | none => pure none
          | some stack =>
              if right.isNull then .error (.assertion 6020)
              else
                evaluate_ast_node right stack >>= fun r2 =>
                  match r2 with
                  | none => pure none
                  | some stack =>
                      if stack.length < 2 then pure none
                      else
                        stack_peek stack (-2) >>= fun l =>
                        stack_peek stack (-1) >>= fun r =>
                        value_isolate [] l >>= fun l =>
                        f [] l r >>= fun l =>
                        stack_pop (stack_update stack (-2) l) 1 >>= fun stack =>
                        pure (some stack) := by
  cases tag <;> simp only [binary_node_operator] at h1 <;> try (cases h1; done)
  all_goals
    cases h1
    simp only [binary_operator] at h2
    cases h2
    rfl

theorem expression_tree_not_null (a : ast_node_t) (h : expression_tree a = true) :
    a.isNull = false := by
  cases a with
  | null => simp [expression_tree] at h
  | node tag token left right => rfl

theorem pure_value_binary (tag : node_tag) (op : code_oprator_tag)
    (f : List variable_t → value_t → value_t → Except Err value_t) (token : Option token_t)
    (left right : ast_node_t) (h1 : binary_node_operator tag = some op)
    (h2 : binary_operator op = some f) :
    pure_expression_value (.node tag token left right) =
      (pure_expression_value left >>= fun l =>
        pure_expression_value right >>= fun r => f [] l r) := by
  cases tag <;> simp only [binary_node_operator] at h1 <;> try (cases h1; done)
  all_goals
    cases h1
    simp only [binary_operator] at h2
    cases h2
    rfl

theorem binary_tag_facts (tag : node_tag) (op : code_oprator_tag)
    (token : Option token_t) (left right : ast_node_t)
    (h : binary_node_operator tag = some op) :
    expression_tree (.node tag token left right) =
      (expression_tree left && expression_tree right) ∧
    holds_identifier (.node tag token left right) =
      (holds_identifier left || holds_identifier right) ∧
    starts_with_identifier (.node tag token left right) = starts_with_identifier left ∧
    ∃ f, binary_operator op = some f := by
  cases tag <;> simp only [binary_node_operator] at h <;> try (cases h; done)
  all_goals
    cases h
    exact ⟨rfl, rfl, rfl, _, rfl⟩

theorem pure_value_scalar (a : ast_node_t) (ht : expression_tree a = true)
    (hi : holds_identifier a = false) :
    (∀ v, pure_expression_value a = .ok v → is_scalar v = true) ∧
    (∀ e, pure_expression_value a = .error e → operation_error e = true) := by
  induction a with
  | null => simp [expression_tree] at ht
  | node tag token left right ihl ihr =>
      cases hb : binary_node_operator tag with
      | some op =>
          obtain ⟨h1, h2, _, f, hf⟩ := binary_tag_facts tag op token left right hb
          rw [h1] at ht
          rw [h2] at hi
          simp only [Bool.and_eq_true, Bool.or_eq_false_iff] at ht hi
          rw [pure_value_binary _ op f token left right hb hf]
          have hL := ihl ht.1 hi.1
          have hR := ihr ht.2 hi.2
          cases hl : pure_expression_value left with
          | error e =>
              exact ⟨fun v hv => (by cases hv), fun e' he => (by cases he; exact hL.2 e hl)⟩
          | ok l =>
              cases hr : pure_expression_value right with
              | error e =>
                  exact ⟨fun v hv => (by cases hv), fun e' he => (by cases he; exact hR.2 e hr)⟩
              | ok r =>
                  have hbs := binary_operator_scalar op f hf [] l r (hL.1 l hl) (hR.1 r hr)
                  exact ⟨hbs.2.1, hbs.2.2⟩
      | none =>
          cases tag <;> (try (cases hb; done)) <;>
            simp only [expression_tree, holds_identifier] at ht hi <;> try (cases ht)
          · exact ihl ht hi
          · have hL := ihl ht hi
            simp only [pure_expression_value]
            cases hl : pure_expression_value left with
            | error e =>
                exact ⟨fun v hv => (by cases hv), fun e' he => (by cases he; exact hL.2 e hl)⟩
            | ok l => exact unary_minus_scalar l (hL.1 l hl)
          · cases token with
            | none => simp at ht
            | some t =>
                simp only [Bool.or_eq_true, beq_iff_eq] at ht
                rcases ht with (ht | ht) | ht <;>
                  simp [pure_expression_value, ht, pure, Except.pure, is_scalar]
          · cases hi

theorem evaluate_pure_expression (a : ast_node_t) (ht : expression_tree a = true)
    (hi : holds_identifier a = false) (st : List value_t) :
    evaluate_ast_node a st =
      (pure_expression_value a).map (fun v => some (st ++ [v])) := by
  induction a generalizing st with
  | null => simp [expression_tree] at ht
  | node tag token left right ihl ihr =>
      cases hb : binary_node_operator tag with
      | some op =>
          obtain ⟨h1, h2, _, f, hf⟩ := binary_tag_facts tag op token left right hb
          rw [h1] at ht
          rw [h2] at hi
          simp only [Bool.and_eq_true, Bool.or_eq_false_iff] at ht hi
          rw [pure_value_binary _ op f token left right hb hf,
            evaluate_binary_node _ op f token left right st hb hf,
            expression_tree_not_null left ht.1, expression_tree_not_null right ht.2,
            ihl ht.1 hi.1 st]
          simp only [Bool.false_eq_true, if_false]
          cases hl : pure_expression_value left with
          | error e => rfl
          | ok l =>
              simp only [Except.map, except_ok_bind]
              rw [ihr ht.2 hi.2 (st ++ [l])]
              cases hr : pure_expression_value right with
              | error e => rfl
              | ok r =>
                  have hls := (pure_value_scalar left ht.1 hi.1).1 l hl
                  have hsb := stack_binary st l r l
                  have hlen : ¬ ((st ++ [l] ++ [r]).length < 2) := by simp
                  have happ : st ++ [l] ++ [r] = st ++ [l, r] := by simp
                  simp only [Except.map, except_ok_bind, hlen, if_false]
                  rw [happ, hsb.1, except_ok_bind, hsb.2.1, except_ok_bind,
                    value_isolate_scalar [] l hls, except_ok_bind]
                  cases hv : f [] l r with
                  | error e => rfl
                  | ok v =>
                      rw [except_ok_bind, (stack_binary st l r v).2.2]
                      rfl
      | none =>
          cases tag <;> (try (cases hb; done)) <;>
            simp only [expression_tree, holds_identifier] at ht hi <;> try (cases ht)
          · simp only [evaluate_ast_node, pure_expression_value,
              expression_tree_not_null left ht, Bool.false_eq_true, if_false]
            exact ihl ht hi st
          · simp only [evaluate_ast_node, pure_expression_value,
              expression_tree_not_null left ht, Bool.false_eq_true, if_false]
            rw [ihl ht hi st]
            cases hl : pure_expression_value left with
            | error e => rfl
            | ok l =>
                have hls := (pure_value_scalar left ht hi).1 l hl
                have hlen : ¬ ((st ++ [l]).length < 1) := by simp
                simp only [Except.map, except_ok_bind, hlen, if_false, stack_peek_top,
                  value_isolate_scalar [] l hls]
                cases hv : value_unary_minus l with
                | error e => rfl
                | ok v =>
                    simp only [except_ok_bind]
                    have : stack_update (st ++ [l]) (-1) v = st ++ [v] := by
                      simp [stack_update]
                    rw [this]
                    rfl
          · cases token with
            | none => simp at ht
            | some t =>
                simp only [Bool.or_eq_true, beq_iff_eq] at ht
                rcases ht with (ht | ht) | ht <;>
                  simp [evaluate_ast_node, pure_expression_value, ht, pure, Except.pure,
                    Except.map, stack_push]
          · cases hi

theorem starts_holds_identifier (a : ast_node_t) (h : starts_with_identifier a = true) :
    holds_identifier a = true := by
  induction a with
  | null => simp [starts_with_identifier] at h
  | node tag token left right ihl ihr =>
      cases tag <;> simp only [starts_with_identifier] at h <;>
        first
        | (cases h; done)
        | simp [holds_identifier, ihl h]
        | simp [holds_identifier]

theorem evaluate_with_identifier (a : ast_node_t) (ht : expression_tree a = true)
    (hi : holds_identifier a = true) (st : List value_t) :
    (evaluate_ast_node a st = .ok none ∨
      ∃ e, evaluate_ast_node a st = .error e ∧ operation_error e = true) ∧
    (starts_with_identifier a = true → evaluate_ast_node a st = .ok none) := by
  induction a generalizing st with
  | null => simp [expression_tree] at ht
  | node tag token left right ihl ihr =>
      cases hb : binary_node_operator tag with
      | some op =>
          obtain ⟨h1, h2, h3, f, hf⟩ := binary_tag_facts tag op token left right hb
          rw [h1] at ht
          rw [h2] at hi
          rw [h3]
          simp only [Bool.and_eq_true] at ht
          rw [evaluate_binary_node _ op f token left right st hb hf,
            expression_tree_not_null left ht.1, expression_tree_not_null right ht.2]
          simp only [Bool.false_eq_true, if_false]
          cases hil : holds_identifier left with
          | true =>
              have hL := ihl ht.1 hil st
              refine ⟨?_, fun hs => ?_⟩
              · rcases hL.1 with h0 | ⟨e, he, hop⟩
                · rw [h0]; exact Or.inl rfl
                · rw [he]; exact Or.inr ⟨e, rfl, hop⟩
              · rw [hL.2 hs]; rfl
          | false =>
              rw [hil] at hi
              simp only [Bool.false_or] at hi
              have hsf : starts_with_identifier left = false := by
                cases hs : starts_with_identifier left with
                | false => rfl
                | true => rw [starts_holds_identifier left hs] at hil; cases hil
              rw [hsf]
              refine ⟨?_, fun hs => (by cases hs)⟩
              rw [evaluate_pure_expression left ht.1 hil st]
              cases hl : pure_expression_value left with
              | error e => exact Or.inr ⟨e, rfl, (pure_value_scalar left ht.1 hil).2 e hl⟩
              | ok l =>
                  simp only [Except.map, except_ok_bind]
                  rcases (ihr ht.2 hi (st ++ [l])).1 with h0 | ⟨e, he, hop⟩
                  · rw [h0]; exact Or.inl rfl
                  · rw [he]; exact Or.inr ⟨e, rfl, hop⟩
      | none =>
          cases tag <;> (try (cases hb; done)) <;>
            simp only [expression_tree, holds_identifier] at ht hi <;> try (cases ht)
          · simp only [evaluate_ast_node, starts_with_identifier,
              expression_tree_not_null left ht, Bool.false_eq_true, if_false]
            exact ihl ht hi st
          · have hL := ihl ht hi st
            simp only [evaluate_ast_node, starts_with_identifier,
              expression_tree_not_null left ht, Bool.false_eq_true, if_false]
            refine ⟨?_, fun hs => ?_⟩
            · rcases hL.1 with h0 | ⟨e, he, hop⟩
              · rw [h0]; exact Or.inl rfl
              · rw [he]; exact Or.inr ⟨e, rfl, hop⟩
            · rw [hL.2 hs]; rfl
          · cases hi
          · cases token with
            | none => simp at ht
            | some t => exact ⟨Or.inl rfl, fun _ => rfl⟩

theorem evaluate_immediate_pure (a : ast_node_t) (ht : expression_tree a = true)
    (hi : holds_identifier a = false) :
    evaluate_ast_immediate a = (pure_expression_value a).map some := by
  unfold evaluate_ast_immediate
  rw [evaluate_pure_expression a ht hi []]
  cases hv : pure_expression_value a with
  | error e => rfl
  | ok v =>
      have hs := (pure_value_scalar a ht hi).1 v hv
      simp only [Except.map, except_ok_bind, List.nil_append]
      rcases v with _ | x | x | x | ⟨k, i⟩ <;> simp [is_scalar] at hs <;> rfl

set_option maxRecDepth 1000000 in
/-- C33: `evaluate_ast_immediate` on an expression tree, as `parse_expression` builds it
from literals, parentheses, unary minus, binary operators and identifier expressions.  For
a tree that holds an identifier expression the result is never a value: it is nil, or an
operation evaluated before the identifier is reached stops the program (a `raise_error`,
or an `int` division without a result); it is nil whenever the identifier is the first leaf
read from the left.  For a tree without an identifier the result is never nil: it is a
value of type INT, DOUBLE or STRING, the one the operations of the source give on the
literals, unless one of the operations stops the program.  `1 + a`, `a + 1/0` and `(a)`
give nil, `(1 + 2) * -3` gives -9 and `"ab" + 1` gives `ab1`. -/
theorem immediate_evaluation_of_expression_trees (a : ast_node_t)
    (ht : expression_tree a = true) :
    (holds_identifier a = true →
      (∀ v, evaluate_ast_immediate a ≠ .ok (some v)) ∧
      (evaluate_ast_immediate a = .ok none ∨
        ∃ e, evaluate_ast_immediate a = .error e ∧ operation_error e = true) ∧
      (starts_with_identifier a = true → evaluate_ast_immediate a = .ok none)) ∧
    (holds_identifier a = false →
      evaluate_ast_immediate a ≠ .ok none ∧
      (∀ r, evaluate_ast_immediate a = .ok r → ∃ v, r = some v ∧ is_scalar v = true) ∧
      (∀ e, evaluate_ast_immediate a = .error e → operation_error e = true) ∧
      evaluate_ast_immediate a = (pure_expression_value a).map some) ∧
    (expression_ast "1 + a").map (fun t => (holds_identifier t, evaluate_ast_immediate t)) =
      .ok (true, .ok none) ∧
    (expression_ast "a + 1/0").map (fun t => (holds_identifier t, evaluate_ast_immediate t)) =
      .ok (true, .ok none) ∧
    (expression_ast "(a)").map (fun t => (holds_identifier t, evaluate_ast_immediate t)) =
      .ok (true, .ok none) ∧
    (expression_ast "(1 + 2) * -3").map
        (fun t => (pure_expression t, evaluate_ast_immediate t)) =
      .ok (true, .ok (some (.int (-9)))) ∧
    (expression_ast "\"ab\" + 1").map
        (fun t => (pure_expression t, evaluate_ast_immediate t)) =
      .ok (true, .ok (some (.string "ab1".toList))) := by
  refine ⟨fun hi => ?_, fun hi => ?_, by decide!, by decide!, by decide!, by decide!,
    by decide!⟩
  · have hn := evaluate_with_identifier a ht hi []
    have key : evaluate_ast_immediate a = .ok none ∨
        ∃ e, evaluate_ast_immediate a = .error e ∧ operation_error e = true := by
      rcases hn.1 with h0 | ⟨e, he, hop⟩
      · left
        simp only [evaluate_ast_immediate, h0, except_ok_bind]
        rfl
      · right
        refine ⟨e, ?_, hop⟩
        simp only [evaluate_ast_immediate, he]
        rfl
    refine ⟨?_, key, fun hs => ?_⟩
    · intro v hv
      rcases key with h0 | ⟨e, he, _⟩
      · rw [h0] at hv; cases hv
      · rw [he] at hv; cases hv
    · simp only [evaluate_ast_immediate, hn.2 hs, except_ok_bind]
      rfl
  · have heq := evaluate_immediate_pure a ht hi
    have hv := pure_value_scalar a ht hi
    rw [heq]
    cases hp : pure_expression_value a with
    | error e =>
        refine ⟨fun h => (by cases h), fun r h => (by cases h), fun e' h => ?_, rfl⟩
        cases h
        exact hv.2 e hp
    | ok v =>
        refine ⟨fun h => (by cases h), fun r h => ?_, fun e' h => (by cases h), rfl⟩
        cases h
        exact ⟨v, rfl, hv.1 v hp⟩

/-- C33 at the identifier expression `a`: the result is nil. -/
theorem immediate_evaluation_of_expression_trees_witness :
    evaluate_ast_immediate example_identifier_node = .ok none :=
  ((immediate_evaluation_of_expression_trees example_identifier_node rfl).1 rfl).2.2 rfl

set_option maxRecDepth 1000000 in
/-- A tree that holds an identifier expression and is not evaluated to nil: `1/0 + a`.  The
division is evaluated before the identifier is reached and raises the error of line 4811,
so `#if 1/0 + a` stops with that error, where `#if a + 1/0` stops with the error of line
2490 for an expression that has no value; the same holds for `-"x" + a`, which raises the
error of line 4871. -/
theorem identifier_behind_failing_operation :
    (expression_ast "1/0 + a").map
        (fun t => (expression_tree t, holds_identifier t, evaluate_ast_immediate t)) =
      .ok (true, true, .error (.raise 4811)) ∧
    (expression_ast "-\"x\" + a").map
        (fun t => (expression_tree t, holds_identifier t, evaluate_ast_immediate t)) =
      .ok (true, true, .error (.raise 4871)) ∧
    prepro_do "#if 1/0 + a\n#endif\n".toList = .error (.raise 4811) ∧
    prepro_do "#if a + 1/0\n#endif\n".toList = .error (.raise 2490) := by
  refine ⟨by decide!, by decide!, by decide!, by decide!⟩

theorem bitlen_loop_zero (fuel : Nat) : bitlen_loop fuel 0 = 0 := by
  cases fuel <;> simp [bitlen_loop]

theorem bitlen_loop_bounds (fuel n : Nat) (h : n ≤ fuel) :
    n < 2 ^ bitlen_loop fuel n ∧ (0 < n → 2 ^ bitlen_loop fuel n ≤ 2 * n) := by
  induction fuel generalizing n with
  | zero =>
    have : n = 0 := by omega
    subst this
    simp [bitlen_loop]
  | succ k ih =>
    simp only [bitlen_loop]
    by_cases hn : n = 0
    · simp [hn]
    · simp only [hn, if_false]
      have h2 := ih (n / 2) (by omega)
      rw [pow_succ]
      by_cases hz : n / 2 = 0
      · rw [hz, bitlen_loop_zero]
        constructor
        · simp; omega
        · intro _; simp; omega
      · generalize 2 ^ bitlen_loop k (n / 2) = P at h2
        have h3 := h2.2 (by omega)
        constructor
        · omega
        · intro _; omega

theorem div_round_even_le (N D K : Nat) (hK : 1 ≤ K) (h : D = 0 ∨ N < K * D) :
    Dbl.div_round_even N D ≤ K := by
  unfold Dbl.div_round_even
  rcases h with rfl | h
  · simp only [Nat.div_zero, Nat.mod_zero]
    split_ifs <;> omega
  · have hD : 0 < D := by
      rcases Nat.eq_zero_or_pos D with h0 | h0
      · rw [h0] at h; simp at h
      · exact h0
    have hq : N / D < K := by
      rw [Nat.div_lt_iff_lt_mul hD]; exact h
    simp only []
    split_ifs <;> omega

theorem round_exponent_bound (n d : Nat) (e : Int) (hd : 0 < d) :
    (n : ℚ) * 2 ^ e < d * 2 ^ ((bitlen n : Int) - (bitlen d : Int) + e + 1) := by
  have hn := (bitlen_loop_bounds n n (le_refl n)).1
  have hdd := (bitlen_loop_bounds d d (le_refl d)).2 hd
  have h2 : (0 : ℚ) < 2 := by norm_num
  have h20 : (2 : ℚ) ≠ 0 := by norm_num
  have hnq : (n : ℚ) < 2 ^ (bitlen n : Int) := by
    rw [zpow_natCast]; exact_mod_cast hn
  have hdq : (2 : ℚ) ^ (bitlen d : Int) ≤ 2 * d := by
    rw [zpow_natCast]; exact_mod_cast hdd
  have hexp : (bitlen n : Int) - (bitlen d : Int) + e + 1 =
      (bitlen n : Int) + e + 1 + (-(bitlen d : Int)) := by ring
  rw [hexp, zpow_add₀ h20, zpow_add₀ h20, zpow_add₀ h20, zpow_neg, zpow_one]
  have hpe : (0 : ℚ) < 2 ^ e := zpow_pos h2 e
  have hpd : (0 : ℚ) < 2 ^ (bitlen d : Int) := zpow_pos h2 _
  have hpn : (0 : ℚ) < 2 ^ (bitlen n : Int) := zpow_pos h2 _
  have key : (n : ℚ) * 2 ^ (bitlen d : Int) < d * (2 ^ (bitlen n : Int) * 2) := by
    have hdpos : (0 : ℚ) < d := by exact_mod_cast hd
    calc (n : ℚ) * 2 ^ (bitlen d : Int) ≤ n * (2 * d) :=
          mul_le_mul_of_nonneg_left hdq (by positivity)
      _ < 2 ^ (bitlen n : Int) * (2 * d) := mul_lt_mul_of_pos_right hnq (by positivity)
      _ = d * (2 ^ (bitlen n : Int) * 2) := by ring
  have : (d : ℚ) * (2 ^ (bitlen n : Int) * 2 ^ e * 2 * (2 ^ (bitlen d : Int))⁻¹) =
      (d * (2 ^ (bitlen n : Int) * 2)) * 2 ^ e / 2 ^ (bitlen d : Int) := by
    field_simp
    ring
  rw [this, lt_div_iff₀ hpd]
  calc (n : ℚ) * 2 ^ e * 2 ^ (bitlen d : Int) = (n * 2 ^ (bitlen d : Int)) * 2 ^ e := by ring
    _ < (d * (2 ^ (bitlen n : Int) * 2)) * 2 ^ e := mul_lt_mul_of_pos_right key hpe

theorem round_mantissa_bound (n d : Nat) (e E q : Int) (hd : 0 < d)
    (hE : (n : ℚ) * 2 ^ e < d * 2 ^ (E + 1)) (hq : E - 52 ≤ q) :
    (q ≤ e → n * 2 ^ (e - q).toNat < 2 ^ 53 * d) ∧
    (¬ q ≤ e → n < 2 ^ 53 * (d * 2 ^ (q - e).toNat)) := by
  have h2 : (0 : ℚ) < 2 := by norm_num
  have h20 : (2 : ℚ) ≠ 0 := by norm_num
  have h1 : (1 : ℚ) ≤ 2 := by norm_num
  have hdpos : (0 : ℚ) < d := by exact_mod_cast hd
  have hmono : (2 : ℚ) ^ (E + 1) ≤ 2 ^ (q + 53) := zpow_le_zpow_right₀ h1 (by omega)
  have hX : (n : ℚ) * 2 ^ e < d * 2 ^ (q + 53) :=
    lt_of_lt_of_le hE (mul_le_mul_of_nonneg_left hmono (le_of_lt hdpos))
  constructor
  · intro hle
    have hk : ((e - q).toNat : Int) = e - q := Int.toNat_of_nonneg (by omega)
    have hcast : ((n * 2 ^ (e - q).toNat : Nat) : ℚ) < ((2 ^ 53 * d : Nat) : ℚ) := by
      push_cast
      rw [← zpow_natCast (2 : ℚ) (e - q).toNat, hk]
      have he : e = (e - q) + q := by ring
      rw [he, zpow_add₀ h20, zpow_add₀ h20] at hX
      have hpq : (0 : ℚ) < 2 ^ q := zpow_pos h2 q
      have h53 : (2 : ℚ) ^ (53 : Int) = 2 ^ 53 := by norm_cast
      rw [h53] at hX
      have : (n : ℚ) * 2 ^ (e - q) * 2 ^ q < (2 ^ 53 * d) * 2 ^ q := by
        calc (n : ℚ) * 2 ^ (e - q) * 2 ^ q = n * (2 ^ (e - q) * 2 ^ q) := by ring
          _ < d * (2 ^ q * 2 ^ 53) := hX
          _ = (2 ^ 53 * d) * 2 ^ q := by ring
      exact lt_of_mul_lt_mul_right this (le_of_lt hpq)
    exact_mod_cast hcast
  · intro hnle
    have hk : ((q - e).toNat : Int) = q - e := Int.toNat_of_nonneg (by omega)
    have hcast : ((n : Nat) : ℚ) < ((2 ^ 53 * (d * 2 ^ (q - e).toNat) : Nat) : ℚ) := by
      push_cast
      rw [← zpow_natCast (2 : ℚ) (q - e).toNat, hk]
      have he : q + 53 = (q - e) + e + 53 := by ring
      rw [he, zpow_add₀ h20, zpow_add₀ h20] at hX
      have hpe : (0 : ℚ) < 2 ^ e := zpow_pos h2 e
      have h53 : (2 : ℚ) ^ (53 : Int) = 2 ^ 53 := by norm_cast
      rw [h53] at hX
      have : (n : ℚ) * 2 ^ e < (2 ^ 53 * (d * 2 ^ (q - e))) * 2 ^ e := by
        calc (n : ℚ) * 2 ^ e < d * (2 ^ (q - e) * 2 ^ e * 2 ^ 53) := hX
          _ = (2 ^ 53 * (d * 2 ^ (q - e))) * 2 ^ e := by ring
      exact lt_of_mul_lt_mul_right this (le_of_lt hpe)
    exact_mod_cast hcast

theorem round_below_bound (n d : Nat) (e E0 : Int)
    (hb : (if e ≤ E0 then decide (n < d * 2 ^ (E0 - e).toNat)
      else decide (n * 2 ^ (e - E0).toNat < d)) = true) :
    (n : ℚ) * 2 ^ e < d * 2 ^ (E0 - 1 + 1) := by
  have h2 : (0 : ℚ) < 2 := by norm_num
  have h20 : (2 : ℚ) ≠ 0 := by norm_num
  have hpe : (0 : ℚ) < 2 ^ e := zpow_pos h2 e
  have hpE : (0 : ℚ) < 2 ^ E0 := zpow_pos h2 E0
  rw [sub_add_cancel]
  by_cases hle : e ≤ E0
  · rw [if_pos hle, decide_eq_true_eq] at hb
    have hk : ((E0 - e).toNat : Int) = E0 - e := Int.toNat_of_nonneg (by omega)
    have hc : (n : ℚ) < d * 2 ^ (E0 - e) := by
      rw [← hk, zpow_natCast]; exact_mod_cast hb
    have he : E0 = (E0 - e) + e := by ring
    rw [he, zpow_add₀ h20, ← mul_assoc]
    exact mul_lt_mul_of_pos_right hc hpe
  · rw [if_neg hle, decide_eq_true_eq] at hb
    have hk : ((e - E0).toNat : Int) = e - E0 := Int.toNat_of_nonneg (by omega)
    have hc : (n : ℚ) * 2 ^ (e - E0) < d := by
      rw [← hk, zpow_natCast]; exact_mod_cast hb
    have he : e = (e - E0) + E0 := by ring
    rw [he, zpow_add₀ h20, ← mul_assoc]
    exact mul_lt_mul_of_pos_right hc hpE

theorem round_bits (neg : Bool) (n d : Nat) (e : Int) :
    (Dbl.round neg n d e).bits < 2 ^ 64 := by
  unfold Dbl.round
  by_cases hn : (n == 0) = true
  · rw [if_pos hn]; unfold Dbl.zero; split_ifs <;> norm_num
  rw [if_neg hn]
  simp only []
  generalize hE0 : (bitlen n : Int) - (bitlen d : Int) + e = E0
  generalize hbelow : (if e ≤ E0 then decide (n < d * 2 ^ (E0 - e).toNat)
      else decide (n * 2 ^ (e - E0).toNat < d)) = below
  generalize hE : (if below = true then E0 - 1 else E0) = E
  generalize hq : max E (-1022) - 52 = q
  generalize hm : (if q ≤ e then Dbl.div_round_even (n * 2 ^ (e - q).toNat) d
      else Dbl.div_round_even n (d * 2 ^ (q - e).toNat)) = m
  have hm53 : m ≤ 2 ^ 53 := by
    rw [← hm]
    rcases Nat.eq_zero_or_pos d with hd | hd
    · subst hd
      split_ifs
      · exact div_round_even_le _ _ _ (by norm_num) (Or.inl rfl)
      · exact div_round_even_le _ _ _ (by norm_num) (Or.inl (by simp))
    · have hbound : (n : ℚ) * 2 ^ e < d * 2 ^ (E + 1) := by
        cases below with
        | true =>
            rw [← hE, if_pos rfl]
            exact round_below_bound n d e E0 hbelow
        | false =>
            rw [← hE, if_neg Bool.false_ne_true, ← hE0]
            exact round_exponent_bound n d e hd
      have hmb := round_mantissa_bound n d e E q hd hbound (by omega)
      split_ifs with hqe
      · exact div_round_even_le _ _ _ (by norm_num) (Or.inr (hmb.1 hqe))
      · exact div_round_even_le _ _ _ (by norm_num) (Or.inr (hmb.2 hqe))
  generalize hs : (if neg = true then 2 ^ 63 else 0) = sgn
  have hsgn : sgn ≤ 2 ^ 63 := by rw [← hs]; split_ifs <;> norm_num
  generalize hp : (if (m == 2 ^ 53) = true then (2 ^ 52, q + 1) else (m, q)) = p
  have hp1 : p.1 < 2 ^ 53 := by
    rw [← hp]
    by_cases hmm : (m == 2 ^ 53) = true
    · rw [if_pos hmm]; norm_num
    · rw [if_neg hmm]
      have : m ≠ 2 ^ 53 := by simpa using hmm
      show m < 2 ^ 53
      omega
  split_ifs with h1 h2
  · show sgn + p.1 < 2 ^ 64
    omega
  · unfold Dbl.inf; rw [hs]; show sgn + 2047 * 2 ^ 52 < 2 ^ 64; omega
  · show sgn + (p.2 + 1075).toNat * 2 ^ 52 + (p.1 - 2 ^ 52) < 2 ^ 64
    have h3 : (p.2 + 1075).toNat ≤ 2046 := by omega
    omega

theorem atof_bits (s : CStr) : (atof s).bits < 2 ^ 64 := by
  unfold atof
  simp only []
  split_ifs
  all_goals first
    | exact round_bits _ _ _ _
    | (unfold Dbl.inf; split_ifs <;> norm_num)
    | (unfold Dbl.nan; norm_num)
    | (unfold Dbl.zero; norm_num)

theorem double_round_trip (b : Nat) (hb : b < 2 ^ 64) :
    to_u32 (wrap32 ((b % 4294967296 : Nat) : Int)) +
      4294967296 * to_u32 (wrap32 ((b / 4294967296 : Nat) : Int)) = b := by
  unfold to_u32 wrap32
  omega

theorem execute_operator_push_double (h : host_t) (e : execute_environment_t)
    (s : execute_status_t) :
    execute_operator h e s OPERATOR_PUSH_DOUBLE = (do
      let v ← code_get_double e (s.pc_ + 1) 5194
      pure (e, { s with stack_ := stack_push s.stack_ (.double v), pc_ := s.pc_ + 2 })) := rfl

theorem execute_operator_push_string (h : host_t) (e : execute_environment_t)
    (s : execute_status_t) :
    execute_operator h e s OPERATOR_PUSH_STRING = (do
      let v ← code_get_pointer e (s.pc_ + 1) 5203
      let str ← in_bounds 5204 e.string_table_[v]?
      pure (e, { s with stack_ := stack_push s.stack_ (.string str), pc_ := s.pc_ + 2 })) := rfl

theorem execute_operator_unary_minus (h : host_t) (e : execute_environment_t)
    (s : execute_status_t) :
    execute_operator h e s OPERATOR_UNARY_MINUS = (do
      if s.stack_.length < 1 then throw (.assertion 5347)
      let v ← stack_peek s.stack_ (-1)
      let v ← value_isolate e.variable_table_ v
      let v ← value_unary_minus v
      pure (e, { s with stack_ := stack_update s.stack_ (-1) v })) := rfl

theorem execute_steps_single (h : host_t) (e : execute_environment_t) (s : execute_status_t)
    (p : Nat) (w : Int) (hrun : s.is_end_ = false) (hpc : s.pc_ = (p : Int))
    (hw : e.execute_code_[p]? = some w) :
    execute_steps h 1 e s = execute_step h e s := by
  have hlt : p < e.execute_code_.length := by
    by_contra hcon
    have : e.execute_code_[p]? = none := by rw [List.getElem?_eq_none_iff]; omega
    rw [this] at hw; cases hw
  have hfin : execute_finished e s = false := by
    simp [execute_finished, hrun, hpc]; omega
  simp only [execute_steps, hfin, Bool.false_eq_true, if_false]
  cases hs : execute_step h e s with
  | error err => rfl
  | ok m => rfl

theorem step_push_double (h : host_t) (e : execute_environment_t) (s : execute_status_t)
    (p : Nat) (v : Dbl) (hv : v.bits < 2 ^ 64)
    (hop : e.execute_code_[p]? = some OPERATOR_PUSH_DOUBLE.code)
    (h1 : e.execute_code_[p + 1]? = some (wrap32 (v.bits % 4294967296)))
    (h2 : e.execute_code_[p + 2]? = some (wrap32 (v.bits / 4294967296)))
    (hpc : s.pc_ = (p : Int)) :
    execute_step h e s =
      .ok (e, { s with stack_ := s.stack_ ++ [.double v], pc_ := (p : Int) + 3 }) := by
  have hv1 : code_at e ((p : Int) + 1) 5194 = .ok (wrap32 (v.bits % 4294967296)) := by
    have := code_at_ok e (p + 1) _ 5194 h1
    simpa using this
  have hv2 : code_at e ((p : Int) + 1 + 1) 5194 = .ok (wrap32 (v.bits / 4294967296)) := by
    have := code_at_ok e (p + 2) _ 5194 h2
    have hc : (((p + 2 : Nat)) : Int) = (p : Int) + 1 + 1 := by push_cast; ring
    rwa [hc] at this
  have hbits : to_u32 (wrap32 (v.bits % 4294967296)) +
      4294967296 * to_u32 (wrap32 (v.bits / 4294967296)) = v.bits := by
    unfold to_u32 wrap32
    omega
  rw [execute_step_op h e s p _ hop hpc, execute_operator_push_double]
  simp only [hpc, code_get_double, hv1, hv2, hbits, stack_push, pure, Except.pure, bind,
    Except.bind]
  have h3 : (p : Int) + 2 + 1 = (p : Int) + 3 := by ring
  rw [h3]

theorem step_push_string (h : host_t) (e : execute_environment_t) (s : execute_status_t)
    (p k : Nat) (str : CStr)
    (hop : e.execute_code_[p]? = some OPERATOR_PUSH_STRING.code)
    (h1 : e.execute_code_[p + 1]? = some (k : Int))
    (h2 : e.execute_code_[p + 2]? = some 0)
    (hstr : e.string_table_[k]? = some str)
    (hpc : s.pc_ = (p : Int)) :
    execute_step h e s =
      .ok (e, { s with stack_ := s.stack_ ++ [.string str], pc_ := (p : Int) + 3 }) := by
  rw [execute_step_op h e s p _ hop hpc, execute_operator_push_string, hpc,
    code_get_pointer_ok e p k 0 5203 h1 h2]
  simp only [hstr, in_bounds, stack_push, pure, Except.pure, bind, Except.bind]
  have h3 : (p : Int) + 2 + 1 = (p : Int) + 3 := by ring
  rw [h3]

theorem step_unary_minus (h : host_t) (e : execute_environment_t) (s : execute_status_t)
    (p : Nat) (st : List value_t) (v : value_t)
    (hop : e.execute_code_[p]? = some OPERATOR_UNARY_MINUS.code)
    (hst : s.stack_ = st ++ [v]) (hv : is_scalar v = true) (hpc : s.pc_ = (p : Int)) :
    execute_step h e s =
      (value_unary_minus v).map
        (fun w => (e, { s with stack_ := st ++ [w], pc_ := (p : Int) + 1 })) := by
  rw [execute_step_op h e s p _ hop hpc, execute_operator_unary_minus, hst]
  have hlen : ¬ ((st ++ [v]).length < 1) := by simp
  simp only [hlen, if_false, stack_peek_top, value_isolate_scalar _ v hv, except_ok_bind,
    bind, Except.bind, pure, Except.pure]
  cases hw : value_unary_minus v with
  | error err => rfl
  | ok w =>
      have : stack_update (st ++ [v]) (-1) w = st ++ [w] := by simp [stack_update]
      simp only [Except.map, this, hpc]

theorem step_binary (h : host_t) (e : execute_environment_t) (s : execute_status_t)
    (p : Nat) (op : code_oprator_tag)
    (f : List variable_t → value_t → value_t → Except Err value_t)
    (st : List value_t) (l r : value_t)
    (hf : binary_operator op = some f)
    (hop : e.execute_code_[p]? = some op.code)
    (hst : s.stack_ = st ++ [l, r]) (hl : is_scalar l = true) (hr : is_scalar r = true)
    (hpc : s.pc_ = (p : Int)) :
    execute_step h e s =
      (f [] l r).map (fun w => (e, { s with stack_ := st ++ [w], pc_ := (p : Int) + 1 })) := by
  rw [execute_step_op h e s p _ hop hpc,
    execute_operator_binary h e s op (binary_operator_mem op f hf), hst, hf]
  have hlen : ¬ ((st ++ [l, r]).length < 2) := by simp
  have hsb := stack_binary st l r l
  simp only [hlen, if_false, bind, Except.bind, pure, Except.pure, hsb.1, hsb.2.1,
    value_isolate_scalar _ l hl, (binary_operator_scalar op f hf e.variable_table_ l r hl hr).1]
  cases hw : f [] l r with
  | error err => rfl
  | ok w =>
      simp only [(stack_binary st l r w).2.2, Except.map, hpc]

theorem generate_binary_node (tag : node_tag) (op : code_oprator_tag)
    (token : Option token_t) (left right : ast_node_t) (e : execute_environment_t)
    (c : generate_context_t) (hb : binary_node_operator tag = some op)
    (hl : left.isNull = false) (hr : right.isNull = false) :
    generate_walk (.node tag token left right) (e, c) =
      (generate_walk left (e, c) >>= fun st =>
        generate_walk right st >>= fun st2 =>
          pure (code_write st2.1 op.code, { st2.2 with stack_ := st2.2.stack_ - 1 })) := by
  cases tag <;> simp only [binary_node_operator] at hb <;> try (cases hb; done)
  all_goals
    cases hb
    simp only [generate_walk, hl, hr, Bool.false_eq_true, if_false, binary_node_operator,
      bind, Except.bind, pure, Except.pure]

theorem code_word (pre code post : List Int) (i : Nat) (w : Int) (E : List Int)
    (hE : E = pre ++ code ++ post) (hw : code[i]? = some w) :
    E[pre.length + i]? = some w := by
  have hi : i < code.length := by
    by_contra hcon
    have : code[i]? = none := by rw [List.getElem?_eq_none_iff]; omega
    rw [this] at hw; cases hw
  rw [hE, List.append_assoc, getElem?_append_at, List.getElem?_append_left hi]
  exact hw

theorem run_push_int (h : host_t) (E : execute_environment_t) (s : execute_status_t)
    (pre post : List Int) (v : Int)
    (hE : E.execute_code_ = pre ++ [OPERATOR_PUSH_INT.code, v] ++ post)
    (hpc : s.pc_ = (pre.length : Int)) (hrun : s.is_end_ = false) :
    execute_steps h 1 E s =
      .ok (E, { s with stack_ := s.stack_ ++ [.int v], pc_ := s.pc_ + 2 }) := by
  have hw0 := code_word pre _ post 0 _ _ hE
    (show [OPERATOR_PUSH_INT.code, v][0]? = some OPERATOR_PUSH_INT.code from rfl)
  have hw1 := code_word pre _ post 1 _ _ hE
    (show [OPERATOR_PUSH_INT.code, v][1]? = some v from rfl)
  rw [execute_steps_single h E s (pre.length + 0) _ hrun (by simp only [hpc, Nat.add_zero]) hw0,
    step_push_int h E s pre.length _ hw0 hw1 hpc, hpc]

theorem run_push_double (h : host_t) (E : execute_environment_t) (s : execute_status_t)
    (pre post : List Int) (lo hi : Int) (v : Dbl) (hv : v.bits < 2 ^ 64)
    (hlo : lo = wrap32 (v.bits % 4294967296)) (hhi : hi = wrap32 (v.bits / 4294967296))
    (hE : E.execute_code_ = pre ++ [OPERATOR_PUSH_DOUBLE.code, lo, hi] ++ post)
    (hpc : s.pc_ = (pre.length : Int)) (hrun : s.is_end_ = false) :
    execute_steps h 1 E s =
      .ok (E, { s with stack_ := s.stack_ ++ [.double v], pc_ := s.pc_ + 3 }) := by
  have hw0 := code_word pre _ post 0 _ _ hE
    (show [OPERATOR_PUSH_DOUBLE.code, lo, hi][0]? = some OPERATOR_PUSH_DOUBLE.code from rfl)
  have hw1 := code_word pre _ post 1 _ _ hE
    (show [OPERATOR_PUSH_DOUBLE.code, lo, hi][1]? = some lo from rfl)
  have hw2 := code_word pre _ post 2 _ _ hE
    (show [OPERATOR_PUSH_DOUBLE.code, lo, hi][2]? = some hi from rfl)
  rw [hlo] at hw1
  rw [hhi] at hw2
  rw [execute_steps_single h E s (pre.length + 0) _ hrun (by simp only [hpc, Nat.add_zero]) hw0,
    step_push_double h E s pre.length v hv hw0 hw1 hw2 hpc, hpc]

theorem run_push_string (h : host_t) (E : execute_environment_t) (s : execute_status_t)
    (pre post : List Int) (k : Nat) (str : CStr)
    (hE : E.execute_code_ = pre ++ [OPERATOR_PUSH_STRING.code, (k : Int), 0] ++ post)
    (hstr : E.string_table_[k]? = some str)
    (hpc : s.pc_ = (pre.length : Int)) (hrun : s.is_end_ = false) :
    execute_steps h 1 E s =
      .ok (E, { s with stack_ := s.stack_ ++ [.string str], pc_ := s.pc_ + 3 }) := by
  have hw0 := code_word pre _ post 0 _ _ hE
    (show [OPERATOR_PUSH_STRING.code, (k : Int), 0][0]? = some OPERATOR_PUSH_STRING.code from rfl)
  have hw1 := code_word pre _ post 1 _ _ hE
    (show [OPERATOR_PUSH_STRING.code, (k : Int), 0][1]? = some (k : Int) from rfl)
  have hw2 := code_word pre _ post 2 _ _ hE
    (show [OPERATOR_PUSH_STRING.code, (k : Int), 0][2]? = some 0 from rfl)
  rw [execute_steps_single h E s (pre.length + 0) _ hrun (by simp only [hpc, Nat.add_zero]) hw0,
    step_push_string h E s pre.length k str hw0 hw1 hw2 hstr hpc, hpc]

theorem pure_expression_code (a : ast_node_t) (ht : expression_tree a = true)
    (hi : holds_identifier a = false) (e : execute_environment_t) (c : generate_context_t) :
    ∃ code strs n,
      generate_walk a (e, c) =
        .ok ({ e with execute_code_ := e.execute_code_ ++ code,
                      string_table_ := e.string_table_ ++ strs },
             { c with stack_ := c.stack_ + 1 }) ∧
      ∀ (h : host_t) (E : execute_environment_t) (s : execute_status_t) (post : List Int)
        (more : List CStr),
        E.execute_code_ = e.execute_code_ ++ code ++ post →
        E.string_table_ = e.string_table_ ++ strs ++ more →
        s.pc_ = (e.execute_code_.length : Int) → s.is_end_ = false →
        execute_steps h n E s =
          (pure_expression_value a).map
            (fun v => (E, { s with stack_ := s.stack_ ++ [v],
                                   pc_ := s.pc_ + (code.length : Int) })) := by
  induction a generalizing e c with
  | null => simp [expression_tree] at ht
  | node tag token left right ihl ihr =>
      cases hb : binary_node_operator tag with
      | some op =>
          obtain ⟨h1, h2, _, f, hf⟩ := binary_tag_facts tag op token left right hb
          rw [h1] at ht
          rw [h2] at hi
          simp only [Bool.and_eq_true, Bool.or_eq_false_iff] at ht hi
          obtain ⟨cl, sl, nl, hgl, hrl⟩ := ihl ht.1 hi.1 e c
          obtain ⟨cr, sr, nr, hgr, hrr⟩ := ihr ht.2 hi.2
            { e with execute_code_ := e.execute_code_ ++ cl,
                     string_table_ := e.string_table_ ++ sl }
            { c with stack_ := c.stack_ + 1 }
          refine ⟨cl ++ cr ++ [op.code], sl ++ sr, nl + (nr + 1), ?_, ?_⟩
          · rw [generate_binary_node tag op token left right e c hb
              (expression_tree_not_null left ht.1) (expression_tree_not_null right ht.2),
              hgl, except_ok_bind, hgr, except_ok_bind]
            simp only [code_write, pure, Except.pure, List.append_assoc, Except.ok.injEq,
              Prod.mk.injEq, true_and]
            congr 1
            omega
          · intro h E s post more hE hS hpc hrun
            rw [pure_value_binary _ op f token left right hb hf, execute_steps_add,
              hrl h E s (cr ++ [op.code] ++ post) (sr ++ more)
                (by rw [hE]; simp only [List.append_assoc])
                (by rw [hS]; simp only [List.append_assoc]) hpc hrun]
            cases hvl : pure_expression_value left with
            | error err => rfl
            | ok l =>
                simp only [Except.map, except_ok_bind]
                rw [execute_steps_add,
                  hrr h E { s with stack_ := s.stack_ ++ [l], pc_ := s.pc_ + (cl.length : Int) }
                    ([op.code] ++ post) more
                    (by rw [hE]; simp only [List.append_assoc])
                    (by rw [hS]; simp only [List.append_assoc])
                    (by simp [hpc]) hrun]
                cases hvr : pure_expression_value right with
                | error err => rfl
                | ok r =>
                    simp only [Except.map, except_ok_bind]
                    have hls := (pure_value_scalar left ht.1 hi.1).1 l hvl
                    have hrs := (pure_value_scalar right ht.2 hi.2).1 r hvr
                    have hw : E.execute_code_[e.execute_code_.length + (cl.length + cr.length)]? =
                        some op.code :=
                      code_word e.execute_code_ (cl ++ cr ++ [op.code]) post _ _ _ hE
                        (by
                          rw [show cl.length + cr.length = (cl ++ cr).length + 0 by simp,
                            getElem?_append_at]
                          rfl)
                    rw [execute_steps_single h E
                        { s with stack_ := s.stack_ ++ [l] ++ [r],
                                 pc_ := s.pc_ + (cl.length : Int) + (cr.length : Int) }
                        (e.execute_code_.length + (cl.length + cr.length))
                        op.code hrun (by simp [hpc]; ring) hw,
                      step_binary h E
                        { s with stack_ := s.stack_ ++ [l] ++ [r],
                                 pc_ := s.pc_ + (cl.length : Int) + (cr.length : Int) }
                        (e.execute_code_.length + (cl.length + cr.length)) op f
                        s.stack_ l r hf hw (by simp) hls hrs (by simp [hpc]; ring)]
                    cases hv : f [] l r with
                    | error err => rfl
                    | ok v =>
                        simp only [Except.map, Except.ok.injEq, Prod.mk.injEq, true_and]
                        simp [hpc]
                        ring
      | none =>
          cases tag <;> (try (cases hb; done)) <;>
            simp only [expression_tree, holds_identifier] at ht hi <;> try (cases ht)
          · obtain ⟨cl, sl, nl, hgl, hrl⟩ := ihl ht hi e c
            refine ⟨cl, sl, nl, ?_, ?_⟩
            · simp only [generate_walk, expression_tree_not_null left ht, Bool.false_eq_true,
                if_false]
              exact hgl
            · intro h E s post more hE hS hpc hrun
              simp only [pure_expression_value]
              exact hrl h E s post more hE hS hpc hrun
          · obtain ⟨cl, sl, nl, hgl, hrl⟩ := ihl ht hi e c
            refine ⟨cl ++ [OPERATOR_UNARY_MINUS.code], sl, nl + 1, ?_, ?_⟩
            · simp only [generate_walk, expression_tree_not_null left ht, Bool.false_eq_true,
                if_false, bind, Except.bind, pure, Except.pure, hgl, code_write,
                List.append_assoc]
            · intro h E s post more hE hS hpc hrun
              simp only [pure_expression_value]
              rw [execute_steps_add,
                hrl h E s ([OPERATOR_UNARY_MINUS.code] ++ post) more
                  (by rw [hE]; simp only [List.append_assoc]) hS hpc hrun]
              cases hvl : pure_expression_value left with
              | error err => rfl
              | ok l =>
                  simp only [Except.map, except_ok_bind]
                  have hls := (pure_value_scalar left ht hi).1 l hvl
                  have hw : E.execute_code_[e.execute_code_.length + cl.length]? =
                      some OPERATOR_UNARY_MINUS.code :=
                    code_word e.execute_code_ (cl ++ [OPERATOR_UNARY_MINUS.code]) post _ _ _ hE
                      (by
                        rw [show cl.length = cl.length + 0 by simp, getElem?_append_at]
                        rfl)
                  rw [execute_steps_single h E
                      { s with stack_ := s.stack_ ++ [l], pc_ := s.pc_ + (cl.length : Int) }
                      (e.execute_code_.length + cl.length) _ hrun (by simp [hpc]) hw,
                    step_unary_minus h E
                      { s with stack_ := s.stack_ ++ [l], pc_ := s.pc_ + (cl.length : Int) }
                      (e.execute_code_.length + cl.length) s.stack_ l hw rfl hls
                      (by simp [hpc])]
                  cases hv : value_unary_minus l with
                  | error err => rfl
                  | ok v =>
                      simp only [Except.map, except_ok_bind, Except.ok.injEq, Prod.mk.injEq,
                        true_and]
                      simp [hpc]
                      ring
          · cases token with
            | none => simp at ht
            | some t =>
                simp only [Bool.or_eq_true, beq_iff_eq] at ht
                rcases ht with (ht | ht) | ht
                · refine ⟨[OPERATOR_PUSH_INT.code, atoi t.content_], [], 1, ?_, ?_⟩
                  · simp only [generate_walk, ht, code_write, pure, Except.pure, bind,
                      Except.bind, List.append_assoc, List.singleton_append, List.append_nil]
                  · intro h E s post more hE hS hpc hrun
                    rw [run_push_int h E s e.execute_code_ post _ hE hpc hrun]
                    simp only [pure_expression_value, ht, pure, Except.pure, Except.map,
                      List.length_cons, List.length_nil]
                    rfl
                · refine ⟨[OPERATOR_PUSH_DOUBLE.code, wrap32 ((atof t.content_).bits % 4294967296),
                    wrap32 ((atof t.content_).bits / 4294967296)], [], 1, ?_, ?_⟩
                  · simp only [generate_walk, ht, code_write, code_write_double, pure,
                      Except.pure, bind, Except.bind, List.append_assoc, List.singleton_append,
                      List.append_nil]
                  · intro h E s post more hE hS hpc hrun
                    rw [run_push_double h E s e.execute_code_ post _ _ (atof t.content_)
                      (atof_bits t.content_) rfl rfl hE hpc hrun]
                    simp only [pure_expression_value, ht, pure, Except.pure, Except.map,
                      List.length_cons, List.length_nil]
                    rfl
                · refine ⟨[OPERATOR_PUSH_STRING.code, (e.string_table_.length : Int), 0],
                    [t.content_], 1, ?_, ?_⟩
                  · simp only [generate_walk, ht, code_write, code_write_string,
                      code_write_pointer, pure, Except.pure, bind, Except.bind,
                      List.append_assoc, List.singleton_append, List.append_nil]
                  · intro h E s post more hE hS hpc hrun
                    have hstr : E.string_table_[e.string_table_.length]? = some t.content_ := by
                      rw [hS, List.append_assoc,
                        List.getElem?_append_right (Nat.le_refl _), Nat.sub_self]
                      simp only [List.singleton_append, List.getElem?_cons_zero]
                    rw [run_push_string h E s e.execute_code_ post _ _ hE hstr hpc hrun]
                    simp only [pure_expression_value, ht, pure, Except.pure, Except.map,
                      List.length_cons, List.length_nil]
                    rfl
          · cases hi

set_option maxRecDepth 1000000 in
/-- C35: the immediate evaluator and the machine agree on pure expressions.  For a tree
`a` built only from literals, parentheses, unary minus and binary operators the code
generator succeeds from every state: it appends words `code` to the code and strings
`strs` to the string table and counts one more value on the stack, and there is a number
`n` of operators such that, for every machine whose code holds `code` at `pc` (after the
code written before, before any code `post` written later; its string table extends the
generator's), `n` passes through the loop of `execute_inner` end as `evaluate_ast_immediate
a` does: the evaluator yields the value `v` exactly when the machine stands behind `code`
with `v` as the single new value on top of its unchanged stack, in an unchanged
environment; the evaluator stops with an error exactly when the machine stops with that
same error; the evaluator never gives nil, and the machine never ends otherwise.  From
source text: `(1 + 2) * -3` is -9 for both, `1.5 + 2` is 3.5 for both, `"ab" + 1` is `ab1`
for both, and `1 / 0` raises the error of line 4811 in both. -/
theorem immediate_evaluator_agrees_with_machine (a : ast_node_t)
    (hp : pure_expression a = true) (e : execute_environment_t) (c : generate_context_t) :
    (∃ code strs n,
      generate_walk a (e, c) =
        .ok ({ e with execute_code_ := e.execute_code_ ++ code,
                      string_table_ := e.string_table_ ++ strs },
             { c with stack_ := c.stack_ + 1 }) ∧
      evaluate_ast_immediate a ≠ .ok none ∧
      ∀ (h : host_t) (E : execute_environment_t) (s : execute_status_t) (post : List Int)
        (more : List CStr),
        E.execute_code_ = e.execute_code_ ++ code ++ post →
        E.string_table_ = e.string_table_ ++ strs ++ more →
        s.pc_ = (e.execute_code_.length : Int) → s.is_end_ = false →
        (∀ v, evaluate_ast_immediate a = .ok (some v) ↔
          execute_steps h n E s =
            .ok (E, { s with stack_ := s.stack_ ++ [v],
                             pc_ := s.pc_ + (code.length : Int) })) ∧
        (∀ err, evaluate_ast_immediate a = .error err ↔ execute_steps h n E s = .error err) ∧
        (∀ m, execute_steps h n E s = .ok m →
          ∃ v, is_scalar v = true ∧
            m = (E, { s with stack_ := s.stack_ ++ [v],
                             pc_ := s.pc_ + (code.length : Int) }))) ∧
    ((expression_ast "(1 + 2) * -3").map
        (fun t => (pure_expression t, evaluate_ast_immediate t)) =
        .ok (true, .ok (some (.int (-9)))) ∧
      evaluated_expression example_host "(1 + 2) * -3" = .ok (.int (-9))) ∧
    ((expression_ast "1.5 + 2").map
        (fun t => (pure_expression t, evaluate_ast_immediate t)) =
        .ok (true, .ok (some (.double (atof "3.5".toList)))) ∧
      evaluated_expression example_host "1.5 + 2" = .ok (.double (atof "3.5".toList))) ∧
    ((expression_ast "\"ab\" + 1").map
        (fun t => (pure_expression t, evaluate_ast_immediate t)) =
        .ok (true, .ok (some (.string "ab1".toList))) ∧
      evaluated_expression example_host "\"ab\" + 1" = .ok (.string "ab1".toList)) ∧
    ((expression_ast "1 / 0").map
        (fun t => (pure_expression t, evaluate_ast_immediate t)) =
        .ok (true, .error (.raise 4811)) ∧
      evaluated_expression example_host "1 / 0" = .error (.raise 4811)) := by
  refine ⟨?_, ⟨by decide!, by decide!⟩, ⟨by decide!, by decide!⟩, ⟨by decide!, by decide!⟩,
    ⟨by decide!, by decide!⟩⟩
  simp only [pure_expression, Bool.and_eq_true, Bool.not_eq_true'] at hp
  obtain ⟨ht, hi⟩ := hp
  obtain ⟨code, strs, n, hg, hrun⟩ := pure_expression_code a ht hi e c
  have heq := evaluate_immediate_pure a ht hi
  have hsc := pure_value_scalar a ht hi
  refine ⟨code, strs, n, hg, ?_, ?_⟩
  · rw [heq]
    cases pure_expression_value a with
    | error err => exact fun h => (by cases h)
    | ok v => exact fun h => (by cases h)
  · intro h E s post more hE hS hpc hend
    rw [hrun h E s post more hE hS hpc hend, heq]
    cases hv : pure_expression_value a with
    | error err =>
        refine ⟨fun v => ⟨fun h => (by cases h), fun h => (by cases h)⟩,
          fun err1 => ⟨fun h => (by cases h; rfl), fun h => (by cases h; rfl)⟩,
          fun m h => (by cases h)⟩
    | ok v0 =>
        refine ⟨fun v => ⟨fun h => (by cases h; rfl), fun h => ?_⟩,
          fun err1 => ⟨fun h => (by cases h), fun h => (by cases h)⟩,
          fun m h => ⟨v0, hsc.1 v0 hv, (by cases h; rfl)⟩⟩
        simp only [Except.map, Except.ok.injEq, Prod.mk.injEq, true_and] at h
        have h1 := congrArg execute_status_t.stack_ h
        simp only [List.append_cancel_left_eq, List.cons.injEq, and_true] at h1
        rw [h1]
        rfl

set_option maxRecDepth 1000000 in
/-- C35 at the tree of `3 + -3`, whose code is written into the empty environment: the
evaluator gives 0, and the machine started at the head of that code with an empty stack
stands behind the six words with the single value 0. -/
theorem immediate_evaluator_agrees_with_machine_witness :
    pure_expression example_pure_node = true ∧
    evaluate_ast_immediate example_pure_node = .ok (some (.int 0)) ∧
    generate_walk example_pure_node (create_execute_environment, example_generate_context) =
      .ok (example_pure_environment, { example_generate_context with stack_ := 1 }) ∧
    ∃ n, execute_steps example_host n example_pure_environment (initialize_execute_status []) =
      .ok (example_pure_environment,
        { initialize_execute_status [] with stack_ := [.int 0], pc_ := 6 }) := by
  obtain ⟨code, strs, n, hg, _, hrun⟩ :=
    (immediate_evaluator_agrees_with_machine example_pure_node (by decide!)
      create_execute_environment example_generate_context).1
  have hgen : generate_walk example_pure_node
      (create_execute_environment, example_generate_context) =
      .ok (example_pure_environment, { example_generate_context with stack_ := 1 }) := by
    decide!
  have hval : evaluate_ast_immediate example_pure_node = .ok (some (.int 0)) := by decide!
  rw [hgen] at hg
  simp only [Except.ok.injEq, Prod.mk.injEq, example_pure_environment,
    create_execute_environment, List.nil_append, execute_environment_t.mk.injEq, true_and]
    at hg
  obtain ⟨⟨hcode, hstrs⟩, _⟩ := hg
  refine ⟨by decide!, hval, hgen, n, ?_⟩
  have := (hrun example_host example_pure_environment (initialize_execute_status []) [] []
    (by rw [← hcode]; rfl) (by rw [← hstrs]; rfl) rfl rfl).1 (.int 0)
  rw [← hcode] at this
  exact this.1 hval

theorem prepare_variable_ok_shape (v v1 : variable_t) (t : value_tag) (g l : Int)
    (hg : 0 < g) (hg2 : g ≤ INT_MAX) (hl : 0 < l) (hl2 : l ≤ INT_MAX)
    (h : prepare_variable v t g l = .ok v1) :
    variable_shape v1 ∧ int_fields v1 ∧ v1.type_ = t ∧ v1.granule_size_ = g ∧
      v1.length_ = l := by
  obtain ⟨h1, h2, h3⟩ := prepare_variable_zero_array v g l hg hg2 hl hl2
  have hgl : 0 < g * l := Int.mul_pos hg hl
  cases t
  · simp [prepare_variable, bind, Except.bind] at h
  · rw [h1] at h
    cases h
    refine ⟨⟨Or.inl rfl, by simp only [zero_array]; omega, ?_, ?_⟩,
      ⟨hl2, by simp only [zero_array]; omega, hg2⟩, rfl, rfl, rfl⟩
    · simp only [zero_array, element_size, List.length_replicate]
      omega
    · simp only [zero_array, List.length_replicate]
      rw [Int.toNat_of_nonneg (by omega)]
  · rw [h2] at h
    cases h
    refine ⟨⟨Or.inr (Or.inl rfl), by simp only [zero_array]; omega, ?_, ?_⟩,
      ⟨hl2, by simp only [zero_array]; omega, hg2⟩, rfl, rfl, rfl⟩
    · simp only [zero_array, element_size, List.length_replicate]
      omega
    · simp only [zero_array, List.length_replicate]
      rw [Int.toNat_of_nonneg (by omega)]
  · rw [h3] at h
    cases h
    refine ⟨⟨Or.inr (Or.inr rfl), by simp only [zero_array]; omega, ?_, ?_⟩,
      ⟨hl2, by simp only [zero_array]; omega, hg2⟩, rfl, rfl, rfl⟩
    · simp only [zero_array, element_size, List.length_replicate]
      rw [Int.toNat_of_nonneg (by omega), Int.mul_comm]
    · simp only [zero_array, List.length_replicate]
      rw [Int.toNat_of_nonneg (by omega)]
  · simp [prepare_variable, bind, Except.bind] at h

theorem store_keeps_shape (v0 v1 : variable_t) (p : Int) (bs d : List Nat)
    (hw : mem_write v0.data_ p bs = some d) (heq : v1 = { v0 with data_ := d })
    (hs : variable_shape v0) (hf : int_fields v0) :
    variable_shape v1 ∧ int_fields v1 ∧ v1.type_ = v0.type_ ∧ v1.length_ = v0.length_ ∧
      v1.granule_size_ = v0.granule_size_ := by
  subst heq
  have hlen : d.length = v0.data_.length := by
    unfold mem_write at hw
    split at hw
    · rename_i hc
      simp only [Option.some.injEq] at hw
      subst hw
      simp only [List.length_append, List.length_take, List.length_drop]
      omega
    · cases hw
  refine ⟨⟨hs.1, hs.2.1, ?_, ?_⟩, hf, rfl, rfl, rfl⟩
  · show (d.length : Int) = v0.length_ * element_size v0
    rw [hlen]
    exact hs.2.2.1
  · show v0.data_size_ = wrap32 (d.length : Int)
    rw [hlen]
    exact hs.2.2.2

theorem set_chain_shape (var va vb var1 : variable_t) (t : value_tag) (gs i p : Int)
    (bs d : List Nat) (hs : variable_shape var) (hf : int_fields var)
    (hA : var = va ∨ prepare_variable var t 64 16 = .ok va)
    (hi1 : ¬ i < 0) (hi2 : ¬ va.length_ ≤ i)
    (hB : va = vb ∨
      (decide (va.granule_size_ < gs) = true ∧ prepare_variable va t gs va.length_ = .ok vb))
    (hgs : gs ≤ INT_MAX)
    (hw : mem_write vb.data_ p bs = some d) (heq : var1 = { vb with data_ := d }) :
    variable_shape var1 ∧ int_fields var1 := by
  have hA1 : variable_shape va ∧ int_fields va := by
    rcases hA with hA | hA
    · subst hA
      exact ⟨hs, hf⟩
    · have hp := prepare_variable_ok_shape _ _ _ 64 16 (by omega) (by unfold INT_MAX; omega)
        (by omega) (by unfold INT_MAX; omega) hA
      exact ⟨hp.1, hp.2.1⟩
  have hB1 : variable_shape vb ∧ int_fields vb := by
    rcases hB with hB | ⟨hd, hB⟩
    · subst hB
      exact hA1
    · simp only [decide_eq_true_eq] at hd
      have h0 := hA1.2.2.1
      have hp := prepare_variable_ok_shape _ _ _ _ _ (by omega) hgs (by omega) hA1.2.1 hB
      exact ⟨hp.1, hp.2.1⟩
  have := store_keeps_shape _ _ _ _ _ hw heq hB1.1 hB1.2
  exact ⟨this.1, this.2.1⟩

theorem variable_set_keeps_shape (var var1 : variable_t) (x : value_t) (i : Int)
    (hs : variable_shape var) (hf : int_fields var)
    (hx : ∀ str, x = .string str → (str.length : Int) < INT_MAX)
    (h : variable_set var x i = .ok var1) :
    variable_shape var1 ∧ int_fields var1 := by
  have hz : (0 : Int) ≤ INT_MAX := by unfold INT_MAX; omega
  have hl : ∀ str, x = .string str → wrap32 (str.length : Int) + 1 ≤ INT_MAX := by
    intro str hstr
    have := hx str hstr
    simp only [INT_MAX] at this ⊢
    rw [wrap32_of_range _ (by simp only [INT_MIN]; omega) (by simp only [INT_MAX]; omega)]
    omega
  clear hx
  rcases x with _ | n | y | s | ⟨a, b⟩
  · simp only [variable_set, bind_ok_iff, ite_ok_iff, pure_ok_iff, throw_ok_iff,
      error_ok_iff, store_bytes_ok_iff, false_and, and_false, exists_false, false_or,
      or_false] at h
  · simp only [variable_set, bind_ok_iff, ite_ok_iff, pure_ok_iff, throw_ok_iff,
      error_ok_iff, store_bytes_ok_iff, false_and, and_false, exists_false, false_or,
      or_false] at h
    rcases h with ⟨_, _, va, hva, hi1, hi2, ⟨hd, vb, hvb, _, p, _, d, hw, heq⟩ |
        ⟨hd, vb, hvb, _, p, _, d, hw, heq⟩⟩ |
      ⟨_, va, hva, hi1, hi2, ⟨hd, vb, hvb, _, p, _, d, hw, heq⟩ |
        ⟨hd, vb, hvb, _, p, _, d, hw, heq⟩⟩
    · exact set_chain_shape var va vb var1 VALUE_INT 0 i p (int_bytes n) d hs hf (Or.inr hva) hi1
        hi2 (Or.inr ⟨hd, hvb⟩) hz hw heq
    · exact set_chain_shape var va vb var1 VALUE_INT 0 i p (int_bytes n) d hs hf (Or.inr hva) hi1
        hi2 (Or.inl hvb) hz hw heq
    · exact set_chain_shape var va vb var1 VALUE_INT 0 i p (int_bytes n) d hs hf (Or.inl hva) hi1
        hi2 (Or.inr ⟨hd, hvb⟩) hz hw heq
    · exact set_chain_shape var va vb var1 VALUE_INT 0 i p (int_bytes n) d hs hf (Or.inl hva) hi1
        hi2 (Or.inl hvb) hz hw heq
  · simp only [variable_set, bind_ok_iff, ite_ok_iff, pure_ok_iff, throw_ok_iff,
      error_ok_iff, store_bytes_ok_iff, false_and, and_false, exists_false, false_or,
      or_false] at h
    rcases h with ⟨_, _, va, hva, hi1, hi2, ⟨hd, vb, hvb, _, p, _, d, hw, heq⟩ |
        ⟨hd, vb, hvb, _, p, _, d, hw, heq⟩⟩ |
      ⟨_, va, hva, hi1, hi2, ⟨hd, vb, hvb, _, p, _, d, hw, heq⟩ |
        ⟨hd, vb, hvb, _, p, _, d, hw, heq⟩⟩
    · exact set_chain_shape var va vb var1 VALUE_DOUBLE 0 i p (double_bytes y) d hs hf (Or.inr hva) hi1
        hi2 (Or.inr ⟨hd, hvb⟩) hz hw heq
    · exact set_chain_shape var va vb var1 VALUE_DOUBLE 0 i p (double_bytes y) d hs hf (Or.inr hva) hi1
        hi2 (Or.inl hvb) hz hw heq
    · exact set_chain_shape var va vb var1 VALUE_DOUBLE 0 i p (double_bytes y) d hs hf (Or.inl hva) hi1
        hi2 (Or.inr ⟨hd, hvb⟩) hz hw heq
    · exact set_chain_shape var va vb var1 VALUE_DOUBLE 0 i p (double_bytes y) d hs hf (Or.inl hva) hi1
        hi2 (Or.inl hvb) hz hw heq
  · have hl1 := hl s rfl
    clear hl
    simp only [variable_set, bind_ok_iff, ite_ok_iff, pure_ok_iff, throw_ok_iff,
      error_ok_iff, store_bytes_ok_iff, false_and, and_false, exists_false, false_or,
      or_false] at h
    rcases h with ⟨_, _, va, hva, hi1, hi2, ⟨hd, vb, hvb, _, p, _, d, hw, heq⟩ |
        ⟨hd, vb, hvb, _, p, _, d, hw, heq⟩⟩ |
      ⟨_, va, hva, hi1, hi2, ⟨hd, vb, hvb, _, p, _, d, hw, heq⟩ |
        ⟨hd, vb, hvb, _, p, _, d, hw, heq⟩⟩
    · exact set_chain_shape var va vb var1 VALUE_STRING (wrap32 (s.length : Int) + 1) i p (cstr_bytes s) d hs hf (Or.inr hva) hi1
        hi2 (Or.inr ⟨hd, hvb⟩) hl1 hw heq
    · exact set_chain_shape var va vb var1 VALUE_STRING (wrap32 (s.length : Int) + 1) i p (cstr_bytes s) d hs hf (Or.inr hva) hi1
        hi2 (Or.inl hvb) hl1 hw heq
    · exact set_chain_shape var va vb var1 VALUE_STRING (wrap32 (s.length : Int) + 1) i p (cstr_bytes s) d hs hf (Or.inl hva) hi1
        hi2 (Or.inr ⟨hd, hvb⟩) hl1 hw heq
    · exact set_chain_shape var va vb var1 VALUE_STRING (wrap32 (s.length : Int) + 1) i p (cstr_bytes s) d hs hf (Or.inl hva) hi1
        hi2 (Or.inl hvb) hl1 hw heq
  · simp only [variable_set, bind_ok_iff, ite_ok_iff, pure_ok_iff, throw_ok_iff,
      error_ok_iff, store_bytes_ok_iff, false_and, and_false, exists_false, false_or,
      or_false] at h

theorem variable_add_writes (var var1 : variable_t) (x : value_t) (i : Int)
    (h : variable_add var x i = .ok var1) :
    ∃ (p : Int) (bs d : List Nat), mem_write var.data_ p bs = some d ∧
      var1 = { var with data_ := d } := by
  rcases x with _ | n | y | s | ⟨a, b⟩ <;>
    simp only [variable_add, bind_ok_iff, ite_ok_iff, pure_ok_iff, throw_ok_iff,
      error_ok_iff, store_bytes_ok_iff, false_and, and_false, exists_false, false_or,
      or_false] at h
  · obtain ⟨_, p, _, _, _, d, hw, heq⟩ := h
    exact ⟨_, _, d, hw, heq⟩
  · obtain ⟨_, p, _, _, _, d, hw, heq⟩ := h
    exact ⟨_, _, d, hw, heq⟩
  · obtain ⟨_, p, _, _, _, _, d, hw, heq⟩ := h
    exact ⟨_, _, d, hw, heq⟩

theorem variable_arith_writes (l1 l2 l3 l4 : Nat) (fi : Int → Int → Except Err Int)
    (fd : Dbl → Dbl → Except Err Dbl) (var var1 : variable_t) (x : value_t) (i : Int)
    (h : variable_arith l1 l2 l3 l4 fi fd var x i = .ok var1) :
    ∃ (p : Int) (bs d : List Nat), mem_write var.data_ p bs = some d ∧
      var1 = { var with data_ := d } := by
  rcases x with _ | n | y | s | ⟨a, b⟩ <;>
    simp only [variable_arith, bind_ok_iff, ite_ok_iff, pure_ok_iff, throw_ok_iff,
      error_ok_iff, store_bytes_ok_iff, false_and, and_false, exists_false, false_or,
      or_false] at h
  · obtain ⟨_, p, _, _, _, _, _, d, hw, heq⟩ := h
    exact ⟨_, _, d, hw, heq⟩
  · obtain ⟨_, p, _, _, _, _, _, d, hw, heq⟩ := h
    exact ⟨_, _, d, hw, heq⟩

theorem assign_operator_writes (op : code_oprator_tag)
    (f : variable_t → value_t → Int → Except Err variable_t)
    (hop : assign_operator op = some f) (var var1 : variable_t) (x : value_t) (i : Int)
    (h : f var x i = .ok var1) :
    ∃ (p : Int) (bs d : List Nat), mem_write var.data_ p bs = some d ∧
      var1 = { var with data_ := d } := by
  cases op <;> simp only [assign_operator] at hop <;>
    first
    | (cases hop; exact variable_add_writes _ _ _ _ h)
    | (cases hop; exact variable_arith_writes _ _ _ _ _ _ _ _ _ _ h)
    | cases hop

theorem stack_peek_mem (st : List value_t) (i : Int) (v : value_t)
    (h : stack_peek st i = .ok v) : v ∈ st := by
  unfold stack_peek at h
  simp only [] at h
  split_ifs at h
  all_goals
    first
    | cases h
    | (split at h
       · rename_i hv
         cases h
         exact List.getElem?_mem hv
       · cases h)

theorem command_dim_prepares (e e1 : execute_environment_t) (s s1 : execute_status_t)
    (a : Int) (h : command_dim e s a = .ok (e1, s1)) :
    ∃ (k : Nat) (var0 x : variable_t) (v : value_t) (num : Int),
      v ∈ s.stack_ ∧ value_calc_int e.variable_table_ v = .ok num ∧ 0 < num ∧
      prepare_variable var0 VALUE_INT 64 num = .ok x ∧
      e1.variable_table_ = e.variable_table_.set k x := by
  simp only [command_dim, bind_ok_iff, ite_ok_iff, pure_ok_iff, throw_ok_iff,
      error_ok_iff, false_and, and_false, exists_false, false_or,
      or_false] at h
  obtain ⟨_, _, _, _, _, _, v, hpeek, hm⟩ := h
  rcases v with _ | _ | _ | _ | ⟨k, idx⟩ <;>
    simp only [bind_ok_iff, ite_ok_iff, pure_ok_iff, throw_ok_iff, error_ok_iff, false_and,
      and_false, exists_false, false_or, or_false, Prod.mk.injEq] at hm
  obtain ⟨_, _, _, n, hn, num, hnum, hpos, _, _, x0, _, x, hx, st, _, he, _⟩ := hm
  refine ⟨k, x0, x, n, num, stack_peek_mem _ _ _ hn, hnum, by omega, hx, ?_⟩
  rw [← he]

theorem command_ddim_prepares (e e1 : execute_environment_t) (s s1 : execute_status_t)
    (a : Int) (h : command_ddim e s a = .ok (e1, s1)) :
    ∃ (k : Nat) (var0 x : variable_t) (v : value_t) (num : Int),
      v ∈ s.stack_ ∧ value_calc_int e.variable_table_ v = .ok num ∧ 0 < num ∧
      prepare_variable var0 VALUE_DOUBLE 64 num = .ok x ∧
      e1.variable_table_ = e.variable_table_.set k x := by
  simp only [command_ddim, bind_ok_iff, ite_ok_iff, pure_ok_iff, throw_ok_iff,
      error_ok_iff, false_and, and_false, exists_false, false_or,
      or_false] at h
  obtain ⟨_, _, _, _, _, _, v, hpeek, hm⟩ := h
  rcases v with _ | _ | _ | _ | ⟨k, idx⟩ <;>
    simp only [bind_ok_iff, ite_ok_iff, pure_ok_iff, throw_ok_iff, error_ok_iff, false_and,
      and_false, exists_false, false_or, or_false, Prod.mk.injEq] at hm
  obtain ⟨_, _, _, n, hn, num, hnum, hpos, _, _, x0, _, x, hx, st, _, he, _⟩ := hm
  refine ⟨k, x0, x, n, num, stack_peek_mem _ _ _ hn, hnum, by omega, hx, ?_⟩
  rw [← he]

theorem command_sdim_prepares (e e1 : execute_environment_t) (s s1 : execute_status_t)
    (a : Int) (h : command_sdim e s a = .ok (e1, s1)) :
    ∃ (k : Nat) (var0 x : variable_t) (v : value_t) (g num : Int),
      v ∈ s.stack_ ∧ value_calc_int e.variable_table_ v = .ok g ∧ 0 < g ∧ 0 < num ∧
      (num = 1 ∨ ∃ w ∈ s.stack_, value_calc_int e.variable_table_ w = .ok num) ∧
      prepare_variable var0 VALUE_STRING g num = .ok x ∧
      e1.variable_table_ = e.variable_table_.set k x := by
  simp only [command_sdim, bind_ok_iff, ite_ok_iff, pure_ok_iff, throw_ok_iff,
      error_ok_iff, false_and, and_false, exists_false, false_or,
      or_false] at h
  obtain ⟨_, _, _, _, _, _, v, hpeek, hm⟩ := h
  rcases v with _ | _ | _ | _ | ⟨k, idx⟩ <;>
    simp only [bind_ok_iff, ite_ok_iff, pure_ok_iff, throw_ok_iff, error_ok_iff, false_and,
      and_false, exists_false, false_or, or_false, Prod.mk.injEq] at hm
  obtain ⟨_, _, _, gv, hgv, g, hg, hm⟩ := hm
  rcases hm with ⟨_, nv, hnv, num, hnum, hg0, _, _, hn0, _, _, x0, _, x, hx, st, _, he, _⟩ |
    ⟨_, num, hone, hg0, _, _, hn0, _, _, x0, _, x, hx, st, _, he, _⟩
  · refine ⟨k, x0, x, gv, g, num, stack_peek_mem _ _ _ hgv, hg, by omega, by omega,
      Or.inr ⟨nv, stack_peek_mem _ _ _ hnv, hnum⟩, hx, ?_⟩
    rw [← he]
  · refine ⟨k, x0, x, gv, g, num, stack_peek_mem _ _ _ hgv, hg, by omega, by omega,
      Or.inl hone.symm, hx, ?_⟩
    rw [← he]

theorem table_shape_set (vars : List variable_t) (k : Nat) (x : variable_t)
    (h : table_shape vars) (hx : variable_shape x ∧ int_fields x) :
    table_shape (vars.set k x) := by
  intro v hv
  rcases List.mem_or_eq_of_mem_set hv with hv | hv
  · exact h v hv
  · subst hv
    exact hx

theorem dim_commands_keep_shape (e e1 : execute_environment_t) (s s1 : execute_status_t)
    (a : Int)
    (h : command_dim e s a = .ok (e1, s1) ∨ command_ddim e s a = .ok (e1, s1) ∨
      command_sdim e s a = .ok (e1, s1))
    (ht : table_shape e.variable_table_)
    (hr : ∀ v ∈ s.stack_, ∀ n, value_calc_int e.variable_table_ v = .ok n → n ≤ INT_MAX) :
    table_shape e1.variable_table_ := by
  have h64 : (64 : Int) ≤ INT_MAX := by unfold INT_MAX; omega
  have h1 : (1 : Int) ≤ INT_MAX := by unfold INT_MAX; omega
  rcases h with h | h | h
  · obtain ⟨k, var0, x, v, num, hv, hc, hpos, hp, he⟩ := command_dim_prepares _ _ _ _ _ h
    rw [he]
    have := prepare_variable_ok_shape _ _ _ _ _ (by omega) h64 hpos (hr v hv num hc) hp
    exact table_shape_set _ _ _ ht ⟨this.1, this.2.1⟩
  · obtain ⟨k, var0, x, v, num, hv, hc, hpos, hp, he⟩ := command_ddim_prepares _ _ _ _ _ h
    rw [he]
    have := prepare_variable_ok_shape _ _ _ _ _ (by omega) h64 hpos (hr v hv num hc) hp
    exact table_shape_set _ _ _ ht ⟨this.1, this.2.1⟩
  · obtain ⟨k, var0, x, v, g, num, hv, hc, hg, hpos, hnum, hp, he⟩ :=
      command_sdim_prepares _ _ _ _ _ h
    rw [he]
    have hn : num ≤ INT_MAX := by
      rcases hnum with hnum | ⟨w, hw, hwc⟩
      · rw [hnum]; exact h1
      · exact hr w hw num hwc
    have := prepare_variable_ok_shape _ _ _ _ _ hg (hr v hv g hc) hpos hn hp
    exact table_shape_set _ _ _ ht ⟨this.1, this.2.1⟩

theorem assignment_updates (h : host_t) (e e1 : execute_environment_t)
    (s s1 : execute_status_t) (op : code_oprator_tag) (hop : op ∈ assignment_operators)
    (hrun : execute_operator h e s op = .ok (e1, s1)) :
    ∃ (k : Nat) (idx : Int) (top v : value_t) (x0 x : variable_t),
      top ∈ s.stack_ ∧ value_isolate e.variable_table_ top = .ok v ∧
      x0 ∈ e.variable_table_ ∧
      ((assign_operator op = none ∧ variable_set x0 v idx = .ok x) ∨
        ∃ f t, assign_operator op = some f ∧ f x0 t idx = .ok x) ∧
      e1.variable_table_ = e.variable_table_.set k x := by
  rw [execute_operator_assign h e s op hop] at hrun
  simp only [bind_ok_iff, ite_ok_iff, pure_ok_iff, throw_ok_iff,
      error_ok_iff, false_and, and_false, exists_false, false_or,
      or_false] at hrun
  obtain ⟨_, _, _, var, hvar, hm⟩ := hrun
  rcases var with _ | _ | _ | _ | ⟨k, idx⟩ <;>
    simp only [bind_ok_iff, ite_ok_iff, pure_ok_iff, throw_ok_iff, error_ok_iff, false_and,
      and_false, exists_false, false_or, or_false, Prod.mk.injEq] at hm
  obtain ⟨top, htop, v, hv, x0, hx0, hm⟩ := hm
  have hmem : x0 ∈ e.variable_table_ := by
    unfold deref_variable at hx0
    cases hg : e.variable_table_[k]? with
    | none => rw [hg] at hx0; cases hx0
    | some y =>
        rw [hg] at hx0
        simp only [in_bounds, Except.ok.injEq] at hx0
        subst hx0
        exact List.getElem?_mem hg
  cases hao : assign_operator op with
  | none =>
      rw [hao] at hm
      simp only [bind_ok_iff, pure_ok_iff, Prod.mk.injEq] at hm
      obtain ⟨x, hx, st, _, he, _⟩ := hm
      exact ⟨k, idx, top, v, x0, x, stack_peek_mem _ _ _ htop, hv, hmem, Or.inl ⟨rfl, hx⟩,
        by rw [← he]⟩
  | some f =>
      rw [hao] at hm
      simp only [bind_ok_iff, pure_ok_iff, Prod.mk.injEq] at hm
      obtain ⟨t, _, x, hx, st, _, he, _⟩ := hm
      exact ⟨k, idx, top, v, x0, x, stack_peek_mem _ _ _ htop, hv, hmem,
        Or.inr ⟨f, t, rfl, hx⟩, by rw [← he]⟩

theorem fresh_variable_shape (name : CStr) :
    variable_shape (fresh_variable name) ∧ int_fields (fresh_variable name) := by
  have hlen : ((fresh_variable name).data_.length : Int) = 64 := by
    simp only [fresh_variable, List.length_replicate]
    rfl
  refine ⟨⟨Or.inl rfl, ?_, ?_, ?_⟩, ?_, ?_, ?_⟩
  · show (1 : Int) ≤ 16
    omega
  · rw [hlen]
    show (64 : Int) = 16 * 4
    omega
  · rw [hlen]
    show (64 : Int) = wrap32 64
    unfold wrap32
    omega
  · show (16 : Int) ≤ INT_MAX
    unfold INT_MAX
    omega
  · show (0 : Int) ≤ 64
    omega
  · show (64 : Int) ≤ INT_MAX
    unfold INT_MAX
    omega

/-- C34: the shape of variables.  A variable has the shape when its type is INT, DOUBLE
or STRING, its length is at least 1, its storage holds exactly `length_` elements of 4
(INT), 8 (DOUBLE) or `granule_size_` (STRING) bytes, and `data_size_` is that size as an
`int`.  `create_variable` returns an INT variable of length 16 with the shape.  In a
machine whose variables all have the shape (with `length_` and `granule_size_` values of
an `int`, and the `int` and string values the stack yields within the range of `int`),
every `dim`, `ddim`, `sdim` and every assignment operator (`=`, `+=`, `-=`, `*=`, `/=`,
`\=`, `|=`, `&=`, `^=`) that raises no error leaves all variables with the shape.  The same
holds for the functions behind them: `variable_set` on a variable with the shape returns
one with the shape, and the functions of the compound assignments keep type, length,
granule and storage size. -/
theorem variables_keep_their_shape (h : host_t) (e e1 : execute_environment_t)
    (s s1 : execute_status_t)
    (ht : table_shape e.variable_table_)
    (hints : ∀ v ∈ s.stack_, ∀ n, value_calc_int e.variable_table_ v = .ok n → n ≤ INT_MAX)
    (hstrs : ∀ v ∈ s.stack_, ∀ str,
      value_isolate e.variable_table_ v = .ok (.string str) → (str.length : Int) < INT_MAX) :
    (∀ name, create_variable name = .ok (fresh_variable name) ∧
      (fresh_variable name).type_ = VALUE_INT ∧ (fresh_variable name).length_ = 16 ∧
      variable_shape (fresh_variable name) ∧ int_fields (fresh_variable name)) ∧
    (∀ a, (command_dim e s a = .ok (e1, s1) ∨ command_ddim e s a = .ok (e1, s1) ∨
        command_sdim e s a = .ok (e1, s1)) → table_shape e1.variable_table_) ∧
    (∀ op ∈ assignment_operators, execute_operator h e s op = .ok (e1, s1) →
      table_shape e1.variable_table_) ∧
    (∀ (var var1 : variable_t) (x : value_t) (i : Int),
      variable_shape var → int_fields var →
      (∀ str, x = .string str → (str.length : Int) < INT_MAX) →
      variable_set var x i = .ok var1 → variable_shape var1 ∧ int_fields var1) ∧
    (∀ (op : code_oprator_tag) (f : variable_t → value_t → Int → Except Err variable_t)
      (var var1 : variable_t) (x : value_t) (i : Int),
      assign_operator op = some f → variable_shape var → int_fields var →
      f var x i = .ok var1 →
      variable_shape var1 ∧ int_fields var1 ∧ var1.type_ = var.type_ ∧
        var1.length_ = var.length_ ∧ var1.granule_size_ = var.granule_size_ ∧
        var1.data_.length = var.data_.length) := by
  have hcomp : ∀ (op : code_oprator_tag)
      (f : variable_t → value_t → Int → Except Err variable_t)
      (var var1 : variable_t) (x : value_t) (i : Int),
      assign_operator op = some f → variable_shape var → int_fields var →
      f var x i = .ok var1 →
      variable_shape var1 ∧ int_fields var1 ∧ var1.type_ = var.type_ ∧
        var1.length_ = var.length_ ∧ var1.granule_size_ = var.granule_size_ ∧
        var1.data_.length = var.data_.length := by
    intro op f var var1 x i hop hs hf hrun
    obtain ⟨p, bs, d, hw, heq⟩ := assign_operator_writes op f hop var var1 x i hrun
    have hk := store_keeps_shape _ _ _ _ _ hw heq hs hf
    refine ⟨hk.1, hk.2.1, hk.2.2.1, hk.2.2.2.1, hk.2.2.2.2, ?_⟩
    have h1 := hk.1.2.2.1
    have h2 := hs.2.2.1
    have h3 : element_size var1 = element_size var := by
      simp only [element_size, hk.2.2.1, hk.2.2.2.2]
    rw [h3, hk.2.2.2.1, ← h2] at h1
    exact_mod_cast h1
  refine ⟨fun name => ⟨create_variable_fresh name, rfl, rfl, fresh_variable_shape name⟩,
    fun a ha => dim_commands_keep_shape e e1 s s1 a ha ht hints, ?_,
    fun var var1 x i hs hf hx hrun => variable_set_keeps_shape var var1 x i hs hf hx hrun,
    hcomp⟩
  intro op hop hrun
  obtain ⟨k, idx, top, v, x0, x, htop, hv, hx0, hx, he⟩ :=
    assignment_updates h e e1 s s1 op hop hrun
  rw [he]
  apply table_shape_set _ _ _ ht
  rcases hx with ⟨_, hx⟩ | ⟨f, t, hf, hx⟩
  · refine variable_set_keeps_shape x0 x v idx (ht x0 hx0).1 (ht x0 hx0).2 ?_ hx
    intro str hstr
    subst hstr
    exact hstrs top htop str hv
  · have := hcomp op f x0 x t idx hf (ht x0 hx0).1 (ht x0 hx0).2 hx
    exact ⟨this.1, this.2.1⟩

/-- C34 at `dim v, 3` for a fresh variable `v`: the variable left has the shape. -/
theorem variables_keep_their_shape_witness :
    table_shape [zero_array (fresh_variable ['v']) VALUE_INT 64 3 (4 * 3)] :=
  (variables_keep_their_shape example_host example_poke_env
    { example_poke_env with
      variable_table_ := [zero_array (fresh_variable ['v']) VALUE_INT 64 3 (4 * 3)] }
    { example_poke_status with stack_ := [] ++ [.variable 0 0, .int 3] }
    { example_poke_status with stack_ := [] }
    (fun v hv => by
      simp only [example_poke_env, List.mem_singleton] at hv
      subst hv
      exact fresh_variable_shape _)
    (fun v hv n hn => by
      simp only [List.nil_append, List.mem_cons, List.mem_singleton, List.not_mem_nil,
        or_false] at hv
      rcases hv with rfl | rfl
      · have h0 : value_calc_int example_poke_env.variable_table_ (.variable 0 0) = .ok 0 := by
          decide
        rw [h0] at hn
        cases hn
        decide
      · cases hn
        decide)
    (fun v hv str hstr => by
      simp only [List.nil_append, List.mem_cons, List.mem_singleton, List.not_mem_nil,
        or_false] at hv
      rcases hv with rfl | rfl
      · have h0 : value_isolate example_poke_env.variable_table_ (.variable 0 0) =
            .ok (.int 0) := by decide
        rw [h0] at hstr
        cases hstr
      · cases hstr)).2.1 2 (Or.inl (by decide))

end neteruhsp
